import Mathlib

/-!
# X.509 certificate chain verification (`crypto/x509_crt.c`)

A shallow embedding of the name matcher, the parent-suitability test, the CRL
checker and the chain verifier of `x509_crt.c`, followed by theorems about them.

Conventions of the embedding:

* a byte (`uint8_t`) is a `Fin 256`; a buffer `(p, len)` is the list of its `len`
  bytes, so that `len` is the length of the list;
* a NUL-terminated C string is the list of its bytes before the terminator, so
  that `strlen` is the length of the list;
* a singly linked list whose head node is embedded in its owner (`x509_name`,
  `x509_sequence`, the CRL entries) is the head node plus the list of the
  nodes reached through `next`; a pointer to a certificate inside a chain is the
  certificate together with the list of the certificates after it, and the
  null pointer is the empty list;
* `int` values are `Int`; bit masks are `Nat` (the 32-bit pattern of the `int`);
* the digest, public-key and clock primitives, which live in other modules, are
  the fields of `Env`;
* the callback `f_vrfy` is a function on the user context `p_vrfy`; every
  invocation is also recorded, in order, in the `calls` of the result.
-/

namespace X509

/-! ## Data model -/

abbrev uint8_t := Fin 256

/-- The type `x509_buf` (`asn1_buf`): an ASN.1 tag and the bytes `p[0..len)`. -/
structure x509_buf where
  tag : Int
  p : List uint8_t
deriving DecidableEq, Repr

/-- The field `len` of an `x509_buf`. -/
def x509_buf.len (b : x509_buf) : Nat := b.p.length

/-- The type `x509_time`: a calendar instant. -/
structure x509_time where
  year : Int
  mon : Int
  day : Int
  hour : Int
  min : Int
  sec : Int
deriving DecidableEq, Repr

/-- One node of an `x509_name` list: an attribute OID and its value. -/
structure x509_name_node where
  oid : x509_buf
  val : x509_buf
deriving DecidableEq, Repr

/-- The type `x509_name` as embedded in a certificate: the head node and the
nodes linked after it. -/
structure x509_name where
  oid : x509_buf
  val : x509_buf
  next : List x509_name_node
deriving DecidableEq, Repr

/-- The nodes visited by `for (name = &crt->subject; name != NULL; name = name->next)`. -/
def x509_name.nodes (n : x509_name) : List x509_name_node := ⟨n.oid, n.val⟩ :: n.next

/-- The type `x509_sequence` as embedded in a certificate: the head buffer and the
buffers linked after it. -/
structure x509_sequence where
  buf : x509_buf
  next : List x509_buf
deriving DecidableEq, Repr

/-- The buffers visited by `for (cur = &seq; cur != NULL; cur = cur->next)`. -/
def x509_sequence.nodes (s : x509_sequence) : List x509_buf := s.buf :: s.next

/-- The parsed public key `pk_context`, which the verifier only hands to the
public-key module. -/
structure pk_context where
  key : List uint8_t
deriving DecidableEq, Repr

/-- The type `x509_crt` without its `next` link: a chain is a list of these. -/
structure x509_crt where
  raw : x509_buf
  tbs : x509_buf
  version : Int
  serial : x509_buf
  sig_oid1 : x509_buf
  issuer_raw : x509_buf
  subject_raw : x509_buf
  issuer : x509_name
  subject : x509_name
  valid_from : x509_time
  valid_to : x509_time
  pk : pk_context
  issuer_id : x509_buf
  subject_id : x509_buf
  v3_ext : x509_buf
  subject_alt_names : x509_sequence
  ext_types : Nat
  ca_istrue : Int
  max_pathlen : Int
  key_usage : Nat
  ext_key_usage : x509_sequence
  ns_cert_type : Nat
  sig_oid2 : x509_buf
  sig : x509_buf
  sig_md : Nat
  sig_pk : Nat
deriving DecidableEq, Repr

/-- One node of the revoked-certificate list of a CRL. -/
structure x509_crl_entry where
  raw : x509_buf
  serial : x509_buf
  revocation_date : x509_time
deriving DecidableEq, Repr

/-- The type `x509_crl` without its `next` link; `entry` is the embedded head of
the revoked-certificate list and `entry_next` the nodes linked after it. -/
structure x509_crl where
  raw : x509_buf
  tbs : x509_buf
  version : Int
  sig_oid1 : x509_buf
  issuer_raw : x509_buf
  this_update : x509_time
  next_update : x509_time
  entry : x509_crl_entry
  entry_next : List x509_crl_entry
  sig_oid2 : x509_buf
  sig : x509_buf
  sig_md : Nat
  sig_pk : Nat
deriving DecidableEq, Repr

/-- The type `md_info_t`, of which the verifier reads the digest size. -/
structure md_info_t where
  type : Nat
  size : Nat
deriving DecidableEq, Repr

/-- The primitives of the other modules that the verifier calls: the digest
registry and function (`md.c`), the public-key operations (`pk.c`) and the two
clock comparisons (`x509.c`). Each keeps the C calling convention: an `int`
result is an `Int`, a null `md_info_t` pointer is `none`. -/
structure Env where
  md_info_from_type : Nat → Option md_info_t
  md : md_info_t → List uint8_t → List uint8_t
  pk_can_do : pk_context → Nat → Int
  pk_verify : pk_context → Nat → List uint8_t → Nat → List uint8_t → Int
  x509_time_expired : x509_time → Int
  x509_time_future : x509_time → Int

/-! ## Constants of the headers -/

/-- Modelled from the spec: `x509.h` is not among the sources; the spec names the
verification flag `BADCERT_EXPIRED`, and the value is the one of the header. -/
def BADCERT_EXPIRED : Nat := 0x01
/-- Modelled from the spec: flag `BADCERT_REVOKED` of the absent `x509.h`. -/
def BADCERT_REVOKED : Nat := 0x02
/-- Modelled from the spec: flag `BADCERT_CN_MISMATCH` of the absent `x509.h`. -/
def BADCERT_CN_MISMATCH : Nat := 0x04
/-- Modelled from the spec: flag `BADCERT_NOT_TRUSTED` of the absent `x509.h`. -/
def BADCERT_NOT_TRUSTED : Nat := 0x08
/-- Modelled from the spec: flag `BADCRL_NOT_TRUSTED` of the absent `x509.h`. -/
def BADCRL_NOT_TRUSTED : Nat := 0x10
/-- Modelled from the spec: flag `BADCRL_EXPIRED` of the absent `x509.h`. -/
def BADCRL_EXPIRED : Nat := 0x20
/-- Modelled from the spec: flag `BADCERT_FUTURE` of the absent `x509.h`. -/
def BADCERT_FUTURE : Nat := 0x40
/-- Modelled from the spec: flag `BADCRL_FUTURE` of the absent `x509.h`. -/
def BADCRL_FUTURE : Nat := 0x80

/-- Modelled from the spec: error `CERT_VERIFY_FAILED` of the absent `x509.h`. -/
def POLARSSL_ERR_X509_CERT_VERIFY_FAILED : Int := -0x2700
/-- Modelled from the spec: error `BAD_INPUT_DATA` of the absent `x509.h`. -/
def POLARSSL_ERR_X509_BAD_INPUT_DATA : Int := -0x2800

/-- Modelled from the spec: bit of the KeyUsage extension in `ext_types`
(absent `x509.h`). -/
def EXT_KEY_USAGE : Nat := 1 <<< 2
/-- Modelled from the spec: bit of the SubjectAltName extension in `ext_types`
(absent `x509.h`). -/
def EXT_SUBJECT_ALT_NAME : Nat := 1 <<< 5
/-- Modelled from the spec: bit of the ExtendedKeyUsage extension in `ext_types`
(absent `x509.h`). -/
def EXT_EXTENDED_KEY_USAGE : Nat := 1 <<< 11

/-- Modelled from the spec: KeyUsage bit `keyCertSign` (absent `x509.h`). -/
def KU_KEY_CERT_SIGN : Nat := 0x04
/-- Modelled from the spec: KeyUsage bit `cRLSign` (absent `x509.h`). -/
def KU_CRL_SIGN : Nat := 0x02

/-- Modelled from the spec: the OID `id-at-commonName` (`OID_AT_CN` of the absent
`oid.h`), the bytes `55 04 03`. -/
def OID_AT_CN : List uint8_t := [0x55, 0x04, 0x03]

/-- Modelled from the spec: the macro `OID_CMP` of the absent `oid.h`, true when
the buffer holds exactly the bytes of the OID string. -/
def OID_CMP (oid_str : List uint8_t) (oid_buf : x509_buf) : Bool :=
  decide (oid_str.length = oid_buf.len) &&
    decide (oid_str.take oid_buf.len = oid_buf.p.take oid_buf.len)

/-- The library function `memcmp` as the code uses it (only `== 0` and `!= 0`
are tested): `0` when the first `n` bytes agree, `1` otherwise. -/
def memcmp (a b : List uint8_t) (n : Nat) : Int :=
  if a.take n = b.take n then 0 else 1

/-- The state left by `x509_crt_init`: every field zero. -/
def x509_crt_init : x509_crt :=
  let b : x509_buf := ⟨0, []⟩
  let t : x509_time := ⟨0, 0, 0, 0, 0, 0⟩
  { raw := b, tbs := b, version := 0, serial := b, sig_oid1 := b, issuer_raw := b,
    subject_raw := b, issuer := ⟨b, b, []⟩, subject := ⟨b, b, []⟩, valid_from := t,
    valid_to := t, pk := ⟨[]⟩, issuer_id := b, subject_id := b, v3_ext := b,
    subject_alt_names := ⟨b, []⟩, ext_types := 0, ca_istrue := 0, max_pathlen := 0,
    key_usage := 0, ext_key_usage := ⟨b, []⟩, ns_cert_type := 0, sig_oid2 := b,
    sig := b, sig_md := 0, sig_pk := 0 }

/-! ## Name matching -/

/-- The function `x509_name_cmp (s1, s2, len)`: `0` when the first `len` bytes agree up
to the case rule, `1` at the first byte that does not. The loop walks both
buffers together; `len` is within both buffers at every call site, and the
model answers `1` if a buffer ends before `len` bytes were read. -/
def x509_name_cmp : List uint8_t → List uint8_t → Nat → Int
  | _, _, 0 => 0
  | a :: n1, b :: n2, len + 1 =>
    let diff : Nat := (a.val ^^^ b.val) % 256
    if diff = 0 then x509_name_cmp n1 n2 len
    else if diff = 32 ∧ ((97 ≤ a.val ∧ a.val ≤ 122) ∨ (65 ≤ a.val ∧ a.val ≤ 90)) then
      x509_name_cmp n1 n2 len
    else 1
  | _, _, _ + 1 => 1

/-- The first loop of `x509_wildcard_verify`: the index of the first `.` of `cn`
at or after position `i` (the list holds `cn` from `i` on), and `0` when there
is none, which is the initial value of `cn_idx`. -/
def wildcard_cn_idx : List uint8_t → Nat → Nat
  | [], _ => 0
  | c :: rest, i => if c = 46 then i else wildcard_cn_idx rest (i + 1)

/-- The function `x509_wildcard_verify (cn, name)`. -/
def x509_wildcard_verify (cn : List uint8_t) (name : x509_buf) : Int :=
  if name.len < 3 ∨ name.p.get? 0 ≠ some 42 ∨ name.p.get? 1 ≠ some 46 then 0
  else
    let cn_idx := wildcard_cn_idx cn 0
    if cn_idx = 0 then 0
    else if cn.length - cn_idx = name.len - 1 ∧
        x509_name_cmp (name.p.drop 1) (cn.drop cn_idx) (name.len - 1) = 0 then 1
    else 0

/-! ## Key usage and parent suitability -/

/-- The function `x509_crt_check_key_usage (crt, usage)`. -/
def x509_crt_check_key_usage (crt : x509_crt) (usage : Nat) : Int :=
  if crt.ext_types &&& EXT_KEY_USAGE ≠ 0 ∧ crt.key_usage &&& usage ≠ usage then
    POLARSSL_ERR_X509_BAD_INPUT_DATA
  else 0

/-- The value of `need_ca_bit` in `x509_crt_check_parent` after its two
exceptions were applied. -/
def need_ca_bit (child parent : x509_crt) (top bottom : Int) : Bool :=
  let need := true
  let need := if top ≠ 0 ∧ parent.version < 3 then false else need
  let need := if top ≠ 0 ∧ bottom ≠ 0 ∧ child.raw.len = parent.raw.len ∧
      memcmp child.raw.p parent.raw.p child.raw.len = 0 then false else need
  need

/-- The function `x509_crt_check_parent (child, parent, top, bottom)`, compiled with
`POLARSSL_X509_CHECK_KEY_USAGE` as the spec describes it. -/
def x509_crt_check_parent (child parent : x509_crt) (top bottom : Int) : Int :=
  if child.issuer_raw.len ≠ parent.subject_raw.len ∨
      memcmp child.issuer_raw.p parent.subject_raw.p child.issuer_raw.len ≠ 0 then -1
  else if need_ca_bit child parent top bottom = true ∧ parent.ca_istrue = 0 then -1
  else if need_ca_bit child parent top bottom = true ∧
      x509_crt_check_key_usage parent KU_KEY_CERT_SIGN ≠ 0 then -1
  else 0

/-! ## Revocation -/

/-- The loop of `x509_crt_revoked` over the entries from `cur` on: it stops at
the end of the list or at the first entry whose serial is empty. -/
def x509_crt_revoked_loop (env : Env) (crt : x509_crt) : List x509_crl_entry → Int
  | [] => 0
  | cur :: rest =>
    if cur.serial.len = 0 then 0
    else if crt.serial.len = cur.serial.len ∧
        memcmp crt.serial.p cur.serial.p crt.serial.len = 0 ∧
        env.x509_time_expired cur.revocation_date ≠ 0 then 1
    else x509_crt_revoked_loop env crt rest

/-- The function `x509_crt_revoked (crt, crl)`. -/
def x509_crt_revoked (env : Env) (crt : x509_crt) (crl : x509_crl) : Int :=
  x509_crt_revoked_loop env crt (crl.entry :: crl.entry_next)

/-- The `while (crl_list != NULL)` loop of `x509_crt_verifycrl`, from the CRL at
the head of the list and with the flags collected so far; a `break` returns the
flags at once. Compiled with `POLARSSL_X509_CHECK_KEY_USAGE`. -/
def x509_crt_verifycrl_loop (env : Env) (crt ca : x509_crt) : List x509_crl → Nat → Nat
  | [], flags => flags
  | crl :: rest, flags =>
    if crl.version = 0 ∨ crl.issuer_raw.len ≠ ca.subject_raw.len ∨
        memcmp crl.issuer_raw.p ca.subject_raw.p crl.issuer_raw.len ≠ 0 then
      x509_crt_verifycrl_loop env crt ca rest flags
    else if x509_crt_check_key_usage ca KU_CRL_SIGN ≠ 0 then flags ||| BADCRL_NOT_TRUSTED
    else
      match env.md_info_from_type crl.sig_md with
      | none => flags ||| BADCRL_NOT_TRUSTED
      | some md_info =>
        let hash := env.md md_info crl.tbs.p
        if env.pk_can_do ca.pk crl.sig_pk = 0 ∨
            env.pk_verify ca.pk crl.sig_md hash md_info.size crl.sig.p ≠ 0 then
          flags ||| BADCRL_NOT_TRUSTED
        else
          let flags := if env.x509_time_expired crl.next_update ≠ 0 then
            flags ||| BADCRL_EXPIRED else flags
          let flags := if env.x509_time_future crl.this_update ≠ 0 then
            flags ||| BADCRL_FUTURE else flags
          if x509_crt_revoked env crt crl ≠ 0 then flags ||| BADCERT_REVOKED
          else x509_crt_verifycrl_loop env crt ca rest flags

/-- The function `x509_crt_verifycrl (crt, ca, crl_list)`; a null `ca` is `none`. -/
def x509_crt_verifycrl (env : Env) (crt : x509_crt) (ca : Option x509_crt)
    (crl_list : List x509_crl) : Nat :=
  match ca with
  | none => 0
  | some ca => x509_crt_verifycrl_loop env crt ca crl_list 0

/-! ## The verification callback -/

/-- The callback `f_vrfy (p_vrfy, crt, depth, &flags)`: from the user context, the
certificate, the depth and the flags it gives its `int` result, the flags it
leaves and the new user context. -/
abbrev vrfy_cb (σ : Type) := σ → x509_crt → Int → Nat → Int × Nat × σ

/-- One invocation of the callback, as recorded in the result of a
verification: the certificate and depth it was given, the flags it received
and the value it returned. -/
structure cb_call where
  crt : x509_crt
  depth : Int
  flags : Nat
  ret : Int
deriving DecidableEq, Repr

/-- What a verification function leaves behind: its return value, the content
of `*flags`, the user context and the invocations of the callback, oldest
first. -/
structure verify_result (σ : Type) where
  ret : Int
  flags : Nat
  p_vrfy : σ
  calls : List cb_call

/-- The statement `if (NULL != f_vrfy) ret = f_vrfy (p_vrfy, crt, depth, flags)`:
the returned value (`0` without a callback), the flags, the user context and the
invocation made, if any. -/
def call_vrfy {σ : Type} (f_vrfy : Option (vrfy_cb σ)) (p_vrfy : σ) (crt : x509_crt)
    (depth : Int) (flags : Nat) : verify_result σ :=
  match f_vrfy with
  | none => ⟨0, flags, p_vrfy, []⟩
  | some f =>
    let r := f p_vrfy crt depth flags
    ⟨r.1, r.2.1, r.2.2, [⟨crt, depth, flags, r.1⟩]⟩

/-- The statement `*flags &= ~mask` on the 32-bit pattern of an `int`. -/
def clear_flags (flags mask : Nat) : Nat := flags &&& (0xFFFFFFFF ^^^ mask)

/-- The C value of a comparison: `1` when it holds, `0` when it does not. -/
def c_bool (b : Bool) : Int := if b then 1 else 0

/-! ## The chain verifier -/

/-- The `for` loop of `x509_crt_verify_top` over the trusted list, from the
candidate at the head of the list and with the current `check_path_cnt` (which
the loop never resets): the trusted certificate at which the loop breaks, or
`none` when the list is exhausted (`trust_ca == NULL`). -/
def x509_crt_verify_top_loop (env : Env) (child : x509_crt) (path_cnt : Int)
    (hash : List uint8_t) (md_size : Nat) : List x509_crt → Int → Option x509_crt
  | [], _ => none
  | trust_ca :: rest, check_path_cnt =>
    if x509_crt_check_parent child trust_ca 1 (c_bool (path_cnt = 0)) ≠ 0 then
      x509_crt_verify_top_loop env child path_cnt hash md_size rest check_path_cnt
    else
      let check_path_cnt :=
        if child.subject_raw.len = trust_ca.subject_raw.len ∧
            memcmp child.subject_raw.p trust_ca.subject_raw.p child.issuer_raw.len = 0 then
          check_path_cnt - 1
        else check_path_cnt
      if trust_ca.max_pathlen > 0 ∧ trust_ca.max_pathlen < check_path_cnt then
        x509_crt_verify_top_loop env child path_cnt hash md_size rest check_path_cnt
      else if env.pk_can_do trust_ca.pk child.sig_pk = 0 ∨
          env.pk_verify trust_ca.pk child.sig_md hash md_size child.sig.p ≠ 0 then
        x509_crt_verify_top_loop env child path_cnt hash md_size rest check_path_cnt
      else some trust_ca

/-- The digest of the child and the search of the trusted list in
`x509_crt_verify_top`: the value of the pointer `trust_ca` after the loop. With an
unknown digest algorithm the code sets `trust_ca = NULL` and the loop does not
run; otherwise the loop starts with `check_path_cnt = path_cnt + 1`. -/
def x509_crt_verify_top_find (env : Env) (child : x509_crt) (trust_ca : List x509_crt)
    (path_cnt : Int) : Option x509_crt :=
  match env.md_info_from_type child.sig_md with
  | none => none
  | some md_info =>
    x509_crt_verify_top_loop env child path_cnt (env.md md_info child.tbs.p) md_info.size
      trust_ca (path_cnt + 1)

/-- The end of `x509_crt_verify_top`: the callback on the top certificate and
`*flags |= ca_flags`. `calls` holds the invocations made before. -/
def x509_crt_verify_top_finish {σ : Type} (f_vrfy : Option (vrfy_cb σ)) (child : x509_crt)
    (path_cnt : Int) (flags ca_flags : Nat) (p_vrfy : σ) (calls : List cb_call) :
    verify_result σ :=
  let r := call_vrfy f_vrfy p_vrfy child path_cnt flags
  if r.ret ≠ 0 then ⟨r.ret, r.flags, r.p_vrfy, calls ++ r.calls⟩
  else ⟨0, r.flags ||| ca_flags, r.p_vrfy, calls ++ r.calls⟩

/-- The function `x509_crt_verify_top`, compiled with `POLARSSL_X509_CRL_PARSE_C`.
The argument `flags` is the content of `*flags` at entry. -/
def x509_crt_verify_top {σ : Type} (env : Env) (child : x509_crt) (trust_ca : List x509_crt)
    (ca_crl : List x509_crl) (path_cnt : Int) (flags : Nat)
    (f_vrfy : Option (vrfy_cb σ)) (p_vrfy : σ) : verify_result σ :=
  let flags := if env.x509_time_expired child.valid_to ≠ 0 then
    flags ||| BADCERT_EXPIRED else flags
  let flags := if env.x509_time_future child.valid_from ≠ 0 then
    flags ||| BADCERT_FUTURE else flags
  let flags := flags ||| BADCERT_NOT_TRUSTED
  match x509_crt_verify_top_find env child trust_ca path_cnt with
  | none => x509_crt_verify_top_finish f_vrfy child path_cnt flags 0 p_vrfy []
  | some ca =>
    let flags := clear_flags flags BADCERT_NOT_TRUSTED
    if child.subject_raw.len ≠ ca.subject_raw.len ∨
        memcmp child.subject_raw.p ca.subject_raw.p child.issuer_raw.len ≠ 0 then
      let flags := flags ||| x509_crt_verifycrl env child (some ca) ca_crl
      let ca_flags : Nat := 0
      let ca_flags := if env.x509_time_expired ca.valid_to ≠ 0 then
        ca_flags ||| BADCERT_EXPIRED else ca_flags
      let ca_flags := if env.x509_time_future ca.valid_from ≠ 0 then
        ca_flags ||| BADCERT_FUTURE else ca_flags
      let r := call_vrfy f_vrfy p_vrfy ca (path_cnt + 1) ca_flags
      if r.ret ≠ 0 then ⟨r.ret, flags, r.p_vrfy, r.calls⟩
      else x509_crt_verify_top_finish f_vrfy child path_cnt flags r.flags r.p_vrfy r.calls
    else x509_crt_verify_top_finish f_vrfy child path_cnt flags 0 p_vrfy []

/-- The loop `for (parent = next; parent != NULL; parent = parent->next)` that
looks for the first certificate of the chain accepted by
`x509_crt_check_parent (child, parent, 0, bottom)`: that certificate together with
the chain after it, or `none` when the loop ends with a null pointer. -/
def find_parent (child : x509_crt) (bottom : Int) :
    List x509_crt → Option (x509_crt × List x509_crt)
  | [] => none
  | parent :: next =>
    if x509_crt_check_parent child parent 0 bottom = 0 then some (parent, next)
    else find_parent child bottom next

/-- The first part of `x509_crt_verify_child`, up to the search for a
grandparent: the content of `*flags` after the validity window of `child`, its
signature under the key of `parent` and the CRLs of `parent` were checked. -/
def x509_crt_verify_child_checks (env : Env) (child parent : x509_crt)
    (ca_crl : List x509_crl) (flags : Nat) : Nat :=
  let flags := if env.x509_time_expired child.valid_to ≠ 0 then
    flags ||| BADCERT_EXPIRED else flags
  let flags := if env.x509_time_future child.valid_from ≠ 0 then
    flags ||| BADCERT_FUTURE else flags
  let flags :=
    match env.md_info_from_type child.sig_md with
    | none => flags ||| BADCERT_NOT_TRUSTED
    | some md_info =>
      let hash := env.md md_info child.tbs.p
      if env.pk_can_do parent.pk child.sig_pk = 0 ∨
          env.pk_verify parent.pk child.sig_md hash md_info.size child.sig.p ≠ 0 then
        flags ||| BADCERT_NOT_TRUSTED
      else flags
  flags ||| x509_crt_verifycrl env child (some parent) ca_crl

/-- The last part of `x509_crt_verify_child`, after the call on the parent has
returned `up` (its return value, the `parent_flags` it left, the user context
and the invocations it made): the early return, the callback on `child` and
`*flags |= parent_flags`. -/
def x509_crt_verify_child_finish {σ : Type} (f_vrfy : Option (vrfy_cb σ)) (child : x509_crt)
    (path_cnt : Int) (flags : Nat) (up : verify_result σ) : verify_result σ :=
  if up.ret ≠ 0 then ⟨up.ret, flags, up.p_vrfy, up.calls⟩
  else
    let r := call_vrfy f_vrfy up.p_vrfy child path_cnt flags
    if r.ret ≠ 0 then ⟨r.ret, r.flags, r.p_vrfy, up.calls ++ r.calls⟩
    else ⟨0, r.flags ||| up.flags, r.p_vrfy, up.calls ++ r.calls⟩

/-- The body of `x509_crt_verify_child` from the search for a grandparent on, with
the loop pointer `grandparent` as the argument of the recursion: `flags` is the
content of `*flags` after the checks on `child`. When the loop pointer is null
the parent goes to `x509_crt_verify_top`; when the candidate is accepted the
function calls itself on `(parent, grandparent)` with `path_cnt + 1` and fresh
`parent_flags`; otherwise the loop moves to `grandparent->next`. -/
def x509_crt_verify_child_walk {σ : Type} (env : Env) (trust_ca : List x509_crt)
    (ca_crl : List x509_crl) (f_vrfy : Option (vrfy_cb σ)) :
    x509_crt → x509_crt → List x509_crt → Int → Nat → σ → verify_result σ
  | child, parent, [], path_cnt, flags, p_vrfy =>
    x509_crt_verify_child_finish f_vrfy child path_cnt flags
      (x509_crt_verify_top env parent trust_ca ca_crl (path_cnt + 1) 0 f_vrfy p_vrfy)
  | child, parent, grandparent :: grandparent_next, path_cnt, flags, p_vrfy =>
    if x509_crt_check_parent parent grandparent 0 (c_bool (path_cnt = 0)) = 0 then
      x509_crt_verify_child_finish f_vrfy child path_cnt flags
        (x509_crt_verify_child_walk env trust_ca ca_crl f_vrfy parent grandparent
          grandparent_next (path_cnt + 1)
          (x509_crt_verify_child_checks env parent grandparent ca_crl 0) p_vrfy)
    else
      x509_crt_verify_child_walk env trust_ca ca_crl f_vrfy child parent grandparent_next
        path_cnt flags p_vrfy

/-- The function `x509_crt_verify_child`, compiled with `POLARSSL_X509_CRL_PARSE_C`.
`parent_next` is the chain after `parent`; `flags` is the content of `*flags`
at entry. The theorem `x509_crt_verify_child_unfold` below gives the function in
the shape of the source, with the recursive call after the search loop. -/
def x509_crt_verify_child {σ : Type} (env : Env) (child parent : x509_crt)
    (parent_next : List x509_crt) (trust_ca : List x509_crt) (ca_crl : List x509_crl)
    (path_cnt : Int) (flags : Nat) (f_vrfy : Option (vrfy_cb σ)) (p_vrfy : σ) :
    verify_result σ :=
  x509_crt_verify_child_walk env trust_ca ca_crl f_vrfy child parent parent_next path_cnt
    (x509_crt_verify_child_checks env child parent ca_crl flags) p_vrfy

/-- The loop of `x509_crt_verify` over the SubjectAltName entries from `cur` on:
`true` when it leaves by `break` (`cur != NULL`), `false` when it runs off the
list. -/
def x509_crt_verify_san_loop (cn : List uint8_t) : List x509_buf → Bool
  | [] => false
  | cur :: rest =>
    if cur.len = cn.length ∧ x509_name_cmp cn cur.p cn.length = 0 then true
    else if cur.len > 2 ∧ memcmp cur.p [42, 46] 2 = 0 ∧ x509_wildcard_verify cn cur ≠ 0 then true
    else x509_crt_verify_san_loop cn rest

/-- The loop of `x509_crt_verify` over the Subject atoms from `name` on: `true`
when it leaves by `break` (`name != NULL`), `false` when it runs off the list. -/
def x509_crt_verify_cn_loop (cn : List uint8_t) : List x509_name_node → Bool
  | [] => false
  | name :: rest =>
    if OID_CMP OID_AT_CN name.oid = true ∧
        ((name.val.len = cn.length ∧ x509_name_cmp name.val.p cn cn.length = 0) ∨
         (name.val.len > 2 ∧ memcmp name.val.p [42, 46] 2 = 0 ∧
          x509_wildcard_verify cn name.val ≠ 0)) then true
    else x509_crt_verify_cn_loop cn rest

/-- The hostname check at the head of `x509_crt_verify`: the content of `*flags`
after it, from `*flags = 0`. A null `cn` is `none`. -/
def x509_crt_verify_cn (crt : x509_crt) (cn : Option (List uint8_t)) : Nat :=
  let flags : Nat := 0
  match cn with
  | none => flags
  | some cn =>
    if crt.ext_types &&& EXT_SUBJECT_ALT_NAME ≠ 0 then
      if x509_crt_verify_san_loop cn crt.subject_alt_names.nodes = false then
        flags ||| BADCERT_CN_MISMATCH
      else flags
    else
      if x509_crt_verify_cn_loop cn crt.subject.nodes = false then
        flags ||| BADCERT_CN_MISMATCH
      else flags

/-- The second half of `x509_crt_verify`: the search for a parent of the leaf in
`crt->next` with `pathlen = 0`, and the call of `x509_crt_verify_child` or
`x509_crt_verify_top` on the leaf; `flags` is the content of `*flags` after the
hostname check. -/
def x509_crt_verify_chain {σ : Type} (env : Env) (crt : x509_crt) (crt_next : List x509_crt)
    (trust_ca : List x509_crt) (ca_crl : List x509_crl) (flags : Nat)
    (f_vrfy : Option (vrfy_cb σ)) (p_vrfy : σ) : verify_result σ :=
  let pathlen : Int := 0
  match find_parent crt (c_bool (pathlen = 0)) crt_next with
  | some (parent, parent_next) =>
    x509_crt_verify_child env crt parent parent_next trust_ca ca_crl pathlen flags
      f_vrfy p_vrfy
  | none => x509_crt_verify_top env crt trust_ca ca_crl pathlen flags f_vrfy p_vrfy

/-- The function `x509_crt_verify`; `crt_next` is the chain after the leaf
(`crt->next`), a null `cn` or `f_vrfy` is `none`. -/
def x509_crt_verify {σ : Type} (env : Env) (crt : x509_crt) (crt_next : List x509_crt)
    (trust_ca : List x509_crt) (ca_crl : List x509_crl) (cn : Option (List uint8_t))
    (f_vrfy : Option (vrfy_cb σ)) (p_vrfy : σ) : verify_result σ :=
  let flags := x509_crt_verify_cn crt cn
  let r := x509_crt_verify_chain env crt crt_next trust_ca ca_crl flags f_vrfy p_vrfy
  if r.ret ≠ 0 then r
  else if r.flags ≠ 0 then ⟨POLARSSL_ERR_X509_CERT_VERIFY_FAILED, r.flags, r.p_vrfy, r.calls⟩
  else ⟨0, r.flags, r.p_vrfy, r.calls⟩

/-! ## Extended key usage -/

/-- Modelled from the spec: the OID `anyExtendedKeyUsage`
(`OID_ANY_EXTENDED_KEY_USAGE` of the absent `oid.h`), the bytes `55 1D 25 00`. -/
def OID_ANY_EXTENDED_KEY_USAGE : List uint8_t := [0x55, 0x1D, 0x25, 0x00]

/-- The loop of `x509_crt_check_extended_key_usage` over the OIDs from `cur` on. -/
def x509_crt_check_extended_key_usage_loop (usage_oid : List uint8_t) (usage_len : Nat) :
    List x509_buf → Int
  | [] => POLARSSL_ERR_X509_BAD_INPUT_DATA
  | cur_oid :: rest =>
    if cur_oid.len = usage_len ∧ memcmp cur_oid.p usage_oid usage_len = 0 then 0
    else if OID_CMP OID_ANY_EXTENDED_KEY_USAGE cur_oid = true then 0
    else x509_crt_check_extended_key_usage_loop usage_oid usage_len rest

/-- The function `x509_crt_check_extended_key_usage (crt, usage_oid, usage_len)`. -/
def x509_crt_check_extended_key_usage (crt : x509_crt) (usage_oid : List uint8_t)
    (usage_len : Nat) : Int :=
  if crt.ext_types &&& EXT_EXTENDED_KEY_USAGE = 0 then 0
  else x509_crt_check_extended_key_usage_loop usage_oid usage_len crt.ext_key_usage.nodes

/-! ## DER parsing of the extensions -/

/-- Modelled from the spec: error `ASN1.OUT_OF_DATA` of the absent `asn1.h`. -/
def POLARSSL_ERR_ASN1_OUT_OF_DATA : Int := -0x0060
/-- Modelled from the spec: error `ASN1.UNEXPECTED_TAG` of the absent `asn1.h`. -/
def POLARSSL_ERR_ASN1_UNEXPECTED_TAG : Int := -0x0062
/-- Modelled from the spec: error `ASN1.INVALID_LENGTH` of the absent `asn1.h`. -/
def POLARSSL_ERR_ASN1_INVALID_LENGTH : Int := -0x0064
/-- Modelled from the spec: error `ASN1.LENGTH_MISMATCH` of the absent `asn1.h`. -/
def POLARSSL_ERR_ASN1_LENGTH_MISMATCH : Int := -0x0066
/-- Modelled from the spec: error `INVALID_EXTENSIONS` of the absent `x509.h`. -/
def POLARSSL_ERR_X509_INVALID_EXTENSIONS : Int := -0x2500

/-- Modelled from the spec: tag number of BOOLEAN (absent `asn1.h`). -/
def ASN1_BOOLEAN : Nat := 0x01
/-- Modelled from the spec: tag number of INTEGER (absent `asn1.h`). -/
def ASN1_INTEGER : Nat := 0x02
/-- Modelled from the spec: tag number of SEQUENCE (absent `asn1.h`). -/
def ASN1_SEQUENCE : Nat := 0x10
/-- Modelled from the spec: the constructed bit of a tag (absent `asn1.h`). -/
def ASN1_CONSTRUCTED : Nat := 0x20

/-- What a read of the DER decoder leaves: its `int` result, the value behind its
out pointer, and the cursor. The cursor `*p` is the list of the bytes from `*p`
to `end`, so `*p == end` is `p = []`. -/
structure asn1_out (α : Type) where
  ret : Int
  val : α
  p : List uint8_t
deriving DecidableEq, Repr

/-- The reads of the DER decoder (`asn1parse.c`, external to the file) that the
extension parsers call. `asn1_get_tag` takes the bytes from `*p` to `end` and the
expected tag and gives the length; `asn1_get_bool` and `asn1_get_int` take the
bytes and the value now behind `val`. -/
structure Asn1 where
  asn1_get_tag : List uint8_t → Nat → asn1_out Nat
  asn1_get_bool : List uint8_t → Int → asn1_out Int
  asn1_get_int : List uint8_t → Int → asn1_out Int

/-- The value an `int` holds after an arithmetic result `x`: on the 32-bit
two's-complement `int` of the supported targets, `x` reduced into
`[-2^31, 2^31)`. -/
def wrap_int32 (x : Int) : Int := (x + 2 ^ 31) % 2 ^ 32 - 2 ^ 31

/-- What `x509_get_basic_constraints` leaves: its result, the two values behind
`ca_istrue` and `max_pathlen`, and the cursor. -/
structure basic_constraints_out where
  ret : Int
  ca_istrue : Int
  max_pathlen : Int
  p : List uint8_t
deriving DecidableEq, Repr

/-- The state after the block `if ((ret = asn1_get_bool (p, end, ca_istrue)) != 0)`
of `x509_get_basic_constraints`: `ret`, `*ca_istrue` and the cursor. A nonzero
`ret` is the one the block returns with. -/
def x509_get_basic_constraints_ca (a : Asn1) (p : List uint8_t) (ca_istrue : Int) :
    asn1_out Int :=
  let b := a.asn1_get_bool p ca_istrue
  if b.ret ≠ 0 then
    let i := if b.ret = POLARSSL_ERR_ASN1_UNEXPECTED_TAG then a.asn1_get_int b.p b.val else b
    if i.ret ≠ 0 then i
    else if i.val ≠ 0 then ⟨i.ret, 1, i.p⟩
    else i
  else b

/-- The function `x509_get_basic_constraints (p, end, ca_istrue, max_pathlen)`, on
the bytes from `*p` to `end`. The final `(*max_pathlen)++` is an `int`
increment. -/
def x509_get_basic_constraints (a : Asn1) (p : List uint8_t) : basic_constraints_out :=
  let ca_istrue : Int := 0
  let max_pathlen : Int := 0
  let t := a.asn1_get_tag p (ASN1_CONSTRUCTED ||| ASN1_SEQUENCE)
  if t.ret ≠ 0 then ⟨POLARSSL_ERR_X509_INVALID_EXTENSIONS + t.ret, ca_istrue, max_pathlen, t.p⟩
  else if t.p = [] then ⟨0, ca_istrue, max_pathlen, t.p⟩
  else
    let c := x509_get_basic_constraints_ca a t.p ca_istrue
    if c.ret ≠ 0 then ⟨POLARSSL_ERR_X509_INVALID_EXTENSIONS + c.ret, c.val, max_pathlen, c.p⟩
    else if c.p = [] then ⟨0, c.val, max_pathlen, c.p⟩
    else
      let m := a.asn1_get_int c.p max_pathlen
      if m.ret ≠ 0 then ⟨POLARSSL_ERR_X509_INVALID_EXTENSIONS + m.ret, c.val, m.val, m.p⟩
      else if m.p ≠ [] then
        ⟨POLARSSL_ERR_X509_INVALID_EXTENSIONS + POLARSSL_ERR_ASN1_LENGTH_MISMATCH,
          c.val, m.val, m.p⟩
      else ⟨0, c.val, wrap_int32 (m.val + 1), m.p⟩

/-! ## The DER decoder -/

/-- Value of a big-endian byte string. -/
def be_nat (bs : List uint8_t) : Nat := bs.foldl (fun acc b => acc * 256 + b.val) 0

/-- Modelled from the spec: `asn1_get_len` of the absent `asn1parse.c`, the reader
of a definite DER length: the short form, or the long form on one to four
bytes; `OUT_OF_DATA` when the bytes or the announced contents are missing,
`INVALID_LENGTH` for another form. -/
def asn1_get_len (p : List uint8_t) : asn1_out Nat :=
  match p with
  | [] => ⟨POLARSSL_ERR_ASN1_OUT_OF_DATA, 0, p⟩
  | b :: rest =>
    if b.val &&& 0x80 = 0 then
      if b.val > rest.length then ⟨POLARSSL_ERR_ASN1_OUT_OF_DATA, b.val, rest⟩
      else ⟨0, b.val, rest⟩
    else
      let k := b.val &&& 0x7F
      if k = 0 ∨ 4 < k then ⟨POLARSSL_ERR_ASN1_INVALID_LENGTH, 0, p⟩
      else if rest.length < k then ⟨POLARSSL_ERR_ASN1_OUT_OF_DATA, 0, p⟩
      else
        let len := be_nat (rest.take k)
        if len > (rest.drop k).length then ⟨POLARSSL_ERR_ASN1_OUT_OF_DATA, len, rest.drop k⟩
        else ⟨0, len, rest.drop k⟩

/-- Modelled from the spec: `asn1_get_tag` of the absent `asn1parse.c`: the byte at
`*p` must be `tag` (`UNEXPECTED_TAG` otherwise, the cursor unmoved), then the
length is read. -/
def asn1_get_tag (p : List uint8_t) (tag : Nat) : asn1_out Nat :=
  match p with
  | [] => ⟨POLARSSL_ERR_ASN1_OUT_OF_DATA, 0, p⟩
  | b :: rest =>
    if b.val ≠ tag then ⟨POLARSSL_ERR_ASN1_UNEXPECTED_TAG, 0, p⟩
    else asn1_get_len rest

/-- Modelled from the spec: `asn1_get_bool` of the absent `asn1parse.c`: a BOOLEAN
of length 1, read as `0` or `1`. -/
def asn1_get_bool (p : List uint8_t) (val : Int) : asn1_out Int :=
  let t := asn1_get_tag p ASN1_BOOLEAN
  if t.ret ≠ 0 then ⟨t.ret, val, t.p⟩
  else if t.val ≠ 1 then ⟨POLARSSL_ERR_ASN1_INVALID_LENGTH, val, t.p⟩
  else
    match t.p with
    | [] => ⟨POLARSSL_ERR_ASN1_OUT_OF_DATA, val, t.p⟩
    | b :: rest => ⟨0, if b.val ≠ 0 then 1 else 0, rest⟩

/-- Modelled from the spec: `asn1_get_int` of the absent `asn1parse.c`: an INTEGER
of at most `sizeof (int) = 4` bytes whose first byte has the top bit clear
(`INVALID_LENGTH` otherwise), read big-endian into an `int`. -/
def asn1_get_int (p : List uint8_t) (val : Int) : asn1_out Int :=
  let t := asn1_get_tag p ASN1_INTEGER
  if t.ret ≠ 0 then ⟨t.ret, val, t.p⟩
  else if t.val > 4 ∨ (t.p.headD 0).val &&& 0x80 ≠ 0 then
    ⟨POLARSSL_ERR_ASN1_INVALID_LENGTH, val, t.p⟩
  else ⟨0, (be_nat (t.p.take t.val) : Nat), t.p.drop t.val⟩

/-- The DER decoder of the library. -/
def der : Asn1 := ⟨asn1_get_tag, asn1_get_bool, asn1_get_int⟩

/-! ## Building the chain -/

/-- Modelled from the spec: error `MALLOC_FAILED` of the absent `x509.h`. -/
def POLARSSL_ERR_X509_MALLOC_FAILED : Int := -0x2880

/-- The function `x509_crt_free (crt)`, on the nodes from `crt` on (`[]` is a null
`crt`). Its first loop releases what the nodes own; its second loop zeroes every
node, which nulls its `next`, and releases every node but `crt`: what is left is
`crt` alone, in the state of `x509_crt_init`. -/
def x509_crt_free (crt : List x509_crt) : List x509_crt :=
  match crt with
  | [] => []
  | _ :: _ => [x509_crt_init]

/-- The DER traversal of `x509_crt_parse_der_core`, from the first `asn1_get_tag` to
the last test `p != end`: given the node, whose `raw` holds the copy of the
buffer, the value of `ret` at the first step that fails (`0` when none does)
and the fields of the node at that point. It does not write `next`. -/
abbrev der_traversal := x509_crt → Int × x509_crt

/-- The function `x509_crt_parse_der_core (crt, buf, buflen)`, on the nodes from `crt`
on: its result and these nodes afterwards. A null `crt` is `[]`, a null `buf` is
`none`, and `raw_alloc` tells whether `memory_alloc (buflen)` gives a block.
Every step of the traversal that fails calls `x509_crt_free (crt)` and
returns. -/
def x509_crt_parse_der_core (fill : der_traversal) (raw_alloc : Bool)
    (crt : List x509_crt) (buf : Option (List uint8_t)) : Int × List x509_crt :=
  match crt, buf with
  | [], _ => (POLARSSL_ERR_X509_BAD_INPUT_DATA, crt)
  | _ :: _, none => (POLARSSL_ERR_X509_BAD_INPUT_DATA, crt)
  | c :: next, some b =>
    if raw_alloc = false then (POLARSSL_ERR_X509_MALLOC_FAILED, crt)
    else
      let r := fill { c with raw := ⟨c.raw.tag, b⟩ }
      if r.1 ≠ 0 then (r.1, x509_crt_free (r.2 :: next))
      else (0, r.2 :: next)

/-- The loop `while (crt->version != 0 && crt->next != NULL)` of
`x509_crt_parse_der`, from the node `crt` followed by `next`: the nodes passed (the
last of them is `prev`), the node where the loop stops, and the nodes after
it. -/
def x509_crt_parse_der_walk : x509_crt → List x509_crt →
    List x509_crt × x509_crt × List x509_crt
  | crt, [] => ([], crt, [])
  | crt, n :: rest =>
    if crt.version ≠ 0 then
      let w := x509_crt_parse_der_walk n rest
      (crt :: w.1, w.2.1, w.2.2)
    else ([], crt, n :: rest)

/-- The function `x509_crt_parse_der (chain, buf, buflen)`: its result and the chain
afterwards. The chain is the list of its nodes (`[]` for a null `chain`);
`node_alloc` tells whether `memory_alloc (sizeof (x509_crt))` gives a block. -/
def x509_crt_parse_der (fill : der_traversal) (node_alloc raw_alloc : Bool)
    (chain : List x509_crt) (buf : Option (List uint8_t)) : Int × List x509_crt :=
  match chain, buf with
  | [], _ => (POLARSSL_ERR_X509_BAD_INPUT_DATA, chain)
  | _ :: _, none => (POLARSSL_ERR_X509_BAD_INPUT_DATA, chain)
  | head :: tail, some b =>
    let w := x509_crt_parse_der_walk head tail
    let passed := w.1
    let crt := w.2.1
    let next := w.2.2
    if crt.version ≠ 0 ∧ next = [] then
      if node_alloc = false then (POLARSSL_ERR_X509_MALLOC_FAILED, chain)
      else
        let r := x509_crt_parse_der_core fill raw_alloc [x509_crt_init] (some b)
        if r.1 ≠ 0 then (r.1, passed ++ [crt])
        else (0, passed ++ crt :: r.2)
    else
      let r := x509_crt_parse_der_core fill raw_alloc (crt :: next) (some b)
      if r.1 ≠ 0 then
        if passed = [] then (r.1, r.2) else (r.1, passed)
      else (0, passed ++ r.2)

/-! ## The extension parsers -/

/-- Modelled from the spec: error `ASN1.MALLOC_FAILED` of the absent `asn1.h`. -/
def POLARSSL_ERR_ASN1_MALLOC_FAILED : Int := -0x006A
/-- Modelled from the spec: error `FEATURE_UNAVAILABLE` of the absent `x509.h`. -/
def POLARSSL_ERR_X509_FEATURE_UNAVAILABLE : Int := -0x2080

/-- Modelled from the spec: tag number of BIT STRING (absent `asn1.h`). -/
def ASN1_BIT_STRING : Nat := 0x03
/-- Modelled from the spec: tag number of OCTET STRING (absent `asn1.h`). -/
def ASN1_OCTET_STRING : Nat := 0x04
/-- Modelled from the spec: tag number of OBJECT IDENTIFIER (absent `asn1.h`). -/
def ASN1_OID : Nat := 0x06
/-- Modelled from the spec: the context-specific class bit of a tag (absent
`asn1.h`). -/
def ASN1_CONTEXT_SPECIFIC : Nat := 0x80

/-- Modelled from the spec: bit of the BasicConstraints extension in `ext_types`
(`EXT_BASIC_CONSTRAINTS` of the absent `oid.h`). -/
def EXT_BASIC_CONSTRAINTS : Nat := 1 <<< 8
/-- Modelled from the spec: bit of the Netscape certificate type extension in
`ext_types` (`EXT_NS_CERT_TYPE` of the absent `oid.h`). -/
def EXT_NS_CERT_TYPE : Nat := 1 <<< 16

/-- The type `x509_bitstring` as `asn1_get_bitstring` fills it: the number of content
bytes, the number of unused bits, and the bytes from the pointer `p` on. -/
structure x509_bitstring where
  len : Nat
  unused_bits : Nat
  p : List uint8_t
deriving DecidableEq, Repr

/-- The reads of the DER decoder, with the two more that the parsers of the
extensions call: `asn1_get_len` on the bytes from `*p` to `end`, and
`asn1_get_bitstring`. -/
structure Asn1Full extends Asn1 where
  asn1_get_len : List uint8_t → asn1_out Nat
  asn1_get_bitstring : List uint8_t → asn1_out x509_bitstring

/-- The functions of the other modules that the parsers of this file call and
that stay parameters. Each takes the bytes from `*p` to `end` and gives its
result, what it wrote and the cursor. From `asn1parse.c`: `asn1_get_sequence_of` (bytes,
the sequence behind `cur`, the tag). From `oid.c`: `oid_get_x509_ext_type` (the OID;
result and extension type). From `x509.c`: `x509_get_ext` (bytes, the buffer behind
`ext`, the tag number), `x509_get_serial`, `x509_get_alg_null`, `x509_get_sig_alg` (the OID;
result, `sig_md` and `sig_pk`), `x509_get_name`, `x509_get_time` and `x509_get_sig`. From
`pkparse.c`: `pk_parse_subpubkey`. -/
structure Lib where
  asn1_get_sequence_of : List uint8_t → x509_sequence → Nat → asn1_out x509_sequence
  oid_get_x509_ext_type : x509_buf → Int × Nat
  x509_get_ext : List uint8_t → x509_buf → Nat → asn1_out x509_buf
  x509_get_serial : List uint8_t → asn1_out x509_buf
  x509_get_alg_null : List uint8_t → asn1_out x509_buf
  x509_get_sig_alg : x509_buf → Int × Nat × Nat
  x509_get_name : List uint8_t → asn1_out x509_name
  x509_get_time : List uint8_t → asn1_out x509_time
  x509_get_sig : List uint8_t → asn1_out x509_buf
  pk_parse_subpubkey : List uint8_t → asn1_out pk_context

/-- The test `buf.p == NULL`. A buffer of the model does not tell a null `p` from
an empty content: the zero buffer left by `x509_crt_init` stands for the null
one, and every buffer written by a parser has a nonzero tag. -/
def x509_buf.p_null (b : x509_buf) : Bool := decide (b.tag = 0 ∧ b.p = [])

/-- The function `x509_get_ns_cert_type (p, end, ns_cert_type)`, on the bytes from
`*p` to `end` and the value now behind `ns_cert_type`. -/
def x509_get_ns_cert_type (d : Asn1Full) (p : List uint8_t) (ns_cert_type : Nat) :
    asn1_out Nat :=
  let bs := d.asn1_get_bitstring p
  if bs.ret ≠ 0 then ⟨POLARSSL_ERR_X509_INVALID_EXTENSIONS + bs.ret, ns_cert_type, bs.p⟩
  else if bs.val.len ≠ 1 then
    ⟨POLARSSL_ERR_X509_INVALID_EXTENSIONS + POLARSSL_ERR_ASN1_INVALID_LENGTH, ns_cert_type, bs.p⟩
  else ⟨0, (bs.val.p.headD 0).val, bs.p⟩

/-- The function `x509_get_key_usage (p, end, key_usage)`, on the bytes from `*p` to
`end` and the value now behind `key_usage`. -/
def x509_get_key_usage (d : Asn1Full) (p : List uint8_t) (key_usage : Nat) : asn1_out Nat :=
  let bs := d.asn1_get_bitstring p
  if bs.ret ≠ 0 then ⟨POLARSSL_ERR_X509_INVALID_EXTENSIONS + bs.ret, key_usage, bs.p⟩
  else if bs.val.len < 1 then
    ⟨POLARSSL_ERR_X509_INVALID_EXTENSIONS + POLARSSL_ERR_ASN1_INVALID_LENGTH, key_usage, bs.p⟩
  else ⟨0, (bs.val.p.headD 0).val, bs.p⟩

/-- The function `x509_get_ext_key_usage (p, end, ext_key_usage)`. -/
def x509_get_ext_key_usage (x : Lib) (p : List uint8_t) (ext_key_usage : x509_sequence) :
    asn1_out x509_sequence :=
  let s := x.asn1_get_sequence_of p ext_key_usage ASN1_OID
  if s.ret ≠ 0 then ⟨POLARSSL_ERR_X509_INVALID_EXTENSIONS + s.ret, s.val, s.p⟩
  else if s.val.buf.p_null = true then
    ⟨POLARSSL_ERR_X509_INVALID_EXTENSIONS + POLARSSL_ERR_ASN1_INVALID_LENGTH, s.val, s.p⟩
  else ⟨0, s.val, s.p⟩

/-- The sequence made of the nodes `done`, then `cur`, then `next`. -/
def x509_sequence.link (done : List x509_buf) (cur : x509_buf) (next : List x509_buf) :
    x509_sequence :=
  match done with
  | [] => ⟨cur, next⟩
  | head :: rest => ⟨head, rest ++ cur :: next⟩

/-- The loop `while (*p < end)` of `x509_get_subject_alt_name`, on the bytes from `*p`
to `end`; `done` are the nodes of the list before `cur`, `cur` is the buffer of the
node `cur`, `next` the nodes behind `cur->next`, and `node_alloc` tells whether
`memory_alloc` gives a node. The first argument bounds the number of turns: each
turn consumes the tag byte, so the number of bytes left is enough, and `none`
is a loop that has not ended within the bound. After the loop come
`cur->next = NULL` and the return of `0`, since `*p == end`. -/
def x509_get_subject_alt_name_loop (d : Asn1Full) (node_alloc : Bool) :
    Nat → List uint8_t → List x509_buf → x509_buf → List x509_buf →
    Option (asn1_out x509_sequence)
  | _, [], done, cur, _ => some ⟨0, x509_sequence.link done cur [], []⟩
  | 0, _ :: _, _, _, _ => none
  | fuel + 1, tag :: rest, done, cur, next =>
    let l := d.asn1_get_len rest
    if l.ret ≠ 0 then
      some ⟨POLARSSL_ERR_X509_INVALID_EXTENSIONS + l.ret, x509_sequence.link done cur next, l.p⟩
    else if tag.val &&& ASN1_CONTEXT_SPECIFIC ≠ ASN1_CONTEXT_SPECIFIC then
      some ⟨POLARSSL_ERR_X509_INVALID_EXTENSIONS + POLARSSL_ERR_ASN1_UNEXPECTED_TAG,
        x509_sequence.link done cur next, l.p⟩
    else if tag.val ≠ ASN1_CONTEXT_SPECIFIC ||| 2 then
      x509_get_subject_alt_name_loop d node_alloc fuel (l.p.drop l.val) done cur next
    else if cur.p_null = false then
      if node_alloc = false then
        some ⟨POLARSSL_ERR_X509_INVALID_EXTENSIONS + POLARSSL_ERR_ASN1_MALLOC_FAILED,
          x509_sequence.link done cur [], l.p⟩
      else
        x509_get_subject_alt_name_loop d node_alloc fuel (l.p.drop l.val) (done ++ [cur])
          ⟨tag.val, l.p.take l.val⟩ []
    else
      x509_get_subject_alt_name_loop d node_alloc fuel (l.p.drop l.val) done
        ⟨tag.val, l.p.take l.val⟩ next

/-- The function `x509_get_subject_alt_name (p, end, subject_alt_name)`, on the bytes
from `*p` to `end` and the sequence behind `subject_alt_name`. -/
def x509_get_subject_alt_name (d : Asn1Full) (node_alloc : Bool) (p : List uint8_t)
    (subject_alt_name : x509_sequence) : Option (asn1_out x509_sequence) :=
  let t := d.asn1_get_tag p (ASN1_CONSTRUCTED ||| ASN1_SEQUENCE)
  if t.ret ≠ 0 then
    some ⟨POLARSSL_ERR_X509_INVALID_EXTENSIONS + t.ret, subject_alt_name, t.p⟩
  else if t.p.length ≠ t.val then
    some ⟨POLARSSL_ERR_X509_INVALID_EXTENSIONS + POLARSSL_ERR_ASN1_LENGTH_MISMATCH,
      subject_alt_name, t.p⟩
  else
    x509_get_subject_alt_name_loop d node_alloc t.p.length t.p [] subject_alt_name.buf
      subject_alt_name.next

/-- What `x509_get_crt_ext` leaves: its result, the certificate and the cursor. -/
structure crt_ext_out where
  ret : Int
  crt : x509_crt
  p : List uint8_t
deriving DecidableEq, Repr

/-- The `switch (ext_type)` of `x509_get_crt_ext`, on the bytes from `*p` to
`end_ext_octet`: the result of the parser of the extension, the certificate with
what that parser wrote, and the cursor. -/
def x509_get_crt_ext_switch (d : Asn1Full) (x : Lib) (node_alloc : Bool) (ext_type : Nat)
    (p : List uint8_t) (crt : x509_crt) : Option crt_ext_out :=
  if ext_type = EXT_BASIC_CONSTRAINTS then
    let r := x509_get_basic_constraints d.toAsn1 p
    some ⟨r.ret, { crt with ca_istrue := r.ca_istrue, max_pathlen := r.max_pathlen }, r.p⟩
  else if ext_type = EXT_KEY_USAGE then
    let r := x509_get_key_usage d p crt.key_usage
    some ⟨r.ret, { crt with key_usage := r.val }, r.p⟩
  else if ext_type = EXT_EXTENDED_KEY_USAGE then
    let r := x509_get_ext_key_usage x p crt.ext_key_usage
    some ⟨r.ret, { crt with ext_key_usage := r.val }, r.p⟩
  else if ext_type = EXT_SUBJECT_ALT_NAME then
    match x509_get_subject_alt_name d node_alloc p crt.subject_alt_names with
    | none => none
    | some r => some ⟨r.ret, { crt with subject_alt_names := r.val }, r.p⟩
  else if ext_type = EXT_NS_CERT_TYPE then
    let r := x509_get_ns_cert_type d p crt.ns_cert_type
    some ⟨r.ret, { crt with ns_cert_type := r.val }, r.p⟩
  else some ⟨POLARSSL_ERR_X509_FEATURE_UNAVAILABLE, crt, p⟩

/-- The loop `while (*p < end)` of `x509_get_crt_ext`, on the bytes from `*p` to `end`.
In a turn, `rest` holds the bytes from `end_ext_data` to `end`; `asn1_get_bool` and the
read of the OCTET STRING see the bytes from `*p` to `end_ext_data` (none when `*p` is
beyond it), and the parser of the extension sees the bytes from `*p` to
`end_ext_octet`. The first argument bounds the number of turns, as in
`x509_get_subject_alt_name_loop`. After the loop the function returns `0`, since
`*p == end`. -/
def x509_get_crt_ext_loop (d : Asn1Full) (x : Lib) (node_alloc : Bool) :
    Nat → List uint8_t → x509_crt → Option crt_ext_out
  | _, [], crt => some ⟨0, crt, []⟩
  | 0, _ :: _, _ => none
  | fuel + 1, b0 :: p0, crt =>
    let s := d.asn1_get_tag (b0 :: p0) (ASN1_CONSTRUCTED ||| ASN1_SEQUENCE)
    if s.ret ≠ 0 then some ⟨POLARSSL_ERR_X509_INVALID_EXTENSIONS + s.ret, crt, s.p⟩
    else
      let rest := s.p.drop s.val
      let o := d.asn1_get_tag s.p ASN1_OID
      if o.ret ≠ 0 then some ⟨POLARSSL_ERR_X509_INVALID_EXTENSIONS + o.ret, crt, o.p⟩
      else
        let extn_oid : x509_buf := ⟨(s.p.headD 0).val, o.p.take o.val⟩
        let p := o.p.drop o.val
        if p = [] then
          some ⟨POLARSSL_ERR_X509_INVALID_EXTENSIONS + POLARSSL_ERR_ASN1_OUT_OF_DATA, crt, p⟩
        else
          let c := d.asn1_get_bool (p.take (p.length - rest.length)) 0
          if c.ret ≠ 0 ∧ c.ret ≠ POLARSSL_ERR_ASN1_UNEXPECTED_TAG then
            some ⟨POLARSSL_ERR_X509_INVALID_EXTENSIONS + c.ret, crt, c.p ++ rest⟩
          else
            let v := d.asn1_get_tag c.p ASN1_OCTET_STRING
            if v.ret ≠ 0 then
              some ⟨POLARSSL_ERR_X509_INVALID_EXTENSIONS + v.ret, crt, v.p ++ rest⟩
            else if p.length < rest.length ∨ v.p.length ≠ v.val then
              some ⟨POLARSSL_ERR_X509_INVALID_EXTENSIONS + POLARSSL_ERR_ASN1_LENGTH_MISMATCH,
                crt, v.p ++ rest⟩
            else
              let t := x.oid_get_x509_ext_type extn_oid
              if t.1 ≠ 0 then
                if c.val ≠ 0 then
                  some ⟨POLARSSL_ERR_X509_INVALID_EXTENSIONS + POLARSSL_ERR_ASN1_UNEXPECTED_TAG,
                    crt, rest⟩
                else x509_get_crt_ext_loop d x node_alloc fuel rest crt
              else
                match x509_get_crt_ext_switch d x node_alloc t.2 v.p
                    { crt with ext_types := crt.ext_types ||| t.2 } with
                | none => none
                | some r =>
                  if r.ret ≠ 0 then some ⟨r.ret, r.crt, r.p ++ rest⟩
                  else x509_get_crt_ext_loop d x node_alloc fuel (r.p ++ rest) r.crt

/-- The function `x509_get_crt_ext (p, end, crt)`, on the bytes from `*p` to `end`. -/
def x509_get_crt_ext (d : Asn1Full) (x : Lib) (node_alloc : Bool) (p : List uint8_t)
    (crt : x509_crt) : Option crt_ext_out :=
  let e := x.x509_get_ext p crt.v3_ext 3
  if e.ret ≠ 0 then
    if e.ret = POLARSSL_ERR_ASN1_UNEXPECTED_TAG then some ⟨0, { crt with v3_ext := e.val }, e.p⟩
    else some ⟨e.ret, { crt with v3_ext := e.val }, e.p⟩
  else x509_get_crt_ext_loop d x node_alloc e.p.length e.p { crt with v3_ext := e.val }

/-- Modelled from the spec: `asn1_get_bitstring` of the absent `asn1parse.c`: a
BIT STRING with its byte of unused bits (`OUT_OF_DATA` without it, `INVALID_LENGTH`
when it is above 7) that ends at `end` (`LENGTH_MISMATCH` otherwise); `len` counts
the content bytes after the byte of unused bits. -/
def asn1_get_bitstring (p : List uint8_t) : asn1_out x509_bitstring :=
  let t := asn1_get_tag p ASN1_BIT_STRING
  if t.ret ≠ 0 then ⟨t.ret, ⟨t.val, 0, []⟩, t.p⟩
  else if t.val < 1 then ⟨POLARSSL_ERR_ASN1_OUT_OF_DATA, ⟨t.val, 0, []⟩, t.p⟩
  else
    match t.p with
    | [] => ⟨POLARSSL_ERR_ASN1_OUT_OF_DATA, ⟨t.val - 1, 0, []⟩, t.p⟩
    | u :: rest =>
      if u.val > 7 then ⟨POLARSSL_ERR_ASN1_INVALID_LENGTH, ⟨t.val - 1, u.val, []⟩, t.p⟩
      else if rest.drop (t.val - 1) ≠ [] then
        ⟨POLARSSL_ERR_ASN1_LENGTH_MISMATCH, ⟨t.val - 1, u.val, rest⟩, rest.drop (t.val - 1)⟩
      else ⟨0, ⟨t.val - 1, u.val, rest⟩, rest.drop (t.val - 1)⟩

/-- The DER decoder of the library, with `asn1_get_len` and `asn1_get_bitstring`. -/
def der_full : Asn1Full := ⟨der, asn1_get_len, asn1_get_bitstring⟩

/-! ## The fields of a certificate -/

/-- Modelled from the spec: error `INVALID_FORMAT` of the absent `x509.h`. -/
def POLARSSL_ERR_X509_INVALID_FORMAT : Int := -0x2180
/-- Modelled from the spec: error `INVALID_VERSION` of the absent `x509.h`. -/
def POLARSSL_ERR_X509_INVALID_VERSION : Int := -0x2200
/-- Modelled from the spec: error `INVALID_DATE` of the absent `x509.h`. -/
def POLARSSL_ERR_X509_INVALID_DATE : Int := -0x2400
/-- Modelled from the spec: error `UNKNOWN_VERSION` of the absent `x509.h`. -/
def POLARSSL_ERR_X509_UNKNOWN_VERSION : Int := -0x2580
/-- Modelled from the spec: error `SIG_MISMATCH` of the absent `x509.h`. -/
def POLARSSL_ERR_X509_SIG_MISMATCH : Int := -0x2680

/-- The function `x509_get_version (p, end, ver)`, on the bytes from `*p` to `end` and
the value now behind `ver`. -/
def x509_get_version (a : Asn1) (p : List uint8_t) (ver : Int) : asn1_out Int :=
  let t := a.asn1_get_tag p (ASN1_CONTEXT_SPECIFIC ||| ASN1_CONSTRUCTED ||| 0)
  if t.ret ≠ 0 then
    if t.ret = POLARSSL_ERR_ASN1_UNEXPECTED_TAG then ⟨0, 0, t.p⟩
    else ⟨t.ret, ver, t.p⟩
  else
    let i := a.asn1_get_int (t.p.take t.val) ver
    if i.ret ≠ 0 then ⟨POLARSSL_ERR_X509_INVALID_VERSION + i.ret, i.val, i.p ++ t.p.drop t.val⟩
    else if i.p ≠ [] then
      ⟨POLARSSL_ERR_X509_INVALID_VERSION + POLARSSL_ERR_ASN1_LENGTH_MISMATCH, i.val,
        i.p ++ t.p.drop t.val⟩
    else ⟨0, i.val, t.p.drop t.val⟩

/-- What `x509_get_dates` leaves: its result, the two times and the cursor. -/
structure dates_out where
  ret : Int
  valid_from : x509_time
  valid_to : x509_time
  p : List uint8_t
deriving DecidableEq, Repr

/-- The function `x509_get_dates (p, end, from, to)`, on the bytes from `*p` to `end`
and the times now behind `from` and `to`. -/
def x509_get_dates (a : Asn1) (x : Lib) (p : List uint8_t) (valid_from valid_to : x509_time) :
    dates_out :=
  let t := a.asn1_get_tag p (ASN1_CONSTRUCTED ||| ASN1_SEQUENCE)
  if t.ret ≠ 0 then ⟨POLARSSL_ERR_X509_INVALID_DATE + t.ret, valid_from, valid_to, t.p⟩
  else
    let f := x.x509_get_time (t.p.take t.val)
    if f.ret ≠ 0 then ⟨f.ret, f.val, valid_to, f.p ++ t.p.drop t.val⟩
    else
      let u := x.x509_get_time f.p
      if u.ret ≠ 0 then ⟨u.ret, f.val, u.val, u.p ++ t.p.drop t.val⟩
      else if u.p ≠ [] then
        ⟨POLARSSL_ERR_X509_INVALID_DATE + POLARSSL_ERR_ASN1_LENGTH_MISMATCH, f.val, u.val,
          u.p ++ t.p.drop t.val⟩
      else ⟨0, f.val, u.val, t.p.drop t.val⟩

/-- The function `x509_get_uid (p, end, uid, n)`, on the bytes from `*p` to `end` and
the buffer now behind `uid`. -/
def x509_get_uid (a : Asn1) (p : List uint8_t) (uid : x509_buf) (n : Nat) : asn1_out x509_buf :=
  match p with
  | [] => ⟨0, uid, p⟩
  | b :: _ =>
    let t := a.asn1_get_tag p (ASN1_CONTEXT_SPECIFIC ||| ASN1_CONSTRUCTED ||| n)
    if t.ret ≠ 0 then
      if t.ret = POLARSSL_ERR_ASN1_UNEXPECTED_TAG then ⟨0, ⟨b.val, uid.p⟩, t.p⟩
      else ⟨t.ret, ⟨b.val, uid.p⟩, t.p⟩
    else ⟨0, ⟨b.val, t.p.take t.val⟩, t.p.drop t.val⟩

/-- The head of `x509_crt_parse_der_core`: the header of the Certificate, `crt_end`, and
the header of the TBSCertificate. On the node whose `raw` holds the copy of the
buffer it gives the value returned by the step that fails, or the node with
`tbs` set, the content of the TBSCertificate (the bytes from `p` to the new `end`),
the bytes from the end of the TBSCertificate to `crt_end`, and whether the
TBSCertificate ends beyond `crt_end` (then no byte is left before `crt_end`). -/
def x509_crt_parse_der_head (d : Asn1Full) (crt : x509_crt) :
    Except Int (x509_crt × List uint8_t × List uint8_t × Bool) :=
  let t1 := d.asn1_get_tag crt.raw.p (ASN1_CONSTRUCTED ||| ASN1_SEQUENCE)
  if t1.ret ≠ 0 then .error POLARSSL_ERR_X509_INVALID_FORMAT
  else if t1.val > t1.p.length then
    .error (POLARSSL_ERR_X509_INVALID_FORMAT + POLARSSL_ERR_ASN1_LENGTH_MISMATCH)
  else
    let t2 := d.asn1_get_tag t1.p (ASN1_CONSTRUCTED ||| ASN1_SEQUENCE)
    if t2.ret ≠ 0 then .error (POLARSSL_ERR_X509_INVALID_FORMAT + t2.ret)
    else
      let tbs_len := t1.p.length - (t2.p.drop t2.val).length
      .ok ({ crt with tbs := ⟨crt.tbs.tag, t1.p.take tbs_len⟩ }, t2.p.take t2.val,
        (t2.p.drop t2.val).take (t1.val - tbs_len), decide (t1.val < tbs_len))

/-- The part of `x509_crt_parse_der_core` from `x509_get_version` to `x509_get_sig_alg`, on the
bytes from `p` to the end of the TBSCertificate: the value returned by the step
that fails, or the node and the cursor. `crt->version++` is an `int` increment. -/
def x509_crt_parse_der_version (d : Asn1Full) (x : Lib) (crt : x509_crt) (p : List uint8_t) :
    Except Int (x509_crt × List uint8_t) :=
  let v := x509_get_version d.toAsn1 p crt.version
  if v.ret ≠ 0 then .error v.ret
  else
    let s := x.x509_get_serial v.p
    if s.ret ≠ 0 then .error s.ret
    else
      let a := x.x509_get_alg_null s.p
      if a.ret ≠ 0 then .error a.ret
      else
        let version := wrap_int32 (v.val + 1)
        if version > 3 then .error POLARSSL_ERR_X509_UNKNOWN_VERSION
        else
          let g := x.x509_get_sig_alg a.val
          if g.1 ≠ 0 then .error g.1
          else
            .ok ({ crt with version := version, serial := s.val, sig_oid1 := a.val,
                            sig_md := g.2.1, sig_pk := g.2.2 }, a.p)

/-- The part of `x509_crt_parse_der_core` from the issuer to the public key. -/
def x509_crt_parse_der_names (d : Asn1Full) (x : Lib) (crt : x509_crt) (p : List uint8_t) :
    Except Int (x509_crt × List uint8_t) :=
  let t3 := d.asn1_get_tag p (ASN1_CONSTRUCTED ||| ASN1_SEQUENCE)
  if t3.ret ≠ 0 then .error (POLARSSL_ERR_X509_INVALID_FORMAT + t3.ret)
  else
    let i := x.x509_get_name (t3.p.take t3.val)
    if i.ret ≠ 0 then .error i.ret
    else
      let p1 := i.p ++ t3.p.drop t3.val
      let dt := x509_get_dates d.toAsn1 x p1 crt.valid_from crt.valid_to
      if dt.ret ≠ 0 then .error dt.ret
      else
        let t4 := d.asn1_get_tag dt.p (ASN1_CONSTRUCTED ||| ASN1_SEQUENCE)
        if t4.ret ≠ 0 then .error (POLARSSL_ERR_X509_INVALID_FORMAT + t4.ret)
        else
          let u := if t4.val ≠ 0 then x.x509_get_name (t4.p.take t4.val)
            else ⟨0, crt.subject, []⟩
          if u.ret ≠ 0 then .error u.ret
          else
            let p2 := u.p ++ t4.p.drop t4.val
            let k := x.pk_parse_subpubkey p2
            if k.ret ≠ 0 then .error k.ret
            else
              .ok ({ crt with
                      issuer := i.val,
                      issuer_raw := ⟨crt.issuer_raw.tag, p.take (p.length - p1.length)⟩,
                      valid_from := dt.valid_from, valid_to := dt.valid_to,
                      subject := u.val,
                      subject_raw := ⟨crt.subject_raw.tag, dt.p.take (dt.p.length - p2.length)⟩,
                      pk := k.val }, k.p)

/-- The part of `x509_crt_parse_der_core` from the unique identifiers to the test
`p != end` at the end of the TBSCertificate. `get_crt_ext` stands for
`x509_get_crt_ext (p, end, crt)`: the embedding `x509_get_crt_ext` above bounds its loop,
so it enters here as a parameter. -/
def x509_crt_parse_der_optional (d : Asn1Full)
    (get_crt_ext : List uint8_t → x509_crt → crt_ext_out) (crt : x509_crt) (p : List uint8_t) :
    Except Int x509_crt :=
  let iu := if crt.version = 2 ∨ crt.version = 3 then x509_get_uid d.toAsn1 p crt.issuer_id 1
    else ⟨0, crt.issuer_id, p⟩
  if iu.ret ≠ 0 then .error iu.ret
  else
    let su := if crt.version = 2 ∨ crt.version = 3 then
        x509_get_uid d.toAsn1 iu.p crt.subject_id 2
      else ⟨0, crt.subject_id, iu.p⟩
    if su.ret ≠ 0 then .error su.ret
    else
      let e := if crt.version = 3 then
          get_crt_ext su.p { crt with issuer_id := iu.val, subject_id := su.val }
        else ⟨0, { crt with issuer_id := iu.val, subject_id := su.val }, su.p⟩
      if e.ret ≠ 0 then .error e.ret
      else if e.p ≠ [] then
        .error (POLARSSL_ERR_X509_INVALID_FORMAT + POLARSSL_ERR_ASN1_LENGTH_MISMATCH)
      else .ok e.crt

/-- The traversal of `x509_crt_parse_der_core` from the first `asn1_get_tag` to the test
`p != end` at the end of the TBSCertificate: the value returned by the step that
fails, or the node, the bytes from the end of the TBSCertificate to `crt_end`,
and whether the TBSCertificate ends beyond `crt_end`. -/
def x509_crt_parse_der_tbs (d : Asn1Full) (x : Lib)
    (get_crt_ext : List uint8_t → x509_crt → crt_ext_out) (crt : x509_crt) :
    Except Int (x509_crt × List uint8_t × Bool) :=
  match x509_crt_parse_der_head d crt with
  | .error ret => .error ret
  | .ok (crt, p, after, over) =>
    match x509_crt_parse_der_version d x crt p with
    | .error ret => .error ret
    | .ok (crt, p) =>
      match x509_crt_parse_der_names d x crt p with
      | .error ret => .error ret
      | .ok (crt, p) =>
        match x509_crt_parse_der_optional d get_crt_ext crt p with
        | .error ret => .error ret
        | .ok crt => .ok (crt, after, over)

/-- The end of `x509_crt_parse_der_core`, after `end = crt_end`: the outer
signatureAlgorithm, its comparison with `sig_oid1`, the signature and the last
test `p != end`; `p` holds the bytes from the end of the TBSCertificate to
`crt_end`, and `over` tells that the cursor is beyond `crt_end`. -/
def x509_crt_parse_der_sig (x : Lib) (crt : x509_crt) (p : List uint8_t) (over : Bool) :
    Except Int x509_crt :=
  let a := x.x509_get_alg_null p
  if a.ret ≠ 0 then .error a.ret
  else
    let crt := { crt with sig_oid2 := a.val }
    if crt.sig_oid1.len ≠ crt.sig_oid2.len ∨
        memcmp crt.sig_oid1.p crt.sig_oid2.p crt.sig_oid1.len ≠ 0 then
      .error POLARSSL_ERR_X509_SIG_MISMATCH
    else
      let s := x.x509_get_sig a.p
      if s.ret ≠ 0 then .error s.ret
      else if over = true ∨ s.p ≠ [] then
        .error (POLARSSL_ERR_X509_INVALID_FORMAT + POLARSSL_ERR_ASN1_LENGTH_MISMATCH)
      else .ok { crt with sig := s.val }

/-- The DER traversal of `x509_crt_parse_der_core` as the source has it. On a step
that fails the node is given back as the `x509_crt_free (crt)` before the `return`
leaves it. -/
def x509_crt_parse_der_fill (d : Asn1Full) (x : Lib)
    (get_crt_ext : List uint8_t → x509_crt → crt_ext_out) : der_traversal := fun crt =>
  match x509_crt_parse_der_tbs d x get_crt_ext crt with
  | .error ret => (ret, x509_crt_init)
  | .ok (crt, p, over) =>
    match x509_crt_parse_der_sig x crt p over with
    | .error ret => (ret, x509_crt_init)
    | .ok crt => (0, crt)

/-! ## Parsing a buffer of certificates -/

/-- Modelled from the spec: error `CERT_UNKNOWN_FORMAT` of the absent `x509.h`. -/
def POLARSSL_ERR_X509_CERT_UNKNOWN_FORMAT : Int := -0x2780
/-- Modelled from the spec: error `NO_HEADER_FOOTER_PRESENT` of the absent `pem.h`. -/
def POLARSSL_ERR_PEM_NO_HEADER_FOOTER_PRESENT : Int := -0x1080
/-- Modelled from the spec: error `BAD_INPUT_DATA` of the absent `pem.h`. -/
def POLARSSL_ERR_PEM_BAD_INPUT_DATA : Int := -0x1480

/-- The string `-----BEGIN CERTIFICATE-----`. -/
def pem_begin_crt : List uint8_t :=
  [45, 45, 45, 45, 45, 66, 69, 71, 73, 78, 32, 67, 69, 82, 84, 73, 70, 73, 67, 65, 84, 69,
   45, 45, 45, 45, 45]

/-- The test `strstr (haystack, needle) != NULL` on two strings given by their
bytes. -/
def strstr (haystack needle : List uint8_t) : Bool :=
  match haystack with
  | [] => needle.isPrefixOf []
  | c :: rest => needle.isPrefixOf (c :: rest) || strstr rest needle

/-- The C string at the start of a buffer: the bytes before the first NUL. -/
def c_string (buf : List uint8_t) : List uint8_t := buf.takeWhile (fun c => decide (c ≠ 0))

/-- What `pem_read_buffer` leaves: its result, the decoded content `pem.buf` (of length
`pem.buflen`) and `use_len`. -/
structure pem_out where
  ret : Int
  buf : List uint8_t
  use_len : Nat
deriving DecidableEq, Repr

/-- The call `pem_read_buffer (&pem, "-----BEGIN CERTIFICATE-----",
"-----END CERTIFICATE-----", buf, NULL, 0, &use_len)` of the absent `pem.c`, a
parameter: from the bytes at `buf` it gives the result, the decoded content and
`use_len`. -/
abbrev pem_reader := List uint8_t → pem_out

/-- The local variables `success`, `first_error` and `total_failed` of `x509_crt_parse`,
with the chain. -/
structure parse_state where
  chain : List x509_crt
  success : Int
  first_error : Int
  total_failed : Int
deriving DecidableEq, Repr

/-- The end of `x509_crt_parse`, after the loop. -/
def x509_crt_parse_end (success first_error total_failed : Int) : Int :=
  if success ≠ 0 then total_failed
  else if first_error ≠ 0 then first_error
  else POLARSSL_ERR_X509_CERT_UNKNOWN_FORMAT

/-- The loop `while (buflen > 0)` of `x509_crt_parse` followed by the end of the
function, on the `buflen` bytes at `buf`: the value returned and the chain. The
reader is taken to consume no more than the bytes left (`use_len <= buflen`). The
first argument bounds the number of turns; every turn that goes on consumes
`use_len` bytes, so the number of bytes left is enough when `use_len` is never `0`,
and `none` is a loop that has not ended within the bound. `total_failed++` is an
`int` increment. -/
def x509_crt_parse_loop (pem : pem_reader) (fill : der_traversal) (node_alloc raw_alloc : Bool) :
    Nat → List uint8_t → parse_state → Option (Int × List x509_crt)
  | _, [], st => some (x509_crt_parse_end st.success st.first_error st.total_failed, st.chain)
  | 0, _ :: _, _ => none
  | fuel + 1, c :: rest, st =>
    let r := pem (c :: rest)
    if r.ret = 0 then
      let d := x509_crt_parse_der fill node_alloc raw_alloc st.chain (some r.buf)
      if d.1 ≠ 0 then
        if d.1 = POLARSSL_ERR_X509_MALLOC_FAILED then some (d.1, d.2)
        else
          x509_crt_parse_loop pem fill node_alloc raw_alloc fuel ((c :: rest).drop r.use_len)
            ⟨d.2, st.success, if st.first_error = 0 then d.1 else st.first_error,
              wrap_int32 (st.total_failed + 1)⟩
      else
        x509_crt_parse_loop pem fill node_alloc raw_alloc fuel ((c :: rest).drop r.use_len)
          ⟨d.2, 1, st.first_error, st.total_failed⟩
    else if r.ret = POLARSSL_ERR_PEM_BAD_INPUT_DATA then some (r.ret, st.chain)
    else if r.ret ≠ POLARSSL_ERR_PEM_NO_HEADER_FOOTER_PRESENT then
      x509_crt_parse_loop pem fill node_alloc raw_alloc fuel ((c :: rest).drop r.use_len)
        ⟨st.chain, st.success, if st.first_error = 0 then r.ret else st.first_error,
          st.total_failed⟩
    else some (x509_crt_parse_end st.success st.first_error st.total_failed, st.chain)

/-- The function `x509_crt_parse (chain, buf, buflen)`, compiled with
`POLARSSL_PEM_PARSE_C`: the value returned and the chain. A null `chain` is `[]`, a
null `buf` is `none`. -/
def x509_crt_parse (pem : pem_reader) (fill : der_traversal) (node_alloc raw_alloc : Bool)
    (chain : List x509_crt) (buf : Option (List uint8_t)) : Option (Int × List x509_crt) :=
  match chain, buf with
  | [], _ => some (POLARSSL_ERR_X509_BAD_INPUT_DATA, chain)
  | _ :: _, none => some (POLARSSL_ERR_X509_BAD_INPUT_DATA, chain)
  | _ :: _, some b =>
    if strstr (c_string b) pem_begin_crt = false then
      some (x509_crt_parse_der fill node_alloc raw_alloc chain (some b))
    else x509_crt_parse_loop pem fill node_alloc raw_alloc b.length b ⟨chain, 0, 0, 0⟩

/-! ## Reference notions for the name matcher -/

/-- The bytes `A`-`Z` and `a`-`z`. -/
def is_ascii_letter (b : uint8_t) : Prop :=
  (65 ≤ b.val ∧ b.val ≤ 90) ∨ (97 ≤ b.val ∧ b.val ≤ 122)

instance (b : uint8_t) : Decidable (is_ascii_letter b) := by
  unfold is_ascii_letter; infer_instance

/-- The per-byte rule of the specification: the bytes are equal, or they differ
only in bit `0x20` and both are ASCII letters. -/
def name_byte_match (a b : uint8_t) : Prop :=
  a = b ∨ (a.val ^^^ b.val = 32 ∧ is_ascii_letter a ∧ is_ascii_letter b)

instance (a b : uint8_t) : Decidable (name_byte_match a b) := by
  unfold name_byte_match; infer_instance

/-- ASCII lower-casing of one byte: `A`-`Z` go to `a`-`z`, every other byte stays. -/
def ascii_lower (b : uint8_t) : uint8_t :=
  if 65 ≤ b.val ∧ b.val ≤ 90 then b + 32 else b

/-- The portion of `cn` from its first `.` to its end, empty when `cn` has no `.`. -/
def cn_from_first_dot (cn : List uint8_t) : List uint8_t :=
  cn.dropWhile (fun c => decide (c ≠ 46))

/-- The wildcard rule in the words of the specification: the presented name
begins with the two bytes `*.`, `cn` contains a `.`, and the portion of `cn` from
its first `.` to its end has the length of the name without its first byte and
matches it under `x509_name_cmp`. -/
def wildcard_rule (cn : List uint8_t) (name : x509_buf) : Prop :=
  name.p.take 2 = [42, 46] ∧ 46 ∈ cn ∧
    (cn_from_first_dot cn).length = name.len - 1 ∧
    x509_name_cmp (name.p.drop 1) (cn_from_first_dot cn) (name.len - 1) = 0

instance (cn : List uint8_t) (name : x509_buf) : Decidable (wildcard_rule cn name) := by
  unfold wildcard_rule; infer_instance

/-! ## Reference notions for parent suitability -/

/-- The parent may sign certificates: its CA bit is set, and it has no KeyUsage
extension or its `key_usage` contains `keyCertSign`. -/
def may_sign_certs (parent : x509_crt) : Prop :=
  parent.ca_istrue ≠ 0 ∧
    (parent.ext_types &&& EXT_KEY_USAGE = 0 ∨
      parent.key_usage &&& KU_KEY_CERT_SIGN = KU_KEY_CERT_SIGN)

instance (parent : x509_crt) : Decidable (may_sign_certs parent) := by
  unfold may_sign_certs; infer_instance

/-- The CA bit is not required, in the words of the specification: `top` is true
and either the version of the parent is 1 or 2, or `bottom` is true and the raw
encodings of child and parent are byte-identical. -/
def ca_bit_exempt_stated (child parent : x509_crt) (top bottom : Int) : Prop :=
  top ≠ 0 ∧ ((parent.version = 1 ∨ parent.version = 2) ∨
    (bottom ≠ 0 ∧ child.raw.p = parent.raw.p))

instance (child parent : x509_crt) (top bottom : Int) :
    Decidable (ca_bit_exempt_stated child parent top bottom) := by
  unfold ca_bit_exempt_stated; infer_instance

/-- The CA bit is not required, with the version test of the code: `top` is true
and either the version of the parent is below 3, or `bottom` is true and the raw
encodings of child and parent are byte-identical. -/
def ca_bit_exempt (child parent : x509_crt) (top bottom : Int) : Prop :=
  top ≠ 0 ∧ (parent.version < 3 ∨ (bottom ≠ 0 ∧ child.raw.p = parent.raw.p))

instance (child parent : x509_crt) (top bottom : Int) :
    Decidable (ca_bit_exempt child parent top bottom) := by
  unfold ca_bit_exempt; infer_instance

/-! ## Reference notions for the chain verifier -/

/-- The certificate is inside its validity window: it is neither expired nor
not yet valid. -/
def time_ok (env : Env) (c : x509_crt) : Prop :=
  env.x509_time_expired c.valid_to = 0 ∧ env.x509_time_future c.valid_from = 0

/-- The signature of `c` verifies under the key of `p`: the digest algorithm of
`c` is known, the key of `p` can do the signature algorithm of `c`, and
`pk_verify` of the digest of `c.tbs` under `p.pk` succeeds. -/
def sig_ok (env : Env) (c p : x509_crt) : Prop :=
  ∃ md_info, env.md_info_from_type c.sig_md = some md_info ∧
    env.pk_can_do p.pk c.sig_pk ≠ 0 ∧
    env.pk_verify p.pk c.sig_md (env.md md_info c.tbs.p) md_info.size c.sig.p = 0

/-- A verified path: `c` is at depth `depth`, `path` holds the certificates above
it in order, and `root` is the trusted certificate that ends the path. Every
certificate of the path is inside its validity window, is accepted by
`x509_crt_check_parent` with `top = 0` against the next one and is signed by it;
the last one, at depth `k`, is accepted with `top = 1` and `bottom = (k == 0)`
against `root` and is signed by it. -/
def chain_ok (env : Env) : x509_crt → List x509_crt → x509_crt → Nat → Prop
  | c, [], root, depth =>
    time_ok env c ∧ x509_crt_check_parent c root 1 (c_bool (depth = 0)) = 0 ∧ sig_ok env c root
  | c, p :: rest, root, depth =>
    time_ok env c ∧ (∀ bottom, x509_crt_check_parent c p 0 bottom = 0) ∧ sig_ok env c p ∧
      chain_ok env p rest root (depth + 1)

/-! ## Reference notions for the callback -/

/-- The invocations of a run are consistent with its return value: either the
run returned `0` and so did every invocation, or the run returned a nonzero
value, which is the value returned by the last invocation, and every earlier
invocation returned `0`. -/
def trace_ok {σ : Type} (r : verify_result σ) : Prop :=
  (r.ret = 0 ∧ ∀ c ∈ r.calls, c.ret = 0) ∨
  (r.ret ≠ 0 ∧ ∃ pre c, r.calls = pre ++ [c] ∧ c.ret = r.ret ∧ ∀ d ∈ pre, d.ret = 0)

/-- The depths of the invocations in the order of the specification, bottom-up:
`0, 1, 2, ...`. -/
def depths_bottom_up (calls : List cb_call) : Prop :=
  calls.map (fun c => c.depth) = (List.range calls.length).map (fun (i : Nat) => (i : Int))

instance (calls : List cb_call) : Decidable (depths_bottom_up calls) := by
  unfold depths_bottom_up; infer_instance

/-- The depths of the invocations from the top of the path down to `d`:
`d + n - 1, ..., d + 1, d` for `n` invocations. -/
def depths_down_to (d : Int) (calls : List cb_call) : Prop :=
  calls.map (fun c => c.depth) =
    (List.range calls.length).reverse.map (fun (i : Nat) => d + (i : Int))

instance (d : Int) (calls : List cb_call) : Decidable (depths_down_to d calls) := by
  unfold depths_down_to; infer_instance

/-! ## Reference notions for the hostname check -/

/-- An entry of `subject_alt_names` matches `cn`: exactly, with the length of `cn`
and under `x509_name_cmp`, or by `x509_wildcard_verify`. -/
def san_entry_matches (cn : List uint8_t) (e : x509_buf) : Prop :=
  (e.len = cn.length ∧ x509_name_cmp cn e.p cn.length = 0) ∨ x509_wildcard_verify cn e = 1

instance (cn : List uint8_t) (e : x509_buf) : Decidable (san_entry_matches cn e) := by
  unfold san_entry_matches; infer_instance

/-! ## Reference notions for revocation -/

/-- The entries that `x509_crt_revoked` examines: the nodes of the list before
the first node whose serial is empty, where its loop stops. -/
def crl_entries (crl : x509_crl) : List x509_crl_entry :=
  (crl.entry :: crl.entry_next).takeWhile (fun e => decide (e.serial.len ≠ 0))

/-- The entry names the certificate as revoked: its serial equals the serial of
the certificate in length and bytes and its revocation date is in the past. -/
def entry_revokes (env : Env) (crt : x509_crt) (e : x509_crl_entry) : Prop :=
  e.serial.p = crt.serial.p ∧ env.x509_time_expired e.revocation_date ≠ 0

instance (env : Env) (crt : x509_crt) (e : x509_crl_entry) :
    Decidable (entry_revokes env crt e) := by
  unfold entry_revokes; infer_instance

/-- The CRL is one of the CA: it is parsed (`version != 0`) and its issuer equals
the subject of the CA in length and bytes. -/
def crl_of_ca (crl : x509_crl) (ca : x509_crt) : Prop :=
  crl.version ≠ 0 ∧ crl.issuer_raw.p = ca.subject_raw.p

/-- The signature of the CRL verifies under the key of the CA: its digest
algorithm is known, the key can do its signature algorithm, and `pk_verify` of
the digest of `crl.tbs` succeeds. -/
def crl_sig_ok (env : Env) (crl : x509_crl) (ca : x509_crt) : Prop :=
  ∃ md_info, env.md_info_from_type crl.sig_md = some md_info ∧
    env.pk_can_do ca.pk crl.sig_pk ≠ 0 ∧
    env.pk_verify ca.pk crl.sig_md (env.md md_info crl.tbs.p) md_info.size crl.sig.p = 0

instance (crl : x509_crl) (ca : x509_crt) : Decidable (crl_of_ca crl ca) := by
  unfold crl_of_ca; infer_instance

/-! ## Reference notions for the DER encoding -/

/-- The byte of value `n mod 256`. -/
def byte (n : Nat) : uint8_t := ⟨n % 256, Nat.mod_lt n (by decide)⟩

/-- The DER encoding of a length below `2^32`: the short form below 128, and
otherwise the long form on the least number of bytes. -/
def der_len (n : Nat) : List uint8_t :=
  if n < 0x80 then [byte n]
  else if n < 0x100 then [0x81, byte n]
  else if n < 0x10000 then [0x82, byte (n / 0x100), byte n]
  else if n < 0x1000000 then [0x83, byte (n / 0x10000), byte (n / 0x100), byte n]
  else [0x84, byte (n / 0x1000000), byte (n / 0x10000), byte (n / 0x100), byte n]

/-- The DER encoding of a value: the tag byte, the length of the content and the
content. -/
def der_tlv (tag : uint8_t) (content : List uint8_t) : List uint8_t :=
  tag :: der_len content.length ++ content

/-! ## Reference notions for SubjectAltName -/

/-- The bytes of a list of GeneralName entries, each given by its tag byte and
its content and encoded in DER. -/
def general_names_der : List (uint8_t × List uint8_t) → List uint8_t
  | [] => []
  | e :: es => der_tlv e.1 e.2 ++ general_names_der es

/-- The dNSName entries of a list of GeneralName entries, those of tag `[2]`
(byte `0x82`), as buffers, in their order. -/
def dns_names (es : List (uint8_t × List uint8_t)) : List x509_buf :=
  (es.filter (fun e => decide (e.1.val = 0x82))).map (fun e => ⟨(e.1.val : Nat), e.2⟩)

/-- The sequence that holds the given buffers: the first in the embedded head,
the others linked after it; the empty list is the zero head without
successor. -/
def x509_sequence.of_names : List x509_buf → x509_sequence
  | [] => ⟨⟨0, []⟩, []⟩
  | head :: rest => ⟨head, rest⟩

/-! ## Reference notions for the PEM blocks -/

/-- The PEM blocks of an input, as the reads of `pem_read_buffer` delimit them: the
result of the read at the start of the input, then of the read after the
`use_len` bytes of that block, and so on up to the first read that finds no
header and footer, or the end of the input. The first argument bounds the
number of blocks. -/
def pem_blocks (pem : pem_reader) : Nat → List uint8_t → List pem_out
  | _, [] => []
  | 0, _ :: _ => []
  | fuel + 1, c :: rest =>
    if (pem (c :: rest)).ret = POLARSSL_ERR_PEM_NO_HEADER_FOOTER_PRESENT ∨
        (pem (c :: rest)).ret = POLARSSL_ERR_PEM_BAD_INPUT_DATA then []
    else pem (c :: rest) :: pem_blocks pem fuel ((c :: rest).drop (pem (c :: rest)).use_len)

/-- The reads of `pem_read_buffer` that the loop of `x509_crt_parse` makes on an input:
those that delimit the blocks, and the read that ends the loop when it finds
no header and footer. -/
def pem_reads (pem : pem_reader) : Nat → List uint8_t → List pem_out
  | _, [] => []
  | 0, _ :: _ => []
  | fuel + 1, c :: rest =>
    if (pem (c :: rest)).ret = POLARSSL_ERR_PEM_NO_HEADER_FOOTER_PRESENT ∨
        (pem (c :: rest)).ret = POLARSSL_ERR_PEM_BAD_INPUT_DATA then [pem (c :: rest)]
    else pem (c :: rest) :: pem_reads pem fuel ((c :: rest).drop (pem (c :: rest)).use_len)

/-- What a PEM block yields: its body cannot be decoded (with the error of the
reader), its DER payload is rejected (with the error of `x509_crt_parse_der`), or
it gives a certificate. -/
inductive block_result where
  | undecodable (ret : Int)
  | rejected (ret : Int)
  | parsed
deriving DecidableEq, Repr

/-- What the blocks yield, in input order, when each decoded payload goes to
`x509_crt_parse_der` with the chain left by the blocks before it and no allocation
fails. -/
def block_results (fill : der_traversal) : List x509_crt → List pem_out → List block_result
  | _, [] => []
  | chain, r :: rs =>
    if r.ret ≠ 0 then block_result.undecodable r.ret :: block_results fill chain rs
    else if (x509_crt_parse_der fill true true chain (some r.buf)).1 ≠ 0 then
      block_result.rejected (x509_crt_parse_der fill true true chain (some r.buf)).1 ::
        block_results fill (x509_crt_parse_der fill true true chain (some r.buf)).2 rs
    else
      block_result.parsed ::
        block_results fill (x509_crt_parse_der fill true true chain (some r.buf)).2 rs

/-- The chain after the blocks. -/
def chain_after (fill : der_traversal) : List x509_crt → List pem_out → List x509_crt
  | chain, [] => chain
  | chain, r :: rs =>
    if r.ret ≠ 0 then chain_after fill chain rs
    else chain_after fill (x509_crt_parse_der fill true true chain (some r.buf)).2 rs

/-- The number of blocks that did not give a certificate. -/
def failed_count (rs : List block_result) : Nat :=
  (rs.filter (fun r => decide (r ≠ block_result.parsed))).length

/-- The number of blocks whose DER payload was rejected. -/
def rejected_count : List block_result → Nat
  | [] => 0
  | block_result.rejected _ :: rs => rejected_count rs + 1
  | _ :: rs => rejected_count rs

/-- The first error in input order, `0` when no block failed. -/
def first_error_of : List block_result → Int
  | [] => 0
  | block_result.undecodable ret :: _ => ret
  | block_result.rejected ret :: _ => ret
  | block_result.parsed :: rs => first_error_of rs

/-- The number of blocks whose PEM body could not be decoded. -/
def undecodable_count : List block_result → Nat
  | [] => 0
  | block_result.undecodable _ :: rs => undecodable_count rs + 1
  | _ :: rs => undecodable_count rs

/-- The error of a block, `0` for a block that gave a certificate. -/
def block_error : block_result → Int
  | block_result.undecodable ret => ret
  | block_result.rejected ret => ret
  | block_result.parsed => 0

/-! ## Reference notions for the validity of a CRL -/

/-- The flags that the two validity tests of `x509_crt_verifycrl` set for a CRL:
`BADCRL_EXPIRED` when its `next_update` is in the past, `BADCRL_FUTURE` when its
`this_update` is in the future. -/
def crl_validity_flags (env : Env) (crl : x509_crl) : Nat :=
  (if env.x509_time_expired crl.next_update ≠ 0 then BADCRL_EXPIRED else 0) |||
    (if env.x509_time_future crl.this_update ≠ 0 then BADCRL_FUTURE else 0)

/-! ## Reference notions for the compare length -/

/-- The loop of `x509_crt_verify_top` over the trusted list in the variant that
compares `child.subject_raw` with `trust_ca.subject_raw` over `child.subject_raw.len`
bytes, where the code passes `child->issuer_raw.len` to `memcmp`. -/
def x509_crt_verify_top_loop_subject_len (env : Env) (child : x509_crt) (path_cnt : Int)
    (hash : List uint8_t) (md_size : Nat) : List x509_crt → Int → Option x509_crt
  | [], _ => none
  | trust_ca :: rest, check_path_cnt =>
    if x509_crt_check_parent child trust_ca 1 (c_bool (path_cnt = 0)) ≠ 0 then
      x509_crt_verify_top_loop_subject_len env child path_cnt hash md_size rest check_path_cnt
    else
      let check_path_cnt :=
        if child.subject_raw.len = trust_ca.subject_raw.len ∧
            memcmp child.subject_raw.p trust_ca.subject_raw.p child.subject_raw.len = 0 then
          check_path_cnt - 1
        else check_path_cnt
      if trust_ca.max_pathlen > 0 ∧ trust_ca.max_pathlen < check_path_cnt then
        x509_crt_verify_top_loop_subject_len env child path_cnt hash md_size rest check_path_cnt
      else if env.pk_can_do trust_ca.pk child.sig_pk = 0 ∨
          env.pk_verify trust_ca.pk child.sig_md hash md_size child.sig.p ≠ 0 then
        x509_crt_verify_top_loop_subject_len env child path_cnt hash md_size rest check_path_cnt
      else some trust_ca

/-- The search of the trusted list in the variant of `x509_crt_verify_top` that
compares over `child.subject_raw.len` bytes. -/
def x509_crt_verify_top_find_subject_len (env : Env) (child : x509_crt)
    (trust_ca : List x509_crt) (path_cnt : Int) : Option x509_crt :=
  match env.md_info_from_type child.sig_md with
  | none => none
  | some md_info =>
    x509_crt_verify_top_loop_subject_len env child path_cnt (env.md md_info child.tbs.p)
      md_info.size trust_ca (path_cnt + 1)

/-- The variant of `x509_crt_verify_top` whose two subject-equality tests compare
`child.subject_raw` with `trust_ca.subject_raw` over `child.subject_raw.len` bytes; the
rest is the function as written. -/
def x509_crt_verify_top_subject_len {σ : Type} (env : Env) (child : x509_crt)
    (trust_ca : List x509_crt) (ca_crl : List x509_crl) (path_cnt : Int) (flags : Nat)
    (f_vrfy : Option (vrfy_cb σ)) (p_vrfy : σ) : verify_result σ :=
  let flags := if env.x509_time_expired child.valid_to ≠ 0 then
    flags ||| BADCERT_EXPIRED else flags
  let flags := if env.x509_time_future child.valid_from ≠ 0 then
    flags ||| BADCERT_FUTURE else flags
  let flags := flags ||| BADCERT_NOT_TRUSTED
  match x509_crt_verify_top_find_subject_len env child trust_ca path_cnt with
  | none => x509_crt_verify_top_finish f_vrfy child path_cnt flags 0 p_vrfy []
  | some ca =>
    let flags := clear_flags flags BADCERT_NOT_TRUSTED
    if child.subject_raw.len ≠ ca.subject_raw.len ∨
        memcmp child.subject_raw.p ca.subject_raw.p child.subject_raw.len ≠ 0 then
      let flags := flags ||| x509_crt_verifycrl env child (some ca) ca_crl
      let ca_flags : Nat := 0
      let ca_flags := if env.x509_time_expired ca.valid_to ≠ 0 then
        ca_flags ||| BADCERT_EXPIRED else ca_flags
      let ca_flags := if env.x509_time_future ca.valid_from ≠ 0 then
        ca_flags ||| BADCERT_FUTURE else ca_flags
      let r := call_vrfy f_vrfy p_vrfy ca (path_cnt + 1) ca_flags
      if r.ret ≠ 0 then ⟨r.ret, flags, r.p_vrfy, r.calls⟩
      else x509_crt_verify_top_finish f_vrfy child path_cnt flags r.flags r.p_vrfy r.calls
    else x509_crt_verify_top_finish f_vrfy child path_cnt flags 0 p_vrfy []

/-! ## Reference notions for the depth of the recursion -/

/-- The values of `path_cnt` in the calls of `x509_crt_verify_child` and
`x509_crt_verify_top` that follow from a call of `x509_crt_verify_child` with the given
`parent` and `path_cnt`, in call order, the loop pointer `grandparent` being at the
head of the list: that call itself; then, when the loop ends with a null
pointer, the call of `x509_crt_verify_top` with `path_cnt + 1`; when a candidate is
accepted, the calls that follow from `x509_crt_verify_child` on it with
`path_cnt + 1`. -/
def x509_crt_verify_child_path_cnts : x509_crt → List x509_crt → Int → List Int
  | _, [], path_cnt => [path_cnt, path_cnt + 1]
  | parent, grandparent :: grandparent_next, path_cnt =>
    if x509_crt_check_parent parent grandparent 0 (c_bool (path_cnt = 0)) = 0 then
      path_cnt :: x509_crt_verify_child_path_cnts grandparent grandparent_next (path_cnt + 1)
    else x509_crt_verify_child_path_cnts parent grandparent_next path_cnt

/-- The values of `path_cnt` in the calls of `x509_crt_verify_child` and
`x509_crt_verify_top` of a run of `x509_crt_verify`, in call order. -/
def x509_crt_verify_path_cnts (crt : x509_crt) (crt_next : List x509_crt) : List Int :=
  match find_parent crt (c_bool ((0 : Int) = 0)) crt_next with
  | some (parent, parent_next) => x509_crt_verify_child_path_cnts parent parent_next 0
  | none => [0]

/-! ## Reference notions for the path-length constraint -/

/-- The certificate with its `max_pathlen` erased: two certificates are identical
except for `max_pathlen` when they agree after this. -/
def erase_max_pathlen (c : x509_crt) : x509_crt := { c with max_pathlen := 0 }

/-- An invocation of the callback with the `max_pathlen` of its certificate
erased. -/
def cb_call.erase_max_pathlen (c : cb_call) : cb_call :=
  { c with crt := X509.erase_max_pathlen c.crt }

/-- The callback is absent, or what it returns and leaves does not depend on
the `max_pathlen` of the certificate it is given. -/
def cb_ignores_max_pathlen {σ : Type} (f_vrfy : Option (vrfy_cb σ)) : Prop :=
  match f_vrfy with
  | none => True
  | some f => ∀ (p : σ) (c c' : x509_crt) (depth : Int) (flags : Nat),
      erase_max_pathlen c = erase_max_pathlen c' → f p c depth flags = f p c' depth flags

/-- Two runs have the same outcome: the same return value, flags and user
context, and the same invocations of the callback, on certificates that are
identical except for `max_pathlen`. -/
def same_outcome {σ : Type} (r r' : verify_result σ) : Prop :=
  r.ret = r'.ret ∧ r.flags = r'.flags ∧ r.p_vrfy = r'.p_vrfy ∧
    r.calls.map cb_call.erase_max_pathlen = r'.calls.map cb_call.erase_max_pathlen

/-! ## Example inputs -/

/-- An example environment: digest algorithm 1 is the only one known and its
digest is the message itself; every key can do every signature algorithm; a
signature verifies when it is the key followed by the digest; a time is expired
before the year 2000 and in the future after the year 3000. -/
def demo_env : Env where
  md_info_from_type := fun t => if t = 1 then some ⟨1, 4⟩ else none
  md := fun _ msg => msg
  pk_can_do := fun _ _ => 1
  pk_verify := fun pk _ hash _ sig => if sig = pk.key ++ hash then 0 else -1
  x509_time_expired := fun t => if t.year < 2000 then 1 else 0
  x509_time_future := fun t => if t.year > 3000 then 1 else 0

/-- An example end-entity certificate, issued by `demo_ca`. -/
def demo_leaf : x509_crt :=
  { x509_crt_init with
    version := 3, raw := ⟨0x30, [1]⟩, tbs := ⟨0x30, [1]⟩, issuer_raw := ⟨0x30, [10]⟩,
    subject_raw := ⟨0x30, [11]⟩, valid_from := ⟨2001, 1, 1, 0, 0, 0⟩,
    valid_to := ⟨2500, 1, 1, 0, 0, 0⟩, pk := ⟨[5]⟩, sig := ⟨0x03, [6, 1]⟩, sig_md := 1 }

/-- An example intermediate CA certificate, issued by `demo_root`. -/
def demo_ca : x509_crt :=
  { x509_crt_init with
    version := 3, raw := ⟨0x30, [2]⟩, tbs := ⟨0x30, [2]⟩, issuer_raw := ⟨0x30, [9]⟩,
    subject_raw := ⟨0x30, [10]⟩, valid_from := ⟨2001, 1, 1, 0, 0, 0⟩,
    valid_to := ⟨2500, 1, 1, 0, 0, 0⟩, pk := ⟨[6]⟩, sig := ⟨0x03, [7, 2]⟩, sig_md := 1,
    ca_istrue := 1 }

/-- An example self-signed root certificate. -/
def demo_root : x509_crt :=
  { x509_crt_init with
    version := 3, raw := ⟨0x30, [3]⟩, tbs := ⟨0x30, [3]⟩, issuer_raw := ⟨0x30, [9]⟩,
    subject_raw := ⟨0x30, [9]⟩, valid_from := ⟨2001, 1, 1, 0, 0, 0⟩,
    valid_to := ⟨2500, 1, 1, 0, 0, 0⟩, pk := ⟨[7]⟩, sig := ⟨0x03, [7, 3]⟩, sig_md := 1,
    ca_istrue := 1 }

/-- An example callback: it counts its invocations in the user context, leaves
the flags as they are and returns `0`. -/
def demo_cb : vrfy_cb Nat := fun n _ _ flags => (0, flags, n + 1)

/-- An example callback that aborts: it returns `7` at depth 1 and `0` at every
other depth, and leaves the flags as they are. -/
def demo_abort_cb : vrfy_cb Nat := fun n _ depth flags =>
  (if depth = 1 then 7 else 0, flags, n + 1)

/-- The host name `example.com`. -/
def example_com : List uint8_t := [101, 120, 97, 109, 112, 108, 101, 46, 99, 111, 109]

/-- The wildcard name `*.example.com`. -/
def star_example_com : List uint8_t := [42, 46] ++ example_com

/-- The host name `www.example.com`. -/
def www_example_com : List uint8_t := [119, 119, 119, 46] ++ example_com

/-- The example end-entity certificate with a SubjectAltName extension whose
only dNSName entry is `*.example.com`. -/
def demo_san_leaf : x509_crt :=
  { demo_leaf with
    ext_types := EXT_SUBJECT_ALT_NAME,
    subject_alt_names := ⟨⟨0x82, star_example_com⟩, []⟩ }

/-- The example SubjectAltName leaf with the Subject `CN=example.com`. -/
def demo_san_cn_leaf : x509_crt :=
  { demo_san_leaf with
    subject := ⟨⟨0x06, OID_AT_CN⟩, ⟨0x0C, example_com⟩, []⟩ }

/-- The example end-entity certificate with the serial number `05`. -/
def demo_leaf_05 : x509_crt :=
  { demo_leaf with serial := ⟨0x02, [5]⟩ }

/-- An example CRL entry: the serial `01`, revoked in 1990. -/
def demo_entry_01 : x509_crl_entry := ⟨⟨0x30, []⟩, ⟨0x02, [1]⟩, ⟨1990, 1, 1, 0, 0, 0⟩⟩

/-- An example CRL entry: the serial `05`, revoked in 1990. -/
def demo_entry_05 : x509_crl_entry := ⟨⟨0x30, []⟩, ⟨0x02, [5]⟩, ⟨1990, 1, 1, 0, 0, 0⟩⟩

/-- An example CRL entry with an empty serial (the INTEGER `02 00`). -/
def demo_entry_empty : x509_crl_entry := ⟨⟨0x30, []⟩, ⟨0x02, []⟩, ⟨1990, 1, 1, 0, 0, 0⟩⟩

/-- An example CRL issued and signed by `demo_ca`, inside its validity window,
which revokes the serials `01` and `05`. -/
def demo_crl : x509_crl :=
  { raw := ⟨0x30, [8]⟩, tbs := ⟨0x30, [8]⟩, version := 1, sig_oid1 := ⟨0x06, []⟩,
    issuer_raw := ⟨0x30, [10]⟩, this_update := ⟨2001, 1, 1, 0, 0, 0⟩,
    next_update := ⟨2500, 1, 1, 0, 0, 0⟩, entry := demo_entry_01,
    entry_next := [demo_entry_05], sig_oid2 := ⟨0x06, []⟩, sig := ⟨0x03, [6, 8]⟩,
    sig_md := 1, sig_pk := 0 }

/-- The example CRL with an entry of empty serial between its two entries. -/
def demo_crl_gap : x509_crl :=
  { demo_crl with entry_next := [demo_entry_empty, demo_entry_05] }

/-- The example CRL of another issuer. -/
def demo_crl_other : x509_crl :=
  { demo_crl with issuer_raw := ⟨0x30, [77]⟩ }

/-- The example CA with a KeyUsage extension that holds `keyCertSign` but not
`cRLSign`. -/
def demo_ca_no_crl_sign : x509_crt :=
  { demo_ca with ext_types := EXT_KEY_USAGE, key_usage := KU_KEY_CERT_SIGN }

/-- A BasicConstraints body: `SEQUENCE { BOOLEAN TRUE, INTEGER 2 }`. -/
def bc_ca_pathlen_2 : List uint8_t := [0x30, 0x06, 0x01, 0x01, 0xFF, 0x02, 0x01, 0x02]

/-- A BasicConstraints body: `SEQUENCE { BOOLEAN TRUE }`. -/
def bc_ca_only : List uint8_t := [0x30, 0x03, 0x01, 0x01, 0xFF]

/-- A BasicConstraints body: `SEQUENCE { BOOLEAN TRUE, INTEGER 2147483647 }`, the
largest pathLenConstraint an `int` holds. -/
def bc_ca_pathlen_max : List uint8_t :=
  [0x30, 0x09, 0x01, 0x01, 0xFF, 0x02, 0x04, 0x7F, 0xFF, 0xFF, 0xFF]

/-- An example DER traversal: it fails with `-0x2180` on an empty buffer and on a
buffer that does not begin with the SEQUENCE tag, after writing the `tbs` field;
otherwise it succeeds with a version 3 certificate. -/
def demo_fill : der_traversal := fun c =>
  if c.raw.p.head? = some 0x30 then (0, { c with tbs := c.raw, version := 3 })
  else (-0x2180, { c with tbs := c.raw })

/-- An example self-issued certificate at the top of a path: its issuer and its
subject are the name of `demo_root`, and it is signed with the key `08`. -/
def demo_self_issued : x509_crt :=
  { demo_root with raw := ⟨0x30, [4]⟩, tbs := ⟨0x30, [4]⟩, pk := ⟨[8]⟩, sig := ⟨0x03, [8, 4]⟩ }

/-- An example trusted root with the name of `demo_root`, the key `08` and a
pathLenConstraint of 0 (`max_pathlen = 1`). -/
def demo_root_pathlen : x509_crt :=
  { demo_root with raw := ⟨0x30, [5]⟩, tbs := ⟨0x30, [5]⟩, pk := ⟨[8]⟩, sig := ⟨0x03, [8, 5]⟩,
                   max_pathlen := 1 }

/-- The example end-entity certificate with a validity window that ended in
1999. -/
def demo_leaf_expired : x509_crt :=
  { demo_leaf with valid_to := ⟨1999, 1, 1, 0, 0, 0⟩ }

/-- A BasicConstraints extension body: the empty `SEQUENCE` followed by the three
bytes `01 01 FF`, which lie beyond the end of the SEQUENCE. -/
def bc_empty_then_bool : List uint8_t := [0x30, 0x00, 0x01, 0x01, 0xFF]

/-- A BasicConstraints extension body: `SEQUENCE { BOOLEAN TRUE }` followed by the
byte `00`, which lies beyond the end of the SEQUENCE. -/
def bc_ca_then_byte : List uint8_t := [0x30, 0x03, 0x01, 0x01, 0xFF, 0x00]

/-- A BIT STRING with two content bytes, `80 80`, and 7 unused bits. -/
def bits_two_bytes : List uint8_t := [0x03, 0x03, 0x07, 0x80, 0x80]

/-- Three GeneralName entries: the dNSName `a`, an iPAddress and the dNSName
`bc`. -/
def demo_general_names : List (uint8_t × List uint8_t) :=
  [(0x82, [97]), (0x87, [10, 0, 0, 1]), (0x82, [98, 99])]

/-- An example of the parameters `Lib`, with simple readers. The OID registry knows
BasicConstraints, KeyUsage, ExtendedKeyUsage, SubjectAltName and the Netscape
certificate type; `asn1_get_sequence_of` reads a SEQUENCE of one element; `x509_get_ext`
reads the `[3]` wrapper and the header of the SEQUENCE in it; a serial is an
INTEGER, an algorithm a SEQUENCE holding an OID, with `2A 03` as the only known
signature algorithm; a name is kept as one atom; a time is a UTCTime whose
content is the year, big-endian; a key is the content of a SEQUENCE
and a signature the content of a BIT STRING. -/
def demo_lib : Lib where
  asn1_get_sequence_of := fun p cur tag =>
    let t := asn1_get_tag p (ASN1_CONSTRUCTED ||| ASN1_SEQUENCE)
    if t.ret ≠ 0 then ⟨t.ret, cur, t.p⟩
    else
      let e := asn1_get_tag t.p tag
      if e.ret ≠ 0 then ⟨e.ret, cur, e.p⟩
      else ⟨0, ⟨⟨tag, e.p.take e.val⟩, []⟩, e.p.drop e.val⟩
  oid_get_x509_ext_type := fun oid =>
    if oid.p = [0x55, 0x1D, 0x13] then (0, EXT_BASIC_CONSTRAINTS)
    else if oid.p = [0x55, 0x1D, 0x0F] then (0, EXT_KEY_USAGE)
    else if oid.p = [0x55, 0x1D, 0x25] then (0, EXT_EXTENDED_KEY_USAGE)
    else if oid.p = [0x55, 0x1D, 0x11] then (0, EXT_SUBJECT_ALT_NAME)
    else if oid.p = [0x60, 0x86, 0x48, 0x01, 0x86, 0xF8, 0x42, 0x01, 0x01] then
      (0, EXT_NS_CERT_TYPE)
    else (-0x002E, 0)
  x509_get_ext := fun p ext tag =>
    match p with
    | [] => ⟨0, ext, p⟩
    | b :: _ =>
      let t := asn1_get_tag p (ASN1_CONTEXT_SPECIFIC ||| ASN1_CONSTRUCTED ||| tag)
      if t.ret ≠ 0 then ⟨t.ret, ⟨b.val, ext.p⟩, t.p⟩
      else
        let s := asn1_get_tag (t.p.take t.val) (ASN1_CONSTRUCTED ||| ASN1_SEQUENCE)
        if s.ret ≠ 0 then
          ⟨POLARSSL_ERR_X509_INVALID_EXTENSIONS + s.ret, ⟨b.val, t.p.take t.val⟩, s.p⟩
        else if s.p.length ≠ s.val then
          ⟨POLARSSL_ERR_X509_INVALID_EXTENSIONS + POLARSSL_ERR_ASN1_LENGTH_MISMATCH,
            ⟨b.val, t.p.take t.val⟩, s.p⟩
        else ⟨0, ⟨b.val, t.p.take t.val⟩, s.p ++ t.p.drop t.val⟩
  x509_get_serial := fun p =>
    let t := asn1_get_tag p ASN1_INTEGER
    if t.ret ≠ 0 then ⟨-0x2280 + t.ret, ⟨0, []⟩, t.p⟩
    else ⟨0, ⟨ASN1_INTEGER, t.p.take t.val⟩, t.p.drop t.val⟩
  x509_get_alg_null := fun p =>
    let t := asn1_get_tag p (ASN1_CONSTRUCTED ||| ASN1_SEQUENCE)
    if t.ret ≠ 0 then ⟨-0x2300 + t.ret, ⟨0, []⟩, t.p⟩
    else
      let o := asn1_get_tag (t.p.take t.val) ASN1_OID
      if o.ret ≠ 0 then ⟨-0x2300 + o.ret, ⟨0, []⟩, o.p⟩
      else ⟨0, ⟨ASN1_OID, o.p.take o.val⟩, t.p.drop t.val⟩
  x509_get_sig_alg := fun oid => if oid.p = [0x2A, 0x03] then (0, 1, 1) else (-0x2600, 0, 0)
  x509_get_name := fun p =>
    if p = [] then ⟨-0x2380 + POLARSSL_ERR_ASN1_OUT_OF_DATA, ⟨⟨0, []⟩, ⟨0, []⟩, []⟩, p⟩
    else ⟨0, ⟨⟨ASN1_OID, OID_AT_CN⟩, ⟨0x0C, p⟩, []⟩, []⟩
  x509_get_time := fun p =>
    let t := asn1_get_tag p 0x17
    if t.ret ≠ 0 then ⟨-0x2400 + t.ret, ⟨0, 0, 0, 0, 0, 0⟩, t.p⟩
    else ⟨0, ⟨be_nat (t.p.take t.val), 1, 1, 0, 0, 0⟩, t.p.drop t.val⟩
  x509_get_sig := fun p =>
    let t := asn1_get_tag p ASN1_BIT_STRING
    if t.ret ≠ 0 then ⟨-0x2480 + t.ret, ⟨0, []⟩, t.p⟩
    else ⟨0, ⟨ASN1_BIT_STRING, (t.p.take t.val).drop 1⟩, t.p.drop t.val⟩
  pk_parse_subpubkey := fun p =>
    let t := asn1_get_tag p (ASN1_CONSTRUCTED ||| ASN1_SEQUENCE)
    if t.ret ≠ 0 then ⟨-0x2D00 + t.ret, ⟨[]⟩, t.p⟩
    else ⟨0, ⟨t.p.take t.val⟩, t.p.drop t.val⟩

/-- The extension parser for the examples: `x509_get_crt_ext` with the DER decoder,
`demo_lib` and every node allocated. -/
def demo_get_crt_ext (p : List uint8_t) (crt : x509_crt) : crt_ext_out :=
  (x509_get_crt_ext der_full demo_lib true p crt).getD
    ⟨POLARSSL_ERR_X509_INVALID_EXTENSIONS + POLARSSL_ERR_ASN1_OUT_OF_DATA, crt, p⟩

/-- The DER traversal for the examples. -/
def demo_traversal : der_traversal := x509_crt_parse_der_fill der_full demo_lib demo_get_crt_ext

/-- An example certificate in the encoding that `demo_lib` reads, with the given
bytes as version field and the given OID as outer signature algorithm: serial
`01`, signature algorithm `2A 03`, issuer `A`, validity 2001 to 2500, subject `B`,
key `05`, signature `AA`. -/
def demo_cert_der (version oid2 : List uint8_t) : List uint8_t :=
  der_tlv 0x30
    (der_tlv 0x30
      (version ++ der_tlv 0x02 [0x01] ++ der_tlv 0x30 (der_tlv 0x06 [0x2A, 0x03]) ++
        der_tlv 0x30 [0x0C, 0x01, 0x41] ++
        der_tlv 0x30 (der_tlv 0x17 [0x07, 0xD1] ++ der_tlv 0x17 [0x09, 0xC4]) ++
        der_tlv 0x30 [0x0C, 0x01, 0x42] ++ der_tlv 0x30 [0x05]) ++
      der_tlv 0x30 (der_tlv 0x06 oid2) ++ der_tlv 0x03 [0x00, 0xAA])

/-- The version field `[0] { INTEGER 2147483647 }`, the bytes
`A0 06 02 04 7F FF FF FF`. -/
def version_int_max : List uint8_t := der_tlv 0xA0 (der_tlv 0x02 [0x7F, 0xFF, 0xFF, 0xFF])

/-- The version field of a version 3 certificate, `[0] { INTEGER 2 }`. -/
def version_v3 : List uint8_t := der_tlv 0xA0 (der_tlv 0x02 [0x02])

/-- The string `-----END CERTIFICATE-----`. -/
def pem_end_crt : List uint8_t :=
  [45, 45, 45, 45, 45, 69, 78, 68, 32, 67, 69, 82, 84, 73, 70, 73, 67, 65, 84, 69,
   45, 45, 45, 45, 45]

/-- The offset of the first occurrence of `needle` in a string, counted from `i`. -/
def find_sub (needle : List uint8_t) : List uint8_t → Nat → Option Nat
  | [], i => if needle.isPrefixOf [] then some i else none
  | c :: rest, i => if needle.isPrefixOf (c :: rest) then some i else find_sub needle rest (i + 1)

/-- The value of a character of the base64 alphabet. -/
def b64_val (c : uint8_t) : Option Nat :=
  if 65 ≤ c.val ∧ c.val ≤ 90 then some (c.val - 65)
  else if 97 ≤ c.val ∧ c.val ≤ 122 then some (c.val - 71)
  else if 48 ≤ c.val ∧ c.val ≤ 57 then some (c.val + 4)
  else if c.val = 43 then some 62
  else if c.val = 47 then some 63
  else none

/-- The bytes that a base64 text without line breaks encodes, `none` for a text
that is not base64. -/
def b64_decode : List uint8_t → Option (List uint8_t)
  | [] => some []
  | a :: b :: c :: d :: rest =>
    match b64_val a, b64_val b with
    | some x, some y =>
      if c.val = 61 ∧ d.val = 61 ∧ rest = [] then some [byte (x * 4 + y / 16)]
      else
        match b64_val c with
        | some z =>
          if d.val = 61 ∧ rest = [] then some [byte (x * 4 + y / 16), byte (y % 16 * 16 + z / 4)]
          else
            match b64_val d, b64_decode rest with
            | some w, some tl =>
              some (byte (x * 4 + y / 16) :: byte (y % 16 * 16 + z / 4) ::
                byte (z % 4 * 64 + w) :: tl)
            | _, _ => none
        | none => none
    | _, _ => none
  | _ => none

/-- An example reader, after `pem_read_buffer` of PolarSSL on a text that is not
encrypted: without a header, a footer after it and a line break after the
header it returns `POLARSSL_ERR_PEM_NO_HEADER_FOOTER_PRESENT`; otherwise `use_len` is
the offset of the end of the footer line, and the body between the header
line and the footer is decoded, with the error `-0x112C` (invalid data, invalid
base64 character) for a body that is not base64. -/
def demo_pem : pem_reader := fun data =>
  let s := c_string data
  match find_sub pem_begin_crt s 0, find_sub pem_end_crt s 0 with
  | some i1, some i2 =>
    if i2 ≤ i1 then ⟨POLARSSL_ERR_PEM_NO_HEADER_FOOTER_PRESENT, [], 0⟩
    else
      let a := s.drop (i1 + 27)
      let a1 := if a.head? = some 13 then a.drop 1 else a
      if a1.head? ≠ some 10 then ⟨POLARSSL_ERR_PEM_NO_HEADER_FOOTER_PRESENT, [], 0⟩
      else
        let e := s.drop (i2 + 25)
        let e1 := if e.head? = some 13 then e.drop 1 else e
        let e2 := if e1.head? = some 10 then e1.drop 1 else e1
        let body := (s.take i2).drop (s.length - (a1.length - 1))
        match b64_decode (body.filter (fun c => decide (c.val ≠ 10 ∧ c.val ≠ 13))) with
        | none => ⟨-0x112C, [], s.length - e2.length⟩
        | some bytes => ⟨0, bytes, s.length - e2.length⟩
  | _, _ => ⟨POLARSSL_ERR_PEM_NO_HEADER_FOOTER_PRESENT, [], 0⟩

/-- A PEM block with the body given, on one line. -/
def pem_block (body : List uint8_t) : List uint8_t :=
  pem_begin_crt ++ [10] ++ body ++ [10] ++ pem_end_crt ++ [10]

/-- The block with the body `MAA=`, the bytes `30 00`. -/
def pem_block_good : List uint8_t := pem_block [77, 65, 65, 61]

/-- The block with the body `BAA=`, the bytes `04 00`. -/
def pem_block_octets : List uint8_t := pem_block [66, 65, 65, 61]

/-- The block with the body `!!!!`, which is not base64. -/
def pem_block_undecodable : List uint8_t := pem_block [33, 33, 33, 33]

/-- The example CRL past its `next_update`. -/
def demo_crl_expired : x509_crl :=
  { demo_crl with next_update := ⟨1999, 1, 1, 0, 0, 0⟩ }

/-- The example CRL with an entry of empty serial between its two entries, past
its `next_update`. -/
def demo_crl_gap_expired : x509_crl :=
  { demo_crl_gap with next_update := ⟨1999, 1, 1, 0, 0, 0⟩ }

/-- The example intermediate CA with a subject of two bytes, so that its
`subject_raw.len` differs from its `issuer_raw.len`. -/
def demo_ca_long_subject : x509_crt :=
  { demo_ca with subject_raw := ⟨0x30, [10, 12]⟩ }

/-- An example subordinate CA certificate, issued by `demo_ca`. -/
def demo_sub_ca : x509_crt :=
  { x509_crt_init with
    version := 3, raw := ⟨0x30, [4]⟩, tbs := ⟨0x30, [4]⟩, issuer_raw := ⟨0x30, [10]⟩,
    subject_raw := ⟨0x30, [12]⟩, valid_from := ⟨2001, 1, 1, 0, 0, 0⟩,
    valid_to := ⟨2500, 1, 1, 0, 0, 0⟩, pk := ⟨[8]⟩, sig := ⟨0x03, [6, 4]⟩, sig_md := 1,
    ca_istrue := 1 }

/-- An example end-entity certificate, issued by `demo_sub_ca`. -/
def demo_sub_leaf : x509_crt :=
  { demo_leaf with
    raw := ⟨0x30, [5]⟩, tbs := ⟨0x30, [5]⟩, issuer_raw := ⟨0x30, [12]⟩,
    subject_raw := ⟨0x30, [13]⟩, sig := ⟨0x03, [8, 5]⟩ }

/-- The example intermediate CA with a pathLenConstraint of 0 (`max_pathlen = 1`):
it may issue end-entity certificates only. -/
def demo_ca_pathlen_0 : x509_crt := { demo_ca with max_pathlen := 1 }

/-- An example callback that enforces the path-length constraint itself: it
sets `BADCERT_NOT_TRUSTED` on a certificate whose `max_pathlen` is set and below its
depth, and returns `0`. -/
def demo_pathlen_cb : vrfy_cb Nat := fun n c depth flags =>
  (0, if c.max_pathlen > 0 ∧ c.max_pathlen < depth then flags ||| BADCERT_NOT_TRUSTED else flags,
    n + 1)

/-! ## Theorems -/

set_option maxRecDepth 100000 in
theorem xor32_letter : ∀ a : uint8_t,
    ((97 ≤ a.val ∧ a.val ≤ 122) ∨ (65 ≤ a.val ∧ a.val ≤ 90)) →
    ∀ b : uint8_t, b.val = a.val ^^^ 32 → is_ascii_letter a ∧ is_ascii_letter b ∧
      ascii_lower a = ascii_lower b := by
  decide

set_option maxRecDepth 100000 in
theorem upper_add32 : ∀ a : uint8_t, (65 ≤ a.val ∧ a.val ≤ 90) →
    name_byte_match a (a + 32) ∧ name_byte_match (a + 32) a ∧
      ¬ (65 ≤ (a + 32).val ∧ (a + 32).val ≤ 90) := by
  decide

theorem byte_xor_mod (a b : uint8_t) : (a.val ^^^ b.val) % 256 = a.val ^^^ b.val := by
  apply Nat.mod_eq_of_lt
  exact Nat.xor_lt_two_pow (n := 8) a.isLt b.isLt

/-- One round of the loop of `x509_name_cmp` continues exactly when the two bytes
satisfy the per-byte rule. -/
theorem name_cmp_step_iff (a b : uint8_t) :
    ((a.val ^^^ b.val) % 256 = 0 ∨ ((a.val ^^^ b.val) % 256 = 32 ∧
      ((97 ≤ a.val ∧ a.val ≤ 122) ∨ (65 ≤ a.val ∧ a.val ≤ 90)))) ↔ name_byte_match a b := by
  rw [byte_xor_mod]
  constructor
  · rintro (h | ⟨h, hl⟩)
    · left; exact Fin.ext (Nat.xor_eq_zero.mp h)
    · right
      have hb : b.val = a.val ^^^ 32 := by rw [← h, Nat.xor_cancel_left]
      exact ⟨h, (xor32_letter a hl b hb).1, (xor32_letter a hl b hb).2.1⟩
  · rintro (h | ⟨h, hl, _⟩)
    · left; rw [h]; exact Nat.xor_self _
    · right; refine ⟨h, ?_⟩
      rcases hl with hl | hl
      · right; exact hl
      · left; exact hl

theorem name_byte_match_iff_lower (a b : uint8_t) :
    name_byte_match a b ↔ ascii_lower a = ascii_lower b := by
  constructor
  · rintro (h | ⟨h, hl, _⟩)
    · rw [h]
    · have hb : b.val = a.val ^^^ 32 := by rw [← h, Nat.xor_cancel_left]
      have hl2 : (97 ≤ a.val ∧ a.val ≤ 122) ∨ (65 ≤ a.val ∧ a.val ≤ 90) := by
        rcases hl with hl | hl
        · right; exact hl
        · left; exact hl
      exact (xor32_letter a hl2 b hb).2.2
  · intro h
    by_cases ha : 65 ≤ a.val ∧ a.val ≤ 90 <;> by_cases hb : 65 ≤ b.val ∧ b.val ≤ 90
    · simp only [ascii_lower, ha, hb, and_self, if_true] at h
      left; exact add_right_cancel h
    · simp only [ascii_lower, ha, hb, and_self, if_true, if_false] at h
      rw [← h]; exact (upper_add32 a ha).1
    · simp only [ascii_lower, ha, hb, and_self, if_true, if_false] at h
      rw [h]; exact (upper_add32 b hb).2.1
    · simp only [ascii_lower, ha, hb, if_false] at h
      left; exact h

theorem name_cmp_cons (a b : uint8_t) (n1 n2 : List uint8_t) (len : Nat) :
    x509_name_cmp (a :: n1) (b :: n2) (len + 1) = 0 ↔
      name_byte_match a b ∧ x509_name_cmp n1 n2 len = 0 := by
  rw [← name_cmp_step_iff]
  simp only [x509_name_cmp]
  by_cases h0 : (a.val ^^^ b.val) % 256 = 0
  · simp [h0]
  · by_cases h1 : (a.val ^^^ b.val) % 256 = 32 ∧
        ((97 ≤ a.val ∧ a.val ≤ 122) ∨ (65 ≤ a.val ∧ a.val ≤ 90))
    · simp [h0, h1]
    · simp only [h0, h1, if_false, false_or, false_and]
      simp

theorem name_cmp_range (s1 s2 : List uint8_t) (len : Nat) :
    x509_name_cmp s1 s2 len = 0 ∨ x509_name_cmp s1 s2 len = 1 := by
  induction len generalizing s1 s2 with
  | zero => left; simp [x509_name_cmp]
  | succ n ih =>
    cases s1 with
    | nil => right; simp [x509_name_cmp]
    | cons a n1 =>
      cases s2 with
      | nil => right; simp [x509_name_cmp]
      | cons b n2 =>
        simp only [x509_name_cmp]
        split
        · exact ih n1 n2
        · split
          · exact ih n1 n2
          · right; rfl

theorem name_cmp_pointwise (s1 s2 : List uint8_t) (len : Nat)
    (h1 : len ≤ s1.length) (h2 : len ≤ s2.length) :
    x509_name_cmp s1 s2 len = 0 ↔
      ∀ i, i < len → name_byte_match (s1.getD i 0) (s2.getD i 0) := by
  induction len generalizing s1 s2 with
  | zero => simp [x509_name_cmp]
  | succ n ih =>
    cases s1 with
    | nil => simp at h1
    | cons a n1 =>
      cases s2 with
      | nil => simp at h2
      | cons b n2 =>
        simp only [List.length_cons, Nat.add_le_add_iff_right] at h1 h2
        rw [name_cmp_cons, ih n1 n2 h1 h2]
        constructor
        · rintro ⟨h0, hr⟩ i hi
          cases i with
          | zero => simpa using h0
          | succ j => simpa using hr j (by omega)
        · intro h
          refine ⟨by simpa using h 0 (by omega), fun i hi => ?_⟩
          simpa using h (i + 1) (by omega)

theorem name_cmp_lower (s1 s2 : List uint8_t) (len : Nat)
    (h1 : len ≤ s1.length) (h2 : len ≤ s2.length) :
    x509_name_cmp s1 s2 len = 0 ↔
      (s1.take len).map ascii_lower = (s2.take len).map ascii_lower := by
  induction len generalizing s1 s2 with
  | zero => simp [x509_name_cmp]
  | succ n ih =>
    cases s1 with
    | nil => simp at h1
    | cons a n1 =>
      cases s2 with
      | nil => simp at h2
      | cons b n2 =>
        simp only [List.length_cons, Nat.add_le_add_iff_right] at h1 h2
        rw [name_cmp_cons, ih n1 n2 h1 h2, name_byte_match_iff_lower]
        simp

/-- C8: on buffers that hold at least `len` bytes, `x509_name_cmp` returns `0` exactly
when every one of the first `len` byte pairs is equal or differs only in bit
`0x20` with both bytes ASCII letters; it returns `1` otherwise; and it returns
`0` exactly when the two strings are equal after ASCII lower-casing. -/
theorem x509_name_cmp_reference (s1 s2 : List uint8_t) (len : Nat)
    (h1 : len ≤ s1.length) (h2 : len ≤ s2.length) :
    (x509_name_cmp s1 s2 len = 0 ↔
      ∀ i, i < len → name_byte_match (s1.getD i 0) (s2.getD i 0)) ∧
    (x509_name_cmp s1 s2 len ≠ 0 → x509_name_cmp s1 s2 len = 1) ∧
    (x509_name_cmp s1 s2 len = 0 ↔
      (s1.take len).map ascii_lower = (s2.take len).map ascii_lower) :=
  ⟨name_cmp_pointwise s1 s2 len h1 h2,
   fun h => (name_cmp_range s1 s2 len).resolve_left h,
   name_cmp_lower s1 s2 len h1 h2⟩

/-- Witness of C8 on the strings `Ab1` and `aB2` with length 2. -/
theorem x509_name_cmp_reference_witness :
    (x509_name_cmp [65, 98, 49] [97, 66, 50] 2 = 0 ↔
      ∀ i, i < 2 → name_byte_match (([65, 98, 49] : List uint8_t).getD i 0)
        (([97, 66, 50] : List uint8_t).getD i 0)) ∧
    (x509_name_cmp [65, 98, 49] [97, 66, 50] 2 ≠ 0 →
      x509_name_cmp [65, 98, 49] [97, 66, 50] 2 = 1) ∧
    (x509_name_cmp [65, 98, 49] [97, 66, 50] 2 = 0 ↔
      (([65, 98, 49] : List uint8_t).take 2).map ascii_lower =
        (([97, 66, 50] : List uint8_t).take 2).map ascii_lower) :=
  x509_name_cmp_reference [65, 98, 49] [97, 66, 50] 2 (by decide) (by decide)

theorem wildcard_cn_idx_no_dot (cn : List uint8_t) (i : Nat) (h : (46 : uint8_t) ∉ cn) :
    wildcard_cn_idx cn i = 0 := by
  induction cn generalizing i with
  | nil => rfl
  | cons c rest ih =>
    simp only [List.mem_cons, not_or] at h
    have hc : c ≠ 46 := fun e => h.1 e.symm
    simp only [wildcard_cn_idx, hc, if_false]
    exact ih (i + 1) h.2

theorem wildcard_cn_idx_dot (cn : List uint8_t) (i : Nat) (h : (46 : uint8_t) ∈ cn) :
    ∃ k, wildcard_cn_idx cn i = i + k ∧ k < cn.length ∧
      cn.drop k = cn_from_first_dot cn ∧ (k = 0 ↔ cn.head? = some 46) := by
  induction cn generalizing i with
  | nil => simp at h
  | cons c rest ih =>
    by_cases hc : c = 46
    · refine ⟨0, ?_, ?_, ?_, ?_⟩
      · simp [wildcard_cn_idx, hc]
      · simp
      · simp [cn_from_first_dot, List.dropWhile, hc]
      · simp [hc]
    · have hr : (46 : uint8_t) ∈ rest := by
        rcases List.mem_cons.mp h with e | e
        · exact absurd e.symm hc
        · exact e
      obtain ⟨k, h1, h2, h3, _⟩ := ih (i + 1) hr
      refine ⟨k + 1, ?_, ?_, ?_, ?_⟩
      · simp only [wildcard_cn_idx, hc, if_false, h1]; omega
      · simp only [List.length_cons]; omega
      · simp only [List.drop_succ_cons, h3]
        simp [cn_from_first_dot, List.dropWhile, hc]
      · simp [hc]

theorem begins_star_dot (p : List uint8_t) :
    (¬ (p.get? 0 ≠ some 42 ∨ p.get? 1 ≠ some 46)) ↔ p.take 2 = [42, 46] := by
  match p with
  | [] => simp
  | [a] => simp
  | a :: b :: r => simp

/-- C9, as amended: `x509_wildcard_verify` returns `1` exactly when the presented
name has at least three bytes and begins with `*.`, `cn` contains a `.` which is
not its first byte, and the portion of `cn` from its first `.` to its end has the
length of the name without its first byte and matches it under `x509_name_cmp`;
in every other case it returns `0`. -/
theorem x509_wildcard_verify_rule (cn : List uint8_t) (name : x509_buf) :
    (x509_wildcard_verify cn name = 1 ↔
      (3 ≤ name.len ∧ cn.head? ≠ some 46 ∧ wildcard_rule cn name)) ∧
    (x509_wildcard_verify cn name = 1 ∨ x509_wildcard_verify cn name = 0) := by
  unfold x509_wildcard_verify wildcard_rule
  by_cases hlen : name.len < 3
  · simp only [hlen, true_or, if_true]
    refine ⟨⟨fun h => absurd h (by decide), fun h => absurd h.1 (by omega)⟩, by simp⟩
  · by_cases hsd : name.p.get? 0 ≠ some 42 ∨ name.p.get? 1 ≠ some 46
    · simp only [hsd, or_true, if_true]
      refine ⟨⟨fun h => absurd h (by decide), fun h => ?_⟩, by simp⟩
      exact absurd ((begins_star_dot name.p).mpr h.2.2.1) (not_not.mpr hsd)
    · have hbeg := (begins_star_dot name.p).mp hsd
      simp only [hlen, hsd, or_self, if_false]
      by_cases hdot : (46 : uint8_t) ∈ cn
      · obtain ⟨k, h1, h2, h3, h4⟩ := wildcard_cn_idx_dot cn 0 hdot
        simp only [Nat.zero_add] at h1
        have hl : (cn_from_first_dot cn).length = cn.length - k := by
          rw [← h3, List.length_drop]
        rw [h1, h3, hl]
        by_cases hk : k = 0
        · simp only [hk, if_true]
          refine ⟨⟨fun h => absurd h (by decide), fun h => ?_⟩, by simp⟩
          exact absurd (h4.mp hk) h.2.1
        · have hh : cn.head? ≠ some 46 := fun e => hk (h4.mpr e)
          simp only [hk, if_false]
          split
          · rename_i hc
            exact ⟨⟨fun _ => ⟨by omega, hh, hbeg, hdot, hc.1, hc.2⟩, fun _ => rfl⟩,
              Or.inl rfl⟩
          · rename_i hc
            refine ⟨⟨fun h => absurd h (by decide), fun h => ?_⟩, Or.inr rfl⟩
            exact absurd ⟨h.2.2.2.2.1, h.2.2.2.2.2⟩ hc
      · rw [wildcard_cn_idx_no_dot cn 0 hdot]
        simp only [if_true]
        refine ⟨⟨fun h => absurd h (by decide), fun h => ?_⟩, by simp⟩
        exact absurd h.2.2.2.1 hdot

/-- C9, counterexample: for `cn = ".a"` and the presented name `"*.a"` the rule as
stated holds (the name begins with `*.`, `cn` contains a `.`, and `cn` from its
first `.` on is `.a`, which is the name without its first byte), yet
`x509_wildcard_verify` returns `0`, because the first `.` of `cn` is at index 0. -/
theorem x509_wildcard_verify_leading_dot :
    wildcard_rule [46, 97] ⟨0, [42, 46, 97]⟩ ∧
      x509_wildcard_verify [46, 97] ⟨0, [42, 46, 97]⟩ = 0 ∧
      ¬ (x509_wildcard_verify [46, 97] ⟨0, [42, 46, 97]⟩ = 1 ↔
        wildcard_rule [46, 97] ⟨0, [42, 46, 97]⟩) := by
  decide

/-- The length test followed by `memcmp` over that length, as the code compares
two buffers, succeeds exactly when the buffers hold the same bytes. -/
theorem buf_cmp_iff (a b : List uint8_t) :
    ¬ (a.length ≠ b.length ∨ memcmp a b a.length ≠ 0) ↔ a = b := by
  unfold memcmp
  constructor
  · intro h
    simp only [not_or, not_not] at h
    obtain ⟨hl, hm⟩ := h
    by_cases e : a.take a.length = b.take a.length
    · rw [List.take_length, hl, List.take_length] at e
      exact e
    · rw [if_neg e] at hm; exact absurd hm (by decide)
  · intro h
    subst h
    simp

theorem need_ca_bit_iff (child parent : x509_crt) (top bottom : Int) :
    need_ca_bit child parent top bottom = false ↔ ca_bit_exempt child parent top bottom := by
  have hraw := buf_cmp_iff child.raw.p parent.raw.p
  simp only [not_or, not_not] at hraw
  unfold need_ca_bit ca_bit_exempt x509_buf.len
  by_cases ht : top = 0
  · simp [ht]
  · by_cases hv : parent.version < 3
    · by_cases hb : bottom ≠ 0 ∧ child.raw.p.length = parent.raw.p.length ∧
          memcmp child.raw.p parent.raw.p child.raw.p.length = 0
      · simp [ht, hv, hb]
      · simp [ht, hv, hb]
    · by_cases hb : bottom = 0
      · simp [ht, hv, hb]
      · by_cases hr : child.raw.p = parent.raw.p
        · simp [ht, hv, hb, hr, memcmp]
        · have : ¬ (child.raw.p.length = parent.raw.p.length ∧
              memcmp child.raw.p parent.raw.p child.raw.p.length = 0) := fun h => hr (hraw.mp h)
          simp [ht, hv, hb, hr, this]

theorem check_key_usage_iff (crt : x509_crt) (usage : Nat) :
    x509_crt_check_key_usage crt usage = 0 ↔
      (crt.ext_types &&& EXT_KEY_USAGE = 0 ∨ crt.key_usage &&& usage = usage) := by
  unfold x509_crt_check_key_usage
  by_cases h : crt.ext_types &&& EXT_KEY_USAGE ≠ 0 ∧ crt.key_usage &&& usage ≠ usage
  · rw [if_pos h]
    constructor
    · intro e; exact absurd e (by decide)
    · rintro (e | e)
      · exact absurd e h.1
      · exact absurd e h.2
  · rw [if_neg h]
    simp only [true_iff]
    by_cases e : crt.ext_types &&& EXT_KEY_USAGE = 0
    · left; exact e
    · right
      by_contra e2
      exact h ⟨e, e2⟩

/-- The acceptance condition of `x509_crt_check_parent`: the issuer of the child
is the subject of the parent, and the CA bit is waived or the parent may sign
certificates. -/
theorem check_parent_zero_iff (child parent : x509_crt) (top bottom : Int) :
    x509_crt_check_parent child parent top bottom = 0 ↔
      (child.issuer_raw.p = parent.subject_raw.p ∧
        (ca_bit_exempt child parent top bottom ∨ may_sign_certs parent)) := by
  have hiss := buf_cmp_iff child.issuer_raw.p parent.subject_raw.p
  have hneed := need_ca_bit_iff child parent top bottom
  have hku := check_key_usage_iff parent KU_KEY_CERT_SIGN
  unfold x509_crt_check_parent may_sign_certs x509_buf.len
  by_cases h1 : child.issuer_raw.p.length ≠ parent.subject_raw.p.length ∨
      memcmp child.issuer_raw.p parent.subject_raw.p child.issuer_raw.p.length ≠ 0
  · have hne : child.issuer_raw.p ≠ parent.subject_raw.p := fun e => (hiss.mpr e) h1
    rw [if_pos h1]
    exact ⟨fun h => absurd h (by decide), fun h => absurd h.1 hne⟩
  · have he : child.issuer_raw.p = parent.subject_raw.p := hiss.mp h1
    rw [if_neg h1]
    cases hn : need_ca_bit child parent top bottom with
    | false =>
      have hex := hneed.mp hn
      simp only [Bool.false_eq_true, false_and, if_false]
      exact ⟨fun _ => ⟨he, Or.inl hex⟩, fun _ => trivial⟩
    | true =>
      have hex : ¬ ca_bit_exempt child parent top bottom := fun h => by
        rw [hneed.mpr h] at hn; exact absurd hn (by decide)
      simp only [true_and]
      by_cases hca : parent.ca_istrue = 0
      · rw [if_pos hca]
        refine ⟨fun h => absurd h (by decide), fun h => ?_⟩
        rcases h.2 with h | h
        · exact absurd h hex
        · exact absurd hca h.1
      · rw [if_neg hca]
        by_cases hk : x509_crt_check_key_usage parent KU_KEY_CERT_SIGN = 0
        · rw [if_neg (not_not.mpr hk)]
          exact ⟨fun _ => ⟨he, Or.inr ⟨hca, hku.mp hk⟩⟩, fun _ => rfl⟩
        · rw [if_pos hk]
          refine ⟨fun h => absurd h (by decide), fun h => ?_⟩
          rcases h.2 with h | h
          · exact absurd h hex
          · exact absurd (hku.mpr h.2) hk

/-- C2, as amended: `x509_crt_check_parent` returns `0` exactly when the issuer of
the child equals the subject of the parent in length and bytes, and either the
CA bit is not required, or the parent has its CA bit set and has no KeyUsage
extension or a `key_usage` containing `keyCertSign`; the CA bit is not required
exactly when `top` is true and either the version of the parent is below 3, or
`bottom` is true and the raw encodings are byte-identical. In every other case
the function returns `-1`. For a parent whose version is at least 1, as the
parser leaves it, "below 3" is "1 or 2" and the condition is the one of the
specification. -/
theorem x509_crt_check_parent_reference (child parent : x509_crt) (top bottom : Int) :
    (x509_crt_check_parent child parent top bottom = 0 ↔
      (child.issuer_raw.p = parent.subject_raw.p ∧
        (ca_bit_exempt child parent top bottom ∨ may_sign_certs parent))) ∧
    (x509_crt_check_parent child parent top bottom = 0 ∨
      x509_crt_check_parent child parent top bottom = -1) ∧
    (1 ≤ parent.version →
      (x509_crt_check_parent child parent top bottom = 0 ↔
        (child.issuer_raw.p = parent.subject_raw.p ∧
          (ca_bit_exempt_stated child parent top bottom ∨ may_sign_certs parent)))) := by
  refine ⟨check_parent_zero_iff child parent top bottom, ?_, fun hv => ?_⟩
  · unfold x509_crt_check_parent
    split
    · right; rfl
    · split
      · right; rfl
      · split
        · right; rfl
        · left; rfl
  · rw [check_parent_zero_iff]
    have e : ca_bit_exempt child parent top bottom ↔
        ca_bit_exempt_stated child parent top bottom := by
      unfold ca_bit_exempt ca_bit_exempt_stated
      have : parent.version < 3 ↔ (parent.version = 1 ∨ parent.version = 2) := by
        constructor <;> intro h <;> omega
      rw [this]
    rw [e]

/-- Witness of C2 as amended, on the example leaf and its issuer, whose version
is 3. -/
theorem x509_crt_check_parent_reference_witness :
    (x509_crt_check_parent demo_leaf demo_ca 0 1 = 0 ↔
      (demo_leaf.issuer_raw.p = demo_ca.subject_raw.p ∧
        (ca_bit_exempt demo_leaf demo_ca 0 1 ∨ may_sign_certs demo_ca))) ∧
    (x509_crt_check_parent demo_leaf demo_ca 0 1 = 0 ∨
      x509_crt_check_parent demo_leaf demo_ca 0 1 = -1) ∧
    (x509_crt_check_parent demo_leaf demo_ca 0 1 = 0 ↔
      (demo_leaf.issuer_raw.p = demo_ca.subject_raw.p ∧
        (ca_bit_exempt_stated demo_leaf demo_ca 0 1 ∨ may_sign_certs demo_ca))) :=
  ⟨(x509_crt_check_parent_reference demo_leaf demo_ca 0 1).1,
   (x509_crt_check_parent_reference demo_leaf demo_ca 0 1).2.1,
   (x509_crt_check_parent_reference demo_leaf demo_ca 0 1).2.2 (by decide)⟩

/-- C2, counterexample: with `top` true and `bottom` false, a parent left in the
zero state of `x509_crt_init` (version 0, CA bit clear) is accepted for a child
with the same empty issuer, although its version is neither 1 nor 2: the code
waives the CA bit for every version below 3. -/
theorem x509_crt_check_parent_version_zero :
    x509_crt_check_parent x509_crt_init x509_crt_init 1 0 = 0 ∧
      ¬ (x509_crt_check_parent x509_crt_init x509_crt_init 1 0 = 0 ↔
        (x509_crt_init.issuer_raw.p = x509_crt_init.subject_raw.p ∧
          (ca_bit_exempt_stated x509_crt_init x509_crt_init 1 0 ∨
            may_sign_certs x509_crt_init))) := by
  decide

/-! ### The chain verifier -/

theorem or_eq_zero_iff (a b : Nat) : a ||| b = 0 ↔ a = 0 ∧ b = 0 := by
  constructor
  · intro h
    have key : ∀ i, a.testBit i = false ∧ b.testBit i = false := by
      intro i
      have := congrArg (fun n => n.testBit i) h
      simpa [Nat.testBit_or] using this
    exact ⟨Nat.eq_of_testBit_eq (fun i => by simp [(key i).1]),
      Nat.eq_of_testBit_eq (fun i => by simp [(key i).2])⟩
  · rintro ⟨rfl, rfl⟩; rfl

/-- With `top = 0` the result of `x509_crt_check_parent` does not depend on
`bottom`. -/
theorem check_parent_top_zero (child parent : x509_crt) (b b' : Int) :
    x509_crt_check_parent child parent 0 b = x509_crt_check_parent child parent 0 b' := by
  simp [x509_crt_check_parent, need_ca_bit]

/-- The walk of `x509_crt_verify_child` in the shape of the source: the search
loop first, then the call on the parent. -/
theorem verify_child_walk_eq {σ : Type} (env : Env) (trust_ca : List x509_crt)
    (ca_crl : List x509_crl) (f_vrfy : Option (vrfy_cb σ)) (child parent : x509_crt)
    (cands : List x509_crt) (path_cnt : Int) (flags : Nat) (p_vrfy : σ) :
    x509_crt_verify_child_walk env trust_ca ca_crl f_vrfy child parent cands path_cnt flags
        p_vrfy =
      x509_crt_verify_child_finish f_vrfy child path_cnt flags
        (match find_parent parent (c_bool (path_cnt = 0)) cands with
         | some (grandparent, grandparent_next) =>
           x509_crt_verify_child env parent grandparent grandparent_next trust_ca ca_crl
             (path_cnt + 1) 0 f_vrfy p_vrfy
         | none =>
           x509_crt_verify_top env parent trust_ca ca_crl (path_cnt + 1) 0 f_vrfy p_vrfy) := by
  induction cands with
  | nil => simp [x509_crt_verify_child_walk, find_parent]
  | cons g rest ih =>
    by_cases h : x509_crt_check_parent parent g 0 (c_bool (path_cnt = 0)) = 0
    · simp [x509_crt_verify_child_walk, find_parent, h, x509_crt_verify_child]
    · simp only [x509_crt_verify_child_walk, find_parent, h, if_false]
      exact ih

/-- The function `x509_crt_verify_child` in the shape of the source: the checks on
the child, the search for a grandparent, the call of `x509_crt_verify_child` or
`x509_crt_verify_top` on the parent with `path_cnt + 1` and fresh flags, then the
callback on the child and `*flags |= parent_flags`. -/
theorem x509_crt_verify_child_unfold {σ : Type} (env : Env) (child parent : x509_crt)
    (parent_next trust_ca : List x509_crt) (ca_crl : List x509_crl) (path_cnt : Int)
    (flags : Nat) (f_vrfy : Option (vrfy_cb σ)) (p_vrfy : σ) :
    x509_crt_verify_child env child parent parent_next trust_ca ca_crl path_cnt flags
        f_vrfy p_vrfy =
      x509_crt_verify_child_finish f_vrfy child path_cnt
        (x509_crt_verify_child_checks env child parent ca_crl flags)
        (match find_parent parent (c_bool (path_cnt = 0)) parent_next with
         | some (grandparent, grandparent_next) =>
           x509_crt_verify_child env parent grandparent grandparent_next trust_ca ca_crl
             (path_cnt + 1) 0 f_vrfy p_vrfy
         | none =>
           x509_crt_verify_top env parent trust_ca ca_crl (path_cnt + 1) 0 f_vrfy p_vrfy) := by
  unfold x509_crt_verify_child
  exact verify_child_walk_eq env trust_ca ca_crl f_vrfy child parent parent_next path_cnt _ p_vrfy

/-- What `find_parent` returns is accepted by `x509_crt_check_parent`, and it and the
chain behind it form the end of the chain searched. -/
theorem find_parent_some {child : x509_crt} {bottom : Int} {chain : List x509_crt}
    {parent : x509_crt} {next : List x509_crt}
    (h : find_parent child bottom chain = some (parent, next)) :
    x509_crt_check_parent child parent 0 bottom = 0 ∧ (parent :: next).Sublist chain ∧
      next.length < chain.length := by
  induction chain with
  | nil => simp [find_parent] at h
  | cons c cs ih =>
    unfold find_parent at h
    split at h
    · rename_i hc
      simp only [Option.some.injEq, Prod.mk.injEq] at h
      rw [← h.1, ← h.2]
      exact ⟨hc, List.Sublist.refl _, by simp⟩
    · obtain ⟨h1, h2, h3⟩ := ih h
      exact ⟨h1, List.Sublist.cons _ h2, by simp only [List.length_cons]; omega⟩
theorem verify_child_checks_zero {env : Env} {child parent : x509_crt}
    {ca_crl : List x509_crl} {flags : Nat}
    (h : x509_crt_verify_child_checks env child parent ca_crl flags = 0) :
    flags = 0 ∧ time_ok env child ∧ sig_ok env child parent := by
  unfold x509_crt_verify_child_checks at h
  simp only [] at h
  rw [or_eq_zero_iff] at h
  replace h := h.1
  unfold time_ok sig_ok
  cases hmd : env.md_info_from_type child.sig_md with
  | none =>
    rw [hmd] at h
    simp only [or_eq_zero_iff] at h
    exact absurd h.2 (by decide)
  | some md_info =>
    rw [hmd] at h
    simp only [] at h
    by_cases hs : env.pk_can_do parent.pk child.sig_pk = 0 ∨
        env.pk_verify parent.pk child.sig_md (env.md md_info child.tbs.p) md_info.size
          child.sig.p ≠ 0
    · rw [if_pos hs, or_eq_zero_iff] at h
      exact absurd h.2 (by decide)
    · rw [if_neg hs] at h
      simp only [not_or, not_not] at hs
      by_cases hf : env.x509_time_future child.valid_from = 0
      · by_cases he : env.x509_time_expired child.valid_to = 0
        · simp only [hf, he, ne_eq, not_true_eq_false, if_false] at h
          exact ⟨h, ⟨he, hf⟩, md_info, rfl, hs.1, hs.2⟩
        · simp only [hf, he, ne_eq, not_true_eq_false, not_false_eq_true, if_false, if_true,
            or_eq_zero_iff] at h
          exact absurd h.2 (by decide)
      · simp only [hf, ne_eq, not_false_eq_true, if_true, or_eq_zero_iff] at h
        exact absurd h.2 (by decide)

theorem verify_top_loop_some {env : Env} {child : x509_crt} {path_cnt : Int}
    {hash : List uint8_t} {md_size : Nat} {trust_ca : List x509_crt} {check_path_cnt : Int}
    {ca : x509_crt}
    (h : x509_crt_verify_top_loop env child path_cnt hash md_size trust_ca check_path_cnt =
      some ca) :
    ca ∈ trust_ca ∧ x509_crt_check_parent child ca 1 (c_bool (path_cnt = 0)) = 0 ∧
      env.pk_can_do ca.pk child.sig_pk ≠ 0 ∧
      env.pk_verify ca.pk child.sig_md hash md_size child.sig.p = 0 := by
  induction trust_ca generalizing check_path_cnt with
  | nil => simp [x509_crt_verify_top_loop] at h
  | cons t rest ih =>
    unfold x509_crt_verify_top_loop at h
    by_cases hcp : x509_crt_check_parent child t 1 (c_bool (path_cnt = 0)) ≠ 0
    · rw [if_pos hcp] at h
      obtain ⟨h1, h2⟩ := ih h
      exact ⟨List.mem_cons_of_mem _ h1, h2⟩
    · rw [if_neg hcp] at h
      simp only [] at h
      generalize (if child.subject_raw.len = t.subject_raw.len ∧
          memcmp child.subject_raw.p t.subject_raw.p child.issuer_raw.len = 0 then
        check_path_cnt - 1 else check_path_cnt) = cpc at h
      split at h
      · obtain ⟨h1, h2⟩ := ih h
        exact ⟨List.mem_cons_of_mem _ h1, h2⟩
      · split at h
        · obtain ⟨h1, h2⟩ := ih h
          exact ⟨List.mem_cons_of_mem _ h1, h2⟩
        · rename_i hpk
          simp only [Option.some.injEq] at h
          subst h
          simp only [not_or, not_not] at hpk hcp
          exact ⟨List.mem_cons_self _ _, hcp, hpk.1, hpk.2⟩

theorem verify_top_find_some {env : Env} {child : x509_crt} {trust_ca : List x509_crt}
    {path_cnt : Int} {ca : x509_crt}
    (h : x509_crt_verify_top_find env child trust_ca path_cnt = some ca) :
    ca ∈ trust_ca ∧ x509_crt_check_parent child ca 1 (c_bool (path_cnt = 0)) = 0 ∧
      sig_ok env child ca := by
  unfold x509_crt_verify_top_find at h
  cases hmd : env.md_info_from_type child.sig_md with
  | none => rw [hmd] at h; simp at h
  | some md_info =>
    rw [hmd] at h
    obtain ⟨h1, h2, h3, h4⟩ := verify_top_loop_some h
    exact ⟨h1, h2, md_info, hmd, h3, h4⟩

/-- Without a callback `x509_crt_verify_top` returns `0` and invokes nothing. -/
theorem verify_top_none_ret {σ : Type} (env : Env) (child : x509_crt)
    (trust_ca : List x509_crt) (ca_crl : List x509_crl) (path_cnt : Int) (flags : Nat)
    (p_vrfy : σ) :
    (x509_crt_verify_top env child trust_ca ca_crl path_cnt flags none p_vrfy).ret = 0 ∧
    (x509_crt_verify_top env child trust_ca ca_crl path_cnt flags none p_vrfy).calls = [] := by
  unfold x509_crt_verify_top
  simp only [call_vrfy, x509_crt_verify_top_finish]
  split <;> [skip; split] <;> simp

/-- The validity flags of a certificate, from no flag, are zero only inside the
validity window, also after `BADCERT_NOT_TRUSTED` was set and cleared. -/
theorem validity_flags_zero {env : Env} {c : x509_crt}
    (h : clear_flags
      ((if env.x509_time_future c.valid_from ≠ 0 then
          (if env.x509_time_expired c.valid_to ≠ 0 then 0 ||| BADCERT_EXPIRED else 0) |||
            BADCERT_FUTURE
        else (if env.x509_time_expired c.valid_to ≠ 0 then 0 ||| BADCERT_EXPIRED else 0)) |||
        BADCERT_NOT_TRUSTED) BADCERT_NOT_TRUSTED = 0) : time_ok env c := by
  unfold time_ok
  by_cases hf : env.x509_time_future c.valid_from = 0
  · by_cases he : env.x509_time_expired c.valid_to = 0
    · exact ⟨he, hf⟩
    · simp only [hf, he, ne_eq, not_true_eq_false, not_false_eq_true, if_false, if_true] at h
      exact absurd h (by decide)
  · by_cases he : env.x509_time_expired c.valid_to = 0
    · simp only [hf, he, ne_eq, not_true_eq_false, not_false_eq_true, if_false, if_true] at h
      exact absurd h (by decide)
    · simp only [hf, he, ne_eq, not_false_eq_true, if_true] at h
      exact absurd h (by decide)

theorem verify_top_sound {σ : Type} {env : Env} {child : x509_crt}
    {trust_ca : List x509_crt} {ca_crl : List x509_crl} {path_cnt : Int} {p_vrfy : σ}
    (h : (x509_crt_verify_top env child trust_ca ca_crl path_cnt 0 none p_vrfy).flags = 0) :
    time_ok env child ∧ ∃ root, root ∈ trust_ca ∧
      x509_crt_check_parent child root 1 (c_bool (path_cnt = 0)) = 0 ∧ sig_ok env child root := by
  unfold x509_crt_verify_top at h
  simp only [call_vrfy, x509_crt_verify_top_finish] at h
  cases hf : x509_crt_verify_top_find env child trust_ca path_cnt with
  | none =>
    rw [hf] at h
    simp only [ne_eq, not_true_eq_false, if_false, or_eq_zero_iff] at h
    exact absurd h.1.2 (by decide)
  | some ca =>
    rw [hf] at h
    simp only [ne_eq, not_true_eq_false, if_false] at h
    have hflags : time_ok env child := by
      apply validity_flags_zero
      split at h
      · simp only [or_eq_zero_iff] at h
        exact h.1.1
      · simp only [or_eq_zero_iff] at h
        exact h.1
    exact ⟨hflags, ca, verify_top_find_some hf⟩
theorem verify_child_walk_sound {σ : Type} (env : Env) (trust_ca : List x509_crt)
    (ca_crl : List x509_crl) (cands : List x509_crt) :
    ∀ (child parent : x509_crt) (depth : Nat) (flags : Nat) (p_vrfy : σ),
      (x509_crt_verify_child_walk env trust_ca ca_crl none child parent cands depth flags
        p_vrfy).ret = 0 ∧
      ((x509_crt_verify_child_walk env trust_ca ca_crl none child parent cands depth flags
        p_vrfy).flags = 0 →
        flags = 0 ∧ ∃ path root, path.Sublist cands ∧ root ∈ trust_ca ∧
          chain_ok env parent path root (depth + 1)) := by
  induction cands with
  | nil =>
    intro child parent depth flags p_vrfy
    have hr := (verify_top_none_ret env parent trust_ca ca_crl ((depth : Int) + 1) 0 p_vrfy).1
    simp only [x509_crt_verify_child_walk, x509_crt_verify_child_finish, call_vrfy, hr,
      ne_eq, not_true_eq_false, if_false, true_and]
    intro h
    rw [or_eq_zero_iff] at h
    obtain ⟨ht, root, hm, hc, hs⟩ := verify_top_sound h.2
    refine ⟨h.1, [], root, List.Sublist.refl _, hm, ht, ?_, hs⟩
    have e : (((depth : Int) + 1 = 0) : Prop) = ((depth + 1 = 0) : Prop) := by
      apply propext; constructor <;> intro h0 <;> omega
    simpa [e] using hc
  | cons g rest ih =>
    intro child parent depth flags p_vrfy
    by_cases hcp : x509_crt_check_parent parent g 0 (c_bool ((depth : Int) = 0)) = 0
    · obtain ⟨hr, hfl⟩ := ih parent g (depth + 1)
        (x509_crt_verify_child_checks env parent g ca_crl 0) p_vrfy
      simp only [Nat.cast_add, Nat.cast_one] at hr hfl
      simp only [x509_crt_verify_child_walk, hcp, if_true, x509_crt_verify_child_finish,
        call_vrfy, hr, ne_eq, not_true_eq_false, if_false, true_and]
      intro h
      rw [or_eq_zero_iff] at h
      obtain ⟨hck, path, root, hsub, hm, hchain⟩ := hfl h.2
      obtain ⟨_, ht, hs⟩ := verify_child_checks_zero hck
      refine ⟨h.1, g :: path, root, List.Sublist.cons₂ _ hsub, hm, ht, ?_, hs, hchain⟩
      intro b
      rw [check_parent_top_zero parent g b (c_bool ((depth : Int) = 0))]
      exact hcp
    · obtain ⟨hr, hfl⟩ := ih child parent depth flags p_vrfy
      simp only [x509_crt_verify_child_walk, hcp, if_false]
      refine ⟨hr, fun h => ?_⟩
      obtain ⟨h0, path, root, hsub, hm, hchain⟩ := hfl h
      exact ⟨h0, path, root, List.Sublist.cons _ hsub, hm, hchain⟩

theorem verify_chain_eq {σ : Type} (env : Env) (crt : x509_crt)
    (crt_next trust_ca : List x509_crt) (ca_crl : List x509_crl) (flags : Nat)
    (f_vrfy : Option (vrfy_cb σ)) (p_vrfy : σ) :
    x509_crt_verify_chain env crt crt_next trust_ca ca_crl flags f_vrfy p_vrfy =
      match find_parent crt 1 crt_next with
      | some (parent, parent_next) =>
        x509_crt_verify_child env crt parent parent_next trust_ca ca_crl 0 flags f_vrfy p_vrfy
      | none => x509_crt_verify_top env crt trust_ca ca_crl 0 flags f_vrfy p_vrfy := rfl

theorem verify_chain_sound {σ : Type} {env : Env} {crt : x509_crt}
    {crt_next trust_ca : List x509_crt} {ca_crl : List x509_crl} {p_vrfy : σ}
    (h : (x509_crt_verify_chain env crt crt_next trust_ca ca_crl 0 none p_vrfy).flags = 0) :
    ∃ path root, path.Sublist crt_next ∧ root ∈ trust_ca ∧ chain_ok env crt path root 0 := by
  rw [verify_chain_eq] at h
  cases hfp : find_parent crt 1 crt_next with
  | none =>
    rw [hfp] at h
    obtain ⟨ht, root, hm, hc, hs⟩ := verify_top_sound h
    exact ⟨[], root, List.nil_sublist _, hm, ht, by simpa using hc, hs⟩
  | some pr =>
    obtain ⟨parent, parent_next⟩ := pr
    rw [hfp] at h
    obtain ⟨hcp, hsub, _⟩ := find_parent_some hfp
    obtain ⟨_, hfl⟩ := verify_child_walk_sound env trust_ca ca_crl parent_next crt parent 0
      (x509_crt_verify_child_checks env crt parent ca_crl 0) p_vrfy
    simp only [Nat.cast_zero, Nat.zero_add] at hfl
    obtain ⟨hck, path, root, hs, hm, hchain⟩ := hfl h
    obtain ⟨_, ht, hsig⟩ := verify_child_checks_zero hck
    refine ⟨parent :: path, root, (List.Sublist.cons₂ _ hs).trans hsub, hm, ht, ?_, hsig,
      hchain⟩
    intro b
    rw [check_parent_top_zero crt parent b 1]
    exact hcp

/-- The return value of `x509_crt_verify` is `0` only if the flags it leaves are
zero. -/
theorem verify_ret_zero_flags {σ : Type} {env : Env} {crt : x509_crt}
    {crt_next trust_ca : List x509_crt} {ca_crl : List x509_crl} {cn : Option (List uint8_t)}
    {f_vrfy : Option (vrfy_cb σ)} {p_vrfy : σ}
    (h : (x509_crt_verify env crt crt_next trust_ca ca_crl cn f_vrfy p_vrfy).ret = 0) :
    (x509_crt_verify_chain env crt crt_next trust_ca ca_crl (x509_crt_verify_cn crt cn)
      f_vrfy p_vrfy).flags = 0 := by
  unfold x509_crt_verify at h
  simp only [] at h
  split at h
  · rename_i h1; exact absurd h h1
  · split at h
    · simp [POLARSSL_ERR_X509_CERT_VERIFY_FAILED] at h
    · rename_i h2; exact not_not.mp h2

/-- C1: soundness of `x509_crt_verify`. With `cn` and `f_vrfy` null, if the
function returns `0` then there are certificates `c1, ..., ck`, taken in list
order from `crt->next`, and a certificate `root` of the trusted list such that,
with `c0 = crt`, every `ci` below `ck` is accepted by `x509_crt_check_parent` with
`top = 0` against `c(i+1)` and its signature verifies under the key of `c(i+1)`,
`ck` is accepted with `top = 1` and `bottom = (k == 0)` against `root` and its
signature verifies under the key of `root`, and no `ci` is expired or not yet
valid. -/
theorem x509_crt_verify_sound {σ : Type} (env : Env) (crt : x509_crt)
    (crt_next trust_ca : List x509_crt) (ca_crl : List x509_crl) (p_vrfy : σ)
    (h : (x509_crt_verify env crt crt_next trust_ca ca_crl none none p_vrfy).ret = 0) :
    ∃ path root, path.Sublist crt_next ∧ root ∈ trust_ca ∧ chain_ok env crt path root 0 :=
  verify_chain_sound (verify_ret_zero_flags h)

/-- Witness of C1 on the example chain `demo_leaf, demo_ca` with the trusted root
`demo_root`, on which `x509_crt_verify` returns `0`. -/
theorem x509_crt_verify_sound_witness :
    (x509_crt_verify demo_env demo_leaf [demo_ca] [demo_root] [] none none ()).ret = 0 ∧
      ∃ path root, path.Sublist [demo_ca] ∧ root ∈ [demo_root] ∧
        chain_ok demo_env demo_leaf path root 0 :=
  ⟨by decide,
   x509_crt_verify_sound demo_env demo_leaf [demo_ca] [demo_root] [] () (by decide)⟩

/-! ### The callback -/

theorem call_vrfy_trace_ok {σ : Type} (f_vrfy : Option (vrfy_cb σ)) (p_vrfy : σ)
    (crt : x509_crt) (depth : Int) (flags : Nat) :
    trace_ok (call_vrfy f_vrfy p_vrfy crt depth flags) := by
  unfold trace_ok call_vrfy
  cases f_vrfy with
  | none => left; simp
  | some f =>
    simp only []
    by_cases h : (f p_vrfy crt depth flags).1 = 0
    · left; simp [h]
    · right; exact ⟨h, [], _, rfl, rfl, by simp⟩

/-- Appending the invocations of a later step to invocations that all returned
`0` keeps the trace consistent. -/
theorem trace_ok_append {σ : Type} (calls : List cb_call) (hc : ∀ c ∈ calls, c.ret = 0)
    (r : verify_result σ) (hr : trace_ok r) :
    trace_ok (⟨r.ret, r.flags, r.p_vrfy, calls ++ r.calls⟩ : verify_result σ) := by
  unfold trace_ok at hr ⊢
  rcases hr with ⟨h0, hall⟩ | ⟨hne, pre, c, hcalls, hret, hpre⟩
  · left
    refine ⟨h0, fun c hcm => ?_⟩
    rcases List.mem_append.mp hcm with h | h
    · exact hc c h
    · exact hall c h
  · right
    refine ⟨hne, calls ++ pre, c, ?_, hret, fun d hd => ?_⟩
    · simp only [hcalls, List.append_assoc]
    · rcases List.mem_append.mp hd with h | h
      · exact hc d h
      · exact hpre d h

theorem verify_top_finish_trace_ok {σ : Type} (f_vrfy : Option (vrfy_cb σ)) (child : x509_crt)
    (path_cnt : Int) (flags ca_flags : Nat) (p_vrfy : σ) (calls : List cb_call)
    (hc : ∀ c ∈ calls, c.ret = 0) :
    trace_ok (x509_crt_verify_top_finish f_vrfy child path_cnt flags ca_flags p_vrfy calls) := by
  have h := trace_ok_append calls hc _ (call_vrfy_trace_ok f_vrfy p_vrfy child path_cnt flags)
  unfold x509_crt_verify_top_finish
  simp only []
  split
  · exact h
  · rename_i h0
    rw [not_not] at h0
    unfold trace_ok at h ⊢
    simp only [h0] at h ⊢
    exact h

theorem verify_top_trace_ok {σ : Type} (env : Env) (child : x509_crt)
    (trust_ca : List x509_crt) (ca_crl : List x509_crl) (path_cnt : Int) (flags : Nat)
    (f_vrfy : Option (vrfy_cb σ)) (p_vrfy : σ) :
    trace_ok (x509_crt_verify_top env child trust_ca ca_crl path_cnt flags f_vrfy p_vrfy) := by
  unfold x509_crt_verify_top
  simp only []
  split
  · exact verify_top_finish_trace_ok _ _ _ _ _ _ _ (by simp)
  · rename_i ca _
    split
    · generalize hr : call_vrfy f_vrfy p_vrfy ca (path_cnt + 1) _ = r
      have ht := call_vrfy_trace_ok f_vrfy p_vrfy ca (path_cnt + 1)
        (if env.x509_time_future ca.valid_from ≠ 0 then
          (if env.x509_time_expired ca.valid_to ≠ 0 then 0 ||| BADCERT_EXPIRED else 0) |||
            BADCERT_FUTURE
         else (if env.x509_time_expired ca.valid_to ≠ 0 then 0 ||| BADCERT_EXPIRED else 0))
      rw [hr] at ht
      split
      · rename_i hne
        unfold trace_ok at ht ⊢
        rcases ht with ⟨h0, _⟩ | h
        · exact absurd h0 hne
        · right; exact h
      · rename_i h0
        rw [not_not] at h0
        apply verify_top_finish_trace_ok
        unfold trace_ok at ht
        rcases ht with ⟨_, hall⟩ | ⟨hne, _⟩
        · exact hall
        · exact absurd h0 hne
    · exact verify_top_finish_trace_ok _ _ _ _ _ _ _ (by simp)

theorem verify_child_finish_trace_ok {σ : Type} (f_vrfy : Option (vrfy_cb σ))
    (child : x509_crt) (path_cnt : Int) (flags : Nat) (up : verify_result σ)
    (hup : trace_ok up) :
    trace_ok (x509_crt_verify_child_finish f_vrfy child path_cnt flags up) := by
  unfold x509_crt_verify_child_finish
  split
  · rename_i hne
    unfold trace_ok at hup ⊢
    rcases hup with ⟨h0, _⟩ | h
    · exact absurd h0 hne
    · right; exact h
  · rename_i h0
    rw [not_not] at h0
    have hall : ∀ c ∈ up.calls, c.ret = 0 := by
      unfold trace_ok at hup
      rcases hup with ⟨_, hall⟩ | ⟨hne, _⟩
      · exact hall
      · exact absurd h0 hne
    have h := trace_ok_append up.calls hall _
      (call_vrfy_trace_ok f_vrfy up.p_vrfy child path_cnt flags)
    simp only []
    split
    · exact h
    · rename_i h1
      rw [not_not] at h1
      unfold trace_ok at h ⊢
      simp only [h1] at h ⊢
      exact h

theorem verify_child_walk_trace_ok {σ : Type} (env : Env) (trust_ca : List x509_crt)
    (ca_crl : List x509_crl) (f_vrfy : Option (vrfy_cb σ)) (cands : List x509_crt) :
    ∀ (child parent : x509_crt) (path_cnt : Int) (flags : Nat) (p_vrfy : σ),
      trace_ok (x509_crt_verify_child_walk env trust_ca ca_crl f_vrfy child parent cands
        path_cnt flags p_vrfy) := by
  induction cands with
  | nil =>
    intro child parent path_cnt flags p_vrfy
    simp only [x509_crt_verify_child_walk]
    exact verify_child_finish_trace_ok _ _ _ _ _ (verify_top_trace_ok _ _ _ _ _ _ _ _)
  | cons g rest ih =>
    intro child parent path_cnt flags p_vrfy
    simp only [x509_crt_verify_child_walk]
    split
    · exact verify_child_finish_trace_ok _ _ _ _ _ (ih _ _ _ _ _)
    · exact ih _ _ _ _ _

theorem verify_chain_trace_ok {σ : Type} (env : Env) (crt : x509_crt)
    (crt_next trust_ca : List x509_crt) (ca_crl : List x509_crl) (flags : Nat)
    (f_vrfy : Option (vrfy_cb σ)) (p_vrfy : σ) :
    trace_ok (x509_crt_verify_chain env crt crt_next trust_ca ca_crl flags f_vrfy p_vrfy) := by
  rw [verify_chain_eq]
  split
  · exact verify_child_walk_trace_ok _ _ _ _ _ _ _ _ _ _
  · exact verify_top_trace_ok _ _ _ _ _ _ _ _
/-- The invocations, flags and user context of `x509_crt_verify` are those of its
second half; its return value is the nonzero value of the second half, and
otherwise follows the flags. -/
theorem verify_fields {σ : Type} (env : Env) (crt : x509_crt)
    (crt_next trust_ca : List x509_crt) (ca_crl : List x509_crl) (cn : Option (List uint8_t))
    (f_vrfy : Option (vrfy_cb σ)) (p_vrfy : σ) :
    let rc := x509_crt_verify_chain env crt crt_next trust_ca ca_crl
      (x509_crt_verify_cn crt cn) f_vrfy p_vrfy
    let r := x509_crt_verify env crt crt_next trust_ca ca_crl cn f_vrfy p_vrfy
    r.calls = rc.calls ∧ r.flags = rc.flags ∧ r.p_vrfy = rc.p_vrfy ∧
      (rc.ret ≠ 0 → r.ret = rc.ret) ∧
      (rc.ret = 0 → r.ret = if rc.flags ≠ 0 then POLARSSL_ERR_X509_CERT_VERIFY_FAILED else 0) := by
  intro rc r
  have hr : r = if rc.ret ≠ 0 then rc
      else if rc.flags ≠ 0 then
        ⟨POLARSSL_ERR_X509_CERT_VERIFY_FAILED, rc.flags, rc.p_vrfy, rc.calls⟩
      else ⟨0, rc.flags, rc.p_vrfy, rc.calls⟩ := rfl
  by_cases h1 : rc.ret = 0
  · by_cases h2 : rc.flags = 0
    · simp [hr, h1, h2]
    · simp [hr, h1, h2]
  · simp [hr, h1]

/-- C3: in a run of `x509_crt_verify` in which the callback is absent or returned
`0` at every invocation, the return value is `0` exactly when the flags left
in `*flags` are zero, it is `POLARSSL_ERR_X509_CERT_VERIFY_FAILED` exactly when they
are nonzero, and no other value is returned. -/
theorem x509_crt_verify_return_code {σ : Type} (env : Env) (crt : x509_crt)
    (crt_next trust_ca : List x509_crt) (ca_crl : List x509_crl) (cn : Option (List uint8_t))
    (f_vrfy : Option (vrfy_cb σ)) (p_vrfy : σ)
    (h : ∀ c ∈ (x509_crt_verify env crt crt_next trust_ca ca_crl cn f_vrfy p_vrfy).calls,
      c.ret = 0) :
    ((x509_crt_verify env crt crt_next trust_ca ca_crl cn f_vrfy p_vrfy).ret = 0 ↔
      (x509_crt_verify env crt crt_next trust_ca ca_crl cn f_vrfy p_vrfy).flags = 0) ∧
    ((x509_crt_verify env crt crt_next trust_ca ca_crl cn f_vrfy p_vrfy).ret =
        POLARSSL_ERR_X509_CERT_VERIFY_FAILED ↔
      (x509_crt_verify env crt crt_next trust_ca ca_crl cn f_vrfy p_vrfy).flags ≠ 0) ∧
    ((x509_crt_verify env crt crt_next trust_ca ca_crl cn f_vrfy p_vrfy).ret = 0 ∨
      (x509_crt_verify env crt crt_next trust_ca ca_crl cn f_vrfy p_vrfy).ret =
        POLARSSL_ERR_X509_CERT_VERIFY_FAILED) := by
  obtain ⟨hcalls, hflags, _, _, hret⟩ :=
    verify_fields env crt crt_next trust_ca ca_crl cn f_vrfy p_vrfy
  have ht := verify_chain_trace_ok env crt crt_next trust_ca ca_crl
    (x509_crt_verify_cn crt cn) f_vrfy p_vrfy
  rw [hcalls] at h
  have h0 : (x509_crt_verify_chain env crt crt_next trust_ca ca_crl
      (x509_crt_verify_cn crt cn) f_vrfy p_vrfy).ret = 0 := by
    unfold trace_ok at ht
    rcases ht with ⟨h0, _⟩ | ⟨hne, pre, c, hc, hcr, _⟩
    · exact h0
    · have := h c (by rw [hc]; simp)
      rw [hcr] at this
      exact absurd this hne
  rw [hret h0, hflags]
  by_cases hz : (x509_crt_verify_chain env crt crt_next trust_ca ca_crl
      (x509_crt_verify_cn crt cn) f_vrfy p_vrfy).flags = 0
  · simp [hz, POLARSSL_ERR_X509_CERT_VERIFY_FAILED]
  · simp [hz, POLARSSL_ERR_X509_CERT_VERIFY_FAILED]

/-- Witness of C3 on the example chain with the counting callback, which is
invoked three times and returns `0` each time. -/
theorem x509_crt_verify_return_code_witness :
    (x509_crt_verify demo_env demo_leaf [demo_ca] [demo_root] [] none (some demo_cb) 0).calls.length
        = 3 ∧
    (((x509_crt_verify demo_env demo_leaf [demo_ca] [demo_root] [] none (some demo_cb) 0).ret = 0 ↔
      (x509_crt_verify demo_env demo_leaf [demo_ca] [demo_root] [] none (some demo_cb) 0).flags
        = 0) ∧
    ((x509_crt_verify demo_env demo_leaf [demo_ca] [demo_root] [] none (some demo_cb) 0).ret =
        POLARSSL_ERR_X509_CERT_VERIFY_FAILED ↔
      (x509_crt_verify demo_env demo_leaf [demo_ca] [demo_root] [] none (some demo_cb) 0).flags
        ≠ 0) ∧
    ((x509_crt_verify demo_env demo_leaf [demo_ca] [demo_root] [] none (some demo_cb) 0).ret = 0 ∨
      (x509_crt_verify demo_env demo_leaf [demo_ca] [demo_root] [] none (some demo_cb) 0).ret =
        POLARSSL_ERR_X509_CERT_VERIFY_FAILED)) :=
  ⟨by decide,
   x509_crt_verify_return_code demo_env demo_leaf [demo_ca] [demo_root] [] none (some demo_cb) 0
     (by decide)⟩

/-- C4: in every run of `x509_crt_verify`, if an invocation of the callback returns
a nonzero value, then `x509_crt_verify` returns exactly that value and the
callback is not invoked again: the invocation is the last of the run. -/
theorem x509_crt_verify_callback_abort {σ : Type} (env : Env) (crt : x509_crt)
    (crt_next trust_ca : List x509_crt) (ca_crl : List x509_crl) (cn : Option (List uint8_t))
    (f_vrfy : Option (vrfy_cb σ)) (p_vrfy : σ) (before after : List cb_call) (c : cb_call)
    (hc : (x509_crt_verify env crt crt_next trust_ca ca_crl cn f_vrfy p_vrfy).calls =
      before ++ c :: after)
    (hr : c.ret ≠ 0) :
    (x509_crt_verify env crt crt_next trust_ca ca_crl cn f_vrfy p_vrfy).ret = c.ret ∧
      after = [] := by
  obtain ⟨hcalls, _, _, hret, _⟩ :=
    verify_fields env crt crt_next trust_ca ca_crl cn f_vrfy p_vrfy
  have ht := verify_chain_trace_ok env crt crt_next trust_ca ca_crl
    (x509_crt_verify_cn crt cn) f_vrfy p_vrfy
  rw [hcalls] at hc
  unfold trace_ok at ht
  rcases ht with ⟨_, hall⟩ | ⟨hne, pre, c', hc', hcr, hpre⟩
  · exact absurd (hall c (by rw [hc]; simp)) hr
  · rw [hret hne]
    rw [hc'] at hc
    rcases List.eq_nil_or_concat after with ha | ⟨a', x, ha⟩
    · subst ha
      have := List.append_inj' hc rfl
      simp only [List.cons.injEq, and_true] at this
      exact ⟨by rw [← hcr, this.2], rfl⟩
    · subst ha
      have e : before ++ c :: (a'.concat x) = (before ++ c :: a') ++ [x] := by simp
      rw [e] at hc
      have := (List.append_inj' hc rfl).1
      exact absurd (hpre c (by rw [this]; simp)) hr

/-- Witness of C4 on the example chain with the aborting callback: the second
invocation, at depth 1, returns `7`, which is the return value of the run, and
no invocation follows. -/
theorem x509_crt_verify_callback_abort_witness :
    (x509_crt_verify demo_env demo_leaf [demo_ca] [demo_root] [] none (some demo_abort_cb)
        0).calls =
      [⟨demo_root, 2, 0, 0⟩] ++ ⟨demo_ca, 1, 0, 7⟩ :: [] ∧
    ((x509_crt_verify demo_env demo_leaf [demo_ca] [demo_root] [] none (some demo_abort_cb)
        0).ret = (⟨demo_ca, 1, 0, 7⟩ : cb_call).ret ∧ ([] : List cb_call) = []) :=
  ⟨by decide,
   x509_crt_verify_callback_abort demo_env demo_leaf [demo_ca] [demo_root] [] none
     (some demo_abort_cb) 0 [⟨demo_root, 2, 0, 0⟩] [] ⟨demo_ca, 1, 0, 7⟩ (by decide) (by decide)⟩

/-- A single invocation at depth `d` descends to `d`. -/
theorem depths_down_to_single (d : Int) (c : cb_call) (hd : c.depth = d) :
    depths_down_to d [c] := by
  show [c.depth] = [d + ((0 : Nat) : Int)]
  simp [hd]

/-- A run that ends with the invocation at depth `d`, after invocations that
descend to `d + 1`, descends to `d`. -/
theorem depths_down_to_snoc (d : Int) (calls : List cb_call) (c : cb_call)
    (h : depths_down_to (d + 1) calls) (hd : c.depth = d) :
    depths_down_to d (calls ++ [c]) := by
  unfold depths_down_to at h ⊢
  have e : (List.range (calls.length + 1)).reverse.map (fun (i : Nat) => d + (i : Int)) =
      (List.range calls.length).reverse.map (fun (i : Nat) => d + 1 + (i : Int)) ++ [d] := by
    rw [List.range_succ_eq_map, List.reverse_cons, List.map_append, List.map_reverse,
      List.map_map, List.map_reverse]
    congr 1
    · congr 1
      apply List.map_congr_left
      intro i _
      simp only [Function.comp, Nat.cast_succ]
      omega
    · simp
  rw [List.map_append, h, List.length_append, List.length_singleton, e]
  simp [hd]

theorem call_vrfy_some_calls {σ : Type} (f : vrfy_cb σ) (p_vrfy : σ) (crt : x509_crt)
    (depth : Int) (flags : Nat) :
    (call_vrfy (some f) p_vrfy crt depth flags).calls =
      [⟨crt, depth, flags, (call_vrfy (some f) p_vrfy crt depth flags).ret⟩] := rfl

theorem verify_top_finish_calls {σ : Type} (f : vrfy_cb σ) (child : x509_crt)
    (path_cnt : Int) (flags ca_flags : Nat) (p_vrfy : σ) (calls : List cb_call) :
    (x509_crt_verify_top_finish (some f) child path_cnt flags ca_flags p_vrfy calls).calls =
      calls ++ [⟨child, path_cnt, flags, (f p_vrfy child path_cnt flags).1⟩] := by
  unfold x509_crt_verify_top_finish
  simp only [call_vrfy]
  split <;> rfl

/-- The invocations of `x509_crt_verify_top` with a callback: the child alone at
`path_cnt`; or the trusted certificate at `path_cnt + 1` and then the child; or
the trusted certificate alone, when the callback returned a nonzero value on
it. -/
theorem verify_top_calls {σ : Type} (env : Env) (child : x509_crt)
    (trust_ca : List x509_crt) (ca_crl : List x509_crl) (path_cnt : Int) (flags : Nat)
    (f : vrfy_cb σ) (p_vrfy : σ) :
    (∃ cc : cb_call, cc.crt = child ∧ cc.depth = path_cnt ∧
      (x509_crt_verify_top env child trust_ca ca_crl path_cnt flags (some f) p_vrfy).calls =
        [cc]) ∨
    (∃ ac cc : cb_call, ac.depth = path_cnt + 1 ∧ cc.crt = child ∧ cc.depth = path_cnt ∧
      (x509_crt_verify_top env child trust_ca ca_crl path_cnt flags (some f) p_vrfy).calls =
        [ac, cc]) ∨
    (∃ ac : cb_call, ac.ret ≠ 0 ∧
      (x509_crt_verify_top env child trust_ca ca_crl path_cnt flags (some f) p_vrfy).calls =
        [ac]) := by
  unfold x509_crt_verify_top
  simp only []
  split
  · left
    exact ⟨_, rfl, rfl, verify_top_finish_calls _ _ _ _ _ _ _⟩
  · rename_i ca _
    by_cases hsub : child.subject_raw.len ≠ ca.subject_raw.len ∨
        memcmp child.subject_raw.p ca.subject_raw.p child.issuer_raw.len ≠ 0
    · rw [if_pos hsub]
      generalize (if env.x509_time_future ca.valid_from ≠ 0 then _ else _ : Nat) = cf
      generalize clear_flags _ _ ||| x509_crt_verifycrl env child (some ca) ca_crl = fl
      by_cases hr : (call_vrfy (some f) p_vrfy ca (path_cnt + 1) cf).ret = 0
      · right; left
        rw [if_neg (not_not.mpr hr)]
        exact ⟨⟨ca, path_cnt + 1, cf, (f p_vrfy ca (path_cnt + 1) cf).1⟩, _, rfl, rfl, rfl,
          verify_top_finish_calls _ _ _ _ _ _ _⟩
      · right; right
        rw [if_pos hr]
        exact ⟨⟨ca, path_cnt + 1, cf, (f p_vrfy ca (path_cnt + 1) cf).1⟩, hr, rfl⟩
    · rw [if_neg hsub]
      left
      exact ⟨_, rfl, rfl, verify_top_finish_calls _ _ _ _ _ _ _⟩

/-- The invocations of `x509_crt_verify_top`, when each returned `0`: they descend
to `path_cnt` and the last one is on the child. -/
theorem verify_top_depths {σ : Type} (env : Env) (child : x509_crt)
    (trust_ca : List x509_crt) (ca_crl : List x509_crl) (path_cnt : Int) (flags : Nat)
    (f : vrfy_cb σ) (p_vrfy : σ)
    (h : ∀ c ∈ (x509_crt_verify_top env child trust_ca ca_crl path_cnt flags (some f)
      p_vrfy).calls, c.ret = 0) :
    depths_down_to path_cnt
        (x509_crt_verify_top env child trust_ca ca_crl path_cnt flags (some f) p_vrfy).calls ∧
      ∃ c, (x509_crt_verify_top env child trust_ca ca_crl path_cnt flags (some f)
        p_vrfy).calls.getLast? = some c ∧ c.crt = child ∧ c.depth = path_cnt := by
  rcases verify_top_calls env child trust_ca ca_crl path_cnt flags f p_vrfy with
    ⟨cc, h1, h2, hc⟩ | ⟨ac, cc, h0, h1, h2, hc⟩ | ⟨ac, hne, hc⟩
  · rw [hc]
    exact ⟨depths_down_to_single _ _ h2, cc, rfl, h1, h2⟩
  · rw [hc]
    exact ⟨depths_down_to_snoc path_cnt [ac] cc (depths_down_to_single _ _ h0) h2, cc, rfl,
      h1, h2⟩
  · rw [hc] at h
    exact absurd (h ac (List.mem_singleton_self _)) hne
theorem verify_child_finish_depths {σ : Type} (f : vrfy_cb σ) (child : x509_crt)
    (path_cnt : Int) (flags : Nat) (up : verify_result σ) (hup : trace_ok up)
    (hd : (∀ c ∈ up.calls, c.ret = 0) → depths_down_to (path_cnt + 1) up.calls)
    (h : ∀ c ∈ (x509_crt_verify_child_finish (some f) child path_cnt flags up).calls,
      c.ret = 0) :
    depths_down_to path_cnt
        (x509_crt_verify_child_finish (some f) child path_cnt flags up).calls ∧
      ∃ c, (x509_crt_verify_child_finish (some f) child path_cnt flags up).calls.getLast? =
        some c ∧ c.crt = child ∧ c.depth = path_cnt := by
  unfold x509_crt_verify_child_finish at h ⊢
  by_cases h0 : up.ret = 0
  · have hcalls : ∀ (r : verify_result σ),
        r = (if up.ret ≠ 0 then (⟨up.ret, flags, up.p_vrfy, up.calls⟩ : verify_result σ)
          else
            let r := call_vrfy (some f) up.p_vrfy child path_cnt flags
            if r.ret ≠ 0 then ⟨r.ret, r.flags, r.p_vrfy, up.calls ++ r.calls⟩
            else ⟨0, r.flags ||| up.flags, r.p_vrfy, up.calls ++ r.calls⟩) →
        r.calls = up.calls ++ [⟨child, path_cnt, flags, (f up.p_vrfy child path_cnt flags).1⟩] := by
      intro r hr
      rw [hr, if_neg (not_not.mpr h0)]
      simp only [call_vrfy]
      split <;> rfl
    have e := hcalls _ rfl
    rw [e] at h ⊢
    have hall : ∀ c ∈ up.calls, c.ret = 0 := fun c hc => h c (List.mem_append_left _ hc)
    exact ⟨depths_down_to_snoc path_cnt _ _ (hd hall) rfl,
      ⟨child, path_cnt, flags, (f up.p_vrfy child path_cnt flags).1⟩, by simp, rfl, rfl⟩
  · rw [if_pos h0] at h
    simp only [] at h
    unfold trace_ok at hup
    rcases hup with ⟨hz, _⟩ | ⟨_, pre, c, hc, hcr, _⟩
    · exact absurd hz h0
    · have := h c (by rw [hc]; simp)
      rw [hcr] at this
      exact absurd this h0

theorem verify_child_walk_depths {σ : Type} (env : Env) (trust_ca : List x509_crt)
    (ca_crl : List x509_crl) (f : vrfy_cb σ) (cands : List x509_crt) :
    ∀ (child parent : x509_crt) (path_cnt : Int) (flags : Nat) (p_vrfy : σ),
      (∀ c ∈ (x509_crt_verify_child_walk env trust_ca ca_crl (some f) child parent cands
        path_cnt flags p_vrfy).calls, c.ret = 0) →
      depths_down_to path_cnt (x509_crt_verify_child_walk env trust_ca ca_crl (some f) child
          parent cands path_cnt flags p_vrfy).calls ∧
        ∃ c, (x509_crt_verify_child_walk env trust_ca ca_crl (some f) child parent cands
          path_cnt flags p_vrfy).calls.getLast? = some c ∧ c.crt = child ∧
            c.depth = path_cnt := by
  induction cands with
  | nil =>
    intro child parent path_cnt flags p_vrfy h
    simp only [x509_crt_verify_child_walk] at h ⊢
    exact verify_child_finish_depths f child path_cnt flags _
      (verify_top_trace_ok _ _ _ _ _ _ _ _)
      (fun hall => (verify_top_depths env parent trust_ca ca_crl (path_cnt + 1) 0 f p_vrfy
        hall).1) h
  | cons g rest ih =>
    intro child parent path_cnt flags p_vrfy h
    simp only [x509_crt_verify_child_walk] at h ⊢
    split
    · rename_i hcp
      rw [if_pos hcp] at h
      exact verify_child_finish_depths f child path_cnt flags _
        (verify_child_walk_trace_ok _ _ _ _ _ _ _ _ _ _)
        (fun hall => (ih parent g (path_cnt + 1) _ p_vrfy hall).1) h
    · rename_i hcp
      rw [if_neg hcp] at h
      exact ih child parent path_cnt flags p_vrfy h

/-- C5, as amended: in every run of `x509_crt_verify` with a callback that returned
`0` at every invocation, the callback is invoked top-down, once per hop: each
later invocation has a depth one less than the previous one (the depths are
`n - 1, ..., 1, 0` for `n` invocations), and the last invocation is on the leaf
`crt` with depth `0`. -/
theorem x509_crt_verify_callback_order {σ : Type} (env : Env) (crt : x509_crt)
    (crt_next trust_ca : List x509_crt) (ca_crl : List x509_crl) (cn : Option (List uint8_t))
    (f : vrfy_cb σ) (p_vrfy : σ)
    (h : ∀ c ∈ (x509_crt_verify env crt crt_next trust_ca ca_crl cn (some f) p_vrfy).calls,
      c.ret = 0) :
    depths_down_to 0
        (x509_crt_verify env crt crt_next trust_ca ca_crl cn (some f) p_vrfy).calls ∧
      ∃ c, (x509_crt_verify env crt crt_next trust_ca ca_crl cn (some f)
        p_vrfy).calls.getLast? = some c ∧ c.crt = crt ∧ c.depth = 0 := by
  obtain ⟨hcalls, _⟩ := verify_fields env crt crt_next trust_ca ca_crl cn (some f) p_vrfy
  rw [hcalls] at h ⊢
  rw [verify_chain_eq] at h ⊢
  split
  · rename_i parent parent_next hfp
    rw [hfp] at h
    exact verify_child_walk_depths env trust_ca ca_crl f parent_next crt parent 0 _ p_vrfy h
  · rename_i hfp
    rw [hfp] at h
    exact verify_top_depths env crt trust_ca ca_crl 0 _ f p_vrfy h

/-- Witness of C5 as amended, on the example chain with the counting callback:
the three invocations have the depths `2, 1, 0` and the last is on the leaf. -/
theorem x509_crt_verify_callback_order_witness :
    (x509_crt_verify demo_env demo_leaf [demo_ca] [demo_root] [] none (some demo_cb)
        0).calls.map (fun c => c.depth) = [2, 1, 0] ∧
    (depths_down_to 0
        (x509_crt_verify demo_env demo_leaf [demo_ca] [demo_root] [] none (some demo_cb)
          0).calls ∧
      ∃ c, (x509_crt_verify demo_env demo_leaf [demo_ca] [demo_root] [] none (some demo_cb)
        0).calls.getLast? = some c ∧ c.crt = demo_leaf ∧ c.depth = 0) :=
  ⟨by decide,
   x509_crt_verify_callback_order demo_env demo_leaf [demo_ca] [demo_root] [] none demo_cb 0
     (by decide)⟩

/-- C5, counterexample: on the example chain the callback returns `0` at each of
its three invocations, yet the first invocation is on the trusted root with
depth 2 and not on the leaf with depth 0, and the depths are `2, 1, 0` and not
`0, 1, 2`. -/
theorem x509_crt_verify_callback_not_bottom_up :
    (∀ c ∈ (x509_crt_verify demo_env demo_leaf [demo_ca] [demo_root] [] none (some demo_cb)
        0).calls, c.ret = 0) ∧
    (x509_crt_verify demo_env demo_leaf [demo_ca] [demo_root] [] none (some demo_cb)
        0).calls.head? = some ⟨demo_root, 2, 0, 0⟩ ∧
    demo_root ≠ demo_leaf ∧
    ¬ depths_bottom_up
        (x509_crt_verify demo_env demo_leaf [demo_ca] [demo_root] [] none (some demo_cb)
          0).calls := by
  decide

/-! ### Scenarios -/

theorem or_and_self_eq (x m : Nat) : (x ||| m) &&& m = m := by
  apply Nat.eq_of_testBit_eq
  intro i
  simp only [Nat.testBit_and, Nat.testBit_or]
  cases x.testBit i <;> cases m.testBit i <;> rfl

theorem or_and_left_eq (x y m : Nat) (h : x &&& m = m) : (x ||| y) &&& m = m := by
  apply Nat.eq_of_testBit_eq
  intro i
  have hi := congrArg (fun n => n.testBit i) h
  simp only [Nat.testBit_and] at hi
  simp only [Nat.testBit_and, Nat.testBit_or]
  cases hx : x.testBit i <;> cases hm : m.testBit i <;> cases y.testBit i <;>
    simp_all

/-- A certificate whose issuer differs from the subject of every certificate of
a chain has no parent in that chain. -/
theorem find_parent_none_of_issuer {child : x509_crt} {bottom : Int}
    {chain : List x509_crt}
    (h : ∀ c ∈ chain, child.issuer_raw.p ≠ c.subject_raw.p) :
    find_parent child bottom chain = none := by
  induction chain with
  | nil => rfl
  | cons c cs ih =>
    have hc : x509_crt_check_parent child c 0 bottom ≠ 0 := fun e =>
      h c (List.mem_cons_self _ _) ((check_parent_zero_iff child c 0 bottom).mp e).1
    simp only [find_parent, hc, if_false]
    exact ih (fun d hd => h d (List.mem_cons_of_mem _ hd))

theorem verify_top_loop_none_of_issuer {env : Env} {child : x509_crt} {path_cnt : Int}
    {hash : List uint8_t} {md_size : Nat} {trust_ca : List x509_crt} {check_path_cnt : Int}
    (h : ∀ c ∈ trust_ca, child.issuer_raw.p ≠ c.subject_raw.p) :
    x509_crt_verify_top_loop env child path_cnt hash md_size trust_ca check_path_cnt = none := by
  induction trust_ca with
  | nil => rfl
  | cons c cs ih =>
    have hc : x509_crt_check_parent child c 1 (c_bool (path_cnt = 0)) ≠ 0 := fun e =>
      h c (List.mem_cons_self _ _)
        ((check_parent_zero_iff child c 1 (c_bool (path_cnt = 0))).mp e).1
    simp only [x509_crt_verify_top_loop, hc, ne_eq, not_false_eq_true, if_true]
    exact ih (fun d hd => h d (List.mem_cons_of_mem _ hd))

/-- C6: for a leaf whose `issuer_raw` is not byte-equal to the `subject_raw` of any
certificate of `crt->next` nor of any certificate of the trusted list,
`x509_crt_verify` without a callback leaves `BADCERT_NOT_TRUSTED` set in `*flags`
and returns `POLARSSL_ERR_X509_CERT_VERIFY_FAILED`. -/
theorem x509_crt_verify_untrusted_issuer {σ : Type} (env : Env) (crt : x509_crt)
    (crt_next trust_ca : List x509_crt) (ca_crl : List x509_crl) (cn : Option (List uint8_t))
    (p_vrfy : σ)
    (h : ∀ c ∈ crt_next ++ trust_ca, crt.issuer_raw.p ≠ c.subject_raw.p) :
    (x509_crt_verify env crt crt_next trust_ca ca_crl cn none p_vrfy).flags &&&
        BADCERT_NOT_TRUSTED = BADCERT_NOT_TRUSTED ∧
      (x509_crt_verify env crt crt_next trust_ca ca_crl cn none p_vrfy).ret =
        POLARSSL_ERR_X509_CERT_VERIFY_FAILED := by
  obtain ⟨_, hflags, _, _, hret⟩ :=
    verify_fields env crt crt_next trust_ca ca_crl cn (none : Option (vrfy_cb σ)) p_vrfy
  have hfp : find_parent crt 1 crt_next = none :=
    find_parent_none_of_issuer (fun c hc => h c (List.mem_append_left _ hc))
  have hfind : x509_crt_verify_top_find env crt trust_ca 0 = none := by
    unfold x509_crt_verify_top_find
    cases env.md_info_from_type crt.sig_md with
    | none => rfl
    | some md_info =>
      exact verify_top_loop_none_of_issuer (fun c hc => h c (List.mem_append_right _ hc))
  have hr0 := (verify_top_none_ret env crt trust_ca ca_crl 0 (x509_crt_verify_cn crt cn)
    p_vrfy).1
  rw [verify_chain_eq, hfp] at hflags hret
  simp only [] at hflags hret
  have hbit : (x509_crt_verify_top env crt trust_ca ca_crl 0 (x509_crt_verify_cn crt cn)
      (none : Option (vrfy_cb σ)) p_vrfy).flags &&& BADCERT_NOT_TRUSTED =
      BADCERT_NOT_TRUSTED := by
    unfold x509_crt_verify_top
    simp only [hfind, x509_crt_verify_top_finish, call_vrfy, ne_eq, not_true_eq_false,
      if_false]
    exact or_and_left_eq _ _ _ (or_and_self_eq _ _)
  rw [hflags, hret hr0]
  refine ⟨hbit, ?_⟩
  have hne : (x509_crt_verify_top env crt trust_ca ca_crl 0 (x509_crt_verify_cn crt cn)
      (none : Option (vrfy_cb σ)) p_vrfy).flags ≠ 0 := by
    intro e
    rw [e] at hbit
    exact absurd hbit (by decide)
  rw [if_pos hne]

/-- Witness of C6: the example leaf alone, with the example root as the only
trusted certificate; the issuer of the leaf is the intermediate CA, which is
neither in the chain nor trusted. -/
theorem x509_crt_verify_untrusted_issuer_witness :
    (x509_crt_verify demo_env demo_leaf [] [demo_root] [] none none ()).flags &&&
        BADCERT_NOT_TRUSTED = BADCERT_NOT_TRUSTED ∧
      (x509_crt_verify demo_env demo_leaf [] [demo_root] [] none none ()).ret =
        POLARSSL_ERR_X509_CERT_VERIFY_FAILED :=
  x509_crt_verify_untrusted_issuer demo_env demo_leaf [] [demo_root] [] none () (by decide)

theorem memcmp_self (a : List uint8_t) (n : Nat) : memcmp a a n = 0 := by
  simp [memcmp]

/-- C7: scenario 1, an explicitly trusted self-signed certificate. For a single
certificate `c` (no `next`) whose `issuer_raw` equals its `subject_raw`, whose
digest algorithm is known, whose signature verifies under its own public key
and whose validity window contains the current time, `x509_crt_verify` with the
trusted list `c`, no CRL, no `cn` and no callback returns `0` with `*flags == 0`,
whatever the values of `ca_istrue`, `key_usage` and `max_pathlen` (and of
`version`, which the scenario takes as 3). -/
theorem x509_crt_verify_trusted_self_signed {σ : Type} (env : Env) (c : x509_crt)
    (p_vrfy : σ)
    (hiss : c.issuer_raw.p = c.subject_raw.p)
    (hsig : sig_ok env c c)
    (htime : time_ok env c) :
    (x509_crt_verify env c [] [c] [] none none p_vrfy).ret = 0 ∧
      (x509_crt_verify env c [] [c] [] none none p_vrfy).flags = 0 := by
  obtain ⟨md_info, hmd, hcan, hver⟩ := hsig
  obtain ⟨hexp, hfut⟩ := htime
  have hcp : x509_crt_check_parent c c 1 (c_bool (decide True)) = 0 := by
    rw [check_parent_zero_iff c c 1 _]
    refine ⟨hiss, Or.inl ⟨by decide, Or.inr ⟨by decide, rfl⟩⟩⟩
  have hfind : x509_crt_verify_top_find env c [c] 0 = some c := by
    unfold x509_crt_verify_top_find
    rw [hmd]
    simp only [x509_crt_verify_top_loop, hcp, ne_eq, not_true_eq_false, if_false, memcmp_self,
      and_self, if_true, hcan, hver, or_self]
    have : ¬ (c.max_pathlen > 0 ∧ c.max_pathlen < 0 + 1 - 1) := by omega
    rw [if_neg this]
  have htop : x509_crt_verify_top env c [c] [] 0 0 (none : Option (vrfy_cb σ)) p_vrfy =
      ⟨0, 0, p_vrfy, []⟩ := by
    unfold x509_crt_verify_top
    simp only [hfind, hexp, hfut, memcmp_self, ne_eq, not_true_eq_false, or_self, if_false,
      x509_crt_verify_top_finish, call_vrfy, List.append_nil]
    rfl
  have hchain : x509_crt_verify_chain env c [] [c] [] 0 (none : Option (vrfy_cb σ)) p_vrfy =
      ⟨0, 0, p_vrfy, []⟩ := by
    rw [verify_chain_eq]
    simp only [find_parent]
    exact htop
  unfold x509_crt_verify
  simp only [x509_crt_verify_cn, hchain, ne_eq, not_true_eq_false, if_false, and_self]

/-- Witness of C7 on the example root certificate, trusted as itself. -/
theorem x509_crt_verify_trusted_self_signed_witness :
    (x509_crt_verify demo_env demo_root [] [demo_root] [] none none ()).ret = 0 ∧
      (x509_crt_verify demo_env demo_root [] [demo_root] [] none none ()).flags = 0 :=
  x509_crt_verify_trusted_self_signed demo_env demo_root () (by decide)
    ⟨⟨1, 4⟩, by decide, by decide, by decide⟩ ⟨by decide, by decide⟩

theorem and_or_distrib (a b k : Nat) : (a ||| b) &&& k = (a &&& k) ||| (b &&& k) := by
  apply Nat.eq_of_testBit_eq
  intro i
  simp only [Nat.testBit_and, Nat.testBit_or]
  cases a.testBit i <;> cases b.testBit i <;> cases k.testBit i <;> rfl

theorem clear_flags_or (a b m : Nat) :
    clear_flags (a ||| b) m = clear_flags a m ||| clear_flags b m :=
  and_or_distrib a b _

/-- The checks of `x509_crt_verify_child` only add flags to those at entry. -/
theorem verify_child_checks_or (env : Env) (child parent : x509_crt)
    (ca_crl : List x509_crl) (flags : Nat) :
    x509_crt_verify_child_checks env child parent ca_crl flags =
      flags ||| x509_crt_verify_child_checks env child parent ca_crl 0 := by
  unfold x509_crt_verify_child_checks
  by_cases he : env.x509_time_expired child.valid_to = 0 <;>
    by_cases hf : env.x509_time_future child.valid_from = 0 <;>
    cases hmd : env.md_info_from_type child.sig_md <;>
    simp only [he, hf, ne_eq, not_true_eq_false, not_false_eq_true, if_true, if_false,
      Nat.or_assoc, Nat.zero_or] <;>
    (try split) <;> (try simp only [Nat.or_assoc, Nat.zero_or])

/-- Without a callback the walk of `x509_crt_verify_child` returns `0`, invokes
nothing, and only adds flags to those at entry. -/
theorem verify_child_walk_none {σ : Type} (env : Env) (trust_ca : List x509_crt)
    (ca_crl : List x509_crl) (cands : List x509_crt) :
    ∀ (child parent : x509_crt) (path_cnt : Int) (flags : Nat) (p_vrfy : σ),
      (x509_crt_verify_child_walk env trust_ca ca_crl none child parent cands path_cnt flags
        p_vrfy).ret = 0 ∧
      (x509_crt_verify_child_walk env trust_ca ca_crl none child parent cands path_cnt flags
        p_vrfy).flags = flags |||
          (x509_crt_verify_child_walk env trust_ca ca_crl none child parent cands path_cnt 0
            p_vrfy).flags := by
  induction cands with
  | nil =>
    intro child parent path_cnt flags p_vrfy
    have hr := (verify_top_none_ret env parent trust_ca ca_crl (path_cnt + 1) 0 p_vrfy).1
    simp only [x509_crt_verify_child_walk, x509_crt_verify_child_finish, call_vrfy, hr,
      ne_eq, not_true_eq_false, if_false, Nat.zero_or, and_self]
  | cons g rest ih =>
    intro child parent path_cnt flags p_vrfy
    by_cases hcp : x509_crt_check_parent parent g 0 (c_bool (path_cnt = 0)) = 0
    · have hr := (ih parent g (path_cnt + 1)
        (x509_crt_verify_child_checks env parent g ca_crl 0) p_vrfy).1
      simp only [x509_crt_verify_child_walk, hcp, if_true, x509_crt_verify_child_finish,
        call_vrfy, hr, ne_eq, not_true_eq_false, if_false, Nat.zero_or, and_self]
    · simp only [x509_crt_verify_child_walk, hcp, if_false]
      exact ih child parent path_cnt flags p_vrfy

/-- Without a callback `x509_crt_verify_top` only adds flags to those at entry,
when these do not hold `BADCERT_NOT_TRUSTED`. -/
theorem verify_top_none_flags {σ : Type} (env : Env) (child : x509_crt)
    (trust_ca : List x509_crt) (ca_crl : List x509_crl) (path_cnt : Int) (flags : Nat)
    (p_vrfy : σ) (hfl : clear_flags flags BADCERT_NOT_TRUSTED = flags) :
    (x509_crt_verify_top env child trust_ca ca_crl path_cnt flags none p_vrfy).flags =
      flags ||| (x509_crt_verify_top env child trust_ca ca_crl path_cnt 0 none p_vrfy).flags := by
  unfold x509_crt_verify_top
  cases hfind : x509_crt_verify_top_find env child trust_ca path_cnt with
  | none =>
    by_cases he : env.x509_time_expired child.valid_to = 0 <;>
      by_cases hf : env.x509_time_future child.valid_from = 0 <;>
      simp only [he, hf, x509_crt_verify_top_finish, call_vrfy, ne_eq, not_true_eq_false,
        not_false_eq_true, if_true, if_false, Nat.or_assoc, Nat.zero_or]
  | some ca =>
    have h0 : clear_flags 0 BADCERT_NOT_TRUSTED = 0 := by decide
    by_cases he : env.x509_time_expired child.valid_to = 0 <;>
      by_cases hf : env.x509_time_future child.valid_from = 0 <;>
      simp only [he, hf, x509_crt_verify_top_finish, call_vrfy, ne_eq, not_true_eq_false,
        not_false_eq_true, if_true, if_false, clear_flags_or, hfl, h0, Nat.zero_or] <;>
      (try split) <;> (try simp only [Nat.or_assoc, Nat.zero_or])

/-- Without a callback the second half of `x509_crt_verify` returns `0` and only
adds flags to those left by the hostname check. -/
theorem verify_chain_none {σ : Type} (env : Env) (crt : x509_crt)
    (crt_next trust_ca : List x509_crt) (ca_crl : List x509_crl) (flags : Nat) (p_vrfy : σ)
    (hfl : clear_flags flags BADCERT_NOT_TRUSTED = flags) :
    (x509_crt_verify_chain env crt crt_next trust_ca ca_crl flags none p_vrfy).ret = 0 ∧
      (x509_crt_verify_chain env crt crt_next trust_ca ca_crl flags none p_vrfy).flags =
        flags ||| (x509_crt_verify_chain env crt crt_next trust_ca ca_crl 0 none p_vrfy).flags := by
  rw [verify_chain_eq, verify_chain_eq]
  cases find_parent crt 1 crt_next with
  | none =>
    exact ⟨(verify_top_none_ret env crt trust_ca ca_crl 0 flags p_vrfy).1,
      verify_top_none_flags env crt trust_ca ca_crl 0 flags p_vrfy hfl⟩
  | some pr =>
    obtain ⟨parent, parent_next⟩ := pr
    simp only [x509_crt_verify_child]
    have h1 := verify_child_walk_none env trust_ca ca_crl parent_next crt parent 0
      (x509_crt_verify_child_checks env crt parent ca_crl flags) p_vrfy
    have h2 := verify_child_walk_none env trust_ca ca_crl parent_next crt parent 0
      (x509_crt_verify_child_checks env crt parent ca_crl 0) p_vrfy
    refine ⟨h1.1, ?_⟩
    rw [h1.2, h2.2, verify_child_checks_or, Nat.or_assoc]
theorem san_loop_example_com (tag : Int) :
    x509_crt_verify_san_loop example_com [⟨tag, star_example_com⟩] = false ∧
      x509_crt_verify_san_loop www_example_com [⟨tag, star_example_com⟩] = true := by
  have h1 : x509_wildcard_verify example_com ⟨tag, star_example_com⟩ = 0 :=
    (by decide : x509_wildcard_verify example_com ⟨0, star_example_com⟩ = 0)
  have h2 : x509_wildcard_verify www_example_com ⟨tag, star_example_com⟩ = 1 :=
    (by decide : x509_wildcard_verify www_example_com ⟨0, star_example_com⟩ = 1)
  have h3 : ¬ ((star_example_com.length = example_com.length) ∧
      x509_name_cmp example_com star_example_com example_com.length = 0) := by decide
  have h4 : star_example_com.length > 2 ∧ memcmp star_example_com [42, 46] 2 = 0 := by decide
  have h5 : ¬ ((star_example_com.length = www_example_com.length) ∧
      x509_name_cmp www_example_com star_example_com www_example_com.length = 0) := by decide
  constructor
  · simp only [x509_crt_verify_san_loop, x509_buf.len, h1, h3, ne_eq, not_true_eq_false,
      and_false, if_false]
  · simp only [x509_crt_verify_san_loop, x509_buf.len, h2, h4, h5, ne_eq, and_self, if_false,
      if_true]
    decide

/-- C10, as amended: for a leaf whose SubjectAltName extension is present and
whose only dNSName entry is `*.example.com`, the hostname check of
`x509_crt_verify` sets `BADCERT_CN_MISMATCH` for `cn = "example.com"`: whatever the
chain, the trusted list and the CRLs, `x509_crt_verify` without a callback
returns `POLARSSL_ERR_X509_CERT_VERIFY_FAILED` and leaves `BADCERT_CN_MISMATCH` on top
of the flags of the run without `cn`, so that in an otherwise valid chain
`*flags == BADCERT_CN_MISMATCH`. The wildcard stands for one label: with
`cn = "www.example.com"` the hostname check sets no flag and the run is the run
without `cn`. -/
theorem x509_crt_verify_wildcard_san {σ : Type} (env : Env) (crt : x509_crt)
    (crt_next trust_ca : List x509_crt) (ca_crl : List x509_crl) (p_vrfy : σ)
    (hsan : crt.ext_types &&& EXT_SUBJECT_ALT_NAME ≠ 0)
    (hname : crt.subject_alt_names.nodes.map (fun b => b.p) = [star_example_com]) :
    x509_crt_verify_cn crt (some example_com) = BADCERT_CN_MISMATCH ∧
    (x509_crt_verify env crt crt_next trust_ca ca_crl (some example_com) none p_vrfy).ret =
      POLARSSL_ERR_X509_CERT_VERIFY_FAILED ∧
    (x509_crt_verify env crt crt_next trust_ca ca_crl (some example_com) none p_vrfy).flags =
      BADCERT_CN_MISMATCH |||
        (x509_crt_verify env crt crt_next trust_ca ca_crl none none p_vrfy).flags ∧
    ((x509_crt_verify env crt crt_next trust_ca ca_crl none none p_vrfy).flags = 0 →
      (x509_crt_verify env crt crt_next trust_ca ca_crl (some example_com) none
        p_vrfy).flags = BADCERT_CN_MISMATCH) ∧
    x509_crt_verify_cn crt (some www_example_com) = 0 ∧
    x509_crt_verify env crt crt_next trust_ca ca_crl (some www_example_com) none p_vrfy =
      x509_crt_verify env crt crt_next trust_ca ca_crl none none p_vrfy := by
  have hnodes : ∃ tag, crt.subject_alt_names.nodes = [⟨tag, star_example_com⟩] := by
    cases hn : crt.subject_alt_names.nodes with
    | nil => rw [hn] at hname; simp at hname
    | cons b rest =>
      cases rest with
      | nil =>
        rw [hn] at hname
        simp only [List.map_cons, List.map_nil, List.cons.injEq, and_true] at hname
        exact ⟨b.tag, by rw [← hname]⟩
      | cons c r => rw [hn] at hname; simp at hname
  obtain ⟨tag, hn⟩ := hnodes
  have hcn : x509_crt_verify_cn crt (some example_com) = BADCERT_CN_MISMATCH := by
    simp only [x509_crt_verify_cn, hsan, ne_eq, not_false_eq_true, if_true, hn,
      (san_loop_example_com tag).1, Nat.zero_or]
  have hwww : x509_crt_verify_cn crt (some www_example_com) = 0 := by
    simp only [x509_crt_verify_cn, hsan, ne_eq, not_false_eq_true, if_true, hn,
      (san_loop_example_com tag).2]
    rfl
  have hnone : x509_crt_verify_cn crt none = 0 := rfl
  obtain ⟨_, hf1, _, _, hr1⟩ := verify_fields env crt crt_next trust_ca ca_crl
    (some example_com) (none : Option (vrfy_cb σ)) p_vrfy
  obtain ⟨_, hf0, _, _, _⟩ := verify_fields env crt crt_next trust_ca ca_crl
    none (none : Option (vrfy_cb σ)) p_vrfy
  rw [hcn] at hf1 hr1
  rw [hnone] at hf0
  obtain ⟨hret, hflags⟩ := verify_chain_none env crt crt_next trust_ca ca_crl
    BADCERT_CN_MISMATCH p_vrfy (by decide)
  have hfl : (x509_crt_verify env crt crt_next trust_ca ca_crl (some example_com) none
      p_vrfy).flags = BADCERT_CN_MISMATCH |||
        (x509_crt_verify env crt crt_next trust_ca ca_crl none none p_vrfy).flags := by
    rw [hf1, hf0, hflags]
  have hne : (x509_crt_verify_chain env crt crt_next trust_ca ca_crl BADCERT_CN_MISMATCH
      (none : Option (vrfy_cb σ)) p_vrfy).flags ≠ 0 := by
    rw [hflags]
    intro e
    exact absurd ((or_eq_zero_iff _ _).mp e).1 (by decide)
  refine ⟨hcn, ?_, hfl, ?_, hwww, ?_⟩
  · rw [hr1 hret, if_pos hne]
  · intro h0
    rw [hfl, h0]
    rfl
  · unfold x509_crt_verify
    rw [hwww, hnone]

/-- Witness of C10 as amended, on the example chain with the SubjectAltName
leaf. -/
theorem x509_crt_verify_wildcard_san_witness :
    x509_crt_verify_cn demo_san_leaf (some example_com) = BADCERT_CN_MISMATCH ∧
    (x509_crt_verify demo_env demo_san_leaf [demo_ca] [demo_root] [] (some example_com) none
      ()).ret = POLARSSL_ERR_X509_CERT_VERIFY_FAILED ∧
    (x509_crt_verify demo_env demo_san_leaf [demo_ca] [demo_root] [] (some example_com) none
      ()).flags = BADCERT_CN_MISMATCH |||
        (x509_crt_verify demo_env demo_san_leaf [demo_ca] [demo_root] [] none none ()).flags ∧
    ((x509_crt_verify demo_env demo_san_leaf [demo_ca] [demo_root] [] none none ()).flags = 0 →
      (x509_crt_verify demo_env demo_san_leaf [demo_ca] [demo_root] [] (some example_com) none
        ()).flags = BADCERT_CN_MISMATCH) ∧
    x509_crt_verify_cn demo_san_leaf (some www_example_com) = 0 ∧
    x509_crt_verify demo_env demo_san_leaf [demo_ca] [demo_root] [] (some www_example_com) none
        () =
      x509_crt_verify demo_env demo_san_leaf [demo_ca] [demo_root] [] none none () :=
  x509_crt_verify_wildcard_san demo_env demo_san_leaf [demo_ca] [demo_root] [] ()
    (by decide) (by decide)

/-- C10, counterexample: the example chain `demo_san_leaf, demo_ca` ends at the
separately trusted `demo_root` and is valid (without `cn` the run returns `0`
with no flag); the only dNSName of the leaf is `*.example.com`; yet with
`cn = "example.com"` the run returns `POLARSSL_ERR_X509_CERT_VERIFY_FAILED` with
`*flags == BADCERT_CN_MISMATCH`, not `0` with `*flags == 0`. -/
theorem x509_crt_verify_wildcard_san_bare_domain :
    (x509_crt_verify demo_env demo_san_leaf [demo_ca] [demo_root] [] none none ()).ret = 0 ∧
    (x509_crt_verify demo_env demo_san_leaf [demo_ca] [demo_root] [] none none ()).flags = 0 ∧
    (x509_crt_verify demo_env demo_san_leaf [demo_ca] [demo_root] [] (some example_com) none
      ()).ret = POLARSSL_ERR_X509_CERT_VERIFY_FAILED ∧
    (x509_crt_verify demo_env demo_san_leaf [demo_ca] [demo_root] [] (some example_com) none
      ()).flags = BADCERT_CN_MISMATCH ∧
    ¬ ((x509_crt_verify demo_env demo_san_leaf [demo_ca] [demo_root] [] (some example_com) none
        ()).ret = 0 ∧
      (x509_crt_verify demo_env demo_san_leaf [demo_ca] [demo_root] [] (some example_com) none
        ()).flags = 0) := by
  decide

/-! ### Key usage -/

/-- C13: `x509_crt_check_key_usage` returns `POLARSSL_ERR_X509_BAD_INPUT_DATA` exactly
when the KeyUsage extension is present (`EXT_KEY_USAGE` in `ext_types`) and
`(key_usage & usage) != usage`, and returns `0` otherwise; in particular it
returns `0` for every usage when the extension is absent, whatever `key_usage`
holds. -/
theorem x509_crt_check_key_usage_spec (crt : x509_crt) (usage : Nat) :
    (x509_crt_check_key_usage crt usage = POLARSSL_ERR_X509_BAD_INPUT_DATA ↔
      (crt.ext_types &&& EXT_KEY_USAGE ≠ 0 ∧ crt.key_usage &&& usage ≠ usage)) ∧
    (x509_crt_check_key_usage crt usage = POLARSSL_ERR_X509_BAD_INPUT_DATA ∨
      x509_crt_check_key_usage crt usage = 0) ∧
    (crt.ext_types &&& EXT_KEY_USAGE ≠ 0 ∨
      ∀ key_usage usage', x509_crt_check_key_usage { crt with key_usage := key_usage } usage' = 0) := by
  unfold x509_crt_check_key_usage
  refine ⟨?_, ?_, ?_⟩
  · split
    · rename_i h; exact ⟨fun _ => h, fun _ => rfl⟩
    · rename_i h
      exact ⟨fun e => absurd e (by decide), fun h' => absurd h' h⟩
  · split
    · left; rfl
    · right; rfl
  · by_cases h : crt.ext_types &&& EXT_KEY_USAGE = 0
    · right
      intro key_usage usage'
      simp [h]
    · left; exact h

/-! ### The hostname check -/

/-- A name accepted by `x509_wildcard_verify` has at least three bytes and begins
with `*.`, and the function returns `1` on it. -/
theorem wildcard_verify_ne_zero {cn : List uint8_t} {name : x509_buf}
    (h : x509_wildcard_verify cn name ≠ 0) :
    x509_wildcard_verify cn name = 1 ∧ name.len > 2 ∧ memcmp name.p [42, 46] 2 = 0 := by
  unfold x509_wildcard_verify at h ⊢
  by_cases h1 : name.len < 3 ∨ name.p.get? 0 ≠ some 42 ∨ name.p.get? 1 ≠ some 46
  · rw [if_pos h1] at h; exact absurd rfl h
  · rw [if_neg h1] at h ⊢
    have hb := (begins_star_dot name.p).mp (fun e => h1 (Or.inr e))
    have hlen : name.len > 2 := by
      have : ¬ name.len < 3 := fun e => h1 (Or.inl e)
      omega
    refine ⟨?_, hlen, ?_⟩
    · simp only [] at h ⊢
      split
      · rename_i h2; rw [if_pos h2] at h; exact absurd rfl h
      · rename_i h2
        rw [if_neg h2] at h
        split
        · rfl
        · rename_i h3; rw [if_neg h3] at h; exact absurd rfl h
    · unfold memcmp
      rw [hb]
      rfl

/-- The SubjectAltName loop leaves by `break` exactly when some entry matches. -/
theorem san_loop_iff (cn : List uint8_t) (nodes : List x509_buf) :
    x509_crt_verify_san_loop cn nodes = true ↔ ∃ e ∈ nodes, san_entry_matches cn e := by
  induction nodes with
  | nil => simp [x509_crt_verify_san_loop]
  | cons cur rest ih =>
    unfold x509_crt_verify_san_loop
    by_cases h1 : cur.len = cn.length ∧ x509_name_cmp cn cur.p cn.length = 0
    · rw [if_pos h1]
      simp only [true_iff]
      exact ⟨cur, List.mem_cons_self _ _, Or.inl h1⟩
    · rw [if_neg h1]
      by_cases h2 : cur.len > 2 ∧ memcmp cur.p [42, 46] 2 = 0 ∧ x509_wildcard_verify cn cur ≠ 0
      · rw [if_pos h2]
        simp only [true_iff]
        exact ⟨cur, List.mem_cons_self _ _, Or.inr (wildcard_verify_ne_zero h2.2.2).1⟩
      · rw [if_neg h2, ih]
        constructor
        · rintro ⟨e, he, hm⟩
          exact ⟨e, List.mem_cons_of_mem _ he, hm⟩
        · rintro ⟨e, he, hm⟩
          rcases List.mem_cons.mp he with rfl | he'
          · rcases hm with hm | hm
            · exact absurd hm h1
            · have hne : x509_wildcard_verify cn e ≠ 0 := by rw [hm]; decide
              obtain ⟨_, hl, hmc⟩ := wildcard_verify_ne_zero hne
              exact absurd ⟨hl, hmc, hne⟩ h2
          · exact ⟨e, he', hm⟩

/-- C11: SubjectAltName takes precedence over the Subject. For a certificate
whose `ext_types` contains the SubjectAltName bit and a non-null `cn`, the
hostname check of `x509_crt_verify` sets `BADCERT_CN_MISMATCH` exactly when no entry
of `subject_alt_names` matches `cn` (exactly under `x509_name_cmp` with equal length,
or by `x509_wildcard_verify`), and sets no flag otherwise; the outcome is the
same for every Subject. -/
theorem x509_crt_verify_cn_san (crt : x509_crt) (cn : List uint8_t)
    (hsan : crt.ext_types &&& EXT_SUBJECT_ALT_NAME ≠ 0) :
    (x509_crt_verify_cn crt (some cn) = BADCERT_CN_MISMATCH ↔
      ¬ ∃ e ∈ crt.subject_alt_names.nodes, san_entry_matches cn e) ∧
    (x509_crt_verify_cn crt (some cn) = 0 ↔
      ∃ e ∈ crt.subject_alt_names.nodes, san_entry_matches cn e) ∧
    (∀ subject : x509_name,
      x509_crt_verify_cn { crt with subject := subject } (some cn) =
        x509_crt_verify_cn crt (some cn)) := by
  have hiff := san_loop_iff cn crt.subject_alt_names.nodes
  refine ⟨?_, ?_, ?_⟩
  · simp only [x509_crt_verify_cn, hsan, ne_eq, not_false_eq_true, if_true]
    cases hl : x509_crt_verify_san_loop cn crt.subject_alt_names.nodes with
    | false =>
      rw [hl] at hiff
      simp only [if_true, Nat.zero_or, true_iff]
      exact fun h => absurd (hiff.mpr h) (by decide)
    | true =>
      rw [hl] at hiff
      simp only [Bool.true_eq_false, if_false]
      exact ⟨fun h => absurd h (by decide), fun h => absurd (hiff.mp rfl) h⟩
  · simp only [x509_crt_verify_cn, hsan, ne_eq, not_false_eq_true, if_true]
    cases hl : x509_crt_verify_san_loop cn crt.subject_alt_names.nodes with
    | false =>
      rw [hl] at hiff
      simp only [if_true, Nat.zero_or]
      exact ⟨fun h => absurd h (by decide), fun h => absurd (hiff.mpr h) (by decide)⟩
    | true =>
      rw [hl] at hiff
      simp only [Bool.true_eq_false, if_false, true_iff]
      exact hiff.mp rfl
  · intro subject
    simp only [x509_crt_verify_cn, hsan, ne_eq, not_false_eq_true, if_true]

/-- Witness of C11: the example leaf has the Subject `CN=example.com` and the only
SubjectAltName entry `*.example.com`; for `cn = "example.com"` no entry matches
and the hostname check sets `BADCERT_CN_MISMATCH`, although the Subject
commonName equals `cn` (without the extension bit the Subject would match). -/
theorem x509_crt_verify_cn_san_witness :
    x509_crt_verify_cn { demo_san_cn_leaf with ext_types := 0 } (some example_com) = 0 ∧
    ((x509_crt_verify_cn demo_san_cn_leaf (some example_com) = BADCERT_CN_MISMATCH ↔
      ¬ ∃ e ∈ demo_san_cn_leaf.subject_alt_names.nodes, san_entry_matches example_com e) ∧
    (x509_crt_verify_cn demo_san_cn_leaf (some example_com) = 0 ↔
      ∃ e ∈ demo_san_cn_leaf.subject_alt_names.nodes, san_entry_matches example_com e) ∧
    (∀ subject : x509_name,
      x509_crt_verify_cn { demo_san_cn_leaf with subject := subject } (some example_com) =
        x509_crt_verify_cn demo_san_cn_leaf (some example_com))) :=
  ⟨by decide, x509_crt_verify_cn_san demo_san_cn_leaf example_com (by decide)⟩

theorem oid_cmp_iff (oid_str : List uint8_t) (oid_buf : x509_buf) :
    OID_CMP oid_str oid_buf = true ↔ oid_buf.p = oid_str := by
  unfold OID_CMP x509_buf.len
  simp only [Bool.and_eq_true, decide_eq_true_eq]
  constructor
  · rintro ⟨hl, ht⟩
    rw [← hl, List.take_length, hl, List.take_length] at ht
    exact ht.symm
  · intro h
    rw [h]
    exact ⟨rfl, rfl⟩

/-- The Subject loop runs off the list when no atom carries the OID
`id-at-commonName`. -/
theorem cn_loop_no_cn (cn : List uint8_t) (nodes : List x509_name_node)
    (h : ∀ n ∈ nodes, n.oid.p ≠ OID_AT_CN) :
    x509_crt_verify_cn_loop cn nodes = false := by
  induction nodes with
  | nil => rfl
  | cons n rest ih =>
    have hn : ¬ (OID_CMP OID_AT_CN n.oid = true) := fun e =>
      h n (List.mem_cons_self _ _) ((oid_cmp_iff _ _).mp e)
    simp only [x509_crt_verify_cn_loop, hn, false_and, if_false]
    exact ih (fun m hm => h m (List.mem_cons_of_mem _ hm))

theorem ite_or_keeps (c : Prop) [Decidable c] (x m k : Nat) (h : x &&& k = k) :
    (if c then x ||| m else x) &&& k = k := by
  split
  · exact or_and_left_eq _ _ _ h
  · exact h

theorem clear_not_trusted_keeps_cn (x : Nat)
    (h : x &&& BADCERT_CN_MISMATCH = BADCERT_CN_MISMATCH) :
    clear_flags x BADCERT_NOT_TRUSTED &&& BADCERT_CN_MISMATCH = BADCERT_CN_MISMATCH := by
  unfold clear_flags
  rw [Nat.and_assoc]
  have e : (0xFFFFFFFF ^^^ BADCERT_NOT_TRUSTED) &&& BADCERT_CN_MISMATCH = BADCERT_CN_MISMATCH := by
    decide
  rw [e]
  exact h

/-- A callback that leaves the flags as they are hands back the flags it was
given; so does an absent callback. -/
theorem call_vrfy_flags {σ : Type} (f_vrfy : Option (vrfy_cb σ))
    (hf : ∀ f, f_vrfy = some f → ∀ p c d fl, (f p c d fl).2.1 = fl)
    (p_vrfy : σ) (crt : x509_crt) (depth : Int) (flags : Nat) :
    (call_vrfy f_vrfy p_vrfy crt depth flags).flags = flags := by
  cases f_vrfy with
  | none => rfl
  | some f => exact hf f rfl p_vrfy crt depth flags

theorem verify_top_finish_keeps {σ : Type} (f_vrfy : Option (vrfy_cb σ))
    (hf : ∀ f, f_vrfy = some f → ∀ p c d fl, (f p c d fl).2.1 = fl)
    (child : x509_crt) (path_cnt : Int) (flags ca_flags : Nat) (p_vrfy : σ)
    (calls : List cb_call) (k : Nat) (h : flags &&& k = k) :
    (x509_crt_verify_top_finish f_vrfy child path_cnt flags ca_flags p_vrfy calls).flags &&& k
      = k := by
  unfold x509_crt_verify_top_finish
  simp only []
  split
  · simp only [call_vrfy_flags f_vrfy hf]; exact h
  · simp only [call_vrfy_flags f_vrfy hf]; exact or_and_left_eq _ _ _ h

/-- With a callback that leaves the flags as they are, `x509_crt_verify_top` keeps
`BADCERT_CN_MISMATCH` when it is set at entry. -/
theorem verify_top_keeps_cn {σ : Type} (env : Env) (child : x509_crt)
    (trust_ca : List x509_crt) (ca_crl : List x509_crl) (path_cnt : Int) (flags : Nat)
    (f_vrfy : Option (vrfy_cb σ)) (p_vrfy : σ)
    (hf : ∀ f, f_vrfy = some f → ∀ p c d fl, (f p c d fl).2.1 = fl)
    (h : flags &&& BADCERT_CN_MISMATCH = BADCERT_CN_MISMATCH) :
    (x509_crt_verify_top env child trust_ca ca_crl path_cnt flags f_vrfy p_vrfy).flags &&&
      BADCERT_CN_MISMATCH = BADCERT_CN_MISMATCH := by
  have h1 : (((if env.x509_time_future child.valid_from ≠ 0 then
      (if env.x509_time_expired child.valid_to ≠ 0 then flags ||| BADCERT_EXPIRED else flags)
        ||| BADCERT_FUTURE
      else (if env.x509_time_expired child.valid_to ≠ 0 then flags ||| BADCERT_EXPIRED
        else flags)) ||| BADCERT_NOT_TRUSTED) &&& BADCERT_CN_MISMATCH) = BADCERT_CN_MISMATCH :=
    or_and_left_eq _ _ _ (ite_or_keeps _ _ _ _ (ite_or_keeps _ _ _ _ h))
  unfold x509_crt_verify_top
  simp only []
  generalize (if env.x509_time_future child.valid_from ≠ 0 then _ else _ : Nat) |||
    BADCERT_NOT_TRUSTED = fl at h1 ⊢
  cases x509_crt_verify_top_find env child trust_ca path_cnt with
  | none => exact verify_top_finish_keeps f_vrfy hf _ _ _ _ _ _ _ h1
  | some ca =>
    have h2 := clear_not_trusted_keeps_cn fl h1
    simp only []
    by_cases hsub : child.subject_raw.len ≠ ca.subject_raw.len ∨
        memcmp child.subject_raw.p ca.subject_raw.p child.issuer_raw.len ≠ 0
    · rw [if_pos hsub]
      generalize (if env.x509_time_future ca.valid_from ≠ 0 then _ else _ : Nat) = cf
      by_cases hr : (call_vrfy f_vrfy p_vrfy ca (path_cnt + 1) cf).ret ≠ 0
      · rw [if_pos hr]
        exact or_and_left_eq _ _ _ h2
      · rw [if_neg hr]
        exact verify_top_finish_keeps f_vrfy hf _ _ _ _ _ _ _ (or_and_left_eq _ _ _ h2)
    · rw [if_neg hsub]
      exact verify_top_finish_keeps f_vrfy hf _ _ _ _ _ _ _ h2

theorem verify_child_finish_keeps {σ : Type} (f_vrfy : Option (vrfy_cb σ))
    (hf : ∀ f, f_vrfy = some f → ∀ p c d fl, (f p c d fl).2.1 = fl)
    (child : x509_crt) (path_cnt : Int) (flags : Nat) (up : verify_result σ) (k : Nat)
    (h : flags &&& k = k) :
    (x509_crt_verify_child_finish f_vrfy child path_cnt flags up).flags &&& k = k := by
  unfold x509_crt_verify_child_finish
  split
  · exact h
  · simp only []
    split
    · simp only [call_vrfy_flags f_vrfy hf]; exact h
    · simp only [call_vrfy_flags f_vrfy hf]; exact or_and_left_eq _ _ _ h

theorem verify_child_walk_keeps {σ : Type} (env : Env) (trust_ca : List x509_crt)
    (ca_crl : List x509_crl) (f_vrfy : Option (vrfy_cb σ))
    (hf : ∀ f, f_vrfy = some f → ∀ p c d fl, (f p c d fl).2.1 = fl)
    (cands : List x509_crt) (k : Nat) :
    ∀ (child parent : x509_crt) (path_cnt : Int) (flags : Nat) (p_vrfy : σ),
      flags &&& k = k →
      (x509_crt_verify_child_walk env trust_ca ca_crl f_vrfy child parent cands path_cnt flags
        p_vrfy).flags &&& k = k := by
  induction cands with
  | nil =>
    intro child parent path_cnt flags p_vrfy h
    simp only [x509_crt_verify_child_walk]
    exact verify_child_finish_keeps f_vrfy hf _ _ _ _ _ h
  | cons g rest ih =>
    intro child parent path_cnt flags p_vrfy h
    simp only [x509_crt_verify_child_walk]
    split
    · exact verify_child_finish_keeps f_vrfy hf _ _ _ _ _ h
    · exact ih _ _ _ _ _ h

/-- C12: no SubjectAltName and no commonName means mismatch. For a certificate
whose `ext_types` lacks the SubjectAltName bit and whose Subject has no atom
with the OID `id-at-commonName`, and for every non-null `cn` (the empty string
included), `x509_crt_verify` with the callback absent or not modifying the flags
leaves `BADCERT_CN_MISMATCH` set in `*flags` and returns a nonzero value, for
every chain, trusted list and CRL list. -/
theorem x509_crt_verify_no_san_no_cn {σ : Type} (env : Env) (crt : x509_crt)
    (crt_next trust_ca : List x509_crt) (ca_crl : List x509_crl) (cn : List uint8_t)
    (f_vrfy : Option (vrfy_cb σ)) (p_vrfy : σ)
    (hsan : crt.ext_types &&& EXT_SUBJECT_ALT_NAME = 0)
    (hcn : ∀ n ∈ crt.subject.nodes, n.oid.p ≠ OID_AT_CN)
    (hf : ∀ f, f_vrfy = some f → ∀ p c d fl, (f p c d fl).2.1 = fl) :
    (x509_crt_verify env crt crt_next trust_ca ca_crl (some cn) f_vrfy p_vrfy).flags &&&
        BADCERT_CN_MISMATCH = BADCERT_CN_MISMATCH ∧
      (x509_crt_verify env crt crt_next trust_ca ca_crl (some cn) f_vrfy p_vrfy).ret ≠ 0 := by
  have hcnf : x509_crt_verify_cn crt (some cn) = BADCERT_CN_MISMATCH := by
    simp only [x509_crt_verify_cn, hsan, ne_eq, not_true_eq_false, if_false,
      cn_loop_no_cn cn _ hcn, if_true, Nat.zero_or]
  obtain ⟨_, hflags, _, hne, hz⟩ :=
    verify_fields env crt crt_next trust_ca ca_crl (some cn) f_vrfy p_vrfy
  rw [hcnf] at hflags hne hz
  have hkeep : (x509_crt_verify_chain env crt crt_next trust_ca ca_crl BADCERT_CN_MISMATCH
      f_vrfy p_vrfy).flags &&& BADCERT_CN_MISMATCH = BADCERT_CN_MISMATCH := by
    rw [verify_chain_eq]
    split
    · simp only [x509_crt_verify_child]
      apply verify_child_walk_keeps env trust_ca ca_crl f_vrfy hf
      rw [verify_child_checks_or]
      exact or_and_left_eq _ _ _ (by decide)
    · exact verify_top_keeps_cn env crt trust_ca ca_crl 0 _ f_vrfy p_vrfy hf (by decide)
  refine ⟨by rw [hflags]; exact hkeep, ?_⟩
  by_cases h0 : (x509_crt_verify_chain env crt crt_next trust_ca ca_crl BADCERT_CN_MISMATCH
      f_vrfy p_vrfy).ret = 0
  · have hfl : (x509_crt_verify_chain env crt crt_next trust_ca ca_crl BADCERT_CN_MISMATCH
        f_vrfy p_vrfy).flags ≠ 0 := by
      intro e
      rw [e] at hkeep
      exact absurd hkeep (by decide)
    rw [hz h0, if_pos hfl]
    decide
  · rw [hne h0]
    exact h0

/-- Witness of C12: the example leaf has no SubjectAltName extension and an empty
Subject; with the empty string as `cn` and the counting callback, on the
otherwise valid example chain. -/
theorem x509_crt_verify_no_san_no_cn_witness :
    (x509_crt_verify demo_env demo_leaf [demo_ca] [demo_root] [] (some []) (some demo_cb)
        0).flags &&& BADCERT_CN_MISMATCH = BADCERT_CN_MISMATCH ∧
      (x509_crt_verify demo_env demo_leaf [demo_ca] [demo_root] [] (some []) (some demo_cb)
        0).ret ≠ 0 :=
  x509_crt_verify_no_san_no_cn demo_env demo_leaf [demo_ca] [demo_root] [] [] (some demo_cb) 0
    (by decide) (by decide) (fun f hf p c d fl => by
      simp only [Option.some.injEq] at hf
      subst hf
      rfl)

/-! ### Extended key usage -/

theorem check_extended_key_usage_loop_iff (usage_oid : List uint8_t) (usage_len : Nat)
    (nodes : List x509_buf) :
    (x509_crt_check_extended_key_usage_loop usage_oid usage_len nodes = 0 ↔
      ((∃ e ∈ nodes, e.len = usage_len ∧ e.p = usage_oid.take usage_len) ∨
        ∃ e ∈ nodes, e.p = OID_ANY_EXTENDED_KEY_USAGE)) ∧
    (x509_crt_check_extended_key_usage_loop usage_oid usage_len nodes = 0 ∨
      x509_crt_check_extended_key_usage_loop usage_oid usage_len nodes =
        POLARSSL_ERR_X509_BAD_INPUT_DATA) := by
  induction nodes with
  | nil =>
    simp only [x509_crt_check_extended_key_usage_loop, List.not_mem_nil, false_and,
      exists_false, or_self, iff_false, or_true, and_true]
    decide
  | cons cur rest ih =>
    have hm : (cur.len = usage_len ∧ memcmp cur.p usage_oid usage_len = 0) ↔
        (cur.len = usage_len ∧ cur.p = usage_oid.take usage_len) := by
      unfold memcmp x509_buf.len
      constructor
      · rintro ⟨hl, hc⟩
        refine ⟨hl, ?_⟩
        by_cases e : cur.p.take usage_len = usage_oid.take usage_len
        · rw [← hl, List.take_length] at e
          rw [← hl]; exact e
        · rw [if_neg e] at hc; exact absurd hc (by decide)
      · rintro ⟨hl, hc⟩
        refine ⟨hl, ?_⟩
        have : cur.p.take usage_len = usage_oid.take usage_len := by
          rw [← hc, ← hl, List.take_length]
        rw [if_pos this]
    unfold x509_crt_check_extended_key_usage_loop
    by_cases h1 : cur.len = usage_len ∧ memcmp cur.p usage_oid usage_len = 0
    · rw [if_pos h1]
      exact ⟨⟨fun _ => Or.inl ⟨cur, List.mem_cons_self _ _, hm.mp h1⟩, fun _ => rfl⟩,
        Or.inl rfl⟩
    · rw [if_neg h1]
      by_cases h2 : OID_CMP OID_ANY_EXTENDED_KEY_USAGE cur = true
      · rw [if_pos h2]
        exact ⟨⟨fun _ => Or.inr ⟨cur, List.mem_cons_self _ _, (oid_cmp_iff _ _).mp h2⟩,
          fun _ => rfl⟩, Or.inl rfl⟩
      · rw [if_neg h2]
        refine ⟨?_, ih.2⟩
        rw [ih.1]
        constructor
        · rintro (⟨e, he, hh⟩ | ⟨e, he, hh⟩)
          · exact Or.inl ⟨e, List.mem_cons_of_mem _ he, hh⟩
          · exact Or.inr ⟨e, List.mem_cons_of_mem _ he, hh⟩
        · rintro (⟨e, he, hh⟩ | ⟨e, he, hh⟩)
          · rcases List.mem_cons.mp he with rfl | he'
            · exact absurd (hm.mpr hh) h1
            · exact Or.inl ⟨e, he', hh⟩
          · rcases List.mem_cons.mp he with rfl | he'
            · exact absurd ((oid_cmp_iff _ _).mpr hh) h2
            · exact Or.inr ⟨e, he', hh⟩

/-- C14: `x509_crt_check_extended_key_usage` returns `0` exactly when the
ExtendedKeyUsage extension is absent, or the `ext_key_usage` list holds an OID
equal to `usage_oid` in length (`usage_len`) and bytes, or the list holds the
OID `anyExtendedKeyUsage`; in every other case it returns
`POLARSSL_ERR_X509_BAD_INPUT_DATA`. -/
theorem x509_crt_check_extended_key_usage_spec (crt : x509_crt) (usage_oid : List uint8_t)
    (usage_len : Nat) :
    (x509_crt_check_extended_key_usage crt usage_oid usage_len = 0 ↔
      (crt.ext_types &&& EXT_EXTENDED_KEY_USAGE = 0 ∨
        (∃ e ∈ crt.ext_key_usage.nodes, e.len = usage_len ∧ e.p = usage_oid.take usage_len) ∨
        ∃ e ∈ crt.ext_key_usage.nodes, e.p = OID_ANY_EXTENDED_KEY_USAGE)) ∧
    (x509_crt_check_extended_key_usage crt usage_oid usage_len = 0 ∨
      x509_crt_check_extended_key_usage crt usage_oid usage_len =
        POLARSSL_ERR_X509_BAD_INPUT_DATA) := by
  have hl := check_extended_key_usage_loop_iff usage_oid usage_len crt.ext_key_usage.nodes
  unfold x509_crt_check_extended_key_usage
  by_cases h : crt.ext_types &&& EXT_EXTENDED_KEY_USAGE = 0
  · rw [if_pos h]
    exact ⟨⟨fun _ => Or.inl h, fun _ => rfl⟩, Or.inl rfl⟩
  · rw [if_neg h]
    refine ⟨?_, hl.2⟩
    rw [hl.1]
    constructor
    · intro h'; exact Or.inr h'
    · rintro (h' | h')
      · exact absurd h' h
      · exact h'

/-! ### Revocation -/

theorem revoked_loop_iff (env : Env) (crt : x509_crt) (nodes : List x509_crl_entry) :
    (x509_crt_revoked_loop env crt nodes = 1 ↔
      ∃ e ∈ nodes.takeWhile (fun e => decide (e.serial.len ≠ 0)), entry_revokes env crt e) ∧
    (x509_crt_revoked_loop env crt nodes = 1 ∨ x509_crt_revoked_loop env crt nodes = 0) := by
  induction nodes with
  | nil => simp [x509_crt_revoked_loop]
  | cons cur rest ih =>
    have hm : (crt.serial.len = cur.serial.len ∧
        memcmp crt.serial.p cur.serial.p crt.serial.len = 0) ↔ cur.serial.p = crt.serial.p := by
      have := buf_cmp_iff crt.serial.p cur.serial.p
      simp only [not_or, not_not] at this
      unfold x509_buf.len
      rw [this]
      exact eq_comm
    unfold x509_crt_revoked_loop
    by_cases h0 : cur.serial.len = 0
    · rw [if_pos h0]
      simp [List.takeWhile, h0]
    · rw [if_neg h0]
      have htw : (cur :: rest).takeWhile (fun e => decide (e.serial.len ≠ 0)) =
          cur :: rest.takeWhile (fun e => decide (e.serial.len ≠ 0)) := by
        simp [List.takeWhile, h0]
      rw [htw]
      by_cases h1 : crt.serial.len = cur.serial.len ∧
          memcmp crt.serial.p cur.serial.p crt.serial.len = 0 ∧
          env.x509_time_expired cur.revocation_date ≠ 0
      · rw [if_pos h1]
        refine ⟨⟨fun _ => ⟨cur, List.mem_cons_self _ _, hm.mp ⟨h1.1, h1.2.1⟩, h1.2.2⟩,
          fun _ => rfl⟩, Or.inl rfl⟩
      · rw [if_neg h1]
        refine ⟨?_, ih.2⟩
        rw [ih.1]
        constructor
        · rintro ⟨e, he, hh⟩
          exact ⟨e, List.mem_cons_of_mem _ he, hh⟩
        · rintro ⟨e, he, hh⟩
          rcases List.mem_cons.mp he with rfl | he'
          · exact absurd ⟨(hm.mpr hh.1).1, (hm.mpr hh.1).2, hh.2⟩ h1
          · exact ⟨e, he', hh⟩

/-- C15, as amended: `x509_crt_revoked` returns `1` exactly when some entry of the
CRL located before the first entry with an empty serial, where the walk stops,
has a serial equal to `crt.serial` in length and bytes and a revocation date in
the past (`x509_time_expired`); it returns `0` otherwise and never another
value. -/
theorem x509_crt_revoked_spec (env : Env) (crt : x509_crt) (crl : x509_crl) :
    (x509_crt_revoked env crt crl = 1 ↔ ∃ e ∈ crl_entries crl, entry_revokes env crt e) ∧
    (x509_crt_revoked env crt crl = 1 ∨ x509_crt_revoked env crt crl = 0) :=
  revoked_loop_iff env crt (crl.entry :: crl.entry_next)

/-- C15, counterexample: the example CRL `demo_crl_gap` lists the serials `01`, an
empty serial and `05`, each revoked in the past; for the certificate with the
serial `05` an entry of the list has that serial and a revocation date in the
past, yet `x509_crt_revoked` returns `0`, because its walk stops at the entry
with the empty serial. -/
theorem x509_crt_revoked_stops_at_empty_serial :
    (∃ e ∈ demo_crl_gap.entry :: demo_crl_gap.entry_next,
      entry_revokes demo_env demo_leaf_05 e) ∧
    x509_crt_revoked demo_env demo_leaf_05 demo_crl_gap = 0 ∧
    ¬ (x509_crt_revoked demo_env demo_leaf_05 demo_crl_gap = 1 ↔
      ∃ e ∈ demo_crl_gap.entry :: demo_crl_gap.entry_next,
        entry_revokes demo_env demo_leaf_05 e) := by
  decide

theorem crl_skip_iff (crl : x509_crl) (ca : x509_crt) :
    (crl.version = 0 ∨ crl.issuer_raw.len ≠ ca.subject_raw.len ∨
      memcmp crl.issuer_raw.p ca.subject_raw.p crl.issuer_raw.len ≠ 0) ↔ ¬ crl_of_ca crl ca := by
  have h := buf_cmp_iff crl.issuer_raw.p ca.subject_raw.p
  unfold crl_of_ca x509_buf.len
  constructor
  · rintro (h0 | h1) ⟨hv, hi⟩
    · exact hv h0
    · exact (h.mpr hi) h1
  · intro hn
    by_cases hv : crl.version = 0
    · exact Or.inl hv
    · right
      by_contra hc
      exact hn ⟨hv, h.mp hc⟩

/-- The loop of `x509_crt_verifycrl` reports the revocation found in a CRL of the
CA, when the CA may sign CRLs and every CRL of the CA before it verifies. -/
theorem verifycrl_loop_revoked (env : Env) (crt ca : x509_crt) (crl : x509_crl)
    (post : List x509_crl)
    (hku : x509_crt_check_key_usage ca KU_CRL_SIGN = 0)
    (hcrl : crl_of_ca crl ca) (hsig : crl_sig_ok env crl ca)
    (hrev : ∃ e ∈ crl_entries crl, entry_revokes env crt e) (pre : List x509_crl) :
    (∀ c ∈ pre, crl_of_ca c ca → crl_sig_ok env c ca) →
    ∀ flags, x509_crt_verifycrl_loop env crt ca (pre ++ crl :: post) flags &&&
      BADCERT_REVOKED = BADCERT_REVOKED := by
  have step : ∀ (c : x509_crl) (rest : List x509_crl) (flags : Nat),
      crl_of_ca c ca → crl_sig_ok env c ca →
      (x509_crt_revoked env crt c ≠ 0 →
        x509_crt_verifycrl_loop env crt ca (c :: rest) flags &&& BADCERT_REVOKED =
          BADCERT_REVOKED) ∧
      (x509_crt_revoked env crt c = 0 →
        ∃ flags', x509_crt_verifycrl_loop env crt ca (c :: rest) flags =
          x509_crt_verifycrl_loop env crt ca rest flags') := by
    intro c rest flags hc hs
    obtain ⟨md_info, hmd, hcan, hver⟩ := hs
    have hskip := (crl_skip_iff c ca).not.mpr (not_not.mpr hc)
    have hpk : ¬ (env.pk_can_do ca.pk c.sig_pk = 0 ∨
        env.pk_verify ca.pk c.sig_md (env.md md_info c.tbs.p) md_info.size c.sig.p ≠ 0) := by
      rintro (h | h)
      · exact hcan h
      · exact h hver
    rw [x509_crt_verifycrl_loop, if_neg hskip, if_neg (not_not.mpr hku), hmd]
    simp only [hpk, if_false]
    constructor
    · intro hr
      rw [if_pos hr]
      exact or_and_self_eq _ _
    · intro hr
      rw [if_neg (not_not.mpr hr)]
      exact ⟨_, rfl⟩
  induction pre with
  | nil =>
    intro _ flags
    have h1 : x509_crt_revoked env crt crl = 1 :=
      (revoked_loop_iff env crt (crl.entry :: crl.entry_next)).1.mpr hrev
    have hr : x509_crt_revoked env crt crl ≠ 0 := by
      rw [h1]
      decide
    exact (step crl post flags hcrl hsig).1 hr
  | cons c rest ih =>
    intro hpre flags
    have ih' := ih (fun d hd => hpre d (List.mem_cons_of_mem _ hd))
    by_cases hc : crl_of_ca c ca
    · have hs := hpre c (List.mem_cons_self _ _) hc
      by_cases hr : x509_crt_revoked env crt c = 0
      · obtain ⟨flags', e⟩ := (step c (rest ++ crl :: post) flags hc hs).2 hr
        rw [List.cons_append, e]
        exact ih' flags'
      · exact (step c (rest ++ crl :: post) flags hc hs).1 hr
    · have hskip := (crl_skip_iff c ca).mpr hc
      rw [List.cons_append, x509_crt_verifycrl_loop, if_pos hskip]
      exact ih' flags

/-- C16, as amended: revocation is reported. If `crl_list` holds a parsed CRL
(`version != 0`) whose `issuer_raw` equals `ca.subject_raw`, whose signature
verifies under `ca.pk`, and which has, before any entry with an empty serial, an
entry with the serial of `crt` and a revocation date in the past; if moreover
the CA has no KeyUsage extension or its `key_usage` contains `cRLSign`, and every
CRL of the CA placed before that CRL in the list also verifies under `ca.pk`;
then the flags returned by `x509_crt_verifycrl (crt, ca, crl_list)` contain
`BADCERT_REVOKED`. -/
theorem x509_crt_verifycrl_reports_revocation (env : Env) (crt ca : x509_crt)
    (before after : List x509_crl) (crl : x509_crl)
    (hku : ca.ext_types &&& EXT_KEY_USAGE = 0 ∨ ca.key_usage &&& KU_CRL_SIGN = KU_CRL_SIGN)
    (hbefore : ∀ c ∈ before, crl_of_ca c ca → crl_sig_ok env c ca)
    (hcrl : crl_of_ca crl ca) (hsig : crl_sig_ok env crl ca)
    (hrev : ∃ e ∈ crl_entries crl, entry_revokes env crt e) :
    x509_crt_verifycrl env crt (some ca) (before ++ crl :: after) &&& BADCERT_REVOKED =
      BADCERT_REVOKED := by
  unfold x509_crt_verifycrl
  exact verifycrl_loop_revoked env crt ca crl after
    ((check_key_usage_iff ca KU_CRL_SIGN).mpr hku) hcrl hsig hrev before hbefore 0

/-- Witness of C16 as amended: the example CRL of `demo_ca`, placed after a CRL of
another issuer, revokes the example certificate with the serial `05`. -/
theorem x509_crt_verifycrl_reports_revocation_witness :
    x509_crt_verifycrl demo_env demo_leaf_05 (some demo_ca) ([demo_crl_other] ++ demo_crl :: [])
      &&& BADCERT_REVOKED = BADCERT_REVOKED :=
  x509_crt_verifycrl_reports_revocation demo_env demo_leaf_05 demo_ca [demo_crl_other] []
    demo_crl (by decide) (fun c hc hca => by
      simp only [List.mem_singleton] at hc
      subst hc
      exact absurd hca (by decide))
    (by decide) ⟨⟨1, 4⟩, by decide, by decide, by decide⟩
    ⟨demo_entry_05, by decide, by decide⟩

/-- C16, counterexample: the example CRL is issued by `demo_ca_no_crl_sign`, its
signature verifies under the key of that CA, and it has an entry with the
serial `05` and a revocation date in the past; but the CA has a KeyUsage
extension without `cRLSign`, so `x509_crt_verifycrl` returns `BADCRL_NOT_TRUSTED`
alone and does not report the revocation. -/
theorem x509_crt_verifycrl_ca_without_crl_sign :
    demo_crl ∈ [demo_crl] ∧
    demo_crl.issuer_raw.p = demo_ca_no_crl_sign.subject_raw.p ∧
    demo_env.md_info_from_type demo_crl.sig_md = some ⟨1, 4⟩ ∧
    demo_env.pk_verify demo_ca_no_crl_sign.pk demo_crl.sig_md
      (demo_env.md ⟨1, 4⟩ demo_crl.tbs.p) 4 demo_crl.sig.p = 0 ∧
    (∃ e ∈ demo_crl.entry :: demo_crl.entry_next, entry_revokes demo_env demo_leaf_05 e) ∧
    x509_crt_verifycrl demo_env demo_leaf_05 (some demo_ca_no_crl_sign) [demo_crl] =
      BADCRL_NOT_TRUSTED ∧
    x509_crt_verifycrl demo_env demo_leaf_05 (some demo_ca_no_crl_sign) [demo_crl] &&&
      BADCERT_REVOKED ≠ BADCERT_REVOKED := by
  decide

/-- The loop of `x509_crt_verifycrl` sets no flag when no CRL is one of the CA. -/
theorem verifycrl_loop_no_match (env : Env) (crt ca : x509_crt) (crl_list : List x509_crl)
    (h : ∀ c ∈ crl_list, c.version = 0 ∨ c.issuer_raw.p ≠ ca.subject_raw.p) (flags : Nat) :
    x509_crt_verifycrl_loop env crt ca crl_list flags = flags := by
  induction crl_list with
  | nil => rfl
  | cons c rest ih =>
    have hskip : c.version = 0 ∨ c.issuer_raw.len ≠ ca.subject_raw.len ∨
        memcmp c.issuer_raw.p ca.subject_raw.p c.issuer_raw.len ≠ 0 := by
      rw [crl_skip_iff]
      rintro ⟨hv, hi⟩
      rcases h c (List.mem_cons_self _ _) with h0 | h1
      · exact hv h0
      · exact h1 hi
    rw [x509_crt_verifycrl_loop, if_pos hskip]
    exact ih (fun d hd => h d (List.mem_cons_of_mem _ hd))

/-- C17: no matching CRL is not an error. `x509_crt_verifycrl (crt, ca, crl_list)`
returns `0`, no flag set, whenever every CRL of `crl_list` has version 0 or an
`issuer_raw` different from `ca.subject_raw`, which includes the empty `crl_list`,
and whenever `ca` is null. -/
theorem x509_crt_verifycrl_no_matching_crl (env : Env) (crt : x509_crt)
    (ca : Option x509_crt) (crl_list : List x509_crl)
    (h : ∀ ca', ca = some ca' →
      ∀ c ∈ crl_list, c.version = 0 ∨ c.issuer_raw.p ≠ ca'.subject_raw.p) :
    x509_crt_verifycrl env crt ca crl_list = 0 := by
  cases ca with
  | none => rfl
  | some ca' => exact verifycrl_loop_no_match env crt ca' crl_list (h ca' rfl) 0

/-- Witness of C17: the example CA and a list with the CRL of another issuer. -/
theorem x509_crt_verifycrl_no_matching_crl_witness :
    x509_crt_verifycrl demo_env demo_leaf_05 (some demo_ca) [demo_crl_other] = 0 :=
  x509_crt_verifycrl_no_matching_crl demo_env demo_leaf_05 (some demo_ca) [demo_crl_other]
    (fun ca' hca c hc => by
      simp only [Option.some.injEq] at hca
      subst hca
      simp only [List.mem_singleton] at hc
      subst hc
      right
      decide)

/-! ### BasicConstraints -/

theorem wrap_int32_succ (n : Int) (h0 : 0 ≤ n) (h1 : n < 2 ^ 31 - 1) :
    wrap_int32 (n + 1) = n + 1 := by
  unfold wrap_int32
  rw [Int.emod_eq_of_lt (by omega) (by omega)]
  omega

/-- On the path of `x509_get_basic_constraints` that reads a pathLenConstraint,
whatever the decoder: when the SEQUENCE header and the `cA` block are read and
bytes remain, and `asn1_get_int` then reads `n` up to `end`, the function returns
`0` and stores the `int` successor of `n` in `max_pathlen`; this is `n + 1` for
`0 ≤ n < 2^31 - 1`. -/
theorem basic_constraints_pathlen (a : Asn1) (p : List uint8_t) (n : Int)
    (ht : (a.asn1_get_tag p (ASN1_CONSTRUCTED ||| ASN1_SEQUENCE)).ret = 0)
    (htp : (a.asn1_get_tag p (ASN1_CONSTRUCTED ||| ASN1_SEQUENCE)).p ≠ [])
    (hc : (x509_get_basic_constraints_ca a
      (a.asn1_get_tag p (ASN1_CONSTRUCTED ||| ASN1_SEQUENCE)).p 0).ret = 0)
    (hcp : (x509_get_basic_constraints_ca a
      (a.asn1_get_tag p (ASN1_CONSTRUCTED ||| ASN1_SEQUENCE)).p 0).p ≠ [])
    (hm : a.asn1_get_int (x509_get_basic_constraints_ca a
      (a.asn1_get_tag p (ASN1_CONSTRUCTED ||| ASN1_SEQUENCE)).p 0).p 0 = ⟨0, n, []⟩) :
    (x509_get_basic_constraints a p).ret = 0 ∧
    (x509_get_basic_constraints a p).max_pathlen = wrap_int32 (n + 1) ∧
    (0 ≤ n → n < 2 ^ 31 - 1 → (x509_get_basic_constraints a p).max_pathlen = n + 1) := by
  have e : x509_get_basic_constraints a p = ⟨0, (x509_get_basic_constraints_ca a
      (a.asn1_get_tag p (ASN1_CONSTRUCTED ||| ASN1_SEQUENCE)).p 0).val,
      wrap_int32 (n + 1), []⟩ := by
    unfold x509_get_basic_constraints
    simp only [ht, htp, hc, hcp, hm, ne_eq, not_true_eq_false, if_false]
  rw [e]
  exact ⟨rfl, rfl, fun h0 h1 => wrap_int32_succ n h0 h1⟩

theorem basic_constraints_examples :
    x509_get_basic_constraints der bc_ca_pathlen_2 = ⟨0, 1, 3, []⟩ ∧
    x509_get_basic_constraints der bc_ca_only = ⟨0, 1, 0, []⟩ := by
  decide

/-- C18, the failing input: on the body `SEQUENCE { BOOLEAN TRUE, INTEGER
2147483647 }` the integer decoder accepts the pathLenConstraint `n = 2^31 - 1`
and `x509_get_basic_constraints` returns `0`, but the `int` increment
`(*max_pathlen)++` overflows: the stored `max_pathlen` is `-2^31`, not
`n + 1 = 2^31`. -/
theorem x509_get_basic_constraints_pathlen_overflow :
    der.asn1_get_int (bc_ca_pathlen_max.drop 5) 0 = ⟨0, 2 ^ 31 - 1, []⟩ ∧
    (x509_get_basic_constraints der bc_ca_pathlen_max).ret = 0 ∧
    (x509_get_basic_constraints der bc_ca_pathlen_max).max_pathlen = -2 ^ 31 ∧
    (x509_get_basic_constraints der bc_ca_pathlen_max).max_pathlen ≠ (2 ^ 31 - 1) + 1 := by
  decide

/-! ### Building the chain -/

theorem parse_der_walk_parsed (head : x509_crt) (tail : List x509_crt)
    (hv : ∀ c ∈ head :: tail, c.version ≠ 0) :
    (x509_crt_parse_der_walk head tail).2.1.version ≠ 0 ∧
    (x509_crt_parse_der_walk head tail).2.2 = [] ∧
    (x509_crt_parse_der_walk head tail).1 ++ [(x509_crt_parse_der_walk head tail).2.1] =
      head :: tail := by
  induction tail generalizing head with
  | nil => exact ⟨hv head (List.mem_cons_self _ _), rfl, rfl⟩
  | cons n rest ih =>
    have h0 := hv head (List.mem_cons_self _ _)
    have ih' := ih n (fun c hc => hv c (List.mem_cons_of_mem _ hc))
    rw [x509_crt_parse_der_walk, if_pos h0]
    refine ⟨ih'.1, ih'.2.1, ?_⟩
    show head :: ((x509_crt_parse_der_walk n rest).1 ++ [(x509_crt_parse_der_walk n rest).2.1]) =
      head :: n :: rest
    rw [ih'.2.2]

theorem parse_der_walk_head (head : x509_crt) (tail : List x509_crt)
    (h0 : head.version = 0) : x509_crt_parse_der_walk head tail = ([], head, tail) := by
  cases tail with
  | nil => rfl
  | cons n rest => rw [x509_crt_parse_der_walk, if_neg (not_not.mpr h0)]

theorem parse_der_core_cons (fill : der_traversal) (raw_alloc : Bool) (c : x509_crt)
    (next : List x509_crt) (b : List uint8_t) :
    x509_crt_parse_der_core fill raw_alloc (c :: next) (some b) =
      if raw_alloc = false then (POLARSSL_ERR_X509_MALLOC_FAILED, c :: next)
      else if (fill { c with raw := ⟨c.raw.tag, b⟩ }).1 ≠ 0 then
        ((fill { c with raw := ⟨c.raw.tag, b⟩ }).1, [x509_crt_init])
      else (0, (fill { c with raw := ⟨c.raw.tag, b⟩ }).2 :: next) :=
  rfl

theorem parse_der_core_ok (fill : der_traversal) (raw_alloc : Bool) (c : x509_crt)
    (next : List x509_crt) (b : List uint8_t)
    (h : (x509_crt_parse_der_core fill raw_alloc (c :: next) (some b)).1 = 0) :
    ∃ new, x509_crt_parse_der_core fill raw_alloc (c :: next) (some b) = (0, new :: next) := by
  rw [parse_der_core_cons] at h ⊢
  by_cases hr : raw_alloc = false
  · rw [if_pos hr] at h
    have hm : POLARSSL_ERR_X509_MALLOC_FAILED ≠ 0 := by decide
    exact absurd h hm
  · rw [if_neg hr] at h ⊢
    by_cases hf : (fill { c with raw := ⟨c.raw.tag, b⟩ }).1 ≠ 0
    · rw [if_pos hf] at h
      exact absurd h hf
    · rw [if_neg hf]
      exact ⟨_, rfl⟩

theorem parse_der_core_fail (fill : der_traversal) (raw_alloc : Bool) (c : x509_crt)
    (next : List x509_crt) (b : List uint8_t)
    (h : (x509_crt_parse_der_core fill raw_alloc (c :: next) (some b)).1 ≠ 0) :
    (raw_alloc = false ∧
      (x509_crt_parse_der_core fill raw_alloc (c :: next) (some b)).2 = c :: next) ∨
    (raw_alloc = true ∧
      (x509_crt_parse_der_core fill raw_alloc (c :: next) (some b)).2 = [x509_crt_init]) := by
  rw [parse_der_core_cons] at h ⊢
  by_cases hr : raw_alloc = false
  · rw [if_pos hr]
    exact Or.inl ⟨hr, rfl⟩
  · rw [if_neg hr] at h ⊢
    by_cases hf : (fill { c with raw := ⟨c.raw.tag, b⟩ }).1 ≠ 0
    · rw [if_pos hf]
      exact Or.inr ⟨by simpa using hr, rfl⟩
    · rw [if_neg hf] at h
      exact absurd rfl h

/-- C19: `x509_crt_parse_der` appends at the tail. For a chain of `n ≥ 1` parsed
certificates (every node has `version != 0`), when the node is allocated and the
core parser succeeds on the buffer with the new node, `x509_crt_parse_der` returns
`0` and the chain afterwards has `n + 1` nodes: the `n` nodes it had, unchanged and
in the same order, then the node the core parser filled, which is the last.
When the head has `version == 0`, the core parser runs on the head itself, and
when it succeeds `x509_crt_parse_der` returns `0`, the head holds the parsed
certificate, its successors are unchanged and no node is added. -/
theorem x509_crt_parse_der_appends (fill : der_traversal) (node_alloc raw_alloc : Bool)
    (head : x509_crt) (tail : List x509_crt) (b : List uint8_t) :
    ((∀ c ∈ head :: tail, c.version ≠ 0) → node_alloc = true →
      (x509_crt_parse_der_core fill raw_alloc [x509_crt_init] (some b)).1 = 0 →
      ∃ new, x509_crt_parse_der_core fill raw_alloc [x509_crt_init] (some b) = (0, [new]) ∧
        x509_crt_parse_der fill node_alloc raw_alloc (head :: tail) (some b) =
          (0, (head :: tail) ++ [new]) ∧
        (x509_crt_parse_der fill node_alloc raw_alloc (head :: tail) (some b)).2.length =
          (head :: tail).length + 1) ∧
    (head.version = 0 →
      (x509_crt_parse_der_core fill raw_alloc (head :: tail) (some b)).1 = 0 →
      ∃ new, x509_crt_parse_der_core fill raw_alloc (head :: tail) (some b) =
          (0, new :: tail) ∧
        x509_crt_parse_der fill node_alloc raw_alloc (head :: tail) (some b) =
          (0, new :: tail)) := by
  constructor
  · intro hv hn hcore
    obtain ⟨hw1, hw2, hw3⟩ := parse_der_walk_parsed head tail hv
    obtain ⟨new, hnew⟩ := parse_der_core_ok fill raw_alloc x509_crt_init [] b hcore
    have e : x509_crt_parse_der fill node_alloc raw_alloc (head :: tail) (some b) =
        (0, (head :: tail) ++ [new]) := by
      have hn' : ¬ node_alloc = false := by simp [hn]
      have h1 : ¬ ((0 : Int), [new]).1 ≠ 0 := by simp
      unfold x509_crt_parse_der
      simp only [if_pos (And.intro hw1 hw2), if_neg hn', hnew, if_neg h1]
      rw [← hw3, List.append_assoc]
      rfl
    refine ⟨new, hnew, e, ?_⟩
    rw [e]
    simp
  · intro h0 hcore
    obtain ⟨new, hnew⟩ := parse_der_core_ok fill raw_alloc head tail b hcore
    refine ⟨new, hnew, ?_⟩
    have hw := parse_der_walk_head head tail h0
    have h1 : ¬ ((0 : Int), new :: tail).1 ≠ 0 := by simp
    have h2 : ¬ (head.version ≠ 0 ∧ tail = []) := fun h => h.1 h0
    unfold x509_crt_parse_der
    simp only [hw, if_neg h2, hnew, if_neg h1]
    rfl

/-- Witness of C19: the chain `demo_leaf`, `demo_ca` grows by the certificate parsed
from a buffer that the example traversal accepts, and a chain whose head is in
the state of `x509_crt_init` gets the certificate in its head. -/
theorem x509_crt_parse_der_appends_witness :
    (∃ new, x509_crt_parse_der_core demo_fill true [x509_crt_init] (some [0x30, 0x00]) =
        (0, [new]) ∧
      x509_crt_parse_der demo_fill true true [demo_leaf, demo_ca] (some [0x30, 0x00]) =
        (0, [demo_leaf, demo_ca] ++ [new]) ∧
      (x509_crt_parse_der demo_fill true true [demo_leaf, demo_ca]
        (some [0x30, 0x00])).2.length = [demo_leaf, demo_ca].length + 1) ∧
    (∃ new, x509_crt_parse_der_core demo_fill true [x509_crt_init] (some [0x30, 0x00]) =
        (0, [new]) ∧
      x509_crt_parse_der demo_fill true true [x509_crt_init] (some [0x30, 0x00]) =
        (0, [new])) :=
  ⟨(x509_crt_parse_der_appends demo_fill true true demo_leaf [demo_ca] [0x30, 0x00]).1
      (by decide) rfl (by decide),
    (x509_crt_parse_der_appends demo_fill true true x509_crt_init [] [0x30, 0x00]).2
      (by decide) (by decide)⟩

/-- C20: `x509_crt_parse_der` is atomic on failure. For a chain of `n ≥ 1` parsed
certificates (every node has `version != 0`), when the node is allocated and the
core parser fails on the buffer with the new node, `x509_crt_parse_der` returns the
nonzero error of the core parser and the chain afterwards is the list of the
same `n` certificates, unchanged and in the same order, the last one without
successor; when the node cannot be allocated, the chain is unchanged as well and
the result is `POLARSSL_ERR_X509_MALLOC_FAILED`. For a head with `version == 0` and
no successor, when the core parser fails on the buffer, `x509_crt_parse_der`
returns its nonzero error and leaves the head alone in the chain, in the
all-zero state of `x509_crt_init`, provided the head was in that state or the
copy of the buffer was allocated. -/
theorem x509_crt_parse_der_atomic (fill : der_traversal) (node_alloc raw_alloc : Bool)
    (head : x509_crt) (tail : List x509_crt) (b : List uint8_t) :
    ((∀ c ∈ head :: tail, c.version ≠ 0) → node_alloc = true →
      (x509_crt_parse_der_core fill raw_alloc [x509_crt_init] (some b)).1 ≠ 0 →
      x509_crt_parse_der fill node_alloc raw_alloc (head :: tail) (some b) =
        ((x509_crt_parse_der_core fill raw_alloc [x509_crt_init] (some b)).1, head :: tail)) ∧
    ((∀ c ∈ head :: tail, c.version ≠ 0) → node_alloc = false →
      x509_crt_parse_der fill node_alloc raw_alloc (head :: tail) (some b) =
        (POLARSSL_ERR_X509_MALLOC_FAILED, head :: tail)) ∧
    (head.version = 0 → (head = x509_crt_init ∨ raw_alloc = true) →
      (x509_crt_parse_der_core fill raw_alloc [head] (some b)).1 ≠ 0 →
      x509_crt_parse_der fill node_alloc raw_alloc [head] (some b) =
        ((x509_crt_parse_der_core fill raw_alloc [head] (some b)).1, [x509_crt_init])) := by
  refine ⟨?_, ?_, ?_⟩
  · intro hv hn hcore
    obtain ⟨hw1, hw2, hw3⟩ := parse_der_walk_parsed head tail hv
    have hn' : ¬ node_alloc = false := by simp [hn]
    unfold x509_crt_parse_der
    simp only [if_pos (And.intro hw1 hw2), if_neg hn', if_pos hcore]
    rw [hw3]
  · intro hv hn
    obtain ⟨hw1, hw2, _⟩ := parse_der_walk_parsed head tail hv
    unfold x509_crt_parse_der
    simp only [if_pos (And.intro hw1 hw2), if_pos hn]
  · intro h0 hz hcore
    have h2 : ¬ (head.version ≠ 0 ∧ True) := fun h => h.1 h0
    have e : x509_crt_parse_der fill node_alloc raw_alloc [head] (some b) =
        x509_crt_parse_der_core fill raw_alloc [head] (some b) := by
      unfold x509_crt_parse_der
      simp only [x509_crt_parse_der_walk, if_pos hcore, if_true]
      rw [if_neg h2]
    rw [e]
    rcases parse_der_core_fail fill raw_alloc head [] b hcore with ⟨hr, h⟩ | ⟨_, h⟩
    · rcases hz with hz | hz
      · exact Prod.ext rfl (by rw [h, hz])
      · rw [hz] at hr
        exact absurd hr (by decide)
    · exact Prod.ext rfl h

/-- Witness of C20: the example traversal rejects the buffer `04 00`; the chain
`demo_leaf`, `demo_ca` is left as it was, and a head in the state of
`x509_crt_init` stays in that state. -/
theorem x509_crt_parse_der_atomic_witness :
    x509_crt_parse_der demo_fill true true [demo_leaf, demo_ca] (some [0x04, 0x00]) =
      ((x509_crt_parse_der_core demo_fill true [x509_crt_init] (some [0x04, 0x00])).1,
        [demo_leaf, demo_ca]) ∧
    x509_crt_parse_der demo_fill false true [demo_leaf, demo_ca] (some [0x04, 0x00]) =
      (POLARSSL_ERR_X509_MALLOC_FAILED, [demo_leaf, demo_ca]) ∧
    x509_crt_parse_der demo_fill true true [x509_crt_init] (some [0x04, 0x00]) =
      ((x509_crt_parse_der_core demo_fill true [x509_crt_init] (some [0x04, 0x00])).1,
        [x509_crt_init]) :=
  ⟨(x509_crt_parse_der_atomic demo_fill true true demo_leaf [demo_ca] [0x04, 0x00]).1
      (by decide) rfl (by decide),
    (x509_crt_parse_der_atomic demo_fill false true demo_leaf [demo_ca] [0x04, 0x00]).2.1
      (by decide) rfl,
    (x509_crt_parse_der_atomic demo_fill true true x509_crt_init [] [0x04, 0x00]).2.2
      (by decide) (Or.inl rfl) (by decide)⟩

/-! ### The path length at the top of the chain -/

/-- C30, the failing input: `demo_self_issued` is examined at `path_cnt = 2` against
a trusted list of two certificates with its own subject. The second,
`demo_root_pathlen`, passes `x509_crt_check_parent` and has `max_pathlen = 1`, which is
positive and below `c = path_cnt + 1 - 1 = 2`, so it is to be skipped on path
length; alone in the trusted list it is skipped. Placed after `demo_root`,
which has the same subject and is rejected on its signature, it is not skipped:
`check_path_cnt` was already decremented for `demo_root`, the test runs with the
value `1`, and the certificate is accepted as the trusted root. -/
theorem x509_crt_verify_top_path_cnt_cumulative :
    x509_crt_check_parent demo_self_issued demo_root_pathlen 1 (c_bool (decide ((2 : Int) = 0)))
      = 0 ∧
    demo_self_issued.subject_raw.p = demo_root_pathlen.subject_raw.p ∧
    (demo_root_pathlen.max_pathlen > 0 ∧ demo_root_pathlen.max_pathlen < 2 + 1 - 1) ∧
    x509_crt_verify_top_find demo_env demo_self_issued [demo_root_pathlen] 2 = none ∧
    x509_crt_verify_top_find demo_env demo_self_issued [demo_root, demo_root_pathlen] 2 =
      some demo_root_pathlen ∧
    (x509_crt_verify_top demo_env demo_self_issued [demo_root_pathlen] [] 2 0
      (none : Option (vrfy_cb Unit)) ()).flags = BADCERT_NOT_TRUSTED ∧
    (x509_crt_verify_top demo_env demo_self_issued [demo_root, demo_root_pathlen] [] 2 0
      (none : Option (vrfy_cb Unit)) ()).flags = 0 := by
  decide

/-! ### The expired leaf -/

theorem verify_child_walk_none_child {σ : Type} (env : Env) (trust_ca : List x509_crt)
    (ca_crl : List x509_crl) (child child' : x509_crt) (cands : List x509_crt) :
    ∀ (parent : x509_crt) (path_cnt : Int) (flags : Nat) (p_vrfy : σ),
      x509_crt_verify_child_walk env trust_ca ca_crl none child parent cands path_cnt flags
        p_vrfy =
      x509_crt_verify_child_walk env trust_ca ca_crl none child' parent cands path_cnt flags
        p_vrfy := by
  induction cands with
  | nil => intro parent path_cnt flags p_vrfy; rfl
  | cons g rest ih =>
    intro parent path_cnt flags p_vrfy
    simp only [x509_crt_verify_child_walk]
    split
    · rfl
    · exact ih parent path_cnt flags p_vrfy

theorem find_parent_valid_to (crt : x509_crt) (t : x509_time) (bottom : Int)
    (cands : List x509_crt) :
    find_parent { crt with valid_to := t } bottom cands = find_parent crt bottom cands := by
  induction cands with
  | nil => rfl
  | cons c rest ih =>
    simp only [find_parent]
    rw [ih]
    rfl

theorem revoked_loop_valid_to (env : Env) (crt : x509_crt) (t : x509_time)
    (es : List x509_crl_entry) :
    x509_crt_revoked_loop env { crt with valid_to := t } es = x509_crt_revoked_loop env crt es := by
  induction es with
  | nil => rfl
  | cons e rest ih =>
    simp only [x509_crt_revoked_loop]
    rw [ih]

theorem verifycrl_loop_valid_to (env : Env) (crt ca : x509_crt) (t : x509_time)
    (crls : List x509_crl) :
    ∀ flags, x509_crt_verifycrl_loop env { crt with valid_to := t } ca crls flags =
      x509_crt_verifycrl_loop env crt ca crls flags := by
  induction crls with
  | nil => intro flags; rfl
  | cons c rest ih =>
    intro flags
    simp only [x509_crt_verifycrl_loop, x509_crt_revoked, revoked_loop_valid_to env crt t, ih]

theorem verifycrl_valid_to (env : Env) (crt : x509_crt) (ca : Option x509_crt) (t : x509_time)
    (crls : List x509_crl) :
    x509_crt_verifycrl env { crt with valid_to := t } ca crls =
      x509_crt_verifycrl env crt ca crls := by
  cases ca with
  | none => rfl
  | some ca => exact verifycrl_loop_valid_to env crt ca t crls 0

theorem verify_top_loop_valid_to (env : Env) (crt : x509_crt) (t : x509_time) (path_cnt : Int)
    (hash : List uint8_t) (md_size : Nat) (cands : List x509_crt) :
    ∀ check_path_cnt,
      x509_crt_verify_top_loop env { crt with valid_to := t } path_cnt hash md_size cands
        check_path_cnt =
      x509_crt_verify_top_loop env crt path_cnt hash md_size cands check_path_cnt := by
  induction cands with
  | nil => intro c; rfl
  | cons r rest ih =>
    intro c
    simp only [x509_crt_verify_top_loop, ih]
    rfl

theorem verify_top_find_valid_to (env : Env) (crt : x509_crt) (t : x509_time)
    (trust_ca : List x509_crt) (path_cnt : Int) :
    x509_crt_verify_top_find env { crt with valid_to := t } trust_ca path_cnt =
      x509_crt_verify_top_find env crt trust_ca path_cnt := by
  simp only [x509_crt_verify_top_find, verify_top_loop_valid_to env crt t]

/-- With the callback absent, the run on a leaf whose `valid_to` is in the past is
the run on the same leaf with a `valid_to` that is not, entered with
`BADCERT_EXPIRED` already set. -/
theorem verify_chain_expired {σ : Type} (env : Env) (crt : x509_crt)
    (crt_next trust_ca : List x509_crt) (ca_crl : List x509_crl) (t : x509_time)
    (flags : Nat) (p_vrfy : σ)
    (hexp : env.x509_time_expired crt.valid_to ≠ 0) (ht : env.x509_time_expired t = 0) :
    x509_crt_verify_chain env crt crt_next trust_ca ca_crl flags none p_vrfy =
      x509_crt_verify_chain env { crt with valid_to := t } crt_next trust_ca ca_crl
        (flags ||| BADCERT_EXPIRED) none p_vrfy := by
  rw [verify_chain_eq env crt, verify_chain_eq env { crt with valid_to := t },
    find_parent_valid_to crt t]
  cases find_parent crt 1 crt_next with
  | none =>
    simp only [x509_crt_verify_top, verify_top_find_valid_to env crt t,
      verifycrl_valid_to env crt _ t, hexp, ht, ne_eq,
      not_false_eq_true, not_true_eq_false, if_true, if_false]
    rfl
  | some pr =>
    obtain ⟨parent, parent_next⟩ := pr
    simp only [x509_crt_verify_child]
    rw [verify_child_walk_none_child env trust_ca ca_crl crt { crt with valid_to := t }]
    simp only [x509_crt_verify_child_checks, verifycrl_valid_to env crt _ t, hexp, ht, ne_eq,
      not_false_eq_true, not_true_eq_false, if_true, if_false]

/-- C25: scenario 3, the expired leaf. The chain is otherwise valid:
`x509_crt_verify` without `cn` and without callback returns `0` on the same chain,
trusted list and CRL list when the `valid_to` of the leaf is replaced by a time
`t` that is not in the past. Then, the `valid_to` of the leaf being in the past,
`x509_crt_verify` returns `POLARSSL_ERR_X509_CERT_VERIFY_FAILED` and `*flags` is
exactly `BADCERT_EXPIRED`. -/
theorem x509_crt_verify_expired_leaf {σ : Type} (env : Env) (crt : x509_crt)
    (crt_next trust_ca : List x509_crt) (ca_crl : List x509_crl) (t : x509_time) (p_vrfy : σ)
    (hexp : env.x509_time_expired crt.valid_to ≠ 0)
    (ht : env.x509_time_expired t = 0)
    (hvalid : (x509_crt_verify env { crt with valid_to := t } crt_next trust_ca ca_crl
      none none p_vrfy).ret = 0) :
    (x509_crt_verify env crt crt_next trust_ca ca_crl none none p_vrfy).ret =
        POLARSSL_ERR_X509_CERT_VERIFY_FAILED ∧
      (x509_crt_verify env crt crt_next trust_ca ca_crl none none p_vrfy).flags =
        BADCERT_EXPIRED := by
  have h0 : (x509_crt_verify_chain env { crt with valid_to := t } crt_next trust_ca ca_crl 0
      none p_vrfy).flags = 0 := verify_ret_zero_flags hvalid
  have hcl : clear_flags (0 ||| BADCERT_EXPIRED) BADCERT_NOT_TRUSTED = 0 ||| BADCERT_EXPIRED := by
    decide
  obtain ⟨hr, hf⟩ := verify_chain_none env { crt with valid_to := t } crt_next trust_ca ca_crl
    (0 ||| BADCERT_EXPIRED) p_vrfy hcl
  rw [h0] at hf
  obtain ⟨_, hflags, _, _, hret⟩ :=
    verify_fields env crt crt_next trust_ca ca_crl none (none : Option (vrfy_cb σ)) p_vrfy
  have hcn : x509_crt_verify_cn crt none = 0 := rfl
  rw [hcn, verify_chain_expired env crt crt_next trust_ca ca_crl t 0 p_vrfy hexp ht] at hflags hret
  rw [hf] at hflags hret
  have hne : ((0 ||| BADCERT_EXPIRED) ||| 0 : Nat) ≠ 0 := by decide
  refine ⟨?_, hflags⟩
  rw [hret hr, if_pos hne]

/-- Witness of C25: the example chain `demo_leaf`, `demo_ca` under the trusted root
`demo_root` verifies, and with the leaf expired in 1999 the result is
`POLARSSL_ERR_X509_CERT_VERIFY_FAILED` with `BADCERT_EXPIRED` alone. -/
theorem x509_crt_verify_expired_leaf_witness :
    (x509_crt_verify demo_env demo_leaf_expired [demo_ca] [demo_root] [] none none ()).ret =
        POLARSSL_ERR_X509_CERT_VERIFY_FAILED ∧
      (x509_crt_verify demo_env demo_leaf_expired [demo_ca] [demo_root] [] none none ()).flags =
        BADCERT_EXPIRED :=
  x509_crt_verify_expired_leaf demo_env demo_leaf_expired [demo_ca] [demo_root] []
    ⟨2500, 1, 1, 0, 0, 0⟩ () (by decide) (by decide) (by decide)

/-! ### Bytes after the BasicConstraints SEQUENCE -/

/-- C26, the failing input: in the extension body `30 00 01 01 FF` the SEQUENCE is
empty (`asn1_get_tag` gives the length `0`) and three bytes follow it. The function
does not fail: it reads the bytes after the SEQUENCE as the `cA` BOOLEAN and
returns `0` with `ca_istrue = 1`. On `30 03 01 01 FF 00` the byte after the
SEQUENCE is rejected, but by the read of the pathLenConstraint, with
`INVALID_EXTENSIONS + UNEXPECTED_TAG`. -/
theorem x509_get_basic_constraints_reads_past_sequence :
    der.asn1_get_tag bc_empty_then_bool (ASN1_CONSTRUCTED ||| ASN1_SEQUENCE) =
      ⟨0, 0, [0x01, 0x01, 0xFF]⟩ ∧
    x509_get_basic_constraints der bc_empty_then_bool = ⟨0, 1, 0, []⟩ ∧
    (x509_get_basic_constraints der bc_empty_then_bool).ret ≠
      POLARSSL_ERR_X509_INVALID_EXTENSIONS + POLARSSL_ERR_ASN1_LENGTH_MISMATCH ∧
    der.asn1_get_tag bc_ca_then_byte (ASN1_CONSTRUCTED ||| ASN1_SEQUENCE) =
      ⟨0, 3, [0x01, 0x01, 0xFF, 0x00]⟩ ∧
    (x509_get_basic_constraints der bc_ca_then_byte).ret =
      POLARSSL_ERR_X509_INVALID_EXTENSIONS + POLARSSL_ERR_ASN1_UNEXPECTED_TAG ∧
    (x509_get_basic_constraints der bc_ca_then_byte).ret ≠
      POLARSSL_ERR_X509_INVALID_EXTENSIONS + POLARSSL_ERR_ASN1_LENGTH_MISMATCH := by
  decide

/-! ### The DER encoding -/

theorem and_128_of_lt (n : Nat) (h : n < 128) : n &&& 0x80 = 0 := by
  revert n
  decide

theorem byte_val (n : Nat) : (byte n).val = n % 256 := rfl

theorem be_nat_1 (a : uint8_t) (rest : List uint8_t) :
    be_nat (List.take 1 (a :: rest)) = a.val := by
  simp [be_nat]

theorem be_nat_2 (a b : uint8_t) (rest : List uint8_t) :
    be_nat (List.take 2 (a :: b :: rest)) = a.val * 256 + b.val := by
  simp [be_nat]

theorem be_nat_3 (a b c : uint8_t) (rest : List uint8_t) :
    be_nat (List.take 3 (a :: b :: c :: rest)) = (a.val * 256 + b.val) * 256 + c.val := by
  simp [be_nat]

theorem be_nat_4 (a b c e : uint8_t) (rest : List uint8_t) :
    be_nat (List.take 4 (a :: b :: c :: e :: rest)) =
      ((a.val * 256 + b.val) * 256 + c.val) * 256 + e.val := by
  simp [be_nat]

theorem asn1_get_len_long (k : uint8_t) (bs rest : List uint8_t) (n : Nat)
    (hk : k.val &&& 0x80 ≠ 0) (hk1 : ¬ (k.val &&& 0x7F = 0 ∨ 4 < k.val &&& 0x7F))
    (hl : bs.length = k.val &&& 0x7F) (hv : be_nat bs = n) (hr : n ≤ rest.length) :
    asn1_get_len (k :: bs ++ rest) = ⟨0, n, rest⟩ := by
  have h1 : ¬ (bs ++ rest).length < k.val &&& 0x7F := by
    rw [List.length_append]; omega
  have ht : (bs ++ rest).take (k.val &&& 0x7F) = bs := by
    rw [← hl]; exact List.take_left' rfl
  have hd : (bs ++ rest).drop (k.val &&& 0x7F) = rest := by
    rw [← hl]; exact List.drop_left' rfl
  have h2 : ¬ n > rest.length := by omega
  simp only [List.cons_append, asn1_get_len, if_neg hk, if_neg hk1, if_neg h1, ht, hd, hv,
    if_neg h2]

theorem asn1_get_len_der_len (n : Nat) (rest : List uint8_t) (hn : n < 2 ^ 32)
    (hr : n ≤ rest.length) : asn1_get_len (der_len n ++ rest) = ⟨0, n, rest⟩ := by
  unfold der_len
  by_cases h1 : n < 0x80
  · have hb : (byte n).val = n := by rw [byte_val]; omega
    have h2 : ¬ n > rest.length := by omega
    simp only [if_pos h1, List.singleton_append, asn1_get_len, hb, and_128_of_lt n h1, if_true,
      if_neg h2]
  · rw [if_neg h1]
    by_cases h2 : n < 0x100
    · rw [if_pos h2]
      exact asn1_get_len_long 0x81 [byte n] rest n (by decide) (by decide)
        (by show (1 : Nat) = _; decide)
        (by show be_nat (List.take 1 (byte n :: [])) = n
            rw [be_nat_1, byte_val]; omega) hr
    · rw [if_neg h2]
      by_cases h3 : n < 0x10000
      · rw [if_pos h3]
        exact asn1_get_len_long 0x82 [byte (n / 0x100), byte n] rest n (by decide) (by decide)
          (by show (2 : Nat) = _; decide)
          (by show be_nat (List.take 2 (byte (n / 0x100) :: byte n :: [])) = n
              rw [be_nat_2, byte_val, byte_val]; omega) hr
      · rw [if_neg h3]
        by_cases h4 : n < 0x1000000
        · rw [if_pos h4]
          exact asn1_get_len_long 0x83 [byte (n / 0x10000), byte (n / 0x100), byte n] rest n
            (by decide) (by decide) (by show (3 : Nat) = _; decide)
            (by show be_nat (List.take 3 (byte (n / 0x10000) :: byte (n / 0x100) :: byte n :: []))
                  = n
                rw [be_nat_3, byte_val, byte_val, byte_val]; omega) hr
        · rw [if_neg h4]
          exact asn1_get_len_long 0x84
            [byte (n / 0x1000000), byte (n / 0x10000), byte (n / 0x100), byte n] rest n
            (by decide) (by decide) (by show (4 : Nat) = _; decide)
            (by show be_nat (List.take 4 (byte (n / 0x1000000) :: byte (n / 0x10000) ::
                  byte (n / 0x100) :: byte n :: [])) = n
                rw [be_nat_4, byte_val, byte_val, byte_val, byte_val]
                have : (2 : Nat) ^ 32 = 4294967296 := by norm_num
                omega) hr

theorem asn1_get_tag_der_tlv (tag : uint8_t) (content rest : List uint8_t)
    (hn : content.length < 2 ^ 32) :
    asn1_get_tag (der_tlv tag content ++ rest) tag.val =
      ⟨0, content.length, content ++ rest⟩ := by
  unfold der_tlv
  simp only [List.cons_append, List.append_assoc, asn1_get_tag, ne_eq, not_true_eq_false,
    if_false]
  exact asn1_get_len_der_len content.length (content ++ rest) hn
    (by rw [List.length_append]; omega)

theorem asn1_get_bitstring_der (unused : uint8_t) (content : List uint8_t)
    (hu : unused.val ≤ 7) (hl : content.length + 1 < 2 ^ 32) :
    asn1_get_bitstring (der_tlv 0x03 (unused :: content)) =
      ⟨0, ⟨content.length, unused.val, content⟩, []⟩ := by
  have ht := asn1_get_tag_der_tlv 0x03 (unused :: content) [] (by simpa using hl)
  rw [List.append_nil, List.append_nil] at ht
  have h3 : ((0x03 : uint8_t).val : Nat) = ASN1_BIT_STRING := rfl
  rw [h3] at ht
  have hu' : ¬ unused.val > 7 := by omega
  simp only [asn1_get_bitstring, ht, ne_eq, not_true_eq_false, if_false, List.length_cons,
    Nat.add_sub_cancel, List.drop_length, if_neg hu']
  rw [if_neg (by omega)]

/-- C27, as amended: on a well-formed BIT STRING that fills the extension (at
most 7 unused bits), `x509_get_key_usage` returns `0` when there is at least one
content byte and `x509_get_ns_cert_type` returns `0` when there is exactly one; the
stored mask is then the first content byte. `x509_get_key_usage` rejects a
BIT STRING with no content byte, and `x509_get_ns_cert_type` one whose number of
content bytes is not 1, with
`POLARSSL_ERR_X509_INVALID_EXTENSIONS + POLARSSL_ERR_ASN1_INVALID_LENGTH`. -/
theorem x509_get_key_usage_ns_cert_type_masks (unused : uint8_t) (content : List uint8_t)
    (key_usage ns_cert_type : Nat) (hu : unused.val ≤ 7) (hl : content.length + 1 < 2 ^ 32) :
    (content ≠ [] →
      x509_get_key_usage der_full (der_tlv 0x03 (unused :: content)) key_usage =
        ⟨0, (content.headD 0).val, []⟩) ∧
    (content.length = 1 →
      x509_get_ns_cert_type der_full (der_tlv 0x03 (unused :: content)) ns_cert_type =
        ⟨0, (content.headD 0).val, []⟩) ∧
    (content = [] →
      (x509_get_key_usage der_full (der_tlv 0x03 (unused :: content)) key_usage).ret =
        POLARSSL_ERR_X509_INVALID_EXTENSIONS + POLARSSL_ERR_ASN1_INVALID_LENGTH) ∧
    (content.length ≠ 1 →
      (x509_get_ns_cert_type der_full (der_tlv 0x03 (unused :: content)) ns_cert_type).ret =
        POLARSSL_ERR_X509_INVALID_EXTENSIONS + POLARSSL_ERR_ASN1_INVALID_LENGTH) := by
  have hb : der_full.asn1_get_bitstring (der_tlv 0x03 (unused :: content)) =
      ⟨0, ⟨content.length, unused.val, content⟩, []⟩ := asn1_get_bitstring_der unused content hu hl
  refine ⟨?_, ?_, ?_, ?_⟩
  · intro hc
    have h1 : ¬ content.length < 1 := by
      cases content with
      | nil => exact absurd rfl hc
      | cons a l => simp
    simp only [x509_get_key_usage, hb, ne_eq, not_true_eq_false, if_false, if_neg h1]
  · intro hc
    simp only [x509_get_ns_cert_type, hb, ne_eq, not_true_eq_false, if_false, hc]
  · intro hc
    subst hc
    simp only [x509_get_key_usage, hb, ne_eq, not_true_eq_false, if_false, List.length_nil,
      Nat.lt_one_iff, if_true]
  · intro hc
    simp only [x509_get_ns_cert_type, hb, ne_eq, not_true_eq_false, if_false, hc,
      not_false_eq_true, if_true]

/-- Witness of C27 as amended: the BIT STRING `03 02 05 A0`, one content byte. -/
theorem x509_get_key_usage_ns_cert_type_masks_witness :
    x509_get_key_usage der_full (der_tlv 0x03 (0x05 :: [0xA0])) 0 = ⟨0, 0xA0, []⟩ ∧
    x509_get_ns_cert_type der_full (der_tlv 0x03 (0x05 :: [0xA0])) 0 = ⟨0, 0xA0, []⟩ :=
  ⟨(x509_get_key_usage_ns_cert_type_masks 0x05 [0xA0] 0 0 (by decide) (by decide)).1 (by decide),
    (x509_get_key_usage_ns_cert_type_masks 0x05 [0xA0] 0 0 (by decide) (by decide)).2.1 rfl⟩

/-- C27, counterexample: `03 03 07 80 80` is a well-formed BIT STRING with two
content bytes, which `asn1_get_bitstring` reads and `x509_get_key_usage` accepts with the
mask `80`; `x509_get_ns_cert_type` rejects it with
`POLARSSL_ERR_X509_INVALID_EXTENSIONS + POLARSSL_ERR_ASN1_INVALID_LENGTH`, because it
requires `bs.len == 1`. -/
theorem x509_get_ns_cert_type_two_bytes :
    der_full.asn1_get_bitstring bits_two_bytes = ⟨0, ⟨2, 7, [0x80, 0x80]⟩, []⟩ ∧
    x509_get_key_usage der_full bits_two_bytes 0 = ⟨0, 0x80, []⟩ ∧
    (x509_get_ns_cert_type der_full bits_two_bytes 0).ret =
      POLARSSL_ERR_X509_INVALID_EXTENSIONS + POLARSSL_ERR_ASN1_INVALID_LENGTH ∧
    (x509_get_ns_cert_type der_full bits_two_bytes 0).ret ≠ 0 := by
  decide

/-! ### SubjectAltName -/

theorem link_eq_of_names (done : List x509_buf) (cur : x509_buf) (next : List x509_buf) :
    x509_sequence.link done cur next = x509_sequence.of_names (done ++ cur :: next) := by
  cases done with
  | nil => rfl
  | cons h t => rfl

theorem general_names_len (e : uint8_t × List uint8_t) (es : List (uint8_t × List uint8_t)) :
    e.2.length < (general_names_der (e :: es)).length ∧
    (general_names_der es).length < (general_names_der (e :: es)).length := by
  simp only [general_names_der, der_tlv, List.length_append, List.length_cons]
  omega

theorem san_loop_cons (d : Asn1Full) (node_alloc : Bool) (fuel : Nat) (tag : uint8_t)
    (rest : List uint8_t) (done : List x509_buf) (cur : x509_buf) (next : List x509_buf) :
    x509_get_subject_alt_name_loop d node_alloc (fuel + 1) (tag :: rest) done cur next =
      if (d.asn1_get_len rest).ret ≠ 0 then
        some ⟨POLARSSL_ERR_X509_INVALID_EXTENSIONS + (d.asn1_get_len rest).ret,
          x509_sequence.link done cur next, (d.asn1_get_len rest).p⟩
      else if tag.val &&& ASN1_CONTEXT_SPECIFIC ≠ ASN1_CONTEXT_SPECIFIC then
        some ⟨POLARSSL_ERR_X509_INVALID_EXTENSIONS + POLARSSL_ERR_ASN1_UNEXPECTED_TAG,
          x509_sequence.link done cur next, (d.asn1_get_len rest).p⟩
      else if tag.val ≠ ASN1_CONTEXT_SPECIFIC ||| 2 then
        x509_get_subject_alt_name_loop d node_alloc fuel
          ((d.asn1_get_len rest).p.drop (d.asn1_get_len rest).val) done cur next
      else if cur.p_null = false then
        if node_alloc = false then
          some ⟨POLARSSL_ERR_X509_INVALID_EXTENSIONS + POLARSSL_ERR_ASN1_MALLOC_FAILED,
            x509_sequence.link done cur [], (d.asn1_get_len rest).p⟩
        else
          x509_get_subject_alt_name_loop d node_alloc fuel
            ((d.asn1_get_len rest).p.drop (d.asn1_get_len rest).val) (done ++ [cur])
            ⟨tag.val, (d.asn1_get_len rest).p.take (d.asn1_get_len rest).val⟩ []
      else
        x509_get_subject_alt_name_loop d node_alloc fuel
          ((d.asn1_get_len rest).p.drop (d.asn1_get_len rest).val) done
          ⟨tag.val, (d.asn1_get_len rest).p.take (d.asn1_get_len rest).val⟩ next :=
  rfl

theorem der_tlv_append (tag : uint8_t) (content rest : List uint8_t) :
    der_tlv tag content ++ rest = tag :: (der_len content.length ++ (content ++ rest)) := by
  simp [der_tlv]

/-- One turn of the loop of `x509_get_subject_alt_name` on a DER entry that is not a
dNSName. -/
theorem san_loop_skip (node_alloc : Bool) (fuel : Nat) (tag : uint8_t)
    (content rest : List uint8_t) (done : List x509_buf) (cur : x509_buf) (next : List x509_buf)
    (hl : content.length < 2 ^ 32) (hc : tag.val &&& 0x80 = 0x80) (hd : tag.val ≠ 0x82) :
    x509_get_subject_alt_name_loop der_full node_alloc (fuel + 1) (der_tlv tag content ++ rest)
      done cur next =
    x509_get_subject_alt_name_loop der_full node_alloc fuel rest done cur next := by
  have hlen : der_full.asn1_get_len (der_len content.length ++ (content ++ rest)) =
      ⟨0, content.length, content ++ rest⟩ :=
    asn1_get_len_der_len content.length (content ++ rest) hl
      (by rw [List.length_append]; omega)
  have hc' : ¬ tag.val &&& ASN1_CONTEXT_SPECIFIC ≠ ASN1_CONTEXT_SPECIFIC := not_not.mpr hc
  have hd' : tag.val ≠ ASN1_CONTEXT_SPECIFIC ||| 2 := hd
  rw [der_tlv_append, san_loop_cons, hlen]
  simp only [ne_eq, not_true_eq_false, if_false, if_neg hc', hd', not_false_eq_true, if_true,
    List.drop_left']

/-- One turn of the loop of `x509_get_subject_alt_name` on a DER dNSName entry, the
node `cur` being in use and the allocation of a node succeeding. -/
theorem san_loop_dns (fuel : Nat) (content rest : List uint8_t) (done : List x509_buf)
    (cur : x509_buf) (next : List x509_buf) (hl : content.length < 2 ^ 32)
    (hcur : cur.p_null = false) :
    x509_get_subject_alt_name_loop der_full true (fuel + 1) (der_tlv 0x82 content ++ rest)
      done cur next =
    x509_get_subject_alt_name_loop der_full true fuel rest (done ++ [cur]) ⟨0x82, content⟩ [] := by
  have hlen : der_full.asn1_get_len (der_len content.length ++ (content ++ rest)) =
      ⟨0, content.length, content ++ rest⟩ :=
    asn1_get_len_der_len content.length (content ++ rest) hl
      (by rw [List.length_append]; omega)
  have hc' : ¬ (0x82 : uint8_t).val &&& ASN1_CONTEXT_SPECIFIC ≠ ASN1_CONTEXT_SPECIFIC := by decide
  have hd' : ¬ (0x82 : uint8_t).val ≠ ASN1_CONTEXT_SPECIFIC ||| 2 := by decide
  rw [der_tlv_append, san_loop_cons, hlen]
  simp only [ne_eq, not_true_eq_false, if_false, if_neg hc', if_neg hd', hcur, if_true,
    Bool.true_eq_false, List.drop_left', List.take_left']
  rfl

/-- One turn of the loop of `x509_get_subject_alt_name` on a DER dNSName entry, the
node `cur` being free (its `p` is null). -/
theorem san_loop_dns_first (node_alloc : Bool) (fuel : Nat) (content rest : List uint8_t)
    (done : List x509_buf) (cur : x509_buf) (next : List x509_buf)
    (hl : content.length < 2 ^ 32) (hcur : cur.p_null = true) :
    x509_get_subject_alt_name_loop der_full node_alloc (fuel + 1)
      (der_tlv 0x82 content ++ rest) done cur next =
    x509_get_subject_alt_name_loop der_full node_alloc fuel rest done ⟨0x82, content⟩ next := by
  have hlen : der_full.asn1_get_len (der_len content.length ++ (content ++ rest)) =
      ⟨0, content.length, content ++ rest⟩ :=
    asn1_get_len_der_len content.length (content ++ rest) hl
      (by rw [List.length_append]; omega)
  have hc' : ¬ (0x82 : uint8_t).val &&& ASN1_CONTEXT_SPECIFIC ≠ ASN1_CONTEXT_SPECIFIC := by decide
  have hd' : ¬ (0x82 : uint8_t).val ≠ ASN1_CONTEXT_SPECIFIC ||| 2 := by decide
  rw [der_tlv_append, san_loop_cons, hlen]
  simp only [ne_eq, not_true_eq_false, if_false, if_neg hc', if_neg hd', hcur,
    Bool.true_eq_false, List.drop_left', List.take_left']
  rfl

theorem p_null_dns (content : List uint8_t) :
    (⟨0x82, content⟩ : x509_buf).p_null = false := by
  simp [x509_buf.p_null]

theorem dns_names_cons_dns (content : List uint8_t) (es : List (uint8_t × List uint8_t)) :
    dns_names ((0x82, content) :: es) = ⟨0x82, content⟩ :: dns_names es := rfl

theorem dns_names_cons_other (tag : uint8_t) (content : List uint8_t)
    (es : List (uint8_t × List uint8_t)) (hd : tag.val ≠ 0x82) :
    dns_names ((tag, content) :: es) = dns_names es := by
  simp [dns_names, List.filter, hd]

theorem san_loop_used (es : List (uint8_t × List uint8_t)) :
    ∀ (fuel : Nat) (done : List x509_buf) (cur : x509_buf) (next : List x509_buf),
      (∀ e ∈ es, e.1.val &&& 0x80 = 0x80) → (general_names_der es).length < 2 ^ 32 →
      (general_names_der es).length ≤ fuel → cur.p_null = false →
      x509_get_subject_alt_name_loop der_full true fuel (general_names_der es) done cur next =
        some ⟨0, x509_sequence.of_names (done ++ cur :: dns_names es), []⟩ := by
  induction es with
  | nil =>
    intro fuel done cur next _ _ _ _
    cases fuel <;> simp [general_names_der, x509_get_subject_alt_name_loop, link_eq_of_names,
      dns_names]
  | cons e es ih =>
    intro fuel done cur next hctx hlen hfuel hcur
    obtain ⟨tag, content⟩ := e
    have hl1 : content.length < (general_names_der ((tag, content) :: es)).length :=
      (general_names_len (tag, content) es).1
    have hl2 := (general_names_len (tag, content) es).2
    have hctx' : ∀ e' ∈ es, e'.1.val &&& 0x80 = 0x80 :=
      fun e' he' => hctx e' (List.mem_cons_of_mem _ he')
    obtain ⟨f, rfl⟩ : ∃ f, fuel = f + 1 := ⟨fuel - 1, by omega⟩
    simp only [general_names_der]
    by_cases hd : tag.val = 0x82
    · have ht : tag = 0x82 := Fin.ext hd
      subst ht
      rw [san_loop_dns f content _ done cur next (by omega) hcur,
        ih f (done ++ [cur]) ⟨0x82, content⟩ [] hctx' (by omega) (by omega) (p_null_dns content),
        dns_names_cons_dns, List.append_assoc]
      rfl
    · rw [san_loop_skip true f tag content _ done cur next (by omega)
          (hctx (tag, content) (List.mem_cons_self _ _)) hd,
        ih f done cur next hctx' (by omega) (by omega) hcur, dns_names_cons_other tag content es hd]

theorem san_loop_free (es : List (uint8_t × List uint8_t)) :
    ∀ (fuel : Nat),
      (∀ e ∈ es, e.1.val &&& 0x80 = 0x80) → (general_names_der es).length < 2 ^ 32 →
      (general_names_der es).length ≤ fuel →
      x509_get_subject_alt_name_loop der_full true fuel (general_names_der es) [] ⟨0, []⟩ [] =
        some ⟨0, x509_sequence.of_names (dns_names es), []⟩ := by
  induction es with
  | nil =>
    intro fuel _ _ _
    cases fuel <;> rfl
  | cons e es ih =>
    intro fuel hctx hlen hfuel
    obtain ⟨tag, content⟩ := e
    have hl1 : content.length < (general_names_der ((tag, content) :: es)).length :=
      (general_names_len (tag, content) es).1
    have hl2 := (general_names_len (tag, content) es).2
    have hctx' : ∀ e' ∈ es, e'.1.val &&& 0x80 = 0x80 :=
      fun e' he' => hctx e' (List.mem_cons_of_mem _ he')
    obtain ⟨f, rfl⟩ : ∃ f, fuel = f + 1 := ⟨fuel - 1, by omega⟩
    simp only [general_names_der]
    by_cases hd : tag.val = 0x82
    · have ht : tag = 0x82 := Fin.ext hd
      subst ht
      rw [san_loop_dns_first true f content _ [] ⟨0, []⟩ [] (by omega) (by decide),
        san_loop_used es f [] ⟨0x82, content⟩ [] hctx' (by omega) (by omega) (p_null_dns content),
        dns_names_cons_dns]
      rfl
    · rw [san_loop_skip true f tag content _ [] ⟨0, []⟩ [] (by omega)
          (hctx (tag, content) (List.mem_cons_self _ _)) hd,
        ih f hctx' (by omega) (by omega), dns_names_cons_other tag content es hd]

theorem san_loop_prefix (pre : List (uint8_t × List uint8_t)) :
    ∀ (k : Nat) (tail : List uint8_t) (done : List x509_buf) (cur : x509_buf)
      (next : List x509_buf),
      (∀ e ∈ pre, e.1.val &&& 0x80 = 0x80) → (general_names_der pre).length < 2 ^ 32 →
      ∃ done' cur' next',
        x509_get_subject_alt_name_loop der_full true (pre.length + k)
          (general_names_der pre ++ tail) done cur next =
        x509_get_subject_alt_name_loop der_full true k tail done' cur' next' := by
  induction pre with
  | nil =>
    intro k tail done cur next _ _
    exact ⟨done, cur, next, by simp [general_names_der]⟩
  | cons e es ih =>
    intro k tail done cur next hctx hlen
    obtain ⟨tag, content⟩ := e
    have hl1 : content.length < (general_names_der ((tag, content) :: es)).length :=
      (general_names_len (tag, content) es).1
    have hl2 := (general_names_len (tag, content) es).2
    have hctx' : ∀ e' ∈ es, e'.1.val &&& 0x80 = 0x80 :=
      fun e' he' => hctx e' (List.mem_cons_of_mem _ he')
    have hf : (((tag, content) :: es).length + k) = (es.length + k) + 1 := by
      simp only [List.length_cons]; omega
    simp only [general_names_der, List.append_assoc]
    rw [hf]
    by_cases hd : tag.val = 0x82
    · have ht : tag = 0x82 := Fin.ext hd
      subst ht
      by_cases hcur : cur.p_null = false
      · rw [san_loop_dns (es.length + k) content _ done cur next (by omega) hcur]
        exact ih k tail _ _ _ hctx' (by omega)
      · rw [san_loop_dns_first true (es.length + k) content _ done cur next (by omega)
          (by simpa using hcur)]
        exact ih k tail _ _ _ hctx' (by omega)
    · rw [san_loop_skip true (es.length + k) tag content _ done cur next (by omega)
        (hctx (tag, content) (List.mem_cons_self _ _)) hd]
      exact ih k tail _ _ _ hctx' (by omega)

/-- One turn of the loop of `x509_get_subject_alt_name` on a DER entry whose tag lacks
the context-specific class bit. -/
theorem san_loop_bad_tag (node_alloc : Bool) (fuel : Nat) (tag : uint8_t)
    (content rest : List uint8_t) (done : List x509_buf) (cur : x509_buf) (next : List x509_buf)
    (hl : content.length < 2 ^ 32) (hc : tag.val &&& 0x80 ≠ 0x80) :
    x509_get_subject_alt_name_loop der_full node_alloc (fuel + 1) (der_tlv tag content ++ rest)
      done cur next =
    some ⟨POLARSSL_ERR_X509_INVALID_EXTENSIONS + POLARSSL_ERR_ASN1_UNEXPECTED_TAG,
      x509_sequence.link done cur next, content ++ rest⟩ := by
  have hlen : der_full.asn1_get_len (der_len content.length ++ (content ++ rest)) =
      ⟨0, content.length, content ++ rest⟩ :=
    asn1_get_len_der_len content.length (content ++ rest) hl
      (by rw [List.length_append]; omega)
  have hc' : tag.val &&& ASN1_CONTEXT_SPECIFIC ≠ ASN1_CONTEXT_SPECIFIC := hc
  rw [der_tlv_append, san_loop_cons, hlen]
  simp only [ne_eq, not_true_eq_false, if_false, hc', not_false_eq_true, if_true]

theorem san_header (inner : List uint8_t) (seq : x509_sequence) (hl : inner.length < 2 ^ 32) :
    x509_get_subject_alt_name der_full true (der_tlv 0x30 inner) seq =
      x509_get_subject_alt_name_loop der_full true inner.length inner [] seq.buf seq.next := by
  have ht : der_full.asn1_get_tag (der_tlv 0x30 inner) (ASN1_CONSTRUCTED ||| ASN1_SEQUENCE) =
      ⟨0, inner.length, inner⟩ := by
    have := asn1_get_tag_der_tlv 0x30 inner [] hl
    rw [List.append_nil, List.append_nil] at this
    exact this
  simp only [x509_get_subject_alt_name, ht, ne_eq, not_true_eq_false, if_false]

/-- C28: SubjectAltName filtering. On a SubjectAltName body that is a SEQUENCE
filling the extension and made of DER-encoded GeneralName entries with
context-specific tags, `x509_get_subject_alt_name`, started on the empty list and
with every node allocated, returns `0` at `end` and leaves in `subject_alt_names`
the entries of tag `[2]` (byte `0x82`) with their content bytes, in their order,
and no other entry. On a body in which such entries are followed by a
DER-encoded entry whose tag lacks the context-specific class bit it returns
`POLARSSL_ERR_X509_INVALID_EXTENSIONS + POLARSSL_ERR_ASN1_UNEXPECTED_TAG`, whatever
follows that entry. -/
theorem x509_get_subject_alt_name_dns (es pre : List (uint8_t × List uint8_t))
    (bad : uint8_t × List uint8_t) (post : List uint8_t) :
    ((∀ e ∈ es, e.1.val &&& 0x80 = 0x80) → (general_names_der es).length < 2 ^ 32 →
      x509_get_subject_alt_name der_full true (der_tlv 0x30 (general_names_der es))
        ⟨⟨0, []⟩, []⟩ = some ⟨0, x509_sequence.of_names (dns_names es), []⟩) ∧
    ((∀ e ∈ pre, e.1.val &&& 0x80 = 0x80) → bad.1.val &&& 0x80 ≠ 0x80 →
      (general_names_der pre ++ (der_tlv bad.1 bad.2 ++ post)).length < 2 ^ 32 →
      ∃ r, x509_get_subject_alt_name der_full true
          (der_tlv 0x30 (general_names_der pre ++ (der_tlv bad.1 bad.2 ++ post)))
          ⟨⟨0, []⟩, []⟩ = some r ∧
        r.ret = POLARSSL_ERR_X509_INVALID_EXTENSIONS + POLARSSL_ERR_ASN1_UNEXPECTED_TAG) := by
  constructor
  · intro hctx hlen
    rw [san_header _ _ hlen]
    exact san_loop_free es _ hctx hlen (Nat.le_refl _)
  · intro hctx hbad hlen
    rw [san_header _ _ hlen]
    have hb : bad.2.length + 2 ≤ (der_tlv bad.1 bad.2 ++ post).length := by
      simp only [der_tlv, der_len, List.length_append, List.length_cons]
      split
      · simp; omega
      · split
        · simp; omega
        · split
          · simp; omega
          · split <;> simp <;> omega
    have hpl : pre.length ≤ (general_names_der pre).length := by
      clear hctx hlen
      induction pre with
      | nil => simp [general_names_der]
      | cons e es ih =>
        simp only [general_names_der, der_tlv, List.length_append, List.length_cons]
        omega
    have hlen' : (general_names_der pre ++ (der_tlv bad.1 bad.2 ++ post)).length =
        pre.length + ((general_names_der pre).length - pre.length +
          ((der_tlv bad.1 bad.2 ++ post).length - 1) + 1) := by
      rw [List.length_append]; omega
    rw [hlen']
    obtain ⟨done', cur', next', h⟩ := san_loop_prefix pre
      ((general_names_der pre).length - pre.length + ((der_tlv bad.1 bad.2 ++ post).length - 1) + 1)
      (der_tlv bad.1 bad.2 ++ post) [] (⟨0, []⟩ : x509_buf) [] hctx
      (by rw [List.length_append] at hlen; omega)
    rw [h, san_loop_bad_tag true _ bad.1 bad.2 post done' cur' next'
      (by rw [List.length_append] at hlen; omega) hbad]
    exact ⟨_, rfl, rfl⟩

/-- Witness of C28: the entries dNSName `a`, iPAddress `10.0.0.1`, dNSName `bc` leave
the two dNSName entries, and the dNSName `a` followed by an OCTET STRING is
rejected. -/
theorem x509_get_subject_alt_name_dns_witness :
    x509_get_subject_alt_name der_full true (der_tlv 0x30 (general_names_der demo_general_names))
        ⟨⟨0, []⟩, []⟩ = some ⟨0, ⟨⟨0x82, [97]⟩, [⟨0x82, [98, 99]⟩]⟩, []⟩ ∧
    ∃ r, x509_get_subject_alt_name der_full true
        (der_tlv 0x30 (general_names_der [(0x82, [97])] ++ (der_tlv 0x04 [1, 2] ++ [])))
        ⟨⟨0, []⟩, []⟩ = some r ∧
      r.ret = POLARSSL_ERR_X509_INVALID_EXTENSIONS + POLARSSL_ERR_ASN1_UNEXPECTED_TAG :=
  ⟨(x509_get_subject_alt_name_dns demo_general_names [] (0x04, []) []).1 (by decide) (by decide),
    (x509_get_subject_alt_name_dns [] [(0x82, [97])] (0x04, [1, 2]) []).2 (by decide) (by decide)
      (by decide)⟩

/-! ### Unknown extensions -/

/-- C23, the failing input: the example certificate whose version field is
`[0] { INTEGER 2147483647 }`. `x509_get_version` reads `v = 2^31 - 1`, so `v + 1 = 2^31` is
outside `{1, 2, 3}` and the certificate is to be rejected; but `crt->version++`
overflows the `int`, the stored version is `-2^31`, the test `crt->version > 3` does
not fire, and `x509_crt_parse_der_core` returns `0` with that version. With the
version field `[0] { INTEGER 2 }` the same certificate parses with version 3. -/
theorem x509_crt_parse_der_core_version_overflow :
    x509_get_version der version_int_max 0 = ⟨0, 2 ^ 31 - 1, []⟩ ∧
    (x509_crt_parse_der_core demo_traversal true [x509_crt_init]
      (some (demo_cert_der version_int_max [0x2A, 0x03]))).1 = 0 ∧
    (x509_crt_parse_der_core demo_traversal true [x509_crt_init]
      (some (demo_cert_der version_int_max [0x2A, 0x03]))).2.map (fun c => c.version) =
      [-2 ^ 31] ∧
    (∀ c ∈ (x509_crt_parse_der_core demo_traversal true [x509_crt_init]
      (some (demo_cert_der version_int_max [0x2A, 0x03]))).2,
      c.version ≠ 1 ∧ c.version ≠ 2 ∧ c.version ≠ 3) ∧
    (x509_crt_parse_der_core demo_traversal true [x509_crt_init]
      (some (demo_cert_der version_v3 [0x2A, 0x03]))).2.map (fun c => c.version) = [3] := by
  decide

theorem parse_der_sig_ok (x : Lib) (crt : x509_crt) (p : List uint8_t) (over : Bool)
    (c : x509_crt) (h : x509_crt_parse_der_sig x crt p over = .ok c) :
    c.sig_oid1.p = c.sig_oid2.p := by
  unfold x509_crt_parse_der_sig at h
  by_cases h1 : (x.x509_get_alg_null p).ret ≠ 0
  · simp only [if_pos h1] at h
    exact absurd h (by simp)
  · simp only [if_neg h1] at h
    by_cases h2 : crt.sig_oid1.len ≠ (x.x509_get_alg_null p).val.len ∨
        memcmp crt.sig_oid1.p (x.x509_get_alg_null p).val.p crt.sig_oid1.len ≠ 0
    · rw [if_pos h2] at h
      exact absurd h (by simp)
    · rw [if_neg h2] at h
      have he := (buf_cmp_iff crt.sig_oid1.p (x.x509_get_alg_null p).val.p).mp h2
      by_cases h3 : (x.x509_get_sig (x.x509_get_alg_null p).p).ret ≠ 0
      · simp only [if_pos h3] at h
        exact absurd h (by simp)
      · simp only [if_neg h3] at h
        by_cases h4 : over = true ∨ (x.x509_get_sig (x.x509_get_alg_null p).p).p ≠ []
        · rw [if_pos h4] at h
          exact absurd h (by simp)
        · rw [if_neg h4] at h
          injection h with h
          rw [← h]
          exact he

theorem parse_der_sig_mismatch (x : Lib) (crt : x509_crt) (p : List uint8_t) (over : Bool)
    (h0 : (x.x509_get_alg_null p).ret = 0)
    (hne : crt.sig_oid1.p ≠ (x.x509_get_alg_null p).val.p) :
    x509_crt_parse_der_sig x crt p over = .error POLARSSL_ERR_X509_SIG_MISMATCH := by
  have h2 : crt.sig_oid1.len ≠ (x.x509_get_alg_null p).val.len ∨
      memcmp crt.sig_oid1.p (x.x509_get_alg_null p).val.p crt.sig_oid1.len ≠ 0 := by
    by_contra hc
    exact hne ((buf_cmp_iff crt.sig_oid1.p (x.x509_get_alg_null p).val.p).mp hc)
  unfold x509_crt_parse_der_sig
  simp only [h0, ne_eq, not_true_eq_false, if_false]
  rw [if_pos h2]

theorem parse_der_fill_sig_oid (d : Asn1Full) (x : Lib)
    (g : List uint8_t → x509_crt → crt_ext_out) (crt : x509_crt) :
    (x509_crt_parse_der_fill d x g crt).2.sig_oid1.p =
      (x509_crt_parse_der_fill d x g crt).2.sig_oid2.p := by
  unfold x509_crt_parse_der_fill
  cases x509_crt_parse_der_tbs d x g crt with
  | error e => rfl
  | ok st =>
    obtain ⟨c1, p, over⟩ := st
    simp only []
    cases hs : x509_crt_parse_der_sig x c1 p over with
    | error e => rfl
    | ok c2 => exact parse_der_sig_ok x c1 p over c2 hs

/-- C24: the two signature algorithms. When `x509_crt_parse_der_core` returns `0` the
node it filled has `sig_oid1` and `sig_oid2` of the same length and the same bytes.
When the traversal succeeds up to the end of the TBSCertificate and
`x509_get_alg_null` reads an outer signatureAlgorithm whose OID differs from
`sig_oid1`, `x509_crt_parse_der_core` returns `POLARSSL_ERR_X509_SIG_MISMATCH` and leaves the
node in the state of `x509_crt_init`. -/
theorem x509_crt_parse_der_core_sig_oid (d : Asn1Full) (x : Lib)
    (g : List uint8_t → x509_crt → crt_ext_out) (raw_alloc : Bool) (c : x509_crt)
    (next : List x509_crt) (b : List uint8_t) :
    ((x509_crt_parse_der_core (x509_crt_parse_der_fill d x g) raw_alloc (c :: next)
        (some b)).1 = 0 →
      ∃ new, x509_crt_parse_der_core (x509_crt_parse_der_fill d x g) raw_alloc (c :: next)
          (some b) = (0, new :: next) ∧
        new.sig_oid1.len = new.sig_oid2.len ∧ new.sig_oid1.p = new.sig_oid2.p) ∧
    (∀ st, (x509_crt_parse_der_tbs d x g { c with raw := ⟨c.raw.tag, b⟩ }).toOption = some st →
      (x.x509_get_alg_null st.2.1).ret = 0 →
      st.1.sig_oid1.p ≠ (x.x509_get_alg_null st.2.1).val.p →
      x509_crt_parse_der_core (x509_crt_parse_der_fill d x g) true (c :: next) (some b) =
        (POLARSSL_ERR_X509_SIG_MISMATCH, [x509_crt_init])) := by
  constructor
  · intro h
    rw [parse_der_core_cons] at h ⊢
    by_cases hr : raw_alloc = false
    · rw [if_pos hr] at h
      have hm : POLARSSL_ERR_X509_MALLOC_FAILED ≠ 0 := by decide
      exact absurd h hm
    · rw [if_neg hr] at h ⊢
      by_cases hf : (x509_crt_parse_der_fill d x g { c with raw := ⟨c.raw.tag, b⟩ }).1 ≠ 0
      · rw [if_pos hf] at h
        exact absurd h hf
      · rw [if_neg hf]
        have hp := parse_der_fill_sig_oid d x g { c with raw := ⟨c.raw.tag, b⟩ }
        exact ⟨_, rfl, by unfold x509_buf.len; rw [hp], hp⟩
  · intro st htbs h0 hne
    obtain ⟨c1, p, over⟩ := st
    have ht : x509_crt_parse_der_tbs d x g { c with raw := ⟨c.raw.tag, b⟩ } = .ok (c1, p, over) := by
      cases hx : x509_crt_parse_der_tbs d x g { c with raw := ⟨c.raw.tag, b⟩ } with
      | error e => rw [hx] at htbs; exact absurd htbs (by simp [Except.toOption])
      | ok s =>
        rw [hx] at htbs
        simp only [Except.toOption, Option.some.injEq] at htbs
        rw [htbs]
    have hfill : x509_crt_parse_der_fill d x g { c with raw := ⟨c.raw.tag, b⟩ } =
        (POLARSSL_ERR_X509_SIG_MISMATCH, x509_crt_init) := by
      unfold x509_crt_parse_der_fill
      rw [ht]
      simp only []
      rw [parse_der_sig_mismatch x c1 p over h0 hne]
    have hne0 : POLARSSL_ERR_X509_SIG_MISMATCH ≠ 0 := by decide
    rw [parse_der_core_cons, hfill]
    simp only [Bool.true_eq_false, if_false, ne_eq, hne0, not_false_eq_true, if_true]

/-- Witness of C24: the example certificate parses with equal `sig_oid1` and
`sig_oid2`, and with the outer algorithm `2A 04` instead of `2A 03` it is rejected
with `POLARSSL_ERR_X509_SIG_MISMATCH`. -/
theorem x509_crt_parse_der_core_sig_oid_witness :
    (∃ new, x509_crt_parse_der_core (x509_crt_parse_der_fill der_full demo_lib demo_get_crt_ext)
        true [x509_crt_init] (some (demo_cert_der version_v3 [0x2A, 0x03])) = (0, [new]) ∧
      new.sig_oid1.len = new.sig_oid2.len ∧ new.sig_oid1.p = new.sig_oid2.p) ∧
    x509_crt_parse_der_core (x509_crt_parse_der_fill der_full demo_lib demo_get_crt_ext) true
        [x509_crt_init] (some (demo_cert_der version_v3 [0x2A, 0x04])) =
      (POLARSSL_ERR_X509_SIG_MISMATCH, [x509_crt_init]) :=
  ⟨(x509_crt_parse_der_core_sig_oid der_full demo_lib demo_get_crt_ext true x509_crt_init []
      (demo_cert_der version_v3 [0x2A, 0x03])).1 (by decide),
    (x509_crt_parse_der_core_sig_oid der_full demo_lib demo_get_crt_ext true x509_crt_init []
      (demo_cert_der version_v3 [0x2A, 0x04])).2
      ((x509_crt_parse_der_tbs der_full demo_lib demo_get_crt_ext
        { x509_crt_init with
          raw := ⟨x509_crt_init.raw.tag, demo_cert_der version_v3 [0x2A, 0x04]⟩ }).toOption.getD
        (x509_crt_init, [], false))
      (by decide) (by decide) (by decide)⟩

/-! ### Parsing a buffer of certificates -/

theorem wrap_int32_id (n : Int) (h0 : 0 ≤ n) (h1 : n < 2 ^ 31) : wrap_int32 n = n := by
  unfold wrap_int32
  rw [Int.emod_eq_of_lt (by omega) (by omega)]
  omega

/-- The loop of `x509_crt_parse` in terms of the blocks of the input, when every
read that finds a block consumes at least one byte, no read returns
`POLARSSL_ERR_PEM_BAD_INPUT_DATA`, and no call of `x509_crt_parse_der` returns
`POLARSSL_ERR_X509_MALLOC_FAILED`. -/
theorem parse_loop_spec (pem : pem_reader) (fill : der_traversal) :
    ∀ (fuel : Nat) (buf : List uint8_t) (st : parse_state), buf.length ≤ fuel →
      (∀ r ∈ pem_reads pem fuel buf,
        r.ret ≠ POLARSSL_ERR_PEM_NO_HEADER_FOOTER_PRESENT → 1 ≤ r.use_len) →
      (∀ r ∈ pem_reads pem fuel buf, r.ret ≠ POLARSSL_ERR_PEM_BAD_INPUT_DATA) →
      block_result.rejected POLARSSL_ERR_X509_MALLOC_FAILED ∉
        block_results fill st.chain (pem_blocks pem fuel buf) →
      ∃ tf, x509_crt_parse_loop pem fill true true fuel buf st =
          some (x509_crt_parse_end
            (if block_result.parsed ∈ block_results fill st.chain (pem_blocks pem fuel buf)
              then 1 else st.success)
            (if st.first_error ≠ 0 then st.first_error
              else first_error_of (block_results fill st.chain (pem_blocks pem fuel buf)))
            tf,
            chain_after fill st.chain (pem_blocks pem fuel buf)) ∧
        (0 ≤ st.total_failed →
          st.total_failed +
            rejected_count (block_results fill st.chain (pem_blocks pem fuel buf)) < 2 ^ 31 →
          tf = st.total_failed +
            rejected_count (block_results fill st.chain (pem_blocks pem fuel buf))) := by
  intro fuel
  induction fuel with
  | zero =>
    intro buf st hlen _ _ _
    have hb : buf = [] := List.length_eq_zero.mp (Nat.le_zero.mp hlen)
    subst hb
    refine ⟨st.total_failed, ?_, ?_⟩
    · by_cases hfe : st.first_error = 0 <;>
        simp [x509_crt_parse_loop, pem_blocks, block_results, chain_after, first_error_of, hfe]
    · intro _ _; simp [pem_blocks, block_results, rejected_count]
  | succ fuel ih =>
    intro buf st hlen hprog hbad hmal
    cases buf with
    | nil =>
      refine ⟨st.total_failed, ?_, ?_⟩
      · by_cases hfe : st.first_error = 0 <;>
          simp [x509_crt_parse_loop, pem_blocks, block_results, chain_after, first_error_of, hfe]
      · intro _ _; simp [pem_blocks, block_results, rejected_count]
    | cons c rest =>
      have hmem : pem (c :: rest) ∈ pem_reads pem (fuel + 1) (c :: rest) := by
        simp only [pem_reads]
        split <;> simp
      have hnb : ¬ (pem (c :: rest)).ret = POLARSSL_ERR_PEM_BAD_INPUT_DATA := hbad _ hmem
      have hdrop : (pem (c :: rest)).ret ≠ POLARSSL_ERR_PEM_NO_HEADER_FOOTER_PRESENT →
          ((c :: rest).drop (pem (c :: rest)).use_len).length ≤ fuel := by
        intro h
        have := hprog _ hmem h
        rw [List.length_drop]
        simp only [List.length_cons] at hlen ⊢
        omega
      by_cases hnh : (pem (c :: rest)).ret = POLARSSL_ERR_PEM_NO_HEADER_FOOTER_PRESENT
      · have hblocks : pem_blocks pem (fuel + 1) (c :: rest) = [] := by
          simp only [pem_blocks, hnh, true_or, if_true]
        have hr0 : ¬ (pem (c :: rest)).ret = 0 := by rw [hnh]; decide
        have hc1 : POLARSSL_ERR_PEM_NO_HEADER_FOOTER_PRESENT ≠ 0 := by decide
        have hc2 : POLARSSL_ERR_PEM_NO_HEADER_FOOTER_PRESENT ≠ POLARSSL_ERR_PEM_BAD_INPUT_DATA := by
          decide
        refine ⟨st.total_failed, ?_, ?_⟩
        · simp only [x509_crt_parse_loop, if_neg hr0, if_neg hnb, hnh, ne_eq, not_true_eq_false,
            if_false, hblocks, block_results, chain_after, first_error_of, List.not_mem_nil]
          by_cases hfe : st.first_error = 0
          · simp [hfe, hc1, hc2]
          · simp [hfe, hc1, hc2]
        · intro _ _; simp [hblocks, block_results, rejected_count]
      · have hterm : ¬ ((pem (c :: rest)).ret = POLARSSL_ERR_PEM_NO_HEADER_FOOTER_PRESENT ∨
            (pem (c :: rest)).ret = POLARSSL_ERR_PEM_BAD_INPUT_DATA) := by
          rintro (h | h)
          · exact hnh h
          · exact hnb h
        have hblocks : pem_blocks pem (fuel + 1) (c :: rest) =
            pem (c :: rest) ::
              pem_blocks pem fuel ((c :: rest).drop (pem (c :: rest)).use_len) := by
          simp only [pem_blocks, if_neg hterm]
        have hreads : pem_reads pem (fuel + 1) (c :: rest) =
            pem (c :: rest) ::
              pem_reads pem fuel ((c :: rest).drop (pem (c :: rest)).use_len) := by
          simp only [pem_reads, if_neg hterm]
        have hprog' : ∀ r ∈ pem_reads pem fuel ((c :: rest).drop (pem (c :: rest)).use_len),
            r.ret ≠ POLARSSL_ERR_PEM_NO_HEADER_FOOTER_PRESENT → 1 ≤ r.use_len :=
          fun r hr => hprog r (by rw [hreads]; exact List.mem_cons_of_mem _ hr)
        have hbad' : ∀ r ∈ pem_reads pem fuel ((c :: rest).drop (pem (c :: rest)).use_len),
            r.ret ≠ POLARSSL_ERR_PEM_BAD_INPUT_DATA :=
          fun r hr => hbad r (by rw [hreads]; exact List.mem_cons_of_mem _ hr)
        rw [hblocks] at hmal
        by_cases hr0 : (pem (c :: rest)).ret = 0
        · by_cases hd : (x509_crt_parse_der fill true true st.chain
              (some (pem (c :: rest)).buf)).1 ≠ 0
          · have hrs : block_results fill st.chain (pem (c :: rest) ::
                pem_blocks pem fuel ((c :: rest).drop (pem (c :: rest)).use_len)) =
                block_result.rejected (x509_crt_parse_der fill true true st.chain
                  (some (pem (c :: rest)).buf)).1 ::
                block_results fill (x509_crt_parse_der fill true true st.chain
                  (some (pem (c :: rest)).buf)).2
                  (pem_blocks pem fuel ((c :: rest).drop (pem (c :: rest)).use_len)) := by
              simp only [block_results, hr0, ne_eq, not_true_eq_false, if_false]
              rw [if_pos hd]
            rw [hrs] at hmal
            have hnm : ¬ (x509_crt_parse_der fill true true st.chain
                (some (pem (c :: rest)).buf)).1 = POLARSSL_ERR_X509_MALLOC_FAILED := by
              intro h
              exact hmal (by rw [h]; exact List.mem_cons_self _ _)
            obtain ⟨tf, h1, h2⟩ := ih ((c :: rest).drop (pem (c :: rest)).use_len)
              ⟨(x509_crt_parse_der fill true true st.chain (some (pem (c :: rest)).buf)).2,
                st.success,
                if st.first_error = 0 then
                  (x509_crt_parse_der fill true true st.chain (some (pem (c :: rest)).buf)).1
                else st.first_error,
                wrap_int32 (st.total_failed + 1)⟩ (hdrop hnh) hprog' hbad'
              (fun h => hmal (List.mem_cons_of_mem _ h))
            refine ⟨tf, ?_, ?_⟩
            · rw [hblocks, hrs]
              simp only [x509_crt_parse_loop, hr0, if_true, if_pos hd, if_neg hnm, h1,
                chain_after, ne_eq, not_true_eq_false, if_false, List.mem_cons, false_or,
                first_error_of]
              by_cases hfe : st.first_error = 0
              · simp only [ne_eq] at hd
                simp [hfe, hd]
              · simp [hfe]
            · intro h0 hlt
              rw [hblocks, hrs] at hlt ⊢
              simp only [rejected_count] at hlt ⊢
              have hw : wrap_int32 (st.total_failed + 1) = st.total_failed + 1 :=
                wrap_int32_id _ (by omega) (by push_cast at hlt; omega)
              have := h2 (by simp only []; rw [hw]; omega)
                (by simp only []; rw [hw]; push_cast at hlt ⊢; omega)
              simp only [] at this
              rw [this, hw]
              push_cast
              omega
          · have hrs : block_results fill st.chain (pem (c :: rest) ::
                pem_blocks pem fuel ((c :: rest).drop (pem (c :: rest)).use_len)) =
                block_result.parsed ::
                block_results fill (x509_crt_parse_der fill true true st.chain
                  (some (pem (c :: rest)).buf)).2
                  (pem_blocks pem fuel ((c :: rest).drop (pem (c :: rest)).use_len)) := by
              simp only [block_results, hr0, ne_eq, not_true_eq_false, if_false]
              rw [if_neg hd]
            rw [hrs] at hmal
            obtain ⟨tf, h1, h2⟩ := ih ((c :: rest).drop (pem (c :: rest)).use_len)
              ⟨(x509_crt_parse_der fill true true st.chain (some (pem (c :: rest)).buf)).2,
                1, st.first_error, st.total_failed⟩ (hdrop hnh) hprog' hbad'
              (fun h => hmal (List.mem_cons_of_mem _ h))
            refine ⟨tf, ?_, ?_⟩
            · rw [hblocks, hrs]
              simp only [x509_crt_parse_loop, hr0, if_true, if_neg hd, h1, chain_after, ne_eq,
                not_true_eq_false, if_false, List.mem_cons, true_or, first_error_of]
              simp
            · intro h0 hlt
              rw [hblocks, hrs] at hlt ⊢
              simp only [rejected_count] at hlt ⊢
              exact h2 h0 hlt
        · have hrs : block_results fill st.chain (pem (c :: rest) ::
              pem_blocks pem fuel ((c :: rest).drop (pem (c :: rest)).use_len)) =
              block_result.undecodable (pem (c :: rest)).ret ::
              block_results fill st.chain
                (pem_blocks pem fuel ((c :: rest).drop (pem (c :: rest)).use_len)) := by
            simp only [block_results, ne_eq, hr0, not_false_eq_true, if_true]
          rw [hrs] at hmal
          obtain ⟨tf, h1, h2⟩ := ih ((c :: rest).drop (pem (c :: rest)).use_len)
            ⟨st.chain, st.success,
              if st.first_error = 0 then (pem (c :: rest)).ret else st.first_error,
              st.total_failed⟩ (hdrop hnh) hprog' hbad'
            (fun h => hmal (List.mem_cons_of_mem _ h))
          refine ⟨tf, ?_, ?_⟩
          · rw [hblocks, hrs]
            simp only [x509_crt_parse_loop, if_neg hr0, if_neg hnb, ne_eq, hnh, not_false_eq_true,
              if_true, h1, chain_after, List.mem_cons, false_or, first_error_of]
            by_cases hfe : st.first_error = 0
            · simp [hfe, hr0]
            · simp [hfe, hr0]
          · intro h0 hlt
            rw [hblocks, hrs] at hlt ⊢
            simp only [rejected_count] at hlt ⊢
            exact h2 h0 hlt

/-- The blocks that gave no certificate are those with a rejected payload and those
with an undecodable body. -/
theorem failed_count_split (rs : List block_result) :
    failed_count rs = rejected_count rs + undecodable_count rs := by
  induction rs with
  | nil => rfl
  | cons r rs ih =>
    have hc : failed_count (r :: rs) =
        (if r ≠ block_result.parsed then 1 else 0) + failed_count rs := by
      unfold failed_count
      by_cases h : r = block_result.parsed
      · simp [h]
      · simp [h]; omega
    rw [hc, ih]
    cases r <;> simp [rejected_count, undecodable_count] <;> omega

/-- When no block gave a certificate, the first error is not `0` unless there is no
block. -/
theorem block_results_first_error (fill : der_traversal) :
    ∀ (blocks : List pem_out) (chain : List x509_crt),
      block_result.parsed ∉ block_results fill chain blocks →
      block_results fill chain blocks ≠ [] →
      first_error_of (block_results fill chain blocks) ≠ 0 := by
  intro blocks
  cases blocks with
  | nil => intro chain _ h; exact absurd rfl h
  | cons r rs =>
    intro chain hnone _
    by_cases hr : r.ret ≠ 0
    · simp only [block_results, if_pos hr, first_error_of]
      exact hr
    · by_cases hd : (x509_crt_parse_der fill true true chain (some r.buf)).1 ≠ 0
      · simp only [block_results, if_neg hr, if_pos hd, first_error_of]
        exact hd
      · simp only [block_results, if_neg hr, if_neg hd] at hnone
        exact absurd (List.mem_cons_self _ _) hnone

/-- The first error is not positive when no error is. -/
theorem first_error_of_nonpos :
    ∀ rs : List block_result, (∀ r ∈ rs, block_error r ≤ 0) → first_error_of rs ≤ 0 := by
  intro rs
  induction rs with
  | nil => intro _; exact le_refl _
  | cons r rs ih =>
    intro h
    have h1 := h r (List.mem_cons_self _ _)
    have h2 := ih (fun x hx => h x (List.mem_cons_of_mem _ hx))
    cases r with
    | undecodable e => exact h1
    | rejected e => exact h1
    | parsed => exact h2

/-- What `x509_crt_parse` counts. On a PEM input (one that contains the BEGIN
CERTIFICATE marker) in which at least one block is parsed successfully, when
every read that finds a block consumes at least one byte, no read returns
`POLARSSL_ERR_PEM_BAD_INPUT_DATA`, no allocation fails, and fewer than `2^31` payloads are
rejected, `x509_crt_parse` returns the number of blocks whose decoded DER payload
`x509_crt_parse_der` rejected. The blocks whose PEM body could not be decoded are
missing from the count: the value returned is the number of blocks that gave
no certificate less the number of undecodable blocks, so it is the number of
failed blocks exactly when every body decodes. -/
theorem x509_crt_parse_failure_count (pem : pem_reader) (fill : der_traversal)
    (head : x509_crt) (tail : List x509_crt) (b : List uint8_t)
    (hpem : strstr (c_string b) pem_begin_crt = true)
    (hprog : ∀ r ∈ pem_reads pem b.length b,
      r.ret ≠ POLARSSL_ERR_PEM_NO_HEADER_FOOTER_PRESENT → 1 ≤ r.use_len)
    (hbad : ∀ r ∈ pem_reads pem b.length b, r.ret ≠ POLARSSL_ERR_PEM_BAD_INPUT_DATA)
    (hmal : block_result.rejected POLARSSL_ERR_X509_MALLOC_FAILED ∉
      block_results fill (head :: tail) (pem_blocks pem b.length b))
    (hok : block_result.parsed ∈ block_results fill (head :: tail) (pem_blocks pem b.length b))
    (hcnt : rejected_count (block_results fill (head :: tail) (pem_blocks pem b.length b)) <
      2 ^ 31) :
    x509_crt_parse pem fill true true (head :: tail) (some b) =
        some ((rejected_count
            (block_results fill (head :: tail) (pem_blocks pem b.length b)) : Int),
          chain_after fill (head :: tail) (pem_blocks pem b.length b)) ∧
      rejected_count (block_results fill (head :: tail) (pem_blocks pem b.length b)) +
          undecodable_count (block_results fill (head :: tail) (pem_blocks pem b.length b)) =
        failed_count (block_results fill (head :: tail) (pem_blocks pem b.length b)) := by
  refine ⟨?_, (failed_count_split _).symm⟩
  obtain ⟨tf, h1, h2⟩ := parse_loop_spec pem fill b.length b ⟨head :: tail, 0, 0, 0⟩
    (le_refl _) hprog hbad hmal
  have htf := h2 (le_refl _) (by simp only [zero_add]; exact_mod_cast hcnt)
  simp only [zero_add] at htf
  have hne : ¬ ((1 : Int) = 0) := by decide
  simp only [x509_crt_parse, hpem, Bool.true_eq_false, if_false, h1, if_pos hok,
    x509_crt_parse_end, ne_eq, hne, not_false_eq_true, if_true, htf]

section
set_option maxRecDepth 100000

/-- An instance of the count: of three blocks, the second with the payload
`04 00` that the example traversal rejects, `x509_crt_parse` returns `1`. -/
theorem x509_crt_parse_failure_count_witness :
    x509_crt_parse demo_pem demo_fill true true [x509_crt_init]
        (some (pem_block_good ++ pem_block_octets ++ pem_block_good)) =
        some ((rejected_count (block_results demo_fill [x509_crt_init]
            (pem_blocks demo_pem (pem_block_good ++ pem_block_octets ++ pem_block_good).length
              (pem_block_good ++ pem_block_octets ++ pem_block_good))) : Int),
          chain_after demo_fill [x509_crt_init]
            (pem_blocks demo_pem (pem_block_good ++ pem_block_octets ++ pem_block_good).length
              (pem_block_good ++ pem_block_octets ++ pem_block_good))) ∧
      rejected_count (block_results demo_fill [x509_crt_init]
          (pem_blocks demo_pem (pem_block_good ++ pem_block_octets ++ pem_block_good).length
            (pem_block_good ++ pem_block_octets ++ pem_block_good))) +
          undecodable_count (block_results demo_fill [x509_crt_init]
            (pem_blocks demo_pem (pem_block_good ++ pem_block_octets ++ pem_block_good).length
              (pem_block_good ++ pem_block_octets ++ pem_block_good))) =
        failed_count (block_results demo_fill [x509_crt_init]
          (pem_blocks demo_pem (pem_block_good ++ pem_block_octets ++ pem_block_good).length
            (pem_block_good ++ pem_block_octets ++ pem_block_good))) :=
  x509_crt_parse_failure_count demo_pem demo_fill x509_crt_init []
    (pem_block_good ++ pem_block_octets ++ pem_block_good)
    (by decide) (by decide) (by decide) (by decide) (by decide) (by decide)

end

/-- C22: on a PEM input in which no block is parsed successfully, when every
read that finds a block consumes at least one byte, no read returns
`POLARSSL_ERR_PEM_BAD_INPUT_DATA`, no allocation fails, and the errors of the reader and
of `x509_crt_parse_der` are not positive, `x509_crt_parse` returns the first error in input
order of the reader or of `x509_crt_parse_der`, `POLARSSL_ERR_X509_CERT_UNKNOWN_FORMAT` when
there is no block, and the value returned is negative. -/
theorem x509_crt_parse_no_success (pem : pem_reader) (fill : der_traversal)
    (head : x509_crt) (tail : List x509_crt) (b : List uint8_t)
    (hpem : strstr (c_string b) pem_begin_crt = true)
    (hprog : ∀ r ∈ pem_reads pem b.length b,
      r.ret ≠ POLARSSL_ERR_PEM_NO_HEADER_FOOTER_PRESENT → 1 ≤ r.use_len)
    (hbad : ∀ r ∈ pem_reads pem b.length b, r.ret ≠ POLARSSL_ERR_PEM_BAD_INPUT_DATA)
    (hmal : block_result.rejected POLARSSL_ERR_X509_MALLOC_FAILED ∉
      block_results fill (head :: tail) (pem_blocks pem b.length b))
    (hnone : block_result.parsed ∉
      block_results fill (head :: tail) (pem_blocks pem b.length b))
    (hneg : ∀ r ∈ block_results fill (head :: tail) (pem_blocks pem b.length b),
      block_error r ≤ 0) :
    x509_crt_parse pem fill true true (head :: tail) (some b) =
        some (if block_results fill (head :: tail) (pem_blocks pem b.length b) = []
            then POLARSSL_ERR_X509_CERT_UNKNOWN_FORMAT
            else first_error_of (block_results fill (head :: tail) (pem_blocks pem b.length b)),
          chain_after fill (head :: tail) (pem_blocks pem b.length b)) ∧
      (if block_results fill (head :: tail) (pem_blocks pem b.length b) = []
        then POLARSSL_ERR_X509_CERT_UNKNOWN_FORMAT
        else first_error_of (block_results fill (head :: tail) (pem_blocks pem b.length b))) <
        0 := by
  obtain ⟨tf, h1, _⟩ := parse_loop_spec pem fill b.length b ⟨head :: tail, 0, 0, 0⟩
    (le_refl _) hprog hbad hmal
  have hz : ¬ ((0 : Int) ≠ 0) := by decide
  by_cases hrs : block_results fill (head :: tail) (pem_blocks pem b.length b) = []
  · have hu : POLARSSL_ERR_X509_CERT_UNKNOWN_FORMAT < 0 := by decide
    refine ⟨?_, by rw [if_pos hrs]; exact hu⟩
    simp only [x509_crt_parse, hpem, Bool.true_eq_false, if_false, h1, if_neg hnone,
      x509_crt_parse_end, if_neg hz, if_pos hrs]
    simp [hrs, first_error_of]
  · have hfe := block_results_first_error fill (pem_blocks pem b.length b) (head :: tail)
      hnone hrs
    have hle := first_error_of_nonpos _ hneg
    refine ⟨?_, by rw [if_neg hrs]; omega⟩
    simp only [x509_crt_parse, hpem, Bool.true_eq_false, if_false, h1, if_neg hnone,
      x509_crt_parse_end, if_neg hz, if_neg hrs, if_pos hfe]

section
set_option maxRecDepth 100000

/-- C22, two instances: a block that cannot be decoded followed by a block
whose payload is rejected gives the error of the reader, and a marker without
a block gives `POLARSSL_ERR_X509_CERT_UNKNOWN_FORMAT`. -/
theorem x509_crt_parse_no_success_witness :
    (x509_crt_parse demo_pem demo_fill true true [x509_crt_init]
        (some (pem_block_undecodable ++ pem_block_octets)) =
        some (-0x112C, [x509_crt_init]) ∧ (-0x112C : Int) < 0) ∧
    (x509_crt_parse demo_pem demo_fill true true [x509_crt_init] (some pem_begin_crt) =
        some (POLARSSL_ERR_X509_CERT_UNKNOWN_FORMAT, [x509_crt_init]) ∧
      POLARSSL_ERR_X509_CERT_UNKNOWN_FORMAT < 0) :=
  ⟨x509_crt_parse_no_success demo_pem demo_fill x509_crt_init []
      (pem_block_undecodable ++ pem_block_octets)
      (by decide) (by decide) (by decide) (by decide) (by decide) (by decide),
    x509_crt_parse_no_success demo_pem demo_fill x509_crt_init [] pem_begin_crt
      (by decide) (by decide) (by decide) (by decide) (by decide) (by decide)⟩

end

/-! ### One-label wildcards -/

theorem wildcard_verify_range (cn : List uint8_t) (name : x509_buf) :
    x509_wildcard_verify cn name = 1 ∨ x509_wildcard_verify cn name = 0 := by
  unfold x509_wildcard_verify
  split
  · exact Or.inr rfl
  · simp only []
    split
    · exact Or.inr rfl
    · split
      · exact Or.inl rfl
      · exact Or.inr rfl

/-- What a successful `x509_wildcard_verify` found: with `cn` cut before its first
`.`, the part before the cut is not empty, the part from the cut on begins with
`.`, has the length of the name without its first byte and matches it under
`x509_name_cmp`, and the name begins with `*.`. -/
theorem wildcard_verify_one_split {cn : List uint8_t} {name : x509_buf}
    (h : x509_wildcard_verify cn name = 1) :
    cn.takeWhile (fun c => decide (c ≠ 46)) ≠ [] ∧
      (cn_from_first_dot cn).head? = some 46 ∧
      name.p.take 2 = [42, 46] ∧
      (cn_from_first_dot cn).length = name.len - 1 ∧
      x509_name_cmp (name.p.drop 1) (cn_from_first_dot cn) (name.len - 1) = 0 := by
  have h10 : ¬ ((0 : Int) = 1) := by decide
  unfold x509_wildcard_verify at h
  by_cases hlen : name.len < 3 ∨ name.p.get? 0 ≠ some 42 ∨ name.p.get? 1 ≠ some 46
  · rw [if_pos hlen] at h
    exact absurd h h10
  · rw [if_neg hlen] at h
    simp only [not_or] at hlen
    have hbeg := (begins_star_dot name.p).mp (by
      simp only [not_or]
      exact hlen.2)
    by_cases hdot : (46 : uint8_t) ∈ cn
    · obtain ⟨k, h1, h2, h3, h4⟩ := wildcard_cn_idx_dot cn 0 hdot
      simp only [Nat.zero_add] at h1
      simp only [h1] at h
      by_cases hk : k = 0
      · rw [if_pos hk] at h
        exact absurd h h10
      · rw [if_neg hk] at h
        by_cases hc : cn.length - k = name.len - 1 ∧
            x509_name_cmp (name.p.drop 1) (cn.drop k) (name.len - 1) = 0
        · have hl : (cn_from_first_dot cn).length = cn.length - k := by
            rw [← h3, List.length_drop]
          have hhead : cn.head? ≠ some 46 := fun e => hk (h4.mpr e)
          refine ⟨?_, ?_, hbeg, by rw [hl]; exact hc.1, by rw [← h3]; exact hc.2⟩
          · intro hnil
            cases cn with
            | nil => exact absurd hdot (List.not_mem_nil _)
            | cons a rest =>
              rw [List.takeWhile_cons] at hnil
              by_cases ha : a = 46
              · exact hhead (by rw [ha]; rfl)
              · simp [ha] at hnil
          · have hne : cn_from_first_dot cn ≠ [] := by
              intro e
              rw [e] at hl
              simp only [List.length_nil] at hl
              omega
            unfold cn_from_first_dot at hne ⊢
            have hp := List.head_dropWhile_not (fun c => decide (c ≠ 46)) cn hne
            rw [List.head?_eq_head hne]
            simp only [ne_eq, decide_not, Bool.not_eq_true', Bool.not_eq_false',
              decide_eq_true_eq] at hp
            simp only [ne_eq, decide_not]
            exact congrArg some hp
        · rw [if_neg hc] at h
          exact absurd h h10
    · rw [wildcard_cn_idx_no_dot cn 0 hdot] at h
      simp only [if_true] at h
      exact absurd h h10

theorem takeWhile_length_le_of_stop (p : uint8_t → Bool) (a : uint8_t) (h : p a = false) :
    ∀ l1 rest : List uint8_t, ((l1 ++ a :: rest).takeWhile p).length ≤ l1.length := by
  intro l1
  induction l1 with
  | nil => intro rest; simp [List.takeWhile_cons, h]
  | cons b l ih =>
    intro rest
    rw [List.cons_append, List.takeWhile_cons]
    split
    · simp only [List.length_cons]
      exact Nat.succ_le_succ (ih rest)
    · simp

theorem first_dot_split_length (cn : List uint8_t) :
    (cn.takeWhile (fun c => decide (c ≠ 46))).length + (cn_from_first_dot cn).length =
      cn.length := by
  unfold cn_from_first_dot
  rw [← List.length_append, List.takeWhile_append_dropWhile]

/-- C34: wildcards cover exactly one leftmost label. If
`x509_wildcard_verify (cn, name)` returns `1` then `cn` is `L ++ S` where `L` is not empty
and holds no `.`, `S` begins with `.`, the name begins with `*`, and `S` equals
the name without its first byte up to ASCII case (same length, same bytes
after ASCII lower-casing). Consequently the name `"*." ++ d` matches neither a `cn`
with two or more labels in front of `d` (`l1 ++ "." ++ l2 ++ "." ++ d`) nor the
bare `cn` `d`. -/
theorem x509_wildcard_verify_one_label (cn : List uint8_t) (name : x509_buf)
    (l1 l2 d : List uint8_t) (tag : Int) :
    (x509_wildcard_verify cn name = 1 →
      ∃ L S, cn = L ++ S ∧ L ≠ [] ∧ (46 : uint8_t) ∉ L ∧ S.head? = some 46 ∧
        name.p.head? = some 42 ∧ S.length = (name.p.drop 1).length ∧
        S.map ascii_lower = (name.p.drop 1).map ascii_lower) ∧
    x509_wildcard_verify (l1 ++ [46] ++ l2 ++ [46] ++ d) ⟨tag, [42, 46] ++ d⟩ = 0 ∧
    x509_wildcard_verify d ⟨tag, [42, 46] ++ d⟩ = 0 := by
  refine ⟨?_, ?_, ?_⟩
  · intro h
    obtain ⟨hL, hS, hbeg, hlen, hcmp⟩ := wildcard_verify_one_split h
    have hdl : (name.p.drop 1).length = name.len - 1 := by
      rw [List.length_drop]; rfl
    refine ⟨cn.takeWhile (fun c => decide (c ≠ 46)), cn_from_first_dot cn, ?_, hL, ?_, hS, ?_,
      by rw [hlen, hdl], ?_⟩
    · unfold cn_from_first_dot
      exact (List.takeWhile_append_dropWhile _ _).symm
    · intro hm
      have := List.mem_takeWhile_imp hm
      simp at this
    · have e : name.p.head? = (name.p.take 2).head? := by
        cases name.p with
        | nil => rfl
        | cons a t => rfl
      rw [e, hbeg]; rfl
    · have hl := (name_cmp_lower (name.p.drop 1) (cn_from_first_dot cn) (name.len - 1)
        (by rw [hdl]) (by rw [hlen])).mp hcmp
      rw [← hdl, List.take_length] at hl
      rw [hdl, ← hlen, List.take_length] at hl
      exact hl.symm
  · rcases wildcard_verify_range (l1 ++ [46] ++ l2 ++ [46] ++ d) ⟨tag, [42, 46] ++ d⟩ with h | h
    · obtain ⟨_, _, _, hlen, _⟩ := wildcard_verify_one_split h
      have hs := first_dot_split_length (l1 ++ [46] ++ l2 ++ [46] ++ d)
      have hk : ((l1 ++ [46] ++ l2 ++ [46] ++ d).takeWhile
          (fun c => decide (c ≠ 46))).length ≤ l1.length := by
        have e : l1 ++ [46] ++ l2 ++ [46] ++ d = l1 ++ 46 :: (l2 ++ [46] ++ d) := by simp
        rw [e]
        exact takeWhile_length_le_of_stop _ 46 (by decide) l1 _
      simp only [x509_buf.len, List.length_append, List.length_cons, List.length_nil] at hlen hs
      omega
    · exact h
  · rcases wildcard_verify_range d ⟨tag, [42, 46] ++ d⟩ with h | h
    · obtain ⟨_, _, _, hlen, _⟩ := wildcard_verify_one_split h
      have hs := first_dot_split_length d
      simp only [x509_buf.len, List.length_append, List.length_cons, List.length_nil] at hlen
      omega
    · exact h

/-- C34, an instance: `www.example.com` matches `*.example.com`, with `L = "www"`;
`a.b.example.com` and `example.com` do not. -/
theorem x509_wildcard_verify_one_label_witness :
    (∃ L S, www_example_com = L ++ S ∧ L ≠ [] ∧ (46 : uint8_t) ∉ L ∧ S.head? = some 46 ∧
        (⟨0x82, star_example_com⟩ : x509_buf).p.head? = some 42 ∧
        S.length = ((⟨0x82, star_example_com⟩ : x509_buf).p.drop 1).length ∧
        S.map ascii_lower = ((⟨0x82, star_example_com⟩ : x509_buf).p.drop 1).map ascii_lower) ∧
    x509_wildcard_verify ([97] ++ [46] ++ [98] ++ [46] ++ example_com)
      ⟨0x82, [42, 46] ++ example_com⟩ = 0 ∧
    x509_wildcard_verify example_com ⟨0x82, [42, 46] ++ example_com⟩ = 0 :=
  ⟨(x509_wildcard_verify_one_label www_example_com ⟨0x82, star_example_com⟩
      [97] [98] example_com 0x82).1 (by decide),
    (x509_wildcard_verify_one_label www_example_com ⟨0x82, star_example_com⟩
      [97] [98] example_com 0x82).2.1,
    (x509_wildcard_verify_one_label www_example_com ⟨0x82, star_example_com⟩
      [97] [98] example_com 0x82).2.2⟩

/-! ### The validity of a CRL -/

/-- The loop of `x509_crt_verifycrl` only adds flags. -/
theorem verifycrl_loop_keeps (env : Env) (crt ca : x509_crt) (k : Nat) :
    ∀ (crls : List x509_crl) (flags : Nat), flags &&& k = k →
      x509_crt_verifycrl_loop env crt ca crls flags &&& k = k := by
  intro crls
  induction crls with
  | nil => intro flags h; exact h
  | cons crl rest ih =>
    intro flags h
    rw [x509_crt_verifycrl_loop]
    split
    · exact ih flags h
    · split
      · exact or_and_left_eq _ _ _ h
      · split
        · exact or_and_left_eq _ _ _ h
        · simp only []
          split
          · exact or_and_left_eq _ _ _ h
          · split
            · exact or_and_left_eq _ _ _ (ite_or_keeps _ _ _ _ (ite_or_keeps _ _ _ _ h))
            · exact ih _ (ite_or_keeps _ _ _ _ (ite_or_keeps _ _ _ _ h))

/-- The loop of `x509_crt_verifycrl` passes over the CRLs that are not of the CA. -/
theorem verifycrl_loop_skip (env : Env) (crt ca : x509_crt) (crls : List x509_crl) :
    ∀ (before : List x509_crl) (flags : Nat), (∀ c ∈ before, ¬ crl_of_ca c ca) →
      x509_crt_verifycrl_loop env crt ca (before ++ crls) flags =
        x509_crt_verifycrl_loop env crt ca crls flags := by
  intro before
  induction before with
  | nil => intro flags _; rfl
  | cons c rest ih =>
    intro flags h
    have hskip := (crl_skip_iff c ca).mpr (h c (List.mem_cons_self _ _))
    rw [List.cons_append, x509_crt_verifycrl_loop, if_pos hskip]
    exact ih flags (fun d hd => h d (List.mem_cons_of_mem _ hd))

/-- One turn of the loop of `x509_crt_verifycrl`, from no flags, on a CRL of the CA
that passes the cRLSign, digest and signature checks: the validity flags are
set, then the entries are examined. -/
theorem verifycrl_loop_checked (env : Env) (crt ca : x509_crt) (crl : x509_crl)
    (rest : List x509_crl)
    (hku : x509_crt_check_key_usage ca KU_CRL_SIGN = 0)
    (hcrl : crl_of_ca crl ca) (hsig : crl_sig_ok env crl ca) :
    x509_crt_verifycrl_loop env crt ca (crl :: rest) 0 =
      if x509_crt_revoked env crt crl ≠ 0 then crl_validity_flags env crl ||| BADCERT_REVOKED
      else x509_crt_verifycrl_loop env crt ca rest (crl_validity_flags env crl) := by
  obtain ⟨md_info, hmd, hcan, hver⟩ := hsig
  have hskip := (crl_skip_iff crl ca).not.mpr (not_not.mpr hcrl)
  have hpk : ¬ (env.pk_can_do ca.pk crl.sig_pk = 0 ∨
      env.pk_verify ca.pk crl.sig_md (env.md md_info crl.tbs.p) md_info.size crl.sig.p ≠ 0) := by
    rintro (h | h)
    · exact hcan h
    · exact h hver
  have hfl : (if env.x509_time_future crl.this_update ≠ 0 then
        (if env.x509_time_expired crl.next_update ≠ 0 then 0 ||| BADCRL_EXPIRED else 0) |||
          BADCRL_FUTURE
      else (if env.x509_time_expired crl.next_update ≠ 0 then 0 ||| BADCRL_EXPIRED else 0)) =
      crl_validity_flags env crl := by
    unfold crl_validity_flags
    by_cases he : env.x509_time_expired crl.next_update ≠ 0
    · by_cases hf : env.x509_time_future crl.this_update ≠ 0
      · simp only [if_pos he, if_pos hf, Nat.zero_or]
      · simp only [if_pos he, if_neg hf, Nat.zero_or, Nat.or_zero]
    · by_cases hf : env.x509_time_future crl.this_update ≠ 0
      · simp only [if_neg he, if_pos hf]
      · simp only [if_neg he, if_neg hf, Nat.or_zero]
  rw [x509_crt_verifycrl_loop, if_neg hskip, if_neg (not_not.mpr hku), hmd]
  simp only [hpk, if_false]
  rw [hfl]

/-- C31, as amended: CRL validity flags do not halt the CRL check. When the first
CRL of `crl_list` that matches `ca` (`version != 0`, `issuer_raw` equal to
`ca.subject_raw`) passes the cRLSign, digest and signature checks,
`x509_crt_verifycrl` sets `BADCRL_EXPIRED` when the `next_update` of that CRL is in the
past and `BADCRL_FUTURE` when its `this_update` is in the future, and still examines
its entries with `x509_crt_revoked`: the flags returned are the validity flags with
`BADCERT_REVOKED` when `x509_crt_revoked` finds the certificate, and otherwise what the
rest of the list adds to the validity flags. So a CRL that is expired and
has, before any entry with an empty serial, an entry with the serial of `crt`
and a revocation date in the past yields both `BADCRL_EXPIRED` and
`BADCERT_REVOKED`. -/
theorem x509_crt_verifycrl_validity_flags (env : Env) (crt ca : x509_crt)
    (before after : List x509_crl) (crl : x509_crl)
    (hbefore : ∀ c ∈ before, ¬ crl_of_ca c ca)
    (hcrl : crl_of_ca crl ca)
    (hku : ca.ext_types &&& EXT_KEY_USAGE = 0 ∨ ca.key_usage &&& KU_CRL_SIGN = KU_CRL_SIGN)
    (hsig : crl_sig_ok env crl ca) :
    (env.x509_time_expired crl.next_update ≠ 0 →
      x509_crt_verifycrl env crt (some ca) (before ++ crl :: after) &&& BADCRL_EXPIRED =
        BADCRL_EXPIRED) ∧
    (env.x509_time_future crl.this_update ≠ 0 →
      x509_crt_verifycrl env crt (some ca) (before ++ crl :: after) &&& BADCRL_FUTURE =
        BADCRL_FUTURE) ∧
    x509_crt_verifycrl env crt (some ca) (before ++ crl :: after) =
      (if x509_crt_revoked env crt crl ≠ 0 then crl_validity_flags env crl ||| BADCERT_REVOKED
        else x509_crt_verifycrl_loop env crt ca after (crl_validity_flags env crl)) ∧
    ((∃ e ∈ crl_entries crl, entry_revokes env crt e) →
      x509_crt_verifycrl env crt (some ca) (before ++ crl :: after) =
        crl_validity_flags env crl ||| BADCERT_REVOKED) ∧
    (env.x509_time_expired crl.next_update ≠ 0 →
      (∃ e ∈ crl_entries crl, entry_revokes env crt e) →
      x509_crt_verifycrl env crt (some ca) (before ++ crl :: after) &&& BADCRL_EXPIRED =
          BADCRL_EXPIRED ∧
        x509_crt_verifycrl env crt (some ca) (before ++ crl :: after) &&& BADCERT_REVOKED =
          BADCERT_REVOKED) := by
  have hku' := (check_key_usage_iff ca KU_CRL_SIGN).mpr hku
  have hres : x509_crt_verifycrl env crt (some ca) (before ++ crl :: after) =
      (if x509_crt_revoked env crt crl ≠ 0 then crl_validity_flags env crl ||| BADCERT_REVOKED
        else x509_crt_verifycrl_loop env crt ca after (crl_validity_flags env crl)) := by
    show x509_crt_verifycrl_loop env crt ca (before ++ crl :: after) 0 = _
    rw [verifycrl_loop_skip env crt ca (crl :: after) before 0 hbefore,
      verifycrl_loop_checked env crt ca crl after hku' hcrl hsig]
  have hexp : env.x509_time_expired crl.next_update ≠ 0 →
      crl_validity_flags env crl &&& BADCRL_EXPIRED = BADCRL_EXPIRED := by
    intro he
    unfold crl_validity_flags
    rw [if_pos he]
    by_cases hf : env.x509_time_future crl.this_update ≠ 0
    · rw [if_pos hf]; decide
    · rw [if_neg hf]; decide
  have hfut : env.x509_time_future crl.this_update ≠ 0 →
      crl_validity_flags env crl &&& BADCRL_FUTURE = BADCRL_FUTURE := by
    intro hf
    unfold crl_validity_flags
    rw [if_pos hf]
    exact or_and_self_eq _ _
  have hkeep : ∀ k, crl_validity_flags env crl &&& k = k →
      x509_crt_verifycrl env crt (some ca) (before ++ crl :: after) &&& k = k := by
    intro k hk
    rw [hres]
    split
    · exact or_and_left_eq _ _ _ hk
    · exact verifycrl_loop_keeps env crt ca k after _ hk
  have hrev : (∃ e ∈ crl_entries crl, entry_revokes env crt e) →
      x509_crt_verifycrl env crt (some ca) (before ++ crl :: after) =
        crl_validity_flags env crl ||| BADCERT_REVOKED := by
    intro hr
    have h1 : x509_crt_revoked env crt crl = 1 :=
      (revoked_loop_iff env crt (crl.entry :: crl.entry_next)).1.mpr hr
    have hne : x509_crt_revoked env crt crl ≠ 0 := by rw [h1]; decide
    rw [hres, if_pos hne]
  refine ⟨fun he => hkeep _ (hexp he), fun hf => hkeep _ (hfut hf), hres, hrev, ?_⟩
  intro he hr
  refine ⟨hkeep _ (hexp he), ?_⟩
  rw [hrev hr]
  exact or_and_self_eq _ _

/-- C31, an instance: the expired example CRL, behind a CRL of another issuer,
lists the serial `05`; the flags are `BADCRL_EXPIRED` and `BADCERT_REVOKED`. -/
theorem x509_crt_verifycrl_validity_flags_witness :
    x509_crt_verifycrl demo_env demo_leaf_05 (some demo_ca)
        ([demo_crl_other] ++ demo_crl_expired :: []) =
      crl_validity_flags demo_env demo_crl_expired ||| BADCERT_REVOKED ∧
    crl_validity_flags demo_env demo_crl_expired ||| BADCERT_REVOKED =
      BADCRL_EXPIRED ||| BADCERT_REVOKED :=
  ⟨(x509_crt_verifycrl_validity_flags demo_env demo_leaf_05 demo_ca [demo_crl_other] []
      demo_crl_expired (by decide) (by decide) (by decide)
      ⟨⟨1, 4⟩, rfl, by decide, by decide⟩).2.2.2.1 ⟨demo_entry_05, by decide, by decide⟩,
    by decide⟩

/-- C31, counterexample: the expired example CRL of `demo_ca` passes the cRLSign,
digest and signature checks and lists the serial `05` with a revocation date in
the past, after an entry with an empty serial. For the certificate with the
serial `05`, `x509_crt_verifycrl` returns `BADCRL_EXPIRED` alone: the walk of
`x509_crt_revoked` stops at the empty serial. -/
theorem x509_crt_verifycrl_expired_gap_not_revoked :
    crl_of_ca demo_crl_gap_expired demo_ca ∧
    x509_crt_check_key_usage demo_ca KU_CRL_SIGN = 0 ∧
    demo_env.md_info_from_type demo_crl_gap_expired.sig_md = some ⟨1, 4⟩ ∧
    demo_env.pk_can_do demo_ca.pk demo_crl_gap_expired.sig_pk ≠ 0 ∧
    demo_env.pk_verify demo_ca.pk demo_crl_gap_expired.sig_md
      (demo_env.md ⟨1, 4⟩ demo_crl_gap_expired.tbs.p) 4 demo_crl_gap_expired.sig.p = 0 ∧
    demo_env.x509_time_expired demo_crl_gap_expired.next_update ≠ 0 ∧
    demo_entry_05 ∈ demo_crl_gap_expired.entry :: demo_crl_gap_expired.entry_next ∧
    entry_revokes demo_env demo_leaf_05 demo_entry_05 ∧
    x509_crt_verifycrl demo_env demo_leaf_05 (some demo_ca) [demo_crl_gap_expired] =
      BADCRL_EXPIRED ∧
    x509_crt_verifycrl demo_env demo_leaf_05 (some demo_ca) [demo_crl_gap_expired] &&&
      BADCERT_REVOKED ≠ BADCERT_REVOKED := by
  decide

/-! ### The compare length of the subject tests -/

/-- After `x509_crt_check_parent` has accepted the candidate, the subject test of
`x509_crt_verify_top` gives the same answer over `child.subject_raw.len` bytes as
over `child.issuer_raw.len` bytes: when the lengths of the two subjects agree,
both are the length of the issuer of the child. -/
theorem subject_test_len (child ca : x509_crt) (top bottom : Int)
    (h : x509_crt_check_parent child ca top bottom = 0) :
    (child.subject_raw.len = ca.subject_raw.len ∧
      memcmp child.subject_raw.p ca.subject_raw.p child.subject_raw.len = 0) ↔
    (child.subject_raw.len = ca.subject_raw.len ∧
      memcmp child.subject_raw.p ca.subject_raw.p child.issuer_raw.len = 0) := by
  have hi : child.issuer_raw.len = ca.subject_raw.len := by
    have := ((check_parent_zero_iff child ca top bottom).mp h).1
    unfold x509_buf.len
    rw [this]
  constructor
  · rintro ⟨h1, h2⟩
    refine ⟨h1, ?_⟩
    rw [hi, ← h1]
    exact h2
  · rintro ⟨h1, h2⟩
    refine ⟨h1, ?_⟩
    rw [h1, ← hi]
    exact h2

theorem verify_top_loop_subject_len_eq (env : Env) (child : x509_crt) (path_cnt : Int)
    (hash : List uint8_t) (md_size : Nat) :
    ∀ (trust_ca : List x509_crt) (check_path_cnt : Int),
      x509_crt_verify_top_loop_subject_len env child path_cnt hash md_size trust_ca
          check_path_cnt =
        x509_crt_verify_top_loop env child path_cnt hash md_size trust_ca check_path_cnt := by
  intro trust_ca
  induction trust_ca with
  | nil => intro _; rfl
  | cons t rest ih =>
    intro cpc
    by_cases hcp : x509_crt_check_parent child t 1 (c_bool (path_cnt = 0)) ≠ 0
    · rw [x509_crt_verify_top_loop_subject_len, x509_crt_verify_top_loop, if_pos hcp, if_pos hcp]
      exact ih cpc
    · have hc := propext (subject_test_len child t 1 (c_bool (path_cnt = 0)) (not_not.mp hcp))
      rw [x509_crt_verify_top_loop_subject_len, x509_crt_verify_top_loop, if_neg hcp, if_neg hcp]
      simp only [hc, ih]

theorem verify_top_find_subject_len_eq (env : Env) (child : x509_crt)
    (trust_ca : List x509_crt) (path_cnt : Int) :
    x509_crt_verify_top_find_subject_len env child trust_ca path_cnt =
      x509_crt_verify_top_find env child trust_ca path_cnt := by
  unfold x509_crt_verify_top_find_subject_len x509_crt_verify_top_find
  cases env.md_info_from_type child.sig_md with
  | none => rfl
  | some md_info => exact verify_top_loop_subject_len_eq env child path_cnt _ _ trust_ca _

/-- The variant of `x509_crt_verify_top` that compares the subjects over
`child.subject_raw.len` bytes is the function as written. -/
theorem verify_top_subject_len_eq {σ : Type} (env : Env) (child : x509_crt)
    (trust_ca : List x509_crt) (ca_crl : List x509_crl) (path_cnt : Int) (flags : Nat)
    (f_vrfy : Option (vrfy_cb σ)) (p_vrfy : σ) :
    x509_crt_verify_top_subject_len env child trust_ca ca_crl path_cnt flags f_vrfy p_vrfy =
      x509_crt_verify_top env child trust_ca ca_crl path_cnt flags f_vrfy p_vrfy := by
  unfold x509_crt_verify_top_subject_len x509_crt_verify_top
  rw [verify_top_find_subject_len_eq]
  cases hfind : x509_crt_verify_top_find env child trust_ca path_cnt with
  | none => rfl
  | some ca =>
    have hcp := (verify_top_find_some hfind).2.1
    have hc := subject_test_len child ca 1 (c_bool (path_cnt = 0)) hcp
    have hn : (child.subject_raw.len ≠ ca.subject_raw.len ∨
        memcmp child.subject_raw.p ca.subject_raw.p child.subject_raw.len ≠ 0) =
        (child.subject_raw.len ≠ ca.subject_raw.len ∨
          memcmp child.subject_raw.p ca.subject_raw.p child.issuer_raw.len ≠ 0) := by
      apply propext
      rw [← not_and_or, ← not_and_or]
      exact not_congr hc
    simp only [hn]

/-- C32, as amended: the outputs of `x509_crt_verify_top` do not depend on the compare
length of its two subject-equality tests. For every child, trusted list, CRL
list, `path_cnt`, flags at entry, callback and user context, the variant that
compares `child.subject_raw` with `trust_ca.subject_raw` over `child.subject_raw.len` bytes
gives the return value, the flags, the user context and the callback
invocations of the code as written. -/
theorem x509_crt_verify_top_subject_len_same {σ : Type} (env : Env) (child : x509_crt)
    (trust_ca : List x509_crt) (ca_crl : List x509_crl) (path_cnt : Int) (flags : Nat)
    (f_vrfy : Option (vrfy_cb σ)) (p_vrfy : σ) :
    x509_crt_verify_top_subject_len env child trust_ca ca_crl path_cnt flags f_vrfy p_vrfy =
      x509_crt_verify_top env child trust_ca ca_crl path_cnt flags f_vrfy p_vrfy :=
  verify_top_subject_len_eq env child trust_ca ca_crl path_cnt flags f_vrfy p_vrfy

/-- C32, counterexample to the dependence: no input tells the variant from the
code. In particular on a child whose `subject_raw.len` (2) differs from its
`issuer_raw.len` (1), at the top of a path and issued by the trusted `demo_root`, both
give the same return value, flags and callback invocations: the trusted root
is reported at depth 2, then the child at depth 1. -/
theorem x509_crt_verify_top_subject_len_no_difference :
    (¬ ∃ (σ : Type) (env : Env) (child : x509_crt) (trust_ca : List x509_crt)
        (ca_crl : List x509_crl) (path_cnt : Int) (flags : Nat) (f_vrfy : Option (vrfy_cb σ))
        (p_vrfy : σ),
      x509_crt_verify_top_subject_len env child trust_ca ca_crl path_cnt flags f_vrfy p_vrfy ≠
        x509_crt_verify_top env child trust_ca ca_crl path_cnt flags f_vrfy p_vrfy) ∧
    demo_ca_long_subject.subject_raw.len ≠ demo_ca_long_subject.issuer_raw.len ∧
    (x509_crt_verify_top demo_env demo_ca_long_subject [demo_root] [] 1 0
      (some demo_cb) 0).ret = 0 ∧
    (x509_crt_verify_top_subject_len demo_env demo_ca_long_subject [demo_root] [] 1 0
      (some demo_cb) 0).ret = 0 ∧
    (x509_crt_verify_top demo_env demo_ca_long_subject [demo_root] [] 1 0
      (some demo_cb) 0).flags = 0 ∧
    (x509_crt_verify_top_subject_len demo_env demo_ca_long_subject [demo_root] [] 1 0
      (some demo_cb) 0).flags = 0 ∧
    (x509_crt_verify_top demo_env demo_ca_long_subject [demo_root] [] 1 0
      (some demo_cb) 0).calls = [⟨demo_root, 2, 0, 0⟩, ⟨demo_ca_long_subject, 1, 0, 0⟩] ∧
    (x509_crt_verify_top_subject_len demo_env demo_ca_long_subject [demo_root] [] 1 0
      (some demo_cb) 0).calls = [⟨demo_root, 2, 0, 0⟩, ⟨demo_ca_long_subject, 1, 0, 0⟩] := by
  refine ⟨?_, by decide, by decide, by decide, by decide, by decide, by decide, by decide⟩
  rintro ⟨σ, env, child, trust_ca, ca_crl, path_cnt, flags, f_vrfy, p_vrfy, h⟩
  exact h (verify_top_subject_len_eq env child trust_ca ca_crl path_cnt flags f_vrfy p_vrfy)

/-! ### The depth of the recursion -/

theorem call_vrfy_depth {σ : Type} (f_vrfy : Option (vrfy_cb σ)) (p_vrfy : σ) (crt : x509_crt)
    (depth : Int) (flags : Nat) :
    ∀ c ∈ (call_vrfy f_vrfy p_vrfy crt depth flags).calls, c.depth = depth := by
  intro c hc
  cases f_vrfy with
  | none => simp [call_vrfy] at hc
  | some f =>
    simp only [call_vrfy, List.mem_singleton] at hc
    rw [hc]

theorem verify_top_finish_depth {σ : Type} (f_vrfy : Option (vrfy_cb σ)) (child : x509_crt)
    (path_cnt : Int) (flags ca_flags : Nat) (p_vrfy : σ) (calls : List cb_call) :
    ∀ c ∈ (x509_crt_verify_top_finish f_vrfy child path_cnt flags ca_flags p_vrfy calls).calls,
      c ∈ calls ∨ c.depth = path_cnt := by
  intro c hc
  unfold x509_crt_verify_top_finish at hc
  simp only [] at hc
  split at hc <;>
  · simp only [List.mem_append] at hc
    rcases hc with h | h
    · exact Or.inl h
    · exact Or.inr (call_vrfy_depth _ _ _ _ _ c h)

/-- Every invocation made by `x509_crt_verify_top` has the depth `path_cnt` or
`path_cnt + 1`. -/
theorem verify_top_depth {σ : Type} (env : Env) (child : x509_crt)
    (trust_ca : List x509_crt) (ca_crl : List x509_crl) (path_cnt : Int) (flags : Nat)
    (f_vrfy : Option (vrfy_cb σ)) (p_vrfy : σ) :
    ∀ c ∈ (x509_crt_verify_top env child trust_ca ca_crl path_cnt flags f_vrfy p_vrfy).calls,
      c.depth = path_cnt ∨ c.depth = path_cnt + 1 := by
  intro c hc
  unfold x509_crt_verify_top at hc
  simp only [] at hc
  split at hc
  · rcases verify_top_finish_depth _ _ _ _ _ _ _ c hc with h | h
    · exact absurd h (List.not_mem_nil _)
    · exact Or.inl h
  · rename_i ca _
    by_cases hsub : child.subject_raw.len ≠ ca.subject_raw.len ∨
        memcmp child.subject_raw.p ca.subject_raw.p child.issuer_raw.len ≠ 0
    · rw [if_pos hsub] at hc
      generalize (if env.x509_time_future ca.valid_from ≠ 0 then _ else _ : Nat) = cf at hc
      generalize clear_flags _ _ ||| x509_crt_verifycrl env child (some ca) ca_crl = fl at hc
      by_cases hr : (call_vrfy f_vrfy p_vrfy ca (path_cnt + 1) cf).ret = 0
      · rw [if_neg (not_not.mpr hr)] at hc
        rcases verify_top_finish_depth _ _ _ _ _ _ _ c hc with h | h
        · exact Or.inr (call_vrfy_depth _ _ _ _ _ c h)
        · exact Or.inl h
      · rw [if_pos hr] at hc
        exact Or.inr (call_vrfy_depth _ _ _ _ _ c hc)
    · rw [if_neg hsub] at hc
      rcases verify_top_finish_depth _ _ _ _ _ _ _ c hc with h | h
      · exact absurd h (List.not_mem_nil _)
      · exact Or.inl h

theorem verify_child_finish_depth {σ : Type} (f_vrfy : Option (vrfy_cb σ)) (child : x509_crt)
    (path_cnt : Int) (flags : Nat) (up : verify_result σ) :
    ∀ c ∈ (x509_crt_verify_child_finish f_vrfy child path_cnt flags up).calls,
      c ∈ up.calls ∨ c.depth = path_cnt := by
  intro c hc
  unfold x509_crt_verify_child_finish at hc
  split at hc
  · exact Or.inl hc
  · simp only [] at hc
    split at hc <;>
    · simp only [List.mem_append] at hc
      rcases hc with h | h
      · exact Or.inl h
      · exact Or.inr (call_vrfy_depth _ _ _ _ _ c h)

/-- Every invocation that follows from a call of `x509_crt_verify_child` has a depth
between its `path_cnt` and `path_cnt` plus the number of certificates after the
parent plus two. -/
theorem verify_child_walk_depth {σ : Type} (env : Env) (trust_ca : List x509_crt)
    (ca_crl : List x509_crl) (f_vrfy : Option (vrfy_cb σ)) (cands : List x509_crt) :
    ∀ (child parent : x509_crt) (path_cnt : Int) (flags : Nat) (p_vrfy : σ),
      ∀ c ∈ (x509_crt_verify_child_walk env trust_ca ca_crl f_vrfy child parent cands
        path_cnt flags p_vrfy).calls,
        path_cnt ≤ c.depth ∧ c.depth ≤ path_cnt + cands.length + 2 := by
  induction cands with
  | nil =>
    intro child parent path_cnt flags p_vrfy c hc
    simp only [x509_crt_verify_child_walk] at hc
    simp only [List.length_nil, Nat.cast_zero]
    rcases verify_child_finish_depth _ _ _ _ _ c hc with h | h
    · rcases verify_top_depth _ _ _ _ _ _ _ _ c h with h' | h' <;> omega
    · omega
  | cons g rest ih =>
    intro child parent path_cnt flags p_vrfy c hc
    simp only [x509_crt_verify_child_walk] at hc
    simp only [List.length_cons, Nat.cast_succ]
    split at hc
    · rcases verify_child_finish_depth _ _ _ _ _ c hc with h | h
      · have := ih parent g (path_cnt + 1) _ p_vrfy c h
        omega
      · omega
    · have := ih child parent path_cnt flags p_vrfy c hc
      omega

/-- Every `path_cnt` that follows from a call of `x509_crt_verify_child` lies between
its `path_cnt` and `path_cnt` plus the number of certificates after the parent
plus one. -/
theorem verify_child_path_cnts_bound (cands : List x509_crt) :
    ∀ (parent : x509_crt) (path_cnt : Int),
      ∀ n ∈ x509_crt_verify_child_path_cnts parent cands path_cnt,
        path_cnt ≤ n ∧ n ≤ path_cnt + cands.length + 1 := by
  induction cands with
  | nil =>
    intro parent path_cnt n hn
    simp only [x509_crt_verify_child_path_cnts, List.mem_cons, List.mem_singleton,
      List.not_mem_nil, or_false] at hn
    simp only [List.length_nil, Nat.cast_zero]
    rcases hn with h | h <;> omega
  | cons g rest ih =>
    intro parent path_cnt n hn
    simp only [x509_crt_verify_child_path_cnts] at hn
    simp only [List.length_cons, Nat.cast_succ]
    split at hn
    · simp only [List.mem_cons] at hn
      rcases hn with h | h
      · omega
      · have := ih g (path_cnt + 1) n h
        omega
    · have := ih parent path_cnt n hn
      omega

/-- The parent that `find_parent` returns and the chain behind it are the end of
the chain searched: the parent stands at a position of that chain and the
chain behind it is strictly shorter. -/
theorem find_parent_suffix {child : x509_crt} {bottom : Int} :
    ∀ {chain : List x509_crt} {parent : x509_crt} {next : List x509_crt},
      find_parent child bottom chain = some (parent, next) →
      ∃ pre, chain = pre ++ parent :: next := by
  intro chain
  induction chain with
  | nil => intro parent next h; simp [find_parent] at h
  | cons c cs ih =>
    intro parent next h
    unfold find_parent at h
    split at h
    · simp only [Option.some.injEq, Prod.mk.injEq] at h
      exact ⟨[], by rw [h.1, h.2]; rfl⟩
    · obtain ⟨pre, e⟩ := ih h
      exact ⟨c :: pre, by rw [e]; rfl⟩

theorem verify_top_finish_zero {σ : Type} (f : vrfy_cb σ)
    (hf : ∀ p c d fl, (f p c d fl).1 = 0) (child : x509_crt) (path_cnt : Int)
    (flags ca_flags : Nat) (p_vrfy : σ) (calls : List cb_call) :
    (x509_crt_verify_top_finish (some f) child path_cnt flags ca_flags p_vrfy calls).ret = 0 ∧
    (x509_crt_verify_top_finish (some f) child path_cnt flags ca_flags p_vrfy calls).calls.map
        (fun c => c.depth) = calls.map (fun c => c.depth) ++ [path_cnt] := by
  unfold x509_crt_verify_top_finish
  simp only [call_vrfy, hf, ne_eq, not_true_eq_false, if_false, List.map_append, List.map_cons,
    List.map_nil, and_self]

/-- With a callback that always returns `0`, `x509_crt_verify_top` returns `0` and its
invocations have the depth `path_cnt`, after at most one at `path_cnt + 1`. -/
theorem verify_top_zero {σ : Type} (env : Env) (child : x509_crt)
    (trust_ca : List x509_crt) (ca_crl : List x509_crl) (path_cnt : Int) (flags : Nat)
    (f : vrfy_cb σ) (hf : ∀ p c d fl, (f p c d fl).1 = 0) (p_vrfy : σ) :
    (x509_crt_verify_top env child trust_ca ca_crl path_cnt flags (some f) p_vrfy).ret = 0 ∧
    ∃ pre, (x509_crt_verify_top env child trust_ca ca_crl path_cnt flags (some f)
        p_vrfy).calls.map (fun c => c.depth) = pre ++ [path_cnt] ∧ pre.length ≤ 1 := by
  unfold x509_crt_verify_top
  simp only []
  split
  · refine ⟨(verify_top_finish_zero f hf _ _ _ _ _ _).1, [], ?_, by simp⟩
    rw [(verify_top_finish_zero f hf _ _ _ _ _ _).2]
    rfl
  · rename_i ca _
    by_cases hsub : child.subject_raw.len ≠ ca.subject_raw.len ∨
        memcmp child.subject_raw.p ca.subject_raw.p child.issuer_raw.len ≠ 0
    · rw [if_pos hsub]
      generalize (if env.x509_time_future ca.valid_from ≠ 0 then _ else _ : Nat) = cf
      generalize clear_flags _ _ ||| x509_crt_verifycrl env child (some ca) ca_crl = fl
      have hr : (call_vrfy (some f) p_vrfy ca (path_cnt + 1) cf).ret = 0 := hf _ _ _ _
      rw [if_neg (not_not.mpr hr)]
      refine ⟨(verify_top_finish_zero f hf _ _ _ _ _ _).1, [path_cnt + 1], ?_, by simp⟩
      rw [(verify_top_finish_zero f hf _ _ _ _ _ _).2]
      rfl
    · rw [if_neg hsub]
      refine ⟨(verify_top_finish_zero f hf _ _ _ _ _ _).1, [], ?_, by simp⟩
      rw [(verify_top_finish_zero f hf _ _ _ _ _ _).2]
      rfl

theorem verify_child_finish_zero {σ : Type} (f : vrfy_cb σ)
    (hf : ∀ p c d fl, (f p c d fl).1 = 0) (child : x509_crt) (path_cnt : Int) (flags : Nat)
    (up : verify_result σ) (hup : up.ret = 0) :
    (x509_crt_verify_child_finish (some f) child path_cnt flags up).ret = 0 ∧
    (x509_crt_verify_child_finish (some f) child path_cnt flags up).calls.map
        (fun c => c.depth) = up.calls.map (fun c => c.depth) ++ [path_cnt] := by
  unfold x509_crt_verify_child_finish
  simp only [hup, call_vrfy, hf, ne_eq, not_true_eq_false, if_false, List.map_append,
    List.map_cons, List.map_nil, and_self]

/-- With a callback that always returns `0`, the invocations that follow from a
call of `x509_crt_verify_child` have as depths the values of `path_cnt` of the calls,
last call first, after at most one invocation more (on the trusted
certificate). -/
theorem verify_child_walk_zero {σ : Type} (env : Env) (trust_ca : List x509_crt)
    (ca_crl : List x509_crl) (f : vrfy_cb σ) (hf : ∀ p c d fl, (f p c d fl).1 = 0)
    (cands : List x509_crt) :
    ∀ (child parent : x509_crt) (path_cnt : Int) (flags : Nat) (p_vrfy : σ),
      (x509_crt_verify_child_walk env trust_ca ca_crl (some f) child parent cands
        path_cnt flags p_vrfy).ret = 0 ∧
      ∃ pre, (x509_crt_verify_child_walk env trust_ca ca_crl (some f) child parent cands
          path_cnt flags p_vrfy).calls.map (fun c => c.depth) =
          pre ++ (x509_crt_verify_child_path_cnts parent cands path_cnt).reverse ∧
        pre.length ≤ 1 := by
  induction cands with
  | nil =>
    intro child parent path_cnt flags p_vrfy
    simp only [x509_crt_verify_child_walk, x509_crt_verify_child_path_cnts]
    obtain ⟨h0, pre, hd, hl⟩ := verify_top_zero env parent trust_ca ca_crl (path_cnt + 1) 0 f hf
      p_vrfy
    refine ⟨(verify_child_finish_zero f hf child path_cnt flags _ h0).1, pre, ?_, hl⟩
    rw [(verify_child_finish_zero f hf child path_cnt flags _ h0).2, hd]
    simp
  | cons g rest ih =>
    intro child parent path_cnt flags p_vrfy
    simp only [x509_crt_verify_child_walk, x509_crt_verify_child_path_cnts]
    split
    · obtain ⟨h0, pre, hd, hl⟩ := ih parent g (path_cnt + 1)
        (x509_crt_verify_child_checks env parent g ca_crl 0) p_vrfy
      refine ⟨(verify_child_finish_zero f hf child path_cnt flags _ h0).1, pre, ?_, hl⟩
      rw [(verify_child_finish_zero f hf child path_cnt flags _ h0).2, hd]
      simp
    · exact ih child parent path_cnt flags p_vrfy

/-- C33: bounded recursion. `x509_crt_verify` is a total function of the chain, given
as the list of its `L = crt_next.length + 1` nodes, and of the trusted list: its
embedding recurses on the chain behind the parent. The parent of every call
of `x509_crt_verify_child` is found by `find_parent` in the chain behind the previous
parent, at a strictly later position; the `path_cnt` of every call of
`x509_crt_verify_child` and `x509_crt_verify_top` is between `0` and `L - 1`; every depth
passed to `f_vrfy` is between `0` and `L`; and with a callback that always returns
`0` the depths of the invocations are the values of `path_cnt` of the calls, last
call first, after at most one invocation more. -/
theorem x509_crt_verify_bounded_recursion {σ : Type} (env : Env) (crt : x509_crt)
    (crt_next trust_ca : List x509_crt) (ca_crl : List x509_crl) (cn : Option (List uint8_t))
    (f_vrfy : Option (vrfy_cb σ)) (p_vrfy : σ) :
    (∀ (child : x509_crt) (bottom : Int) (chain : List x509_crt) (parent : x509_crt)
        (next : List x509_crt), find_parent child bottom chain = some (parent, next) →
      ∃ pre, chain = pre ++ parent :: next) ∧
    (∀ (child parent : x509_crt) (parent_next : List x509_crt) (path_cnt : Int) (flags : Nat)
        (p : σ),
      x509_crt_verify_child env child parent parent_next trust_ca ca_crl path_cnt flags
          f_vrfy p =
        x509_crt_verify_child_finish f_vrfy child path_cnt
          (x509_crt_verify_child_checks env child parent ca_crl flags)
          (match find_parent parent (c_bool (path_cnt = 0)) parent_next with
           | some (grandparent, grandparent_next) =>
             x509_crt_verify_child env parent grandparent grandparent_next trust_ca ca_crl
               (path_cnt + 1) 0 f_vrfy p
           | none =>
             x509_crt_verify_top env parent trust_ca ca_crl (path_cnt + 1) 0 f_vrfy p)) ∧
    (∀ n ∈ x509_crt_verify_path_cnts crt crt_next,
      0 ≤ n ∧ n ≤ ((crt_next.length + 1 : Nat) : Int) - 1) ∧
    (∀ c ∈ (x509_crt_verify env crt crt_next trust_ca ca_crl cn f_vrfy p_vrfy).calls,
      0 ≤ c.depth ∧ c.depth ≤ ((crt_next.length + 1 : Nat) : Int)) ∧
    (∀ f, f_vrfy = some f → (∀ p c d fl, (f p c d fl).1 = 0) →
      ∃ pre, (x509_crt_verify env crt crt_next trust_ca ca_crl cn f_vrfy p_vrfy).calls.map
          (fun c => c.depth) = pre ++ (x509_crt_verify_path_cnts crt crt_next).reverse ∧
        pre.length ≤ 1) := by
  have hcalls := (verify_fields env crt crt_next trust_ca ca_crl cn f_vrfy p_vrfy).1
  simp only [] at hcalls
  refine ⟨fun _ _ _ _ _ h => find_parent_suffix h,
    fun child parent parent_next path_cnt flags p =>
      x509_crt_verify_child_unfold env child parent parent_next trust_ca ca_crl path_cnt flags
        f_vrfy p, ?_, ?_, ?_⟩
  · intro n hn
    unfold x509_crt_verify_path_cnts at hn
    cases hfp : find_parent crt (c_bool ((0 : Int) = 0)) crt_next with
    | none =>
      rw [hfp] at hn
      simp only [List.mem_singleton] at hn
      push_cast
      omega
    | some pn =>
      obtain ⟨parent, parent_next⟩ := pn
      rw [hfp] at hn
      have hb := verify_child_path_cnts_bound parent_next parent 0 n hn
      have hl := (find_parent_some hfp).2.2
      push_cast
      omega
  · intro c hc
    rw [hcalls, verify_chain_eq] at hc
    cases hfp : find_parent crt 1 crt_next with
    | none =>
      rw [hfp] at hc
      simp only [] at hc
      push_cast
      rcases verify_top_depth _ _ _ _ _ _ _ _ c hc with h | h <;> omega
    | some pn =>
      obtain ⟨parent, parent_next⟩ := pn
      rw [hfp] at hc
      simp only [] at hc
      have hb := verify_child_walk_depth env trust_ca ca_crl f_vrfy parent_next crt parent 0 _
        p_vrfy c hc
      have hl := (find_parent_some hfp).2.2
      push_cast
      omega
  · intro f hfv hf
    subst hfv
    rw [hcalls, verify_chain_eq]
    unfold x509_crt_verify_path_cnts
    have e1 : c_bool ((0 : Int) = 0) = 1 := rfl
    rw [e1]
    cases hfp : find_parent crt 1 crt_next with
    | none =>
      simp only []
      obtain ⟨_, pre, hd, hl⟩ := verify_top_zero env crt trust_ca ca_crl 0
        (x509_crt_verify_cn crt cn) f hf p_vrfy
      exact ⟨pre, by rw [hd]; rfl, hl⟩
    | some pn =>
      obtain ⟨parent, parent_next⟩ := pn
      simp only []
      exact (verify_child_walk_zero env trust_ca ca_crl f hf parent_next crt parent 0 _
        p_vrfy).2

/-- C33, an instance: on the chain of the example leaf and its CA (`L = 2`) with
the trusted example root, the calls have `path_cnt` 0 and 1, and the callback is
invoked at the depths 2, 1 and 0. -/
theorem x509_crt_verify_bounded_recursion_witness :
    x509_crt_verify_path_cnts demo_leaf [demo_ca] = [0, 1] ∧
    (x509_crt_verify demo_env demo_leaf [demo_ca] [demo_root] [] none (some demo_cb)
      0).calls.map (fun c => c.depth) = [2, 1, 0] ∧
    (∀ n ∈ x509_crt_verify_path_cnts demo_leaf [demo_ca],
      0 ≤ n ∧ n ≤ ((([demo_ca] : List x509_crt).length + 1 : Nat) : Int) - 1) ∧
    (∀ c ∈ (x509_crt_verify demo_env demo_leaf [demo_ca] [demo_root] [] none (some demo_cb)
      0).calls, 0 ≤ c.depth ∧ c.depth ≤ ((([demo_ca] : List x509_crt).length + 1 : Nat) : Int)) :=
  ⟨by decide, by decide,
    (x509_crt_verify_bounded_recursion demo_env demo_leaf [demo_ca] [demo_root] [] none
      (some demo_cb) 0).2.2.1,
    (x509_crt_verify_bounded_recursion demo_env demo_leaf [demo_ca] [demo_root] [] none
      (some demo_cb) 0).2.2.2.1⟩

/-! ### The path-length constraint of the chain certificates -/

theorem check_parent_erase (c p : x509_crt) (top bottom : Int) :
    x509_crt_check_parent (erase_max_pathlen c) (erase_max_pathlen p) top bottom =
      x509_crt_check_parent c p top bottom := rfl

theorem find_parent_erase (c : x509_crt) (bottom : Int) :
    ∀ chain : List x509_crt,
      find_parent (erase_max_pathlen c) bottom (chain.map erase_max_pathlen) =
        (find_parent c bottom chain).map
          (fun pn => (erase_max_pathlen pn.1, pn.2.map erase_max_pathlen)) := by
  intro chain
  induction chain with
  | nil => rfl
  | cons a rest ih =>
    simp only [List.map_cons, find_parent, check_parent_erase]
    split
    · rfl
    · exact ih

theorem revoked_loop_erase (env : Env) (crt : x509_crt) (es : List x509_crl_entry) :
    x509_crt_revoked_loop env (erase_max_pathlen crt) es = x509_crt_revoked_loop env crt es := by
  induction es with
  | nil => rfl
  | cons e rest ih =>
    simp only [x509_crt_revoked_loop]
    rw [ih]
    rfl

theorem verifycrl_loop_erase (env : Env) (crt ca : x509_crt) (crls : List x509_crl) :
    ∀ flags,
      x509_crt_verifycrl_loop env (erase_max_pathlen crt) (erase_max_pathlen ca) crls flags =
        x509_crt_verifycrl_loop env crt ca crls flags ∧
      x509_crt_verifycrl_loop env (erase_max_pathlen crt) ca crls flags =
        x509_crt_verifycrl_loop env crt ca crls flags := by
  induction crls with
  | nil => intro flags; exact ⟨rfl, rfl⟩
  | cons c rest ih =>
    intro flags
    constructor
    · simp only [x509_crt_verifycrl_loop, x509_crt_revoked, revoked_loop_erase env crt,
        fun fl => (ih fl).1]
      rfl
    · simp only [x509_crt_verifycrl_loop, x509_crt_revoked, revoked_loop_erase env crt,
        fun fl => (ih fl).2]

theorem verify_child_checks_erase (env : Env) (child parent : x509_crt)
    (ca_crl : List x509_crl) (flags : Nat) :
    x509_crt_verify_child_checks env (erase_max_pathlen child) (erase_max_pathlen parent)
        ca_crl flags =
      x509_crt_verify_child_checks env child parent ca_crl flags := by
  simp only [x509_crt_verify_child_checks, x509_crt_verifycrl,
    (verifycrl_loop_erase env child parent ca_crl 0).1]
  rfl

theorem verify_top_loop_erase (env : Env) (child : x509_crt) (path_cnt : Int)
    (hash : List uint8_t) (md_size : Nat) (cands : List x509_crt) :
    ∀ check_path_cnt,
      x509_crt_verify_top_loop env (erase_max_pathlen child) path_cnt hash md_size cands
          check_path_cnt =
        x509_crt_verify_top_loop env child path_cnt hash md_size cands check_path_cnt := by
  induction cands with
  | nil => intro c; rfl
  | cons r rest ih =>
    intro c
    simp only [x509_crt_verify_top_loop, ih]
    rfl

theorem verify_top_find_erase (env : Env) (child : x509_crt) (trust_ca : List x509_crt)
    (path_cnt : Int) :
    x509_crt_verify_top_find env (erase_max_pathlen child) trust_ca path_cnt =
      x509_crt_verify_top_find env child trust_ca path_cnt := by
  simp only [x509_crt_verify_top_find, verify_top_loop_erase env child]
  rfl

theorem same_outcome_refl {σ : Type} (r : verify_result σ) : same_outcome r r :=
  ⟨rfl, rfl, rfl, rfl⟩

theorem same_outcome_symm {σ : Type} {r r' : verify_result σ} (h : same_outcome r r') :
    same_outcome r' r :=
  ⟨h.1.symm, h.2.1.symm, h.2.2.1.symm, h.2.2.2.symm⟩

theorem same_outcome_trans {σ : Type} {r r' r'' : verify_result σ} (h : same_outcome r r')
    (h' : same_outcome r' r'') : same_outcome r r'' :=
  ⟨h.1.trans h'.1, h.2.1.trans h'.2.1, h.2.2.1.trans h'.2.2.1, h.2.2.2.trans h'.2.2.2⟩

/-- The callback statement on a certificate with its `max_pathlen` erased, for a
callback that does not depend on it. -/
theorem call_vrfy_erase {σ : Type} (f_vrfy : Option (vrfy_cb σ))
    (hcb : cb_ignores_max_pathlen f_vrfy) (p_vrfy : σ) (crt : x509_crt) (depth : Int)
    (flags : Nat) :
    same_outcome (call_vrfy f_vrfy p_vrfy (erase_max_pathlen crt) depth flags)
      (call_vrfy f_vrfy p_vrfy crt depth flags) := by
  cases f_vrfy with
  | none => exact ⟨rfl, rfl, rfl, rfl⟩
  | some f =>
    have e : f p_vrfy (erase_max_pathlen crt) depth flags = f p_vrfy crt depth flags :=
      hcb p_vrfy (erase_max_pathlen crt) crt depth flags rfl
    simp only [same_outcome, call_vrfy, e, List.map_cons, List.map_nil, true_and]
    rfl

theorem verify_top_finish_erase {σ : Type} (f_vrfy : Option (vrfy_cb σ))
    (hcb : cb_ignores_max_pathlen f_vrfy) (child : x509_crt) (path_cnt : Int)
    (flags ca_flags : Nat) (p_vrfy : σ) (calls calls' : List cb_call)
    (hc : calls'.map cb_call.erase_max_pathlen = calls.map cb_call.erase_max_pathlen) :
    same_outcome
      (x509_crt_verify_top_finish f_vrfy (erase_max_pathlen child) path_cnt flags ca_flags
        p_vrfy calls')
      (x509_crt_verify_top_finish f_vrfy child path_cnt flags ca_flags p_vrfy calls) := by
  obtain ⟨h1, h2, h3, h4⟩ := call_vrfy_erase f_vrfy hcb p_vrfy child path_cnt flags
  unfold x509_crt_verify_top_finish
  simp only [h1]
  split
  · exact ⟨rfl, h2, h3, by rw [List.map_append, List.map_append, hc, h4]⟩
  · exact ⟨rfl, by rw [h2], h3, by rw [List.map_append, List.map_append, hc, h4]⟩

/-- The run of `x509_crt_verify_top` on a child with its `max_pathlen` erased has the
outcome of the run on the child. -/
theorem verify_top_erase {σ : Type} (env : Env) (child : x509_crt)
    (trust_ca : List x509_crt) (ca_crl : List x509_crl) (path_cnt : Int) (flags : Nat)
    (f_vrfy : Option (vrfy_cb σ)) (hcb : cb_ignores_max_pathlen f_vrfy) (p_vrfy : σ) :
    same_outcome
      (x509_crt_verify_top env (erase_max_pathlen child) trust_ca ca_crl path_cnt flags
        f_vrfy p_vrfy)
      (x509_crt_verify_top env child trust_ca ca_crl path_cnt flags f_vrfy p_vrfy) := by
  unfold x509_crt_verify_top
  rw [verify_top_find_erase]
  have hvt : (erase_max_pathlen child).valid_to = child.valid_to := rfl
  have hvf : (erase_max_pathlen child).valid_from = child.valid_from := rfl
  have ecrl : ∀ ca, x509_crt_verifycrl env (erase_max_pathlen child) (some ca) ca_crl =
      x509_crt_verifycrl env child (some ca) ca_crl :=
    fun ca => (verifycrl_loop_erase env child ca ca_crl 0).2
  simp only [hvt, hvf]
  cases x509_crt_verify_top_find env child trust_ca path_cnt with
  | none => exact verify_top_finish_erase f_vrfy hcb child path_cnt _ _ _ _ _ rfl
  | some ca =>
    simp only [ecrl]
    by_cases hsub : child.subject_raw.len ≠ ca.subject_raw.len ∨
        memcmp child.subject_raw.p ca.subject_raw.p child.issuer_raw.len ≠ 0
    · have hsub' : (erase_max_pathlen child).subject_raw.len ≠ ca.subject_raw.len ∨
          memcmp (erase_max_pathlen child).subject_raw.p ca.subject_raw.p
            (erase_max_pathlen child).issuer_raw.len ≠ 0 := hsub
      rw [if_pos hsub, if_pos hsub']
      generalize (if env.x509_time_future ca.valid_from ≠ 0 then _ else _ : Nat) = cf
      generalize clear_flags _ _ ||| x509_crt_verifycrl env child (some ca) ca_crl = fl
      by_cases hr : (call_vrfy f_vrfy p_vrfy ca (path_cnt + 1) cf).ret = 0
      · rw [if_neg (not_not.mpr hr), if_neg (not_not.mpr hr)]
        exact verify_top_finish_erase f_vrfy hcb child path_cnt _ _ _ _ _ rfl
      · rw [if_pos hr, if_pos hr]
        exact ⟨rfl, rfl, rfl, rfl⟩
    · have hsub' : ¬ ((erase_max_pathlen child).subject_raw.len ≠ ca.subject_raw.len ∨
          memcmp (erase_max_pathlen child).subject_raw.p ca.subject_raw.p
            (erase_max_pathlen child).issuer_raw.len ≠ 0) := hsub
      rw [if_neg hsub, if_neg hsub']
      exact verify_top_finish_erase f_vrfy hcb child path_cnt _ _ _ _ _ rfl

theorem verify_child_finish_erase {σ : Type} (f_vrfy : Option (vrfy_cb σ))
    (hcb : cb_ignores_max_pathlen f_vrfy) (child : x509_crt) (path_cnt : Int) (flags : Nat)
    (up up' : verify_result σ) (hup : same_outcome up' up) :
    same_outcome
      (x509_crt_verify_child_finish f_vrfy (erase_max_pathlen child) path_cnt flags up')
      (x509_crt_verify_child_finish f_vrfy child path_cnt flags up) := by
  obtain ⟨u1, u2, u3, u4⟩ := hup
  obtain ⟨h1, h2, h3, h4⟩ := call_vrfy_erase f_vrfy hcb up.p_vrfy child path_cnt flags
  unfold x509_crt_verify_child_finish
  simp only [u1, u3, h1]
  split
  · exact ⟨rfl, rfl, rfl, u4⟩
  · split
    · exact ⟨rfl, h2, h3, by rw [List.map_append, List.map_append, u4, h4]⟩
    · exact ⟨rfl, by rw [h2, u2], h3, by rw [List.map_append, List.map_append, u4, h4]⟩

/-- The run of `x509_crt_verify_child` on a chain with every `max_pathlen` erased has
the outcome of the run on the chain. -/
theorem verify_child_walk_erase {σ : Type} (env : Env) (trust_ca : List x509_crt)
    (ca_crl : List x509_crl) (f_vrfy : Option (vrfy_cb σ))
    (hcb : cb_ignores_max_pathlen f_vrfy) (cands : List x509_crt) :
    ∀ (child parent : x509_crt) (path_cnt : Int) (flags : Nat) (p_vrfy : σ),
      same_outcome
        (x509_crt_verify_child_walk env trust_ca ca_crl f_vrfy (erase_max_pathlen child)
          (erase_max_pathlen parent) (cands.map erase_max_pathlen) path_cnt flags p_vrfy)
        (x509_crt_verify_child_walk env trust_ca ca_crl f_vrfy child parent cands path_cnt
          flags p_vrfy) := by
  induction cands with
  | nil =>
    intro child parent path_cnt flags p_vrfy
    simp only [List.map_nil, x509_crt_verify_child_walk]
    exact verify_child_finish_erase f_vrfy hcb child path_cnt flags _ _
      (verify_top_erase env parent trust_ca ca_crl (path_cnt + 1) 0 f_vrfy hcb p_vrfy)
  | cons g rest ih =>
    intro child parent path_cnt flags p_vrfy
    simp only [List.map_cons, x509_crt_verify_child_walk, check_parent_erase,
      verify_child_checks_erase]
    split
    · exact verify_child_finish_erase f_vrfy hcb child path_cnt flags _ _
        (ih parent g (path_cnt + 1) _ p_vrfy)
    · exact ih child parent path_cnt flags p_vrfy

theorem verify_chain_erase {σ : Type} (env : Env) (crt : x509_crt)
    (crt_next trust_ca : List x509_crt) (ca_crl : List x509_crl) (flags : Nat)
    (f_vrfy : Option (vrfy_cb σ)) (hcb : cb_ignores_max_pathlen f_vrfy) (p_vrfy : σ) :
    same_outcome
      (x509_crt_verify_chain env (erase_max_pathlen crt) (crt_next.map erase_max_pathlen)
        trust_ca ca_crl flags f_vrfy p_vrfy)
      (x509_crt_verify_chain env crt crt_next trust_ca ca_crl flags f_vrfy p_vrfy) := by
  rw [verify_chain_eq env crt, verify_chain_eq env (erase_max_pathlen crt), find_parent_erase]
  cases find_parent crt 1 crt_next with
  | none => exact verify_top_erase env crt trust_ca ca_crl 0 flags f_vrfy hcb p_vrfy
  | some pn =>
    obtain ⟨parent, parent_next⟩ := pn
    simp only [Option.map_some', x509_crt_verify_child, verify_child_checks_erase]
    exact verify_child_walk_erase env trust_ca ca_crl f_vrfy hcb parent_next crt parent 0 _
      p_vrfy

/-- The run of `x509_crt_verify` on a chain with every `max_pathlen` erased has the
outcome of the run on the chain. -/
theorem verify_erase {σ : Type} (env : Env) (crt : x509_crt)
    (crt_next trust_ca : List x509_crt) (ca_crl : List x509_crl) (cn : Option (List uint8_t))
    (f_vrfy : Option (vrfy_cb σ)) (hcb : cb_ignores_max_pathlen f_vrfy) (p_vrfy : σ) :
    same_outcome
      (x509_crt_verify env (erase_max_pathlen crt) (crt_next.map erase_max_pathlen) trust_ca
        ca_crl cn f_vrfy p_vrfy)
      (x509_crt_verify env crt crt_next trust_ca ca_crl cn f_vrfy p_vrfy) := by
  have hcn : x509_crt_verify_cn (erase_max_pathlen crt) cn = x509_crt_verify_cn crt cn := rfl
  obtain ⟨h1, h2, h3, h4⟩ := verify_chain_erase env crt crt_next trust_ca ca_crl
    (x509_crt_verify_cn crt cn) f_vrfy hcb p_vrfy
  unfold x509_crt_verify
  simp only [hcn, h1, h2]
  split
  · exact ⟨h1, h2, h3, h4⟩
  · split
    · exact ⟨rfl, rfl, h3, h4⟩
    · exact ⟨rfl, rfl, h3, h4⟩

/-- C35, as amended: the path-length constraints of the chain certificates are
not consulted by the verifier. For two runs of `x509_crt_verify` on chains that are
identical except for the `max_pathlen` of their certificates (`crt` and `crt->next`...),
with the same trusted list, CRL list, `cn`, user context and callback, the
callback being absent or not depending on the `max_pathlen` of the certificate
it is given, the return value, the flags and the user context are the same
and the callback invocations are the same, on certificates identical except
for `max_pathlen`. -/
theorem x509_crt_verify_chain_max_pathlen {σ : Type} (env : Env) (crt crt' : x509_crt)
    (crt_next crt_next' trust_ca : List x509_crt) (ca_crl : List x509_crl)
    (cn : Option (List uint8_t)) (f_vrfy : Option (vrfy_cb σ)) (p_vrfy : σ)
    (hcrt : erase_max_pathlen crt = erase_max_pathlen crt')
    (hnext : crt_next.map erase_max_pathlen = crt_next'.map erase_max_pathlen)
    (hcb : cb_ignores_max_pathlen f_vrfy) :
    (x509_crt_verify env crt crt_next trust_ca ca_crl cn f_vrfy p_vrfy).ret =
      (x509_crt_verify env crt' crt_next' trust_ca ca_crl cn f_vrfy p_vrfy).ret ∧
    (x509_crt_verify env crt crt_next trust_ca ca_crl cn f_vrfy p_vrfy).flags =
      (x509_crt_verify env crt' crt_next' trust_ca ca_crl cn f_vrfy p_vrfy).flags ∧
    (x509_crt_verify env crt crt_next trust_ca ca_crl cn f_vrfy p_vrfy).p_vrfy =
      (x509_crt_verify env crt' crt_next' trust_ca ca_crl cn f_vrfy p_vrfy).p_vrfy ∧
    (x509_crt_verify env crt crt_next trust_ca ca_crl cn f_vrfy p_vrfy).calls.map
        cb_call.erase_max_pathlen =
      (x509_crt_verify env crt' crt_next' trust_ca ca_crl cn f_vrfy p_vrfy).calls.map
        cb_call.erase_max_pathlen := by
  have h := verify_erase env crt crt_next trust_ca ca_crl cn f_vrfy hcb p_vrfy
  have h' := verify_erase env crt' crt_next' trust_ca ca_crl cn f_vrfy hcb p_vrfy
  rw [hcrt, hnext] at h
  exact same_outcome_trans (same_outcome_symm h) h'

/-- C35, an instance of the amended claim: with the example callback, which does
not look at the certificate, the chain whose CA has a pathLenConstraint of 0
verifies as the chain whose CA has none: return value `0`, no flag, three
invocations. -/
theorem x509_crt_verify_chain_max_pathlen_witness :
    ((x509_crt_verify demo_env demo_sub_leaf [demo_sub_ca, demo_ca] [demo_root] [] none
        (some demo_cb) 0).ret =
      (x509_crt_verify demo_env demo_sub_leaf [demo_sub_ca, demo_ca_pathlen_0] [demo_root] []
        none (some demo_cb) 0).ret ∧
    (x509_crt_verify demo_env demo_sub_leaf [demo_sub_ca, demo_ca] [demo_root] [] none
        (some demo_cb) 0).flags =
      (x509_crt_verify demo_env demo_sub_leaf [demo_sub_ca, demo_ca_pathlen_0] [demo_root] []
        none (some demo_cb) 0).flags ∧
    (x509_crt_verify demo_env demo_sub_leaf [demo_sub_ca, demo_ca] [demo_root] [] none
        (some demo_cb) 0).p_vrfy =
      (x509_crt_verify demo_env demo_sub_leaf [demo_sub_ca, demo_ca_pathlen_0] [demo_root] []
        none (some demo_cb) 0).p_vrfy ∧
    (x509_crt_verify demo_env demo_sub_leaf [demo_sub_ca, demo_ca] [demo_root] [] none
        (some demo_cb) 0).calls.map cb_call.erase_max_pathlen =
      (x509_crt_verify demo_env demo_sub_leaf [demo_sub_ca, demo_ca_pathlen_0] [demo_root] []
        none (some demo_cb) 0).calls.map cb_call.erase_max_pathlen) ∧
    (x509_crt_verify demo_env demo_sub_leaf [demo_sub_ca, demo_ca_pathlen_0] [demo_root] []
      none (some demo_cb) 0).ret = 0 ∧
    (x509_crt_verify demo_env demo_sub_leaf [demo_sub_ca, demo_ca_pathlen_0] [demo_root] []
      none (some demo_cb) 0).flags = 0 ∧
    (x509_crt_verify demo_env demo_sub_leaf [demo_sub_ca, demo_ca_pathlen_0] [demo_root] []
      none (some demo_cb) 0).calls.map (fun c => c.depth) = [3, 2, 1, 0] :=
  ⟨x509_crt_verify_chain_max_pathlen demo_env demo_sub_leaf demo_sub_leaf
      [demo_sub_ca, demo_ca] [demo_sub_ca, demo_ca_pathlen_0] [demo_root] [] none
      (some demo_cb) 0 rfl (by decide) (fun _ _ _ _ _ _ => rfl),
    by decide, by decide, by decide⟩

/-- C35, counterexample: the two chains differ only in the `max_pathlen` of their
second CA, the trusted list and the callback are the same. The callback reads
the `max_pathlen` of the certificate it is given and flags the CA whose
pathLenConstraint of 0 does not allow the subordinate CA below it: the first
run returns `0` with no flag, the second returns
`POLARSSL_ERR_X509_CERT_VERIFY_FAILED` with `BADCERT_NOT_TRUSTED`. Without a callback both
runs return `0` with no flag. -/
theorem x509_crt_verify_callback_reads_max_pathlen :
    erase_max_pathlen demo_ca = erase_max_pathlen demo_ca_pathlen_0 ∧
    (x509_crt_verify demo_env demo_sub_leaf [demo_sub_ca, demo_ca] [demo_root] [] none
      (some demo_pathlen_cb) 0).ret = 0 ∧
    (x509_crt_verify demo_env demo_sub_leaf [demo_sub_ca, demo_ca] [demo_root] [] none
      (some demo_pathlen_cb) 0).flags = 0 ∧
    (x509_crt_verify demo_env demo_sub_leaf [demo_sub_ca, demo_ca_pathlen_0] [demo_root] []
      none (some demo_pathlen_cb) 0).ret = POLARSSL_ERR_X509_CERT_VERIFY_FAILED ∧
    (x509_crt_verify demo_env demo_sub_leaf [demo_sub_ca, demo_ca_pathlen_0] [demo_root] []
      none (some demo_pathlen_cb) 0).flags = BADCERT_NOT_TRUSTED ∧
    (x509_crt_verify demo_env demo_sub_leaf [demo_sub_ca, demo_ca] [demo_root] []
      none (none : Option (vrfy_cb Nat)) 0).ret = 0 ∧
    (x509_crt_verify demo_env demo_sub_leaf [demo_sub_ca, demo_ca_pathlen_0] [demo_root] []
      none (none : Option (vrfy_cb Nat)) 0).ret = 0 := by
  decide

end X509
